import Mathlib

/-!
# Socketify_server: task registry and resource lifecycle

A shallow embedding of the supervision code that the four Go modules
`sentinel`, `portforward`, `socks5lib` and `socks5lib2` share: the task
registry (`addTask`, `finishTask`, `StopTask`) and the per-kind resource
registries (`Create*`, `Start*`, `Stop*`); and of the cancellable runners
of `sentinel` (`MoveSmoothStart`, `DragSmoothStart`, `StartMonitor` with
`computeStats`).

Conventions of the embedding.

* Package-level variables become fields of a state record; every exported
  function becomes a function on that record.
* `int64` values are `Int`; `atomic.AddInt64` wraps modulo `2^64`.
* Channels, cancel functions and external service objects are handles
  (`Nat`), allocated from a counter.  For a channel the state keeps the
  number of `close` calls executed on it; for a cancel function the number
  of invocations.
* Threads interleave at the level of steps.  A critical section
  (`Lock() ... Unlock()`) is one step.  `StopTask`, the one call that can
  block, is split into its critical section, its `entry.cancel()` and its
  wait; the frame of an in-flight call keeps its local variables.  A worker
  goroutine has two steps: entering its service loop, and everything from
  the return of the loop to the end of its deferred calls.  The other
  exported calls (`Create*`, `Start*`, `Stop*`) are one step each.
* A panic that no `recover` intercepts ends the process: `crashed`.
* The outcome of a call into an external library (`url.Parse`,
  `portforward.NewOnAddresses`, `socks5.NewServer`, a service loop, ...)
  is an argument of the step.  `Close` and `Shutdown` of a service object
  are taken not to panic.
-/

namespace Socketify

/-! ## Go primitives -/

/-- Largest `int64`. -/
def maxInt64 : Int := 2 ^ 63 - 1

/-- Two's-complement wrap of an integer into the `int64` range. -/
def wrapInt64 (x : Int) : Int := (x + 2 ^ 63) % 2 ^ 64 - 2 ^ 63

/-- Value produced (and stored) by `atomic.AddInt64(&v, delta)`. -/
def atomicAddInt64 (v delta : Int) : Int := wrapInt64 (v + delta)

/-- Go `map[int64]*T`: a partial function on keys. -/
abbrev GoMap (α : Type) := Int → Option α

/-- Map assignment `m[k] = v`. -/
def GoMap.set {α : Type} (m : GoMap α) (k : Int) (v : α) : GoMap α :=
  fun j => if j = k then some v else m j

/-- Builtin `delete(m, k)`. -/
def GoMap.delete {α : Type} (m : GoMap α) (k : Int) : GoMap α :=
  fun j => if j = k then none else m j

/-- Record `SystemStats` of `sentinel`.  The two `float64` fields are
copied from the system library and never computed with; they are kept as
their 64-bit patterns.  The speeds are `uint64`, the counts `int`. -/
structure SystemStats where
  CPUPercent : Nat
  MemPercent : Nat
  NetSpeedRx : Nat
  NetSpeedTx : Nat
  TcpConns : Int
  UdpConns : Int
deriving DecidableEq, Repr

/-- Values carried in the `Data` field of a response (`interface{}`):
nothing, an integer, a string, a list of port pairs, a pointer position
`map[string]int{"x": .., "y": ..}`, or a `SystemStats` record. -/
inductive Payload where
  | null
  | int (i : Int)
  | str (s : String)
  | ports (l : List (Nat × Nat))
  | point (x y : Int)
  | stats (s : SystemStats)
deriving DecidableEq, Repr

/-- Response envelope `simpleResp`. -/
structure simpleResp where
  Op : String
  Success : Bool
  Error : String
  Data : Payload
deriving DecidableEq, Repr

/-- What `bridge.SendStringToPort` is given: a plain string, or the JSON
encoding of a response (`sendToPort`). -/
inductive Msg where
  | text (s : String)
  | resp (r : simpleResp)
deriving DecidableEq, Repr

/-- Result of a call into an external library: a value, a returned
`error`, or a panic. -/
inductive Outcome (α : Type) where
  | ok (a : α)
  | err (msg : String)
  | panic (v : String)
deriving DecidableEq, Repr

/-- Value of the runtime panic raised by `close` on a closed channel. -/
def closeOfClosed : String := "close of closed channel"

/-! ## Task registry (identical text in all four modules) -/

/-- Record `taskRec`: the cancel function and the `done` channel, both as
handles. -/
structure taskRec where
  cancel : Nat
  done : Nat
deriving DecidableEq, Repr

/-- Where an in-flight `StopTask` call that found its record stands:
before `entry.cancel()`, blocked at `<-entry.done`, or returned. -/
inductive StopPC where
  | atCancel
  | atWait
  | returned
deriving DecidableEq, Repr

/-- Frame of an in-flight `StopTask` call: its locals `id`, `p`, `entry`
and its position. -/
structure StopCall where
  id : Int
  p : Int
  entry : taskRec
  pc : StopPC
deriving DecidableEq, Repr

/-- Process state common to the four modules. -/
structure Core where
  /-- Variable `tasks`. -/
  tasks : GoMap taskRec
  /-- Variable `nextTask`. -/
  nextTask : Int
  /-- Variable `registeredPort`. -/
  registeredPort : Int
  /-- Number of `close` calls executed on each channel. -/
  closes : Nat → Nat
  /-- Next channel handle `make(chan struct{})` returns. -/
  nextChan : Nat
  /-- Number of invocations of each cancel function. -/
  cancels : Nat → Nat
  /-- Next handle `context.WithCancel` returns. -/
  nextCtx : Nat
  /-- Messages handed to `bridge.SendStringToPort`, oldest first. -/
  sent : List (Int × Msg)
  /-- Value of the panic that ended the process, if one did. -/
  crashed : Option String
  /-- Number of times `delete(tasks, _)` removed each record. -/
  deletes : taskRec → Nat
  /-- Frames of the `StopTask` calls that found a record. -/
  stopCalls : Nat → Option StopCall
  /-- Number of frames created so far. -/
  nextCall : Nat

/-- State at process start: empty map, counters zero. -/
def Core.init : Core where
  tasks := fun _ => none
  nextTask := 0
  registeredPort := 0
  closes := fun _ => 0
  nextChan := 0
  cancels := fun _ => 0
  nextCtx := 0
  sent := []
  crashed := none
  deletes := fun _ => 0
  stopCalls := fun _ => none
  nextCall := 0

/-- Builtin `make(chan struct{})`: a fresh, open channel. -/
def makeChan (s : Core) : Nat × Core :=
  (s.nextChan, { s with nextChan := s.nextChan + 1 })

/-- Call `context.WithCancel(context.Background())`: a fresh cancel
function. -/
def withCancel (s : Core) : Nat × Core :=
  (s.nextCtx, { s with nextCtx := s.nextCtx + 1 })

/-- Builtin `close(c)`: the flag is `false` when the channel is already
closed (the runtime panics with `closeOfClosed`) and `true` otherwise.  The
call is counted either way. -/
def closeChan (c : Nat) (s : Core) : Bool × Core :=
  (s.closes c == 0,
   { s with closes := fun j => if j = c then s.closes c + 1 else s.closes j })

/-- Whether a receive `<-c` can proceed: the channels here are never sent
on, so only a closed channel releases the receiver. -/
def chanClosed (c : Nat) (s : Core) : Bool := 0 < s.closes c

/-- Invocation of a `context.CancelFunc`. -/
def callCancel (c : Nat) (s : Core) : Core :=
  { s with cancels := fun j => if j = c then s.cancels c + 1 else s.cancels j }

/-- Statement `delete(tasks, id)`. -/
def deleteTask (id : Int) (s : Core) : Core :=
  match s.tasks id with
  | some e =>
    { s with
      tasks := s.tasks.delete id
      deletes := fun r => if r = e then s.deletes e + 1 else s.deletes r }
  | none => s

/-- Function `getPortOrDefault`. -/
def getPortOrDefault (p : Int) (s : Core) : Int :=
  if p ≠ 0 then p else s.registeredPort

/-- Function `sendToPort`. -/
def sendToPort (port : Int) (r : simpleResp) (s : Core) : Core :=
  { s with sent := s.sent ++ [(port, Msg.resp r)] }

/-- Function `RegisterPort`. -/
def RegisterPort (port : Int) (s : Core) : Core :=
  { s with registeredPort := port, sent := s.sent ++ [(port, Msg.text "registered")] }

/-- Function `UnregisterPort`. -/
def UnregisterPort (s : Core) : Core :=
  let p := s.registeredPort
  let s1 := { s with registeredPort := 0 }
  if p ≠ 0 then { s1 with sent := s1.sent ++ [(p, Msg.text "unregistered")] } else s1

/-- Function `addTask`: returns the new TaskID and the state. -/
def addTask (cancel : Nat) (s : Core) : Int × Core :=
  let id := atomicAddInt64 s.nextTask 1
  let s1 := { s with nextTask := id }
  let (done, s2) := makeChan s1
  let entry : taskRec := { cancel := cancel, done := done }
  (id, { s2 with tasks := s2.tasks.set id entry })

/-- Function `finishTask`.  A panic of `close` is not recovered by
anything on the worker's stack below this deferred call. -/
def finishTask (id : Int) (s : Core) : Core :=
  match s.tasks id with
  | some e =>
    let r := closeChan e.done s
    if r.1 = true then deleteTask id r.2 else { r.2 with crashed := some closeOfClosed }
  | none => s

/-- Response of `StopTask` for an absent record. -/
def stopNotFound (id : Int) : simpleResp :=
  { Op := "stop", Success := false,
    Error := "task " ++ toString id ++ " not found", Data := Payload.null }

/-- Response of `StopTask` once the wait is over. -/
def stopSuccess (id : Int) : simpleResp :=
  { Op := "stop", Success := true, Error := "", Data := Payload.int id }

/-- Critical section of `StopTask`: `entry, ok := tasks[id]`, and the
`delete` when `ok`. -/
def StopTask.locked (id : Int) (s : Core) : Option taskRec × Core :=
  match s.tasks id with
  | some entry => (some entry, deleteTask id s)
  | none => (none, s)

/-- Function `StopTask` from its entry to the first statement after the
critical section: an absent record is reported and the call returns; a
found one leaves a frame standing before `entry.cancel()`. -/
def StopTask.enter (taskID port : Int) (s : Core) : Core :=
  let id := taskID
  let p := getPortOrDefault port s
  match StopTask.locked id s with
  | (none, s1) => sendToPort p (stopNotFound id) s1
  | (some entry, s1) =>
    { s1 with
      stopCalls := fun k =>
        if k = s1.nextCall then
          some { id := id, p := p, entry := entry, pc := StopPC.atCancel }
        else s1.stopCalls k
      nextCall := s1.nextCall + 1 }

/-- Function `StopTask`, statement `entry.cancel()` of frame `k`. -/
def StopTask.cancel (k : Nat) (s : Core) : Core :=
  match s.stopCalls k with
  | some f =>
    if f.pc = StopPC.atCancel then
      let s1 := callCancel f.entry.cancel s
      { s1 with
        stopCalls := fun j =>
          if j = k then some { f with pc := StopPC.atWait } else s1.stopCalls j }
    else s
  | none => s

/-- Function `StopTask`, statements `<-entry.done` and the final
`sendToPort` of frame `k`: while the channel is open the caller stays
blocked. -/
def StopTask.wake (k : Nat) (s : Core) : Core :=
  match s.stopCalls k with
  | some f =>
    if f.pc = StopPC.atWait ∧ chanClosed f.entry.done s = true then
      let s1 := sendToPort f.p (stopSuccess f.id) s
      { s1 with
        stopCalls := fun j =>
          if j = k then some { f with pc := StopPC.returned } else s1.stopCalls j }
    else s
  | none => s

/-- Steps of the threads that use the task registry.  `register` is the
prologue every cancellable entry point of `sentinel` shares
(`ctx, cancel := context.WithCancel(..); id := addTask(cancel)`);
`finishTask` is the deferred call of a worker. -/
inductive Action where
  | register
  | finishTask (id : Int)
  | stopEnter (taskID port : Int)
  | stopCancel (k : Nat)
  | stopWake (k : Nat)
  | registerPort (port : Int)
  | unregisterPort
deriving DecidableEq, Repr

/-- Prologue `ctx, cancel := context.WithCancel(..); id := addTask(cancel)`. -/
def register (s : Core) : Int × Core :=
  let (cancel, s1) := withCancel s
  addTask cancel s1

/-- One step of the process; after a crash nothing runs. -/
def Core.step (s : Core) (a : Action) : Core :=
  if s.crashed.isSome then s else
  match a with
  | .register => (register s).2
  | .finishTask id => finishTask id s
  | .stopEnter taskID port => StopTask.enter taskID port s
  | .stopCancel k => StopTask.cancel k s
  | .stopWake k => StopTask.wake k s
  | .registerPort port => RegisterPort port s
  | .unregisterPort => UnregisterPort s

/-- State after a sequence of steps. -/
def Core.run (s : Core) (acts : List Action) : Core :=
  acts.foldl Core.step s

/-- TaskIDs returned by the `addTask` calls of a run, in order. -/
def Core.taskIDs : Core → List Action → List Int
  | _, [] => []
  | s, a :: rest =>
    (if a = Action.register ∧ s.crashed.isNone then [(register s).1] else [])
      ++ Core.taskIDs (s.step a) rest

/-! ## Helpers shared by the resource modules -/

/-- Function `unicode.IsSpace`. -/
def isSpace (c : Char) : Bool :=
  let n := c.toNat
  n = 9 || n = 10 || n = 11 || n = 12 || n = 13 || n = 32 || n = 0x85 || n = 0xA0
    || n = 0x1680 || (0x2000 ≤ n && n ≤ 0x200a) || n = 0x2028 || n = 0x2029
    || n = 0x202f || n = 0x205f || n = 0x3000

/-- Pieces of a character list between commas. -/
def splitOnComma : List Char → List (List Char)
  | [] => [[]]
  | c :: cs =>
    if c = ',' then [] :: splitOnComma cs
    else
      match splitOnComma cs with
      | [] => [[c]]
      | h :: t => (c :: h) :: t

/-- Call `strings.Split(s, ",")`. -/
def Split (s : String) : List String :=
  (splitOnComma s.toList).map String.mk

/-- Function `strings.TrimSpace`. -/
def TrimSpace (s : String) : String :=
  String.mk ((s.toList.dropWhile isSpace).reverse.dropWhile isSpace).reverse

/-- Calls into the wrapped service objects, by object handle. -/
inductive ExtCall where
  | ForwardPorts (pf : Nat)
  | Close (pf : Nat)
  | GetPorts (pf : Nat)
  | Run (srv : Nat)
  | ListenAndServe (srv : Nat)
  | Shutdown (srv : Nat)
deriving DecidableEq, Repr

/-- Where a worker goroutine stands: spawned by `go`, inside the blocking
service loop, or exited (all deferred calls done). -/
inductive WorkerPC where
  | spawned
  | inLoop
  | exited
deriving DecidableEq, Repr

/-- The ID a message reports, when it is a success response of one of the
operations `ops` carrying an integer. -/
def reportedID (ops : List String) (m : Int × Msg) : Option Int :=
  match m.2 with
  | Msg.resp r =>
    match r.Data with
    | Payload.int i => if r.Success = true ∧ r.Op ∈ ops then some i else none
    | _ => none
  | Msg.text _ => none

/-- IDs reported by the success responses of the operations `ops`, oldest
first. -/
def reportedIDs (ops : List String) (sent : List (Int × Msg)) : List Int :=
  sent.filterMap (reportedID ops)

/-- Failure response of operation `op` with message `e`. -/
def failure (op e : String) : simpleResp :=
  { Op := op, Success := false, Error := e, Data := Payload.null }

/-- Success response of operation `op` with data `d`. -/
def success (op : String) (d : Payload) : simpleResp :=
  { Op := op, Success := true, Error := "", Data := d }

/-! ## Module `portforward` -/

namespace portforward

/-- Result of `url.Parse`; only `Host` is read. -/
structure URL where
  Host : String
deriving DecidableEq, Repr

/-- Value `rest.Config` built by `CreatePortForwarder`. -/
structure Config where
  Host : String
  Insecure : Bool
deriving DecidableEq, Repr

/-- The library functions `CreatePortForwarder` calls, as they behave
during one call.  A dialer is a handle; the two constructors take the
dialer, the addresses (`NewOnAddresses` only), the ports, and the stop and
ready channels. -/
structure Lib where
  Parse : String → Outcome URL
  NewSPDYOverWebsocketDialer : URL → Config → Outcome Nat
  NewOnAddresses : Nat → List String → List String → Nat → Nat → Outcome Unit
  New : Nat → List String → Nat → Nat → Outcome Unit

/-- Record `PortForwarderWrapper`; `PF` is the handle of the forwarder. -/
structure PortForwarderWrapper where
  PF : Nat
  Ready : Nat
  StopChan : Nat
  ID : Int
deriving DecidableEq, Repr

/-- Frame of the goroutine `StartForwardPorts` spawns: its arguments
`tid`, `w` and the captured port `p`. -/
structure Worker where
  tid : Int
  w : PortForwarderWrapper
  p : Int
  pc : WorkerPC
deriving DecidableEq, Repr

/-- State of the `portforward` process. -/
structure State where
  /-- Task registry, ports, channels. -/
  core : Core
  /-- Variable `portForwarders`. -/
  portForwarders : GoMap PortForwarderWrapper
  /-- Variable `nextPFID`. -/
  nextPFID : Int
  /-- Number of forwarder objects constructed: the next `PF` handle. -/
  nextObj : Nat
  /-- Calls made into forwarder objects, oldest first. -/
  calls : List ExtCall
  /-- Worker goroutines spawned so far. -/
  workers : Nat → Option Worker
  /-- Number of workers spawned so far. -/
  nextWorker : Nat

/-- State at process start. -/
def State.init : State where
  core := Core.init
  portForwarders := fun _ => none
  nextPFID := 0
  nextObj := 0
  calls := []
  workers := fun _ => none
  nextWorker := 0

/-- Function `sendToPort` on the module state. -/
def send (port : Int) (r : simpleResp) (s : State) : State :=
  { s with core := sendToPort port r s.core }

/-- Function `safeOp`: the result of `fn`, its error or its recovered
panic is reported to `port`. -/
def safeOp (port : Int) (op : String) (fn : State → Outcome Payload × State) (s : State) :
    State :=
  match (fn s).1 with
  | Outcome.ok res => send port (success op res) (fn s).2
  | Outcome.err e => send port (failure op e) (fn s).2
  | Outcome.panic v => send port (failure op ("panic: " ++ v)) (fn s).2

/-- Closure passed to `safeOp` by `CreatePortForwarder`. -/
def CreatePortForwarder.fn (lib : Lib) (goURL : String) (goAddresses goPorts : List String)
    (s : State) : Outcome Payload × State :=
  match lib.Parse goURL with
  | Outcome.err e => (Outcome.err ("invalid URL: " ++ e), s)
  | Outcome.panic v => (Outcome.panic v, s)
  | Outcome.ok u =>
    let config : Config := { Host := u.Host, Insecure := true }
    match lib.NewSPDYOverWebsocketDialer u config with
    | Outcome.err e => (Outcome.err ("failed to create dialer: " ++ e), s)
    | Outcome.panic v => (Outcome.panic v, s)
    | Outcome.ok dialer =>
      let stopChan := (makeChan s.core).1
      let readyChan := (makeChan (makeChan s.core).2).1
      let s1 : State := { s with core := (makeChan (makeChan s.core).2).2 }
      let made :=
        if goAddresses.length > 0 then
          lib.NewOnAddresses dialer goAddresses goPorts stopChan readyChan
        else lib.New dialer goPorts stopChan readyChan
      match made with
      | Outcome.err e => (Outcome.err ("failed to create port forwarder: " ++ e), s1)
      | Outcome.panic v => (Outcome.panic v, s1)
      | Outcome.ok _ =>
        let pf := s1.nextObj
        let id := atomicAddInt64 s1.nextPFID 1
        let wrapper : PortForwarderWrapper :=
          { PF := pf, Ready := readyChan, StopChan := stopChan, ID := id }
        (Outcome.ok (Payload.int id),
          { s1 with
            nextObj := s1.nextObj + 1
            nextPFID := id
            portForwarders := s1.portForwarders.set id wrapper })

/-- Argument `goPorts` of `CreatePortForwarder`: the pieces of `portsStr`,
each trimmed. -/
def CreatePortForwarder.goPorts (portsStr : String) : List String :=
  (Split portsStr).map TrimSpace

/-- Argument `goAddresses` of `CreatePortForwarder`: the trimmed pieces of
a non-nil, non-empty `addressStr`, and `localhost` otherwise. -/
def CreatePortForwarder.goAddresses (addressStr : Option String) : List String :=
  let given :=
    match addressStr with
    | some addrStr => if addrStr ≠ "" then (Split addrStr).map TrimSpace else []
    | none => []
  if given.length = 0 then ["localhost"] else given

/-- Function `CreatePortForwarder`; the returned value is always 0, the
new ID travels in the response. -/
def CreatePortForwarder (lib : Lib) (urlStr portsStr : String) (addressStr : Option String)
    (port : Int) (s : State) : Int × State :=
  let p := getPortOrDefault port s.core
  (0, safeOp p "create_port_forwarder"
    (CreatePortForwarder.fn lib urlStr (CreatePortForwarder.goAddresses addressStr)
      (CreatePortForwarder.goPorts portsStr)) s)

/-- Function `StartForwardPorts` up to its return: the worker goroutine is
spawned, not yet run. -/
def StartForwardPorts (pfID port : Int) (s : State) : Int × State :=
  let p := getPortOrDefault port s.core
  let id := pfID
  match s.portForwarders id with
  | none =>
    (0, send p (failure "start_forward_ports"
      ("port forwarder " ++ toString id ++ " not found")) s)
  | some wrapper =>
    let cancel := (withCancel s.core).1
    let added := addTask cancel (withCancel s.core).2
    let taskID := added.1
    (taskID,
      { s with
        core := added.2
        workers := fun k =>
          if k = s.nextWorker then
            some { tid := taskID, w := wrapper, p := p, pc := WorkerPC.spawned }
          else s.workers k
        nextWorker := s.nextWorker + 1 })

/-- Worker goroutine, first statement: the call `w.PF.ForwardPorts()` is
made and blocks. -/
def workerEnter (k : Nat) (s : State) : State :=
  match s.workers k with
  | some wk =>
    if wk.pc = WorkerPC.spawned then
      { s with
        calls := s.calls ++ [ExtCall.ForwardPorts wk.w.PF]
        workers := fun j =>
          if j = k then some { wk with pc := WorkerPC.inLoop } else s.workers j }
    else s
  | none => s

/-- Worker goroutine, statements after `ForwardPorts` ended with `r`: the
report of an error or of success.  The first component is the value of a
panic in flight. -/
def workerBody (wk : Worker) (r : Outcome Unit) (s : State) : Option String × State :=
  match r with
  | Outcome.err e => (none, send wk.p (failure "start_forward_ports" e) s)
  | Outcome.ok _ => (none, send wk.p (success "start_forward_ports" (Payload.int wk.tid)) s)
  | Outcome.panic v => (some v, s)

/-- Worker goroutine, third deferred function: remove the wrapper, close
its `StopChan`, close the forwarder.  A panic of `close` replaces the one
in flight and skips `PF.Close()`. -/
def workerCleanup (wk : Worker) (inFlight : Option String) (s : State) :
    Option String × State :=
  let s1 : State := { s with portForwarders := s.portForwarders.delete wk.w.ID }
  let c := closeChan wk.w.StopChan s1.core
  if c.1 = true then
    (inFlight, { s1 with core := c.2, calls := s1.calls ++ [ExtCall.Close wk.w.PF] })
  else (some closeOfClosed, { s1 with core := c.2 })

/-- Worker goroutine, second deferred function: a panic in flight is
recovered and reported. -/
def workerRecover (wk : Worker) (inFlight : Option String) (s : State) : State :=
  match inFlight with
  | some v => send wk.p (failure "start_forward_ports" v) s
  | none => s

/-- Worker goroutine from the return of `ForwardPorts` to its end: body,
then the deferred functions in reverse order of their `defer`, the last
being `finishTask(tid)`. -/
def workerExit (k : Nat) (r : Outcome Unit) (s : State) : State :=
  match s.workers k with
  | some wk =>
    if wk.pc = WorkerPC.inLoop then
      let b := workerBody wk r s
      let c := workerCleanup wk b.1 b.2
      let s3 := workerRecover wk c.1 c.2
      let s4 : State := { s3 with core := finishTask wk.tid s3.core }
      { s4 with
        workers := fun j =>
          if j = k then some { wk with pc := WorkerPC.exited } else s4.workers j }
    else s
  | none => s

/-- Function `StopForwardPorts`, for a call that runs from its first
statement to its last with no step of another thread in between (the
source releases `portFWsMu` after the lookup and takes it again for the
`delete`; `StopForwardPorts.lookup`, `StopForwardPorts.close` and
`StopForwardPorts.remove` below follow the call part by part).  The panic
of `close` on an already closed `StopChan` is not recovered in this
exported function. -/
def StopForwardPorts (pfID port : Int) (s : State) : State :=
  let p := getPortOrDefault port s.core
  let id := pfID
  match s.portForwarders id with
  | none =>
    send p (failure "stop_forward_ports"
      ("port forwarder " ++ toString id ++ " not found")) s
  | some wrapper =>
    let c := closeChan wrapper.StopChan s.core
    if c.1 = true then
      let s1 : State := { s with core := c.2, calls := s.calls ++ [ExtCall.Close wrapper.PF] }
      let s2 : State := { s1 with portForwarders := s1.portForwarders.delete id }
      send p (success "stop_forward_ports" (Payload.int id)) s2
    else { s with core := { c.2 with crashed := some closeOfClosed } }

/-- Closure passed to `safeOp` by `GetForwardedPorts`; `r` is what
`wrapper.PF.GetPorts()` gives. -/
def GetForwardedPorts.fn (wrapper : PortForwarderWrapper) (r : Outcome (List (Nat × Nat)))
    (s : State) : Outcome Payload × State :=
  let s1 : State := { s with calls := s.calls ++ [ExtCall.GetPorts wrapper.PF] }
  match r with
  | Outcome.err e => (Outcome.err e, s1)
  | Outcome.panic v => (Outcome.panic v, s1)
  | Outcome.ok ports => (Outcome.ok (Payload.ports ports), s1)

/-- Function `GetForwardedPorts`. -/
def GetForwardedPorts (pfID port : Int) (r : Outcome (List (Nat × Nat))) (s : State) : State :=
  let p := getPortOrDefault port s.core
  let id := pfID
  match s.portForwarders id with
  | none =>
    send p (failure "get_forwarded_ports"
      ("port forwarder " ++ toString id ++ " not found")) s
  | some wrapper => safeOp p "get_forwarded_ports" (GetForwardedPorts.fn wrapper r) s

/-- Steps of the `portforward` process: the exported calls, the two moves
of a worker goroutine, and the steps of `StopTask`. -/
inductive Action where
  | create (lib : Lib) (urlStr portsStr : String) (addressStr : Option String) (port : Int)
  | start (pfID port : Int)
  | workerEnter (k : Nat)
  | workerExit (k : Nat) (r : Outcome Unit)
  | stop (pfID port : Int)
  | getPorts (pfID port : Int) (r : Outcome (List (Nat × Nat)))
  | stopTaskEnter (taskID port : Int)
  | stopTaskCancel (k : Nat)
  | stopTaskWake (k : Nat)
  | registerPort (port : Int)
  | unregisterPort

/-- One step of the process; after a crash nothing runs. -/
def State.step (s : State) (a : Action) : State :=
  if s.core.crashed.isSome then s else
  match a with
  | .create lib urlStr portsStr addressStr port =>
    (CreatePortForwarder lib urlStr portsStr addressStr port s).2
  | .start pfID port => (StartForwardPorts pfID port s).2
  | .workerEnter k => workerEnter k s
  | .workerExit k r => workerExit k r s
  | .stop pfID port => StopForwardPorts pfID port s
  | .getPorts pfID port r => GetForwardedPorts pfID port r s
  | .stopTaskEnter taskID port => { s with core := StopTask.enter taskID port s.core }
  | .stopTaskCancel k => { s with core := StopTask.cancel k s.core }
  | .stopTaskWake k => { s with core := StopTask.wake k s.core }
  | .registerPort port => { s with core := RegisterPort port s.core }
  | .unregisterPort => { s with core := UnregisterPort s.core }

/-- State after a sequence of steps. -/
def State.run (s : State) (acts : List Action) : State :=
  acts.foldl State.step s

/-- Operations whose success response carries a fresh ResourceID. -/
def createOps : List String := ["create_port_forwarder"]

end portforward

/-! ## Module `socks5lib` -/

namespace socks5lib

/-- Value `socks5.ServerCfg` built by `CreateDirectServerTCP`. -/
structure ServerCfg where
  ListenPort : Int
  UserName : String
  Password : String
  LogLevel : String
deriving DecidableEq, Repr

/-- The library function `CreateDirectServerTCP` calls, as it behaves
during one call. -/
structure Lib where
  NewServer : ServerCfg → Outcome Unit

/-- Record `Socks5ServerWrapper`; `Server` is the handle of the server. -/
structure Socks5ServerWrapper where
  Server : Nat
  StopChan : Nat
  ID : Int
deriving DecidableEq, Repr

/-- Frame of the goroutine `StartSocks5Server` spawns. -/
structure Worker where
  tid : Int
  w : Socks5ServerWrapper
  p : Int
  pc : WorkerPC
deriving DecidableEq, Repr

/-- State of the `socks5lib` process. -/
structure State where
  /-- Task registry, ports, channels. -/
  core : Core
  /-- Variable `socks5Servers`. -/
  socks5Servers : GoMap Socks5ServerWrapper
  /-- Variable `nextSrvID`. -/
  nextSrvID : Int
  /-- Number of server objects constructed: the next `Server` handle. -/
  nextObj : Nat
  /-- Calls made into server objects, oldest first. -/
  calls : List ExtCall
  /-- Worker goroutines spawned so far. -/
  workers : Nat → Option Worker
  /-- Number of workers spawned so far. -/
  nextWorker : Nat

/-- State at process start. -/
def State.init : State where
  core := Core.init
  socks5Servers := fun _ => none
  nextSrvID := 0
  nextObj := 0
  calls := []
  workers := fun _ => none
  nextWorker := 0

/-- Function `sendToPort` on the module state. -/
def send (port : Int) (r : simpleResp) (s : State) : State :=
  { s with core := sendToPort port r s.core }

/-- Function `safeOp`. -/
def safeOp (port : Int) (op : String) (fn : State → Outcome Payload × State) (s : State) :
    State :=
  match (fn s).1 with
  | Outcome.ok res => send port (success op res) (fn s).2
  | Outcome.err e => send port (failure op e) (fn s).2
  | Outcome.panic v => send port (failure op ("panic: " ++ v)) (fn s).2

/-- Closure passed to `safeOp` by `CreateDirectServerTCP`. -/
def CreateDirectServerTCP.fn (lib : Lib) (lPort : Int) (uName pwd : String) (s : State) :
    Outcome Payload × State :=
  let cfg : ServerCfg :=
    { ListenPort := lPort, UserName := uName, Password := pwd, LogLevel := "info" }
  match lib.NewServer cfg with
  | Outcome.err e => (Outcome.err e, s)
  | Outcome.panic v => (Outcome.panic v, s)
  | Outcome.ok _ =>
    let server := s.nextObj
    let id := atomicAddInt64 s.nextSrvID 1
    let stopChan := (makeChan s.core).1
    let wrapper : Socks5ServerWrapper := { Server := server, StopChan := stopChan, ID := id }
    (Outcome.ok (Payload.int id),
      { s with
        core := (makeChan s.core).2
        nextObj := s.nextObj + 1
        nextSrvID := id
        socks5Servers := s.socks5Servers.set id wrapper })

/-- Function `CreateDirectServerTCP`; the returned value is always 0. -/
def CreateDirectServerTCP (lib : Lib) (listenPort : Int) (username password : String)
    (port : Int) (s : State) : Int × State :=
  let p := getPortOrDefault port s.core
  (0, safeOp p "create_direct_server_tcp"
    (CreateDirectServerTCP.fn lib listenPort username password) s)

/-- Function `CreateDirectServerUDP`. -/
def CreateDirectServerUDP (lib : Lib) (listenPort : Int) (username password : String)
    (port : Int) (s : State) : Int × State :=
  CreateDirectServerTCP lib listenPort username password port s

/-- Function `CreateProxyToSocks5ServerUDP`: the proxy arguments are not
used. -/
def CreateProxyToSocks5ServerUDP (lib : Lib) (listenPort : Int) (username password : String)
    (_proxyAddr _proxyUser _proxyPass : String) (port : Int) (s : State) : Int × State :=
  CreateDirectServerTCP lib listenPort username password port s

/-- Function `CreateWithAuthServer`. -/
def CreateWithAuthServer (lib : Lib) (listenPort port : Int) (s : State) : Int × State :=
  CreateDirectServerTCP lib listenPort "user" "pass" port s

/-- Function `CreateWithoutAuthServer`. -/
def CreateWithoutAuthServer (lib : Lib) (listenPort port : Int) (s : State) : Int × State :=
  CreateDirectServerTCP lib listenPort "" "" port s

/-- Function `StartSocks5Server` up to its return: the worker goroutine is
spawned, not yet run. -/
def StartSocks5Server (srvID port : Int) (s : State) : Int × State :=
  let p := getPortOrDefault port s.core
  let id := srvID
  match s.socks5Servers id with
  | none =>
    (0, send p (failure "start_socks5_server" ("server " ++ toString id ++ " not found")) s)
  | some wrapper =>
    let cancel := (withCancel s.core).1
    let added := addTask cancel (withCancel s.core).2
    let taskID := added.1
    (taskID,
      { s with
        core := added.2
        workers := fun k =>
          if k = s.nextWorker then
            some { tid := taskID, w := wrapper, p := p, pc := WorkerPC.spawned }
          else s.workers k
        nextWorker := s.nextWorker + 1 })

/-- Worker goroutine, first statement: the call `w.Server.Run()` is made
and blocks. -/
def workerEnter (k : Nat) (s : State) : State :=
  match s.workers k with
  | some wk =>
    if wk.pc = WorkerPC.spawned then
      { s with
        calls := s.calls ++ [ExtCall.Run wk.w.Server]
        workers := fun j =>
          if j = k then some { wk with pc := WorkerPC.inLoop } else s.workers j }
    else s
  | none => s

/-- Worker goroutine, statements after `Run` ended with `r`.  The first
component is the value of a panic in flight. -/
def workerBody (wk : Worker) (r : Outcome Unit) (s : State) : Option String × State :=
  match r with
  | Outcome.err e => (none, send wk.p (failure "start_socks5_server" e) s)
  | Outcome.ok _ => (none, send wk.p (success "start_socks5_server" (Payload.int wk.tid)) s)
  | Outcome.panic v => (some v, s)

/-- Worker goroutine, third deferred function: remove the wrapper. -/
def workerCleanup (wk : Worker) (inFlight : Option String) (s : State) :
    Option String × State :=
  (inFlight, { s with socks5Servers := s.socks5Servers.delete wk.w.ID })

/-- Worker goroutine, second deferred function: a panic in flight is
recovered and reported. -/
def workerRecover (wk : Worker) (inFlight : Option String) (s : State) : State :=
  match inFlight with
  | some v => send wk.p (failure "start_socks5_server" v) s
  | none => s

/-- Worker goroutine from the return of `Run` to its end: body, then the
deferred functions in reverse order of their `defer`, the last being
`finishTask(tid)`. -/
def workerExit (k : Nat) (r : Outcome Unit) (s : State) : State :=
  match s.workers k with
  | some wk =>
    if wk.pc = WorkerPC.inLoop then
      let b := workerBody wk r s
      let c := workerCleanup wk b.1 b.2
      let s3 := workerRecover wk c.1 c.2
      let s4 : State := { s3 with core := finishTask wk.tid s3.core }
      { s4 with
        workers := fun j =>
          if j = k then some { wk with pc := WorkerPC.exited } else s4.workers j }
    else s
  | none => s

/-- Function `StopSocks5Server`, for a call that runs from its first
statement to its last with no step of another thread in between (the
source releases `socks5SrvMu` after the lookup and takes it again for the
`delete`; `StopSocks5Server.lookup`, `StopSocks5Server.close` and
`StopSocks5Server.remove` below follow the call part by part).  The panic
of `close` on an already closed `StopChan` is not recovered in this
exported function. -/
def StopSocks5Server (srvID port : Int) (s : State) : State :=
  let p := getPortOrDefault port s.core
  let id := srvID
  match s.socks5Servers id with
  | none =>
    send p (failure "stop_socks5_server" ("server " ++ toString id ++ " not found")) s
  | some wrapper =>
    let c := closeChan wrapper.StopChan s.core
    if c.1 = true then
      let s1 : State := { s with core := c.2 }
      let s2 : State := { s1 with socks5Servers := s1.socks5Servers.delete id }
      send p (success "stop_socks5_server" (Payload.int id)) s2
    else { s with core := { c.2 with crashed := some closeOfClosed } }

/-- Steps of the `socks5lib` process. -/
inductive Action where
  | create (lib : Lib) (listenPort : Int) (username password : String) (port : Int)
  | start (srvID port : Int)
  | workerEnter (k : Nat)
  | workerExit (k : Nat) (r : Outcome Unit)
  | stop (srvID port : Int)
  | stopTaskEnter (taskID port : Int)
  | stopTaskCancel (k : Nat)
  | stopTaskWake (k : Nat)
  | registerPort (port : Int)
  | unregisterPort

/-- One step of the process; after a crash nothing runs. -/
def State.step (s : State) (a : Action) : State :=
  if s.core.crashed.isSome then s else
  match a with
  | .create lib listenPort username password port =>
    (CreateDirectServerTCP lib listenPort username password port s).2
  | .start srvID port => (StartSocks5Server srvID port s).2
  | .workerEnter k => workerEnter k s
  | .workerExit k r => workerExit k r s
  | .stop srvID port => StopSocks5Server srvID port s
  | .stopTaskEnter taskID port => { s with core := StopTask.enter taskID port s.core }
  | .stopTaskCancel k => { s with core := StopTask.cancel k s.core }
  | .stopTaskWake k => { s with core := StopTask.wake k s.core }
  | .registerPort port => { s with core := RegisterPort port s.core }
  | .unregisterPort => { s with core := UnregisterPort s.core }

/-- State after a sequence of steps. -/
def State.run (s : State) (acts : List Action) : State :=
  acts.foldl State.step s

/-- Operations whose success response carries a fresh ResourceID. -/
def createOps : List String := ["create_direct_server_tcp"]

end socks5lib

/-! ## Module `socks5lib2` -/

namespace socks5lib2

/-- Value assigned to `server.Handle`: `&socks5.DefaultHandle{}` or a
`&ProxyHandler{..}`. -/
inductive Handler where
  | DefaultHandle
  | ProxyHandler (ProxyAddr ProxyUser ProxyPass : String)
deriving DecidableEq, Repr

/-- The library function the Create calls use, as it behaves during one
call: `socks5.NewClassicServer(addr, ip, username, password, tcpTimeout,
udpTimeout)`. -/
structure Lib where
  NewClassicServer : String → String → String → String → Int → Int → Outcome Unit

/-- Record `Socks5ServerWrapper`; `Server` is the handle of the server. -/
structure Socks5ServerWrapper where
  Server : Nat
  ID : Int
deriving DecidableEq, Repr

/-- Frame of the goroutine `StartSocks5Server` spawns. -/
structure Worker where
  tid : Int
  w : Socks5ServerWrapper
  p : Int
  pc : WorkerPC
deriving DecidableEq, Repr

/-- State of the `socks5lib2` process. -/
structure State where
  /-- Task registry, ports, channels. -/
  core : Core
  /-- Variable `socks5Servers`. -/
  socks5Servers : GoMap Socks5ServerWrapper
  /-- Variable `nextSrvID`. -/
  nextSrvID : Int
  /-- Number of server objects constructed: the next `Server` handle. -/
  nextObj : Nat
  /-- Field `Handle` of each server object. -/
  handle : Nat → Option Handler
  /-- Calls made into server objects, oldest first. -/
  calls : List ExtCall
  /-- Worker goroutines spawned so far. -/
  workers : Nat → Option Worker
  /-- Number of workers spawned so far. -/
  nextWorker : Nat

/-- State at process start. -/
def State.init : State where
  core := Core.init
  socks5Servers := fun _ => none
  nextSrvID := 0
  nextObj := 0
  handle := fun _ => none
  calls := []
  workers := fun _ => none
  nextWorker := 0

/-- Function `sendToPort` on the module state. -/
def send (port : Int) (r : simpleResp) (s : State) : State :=
  { s with core := sendToPort port r s.core }

/-- Function `safeOp`. -/
def safeOp (port : Int) (op : String) (fn : State → Outcome Payload × State) (s : State) :
    State :=
  match (fn s).1 with
  | Outcome.ok res => send port (success op res) (fn s).2
  | Outcome.err e => send port (failure op e) (fn s).2
  | Outcome.panic v => send port (failure op ("panic: " ++ v)) (fn s).2

/-- Closure passed to `safeOp` by `CreateDirectServerTCP` (handler
`DefaultHandle`) and by `CreateProxyToSocks5ServerTCP` (handler
`ProxyHandler`): the two closures differ in the handler only. -/
def createFn (lib : Lib) (lPort : Int) (uName pwd : String) (h : Handler) (s : State) :
    Outcome Payload × State :=
  match lib.NewClassicServer (":" ++ toString lPort) "" uName pwd 0 0 with
  | Outcome.err e => (Outcome.err e, s)
  | Outcome.panic v => (Outcome.panic v, s)
  | Outcome.ok _ =>
    let server := s.nextObj
    let id := atomicAddInt64 s.nextSrvID 1
    let wrapper : Socks5ServerWrapper := { Server := server, ID := id }
    (Outcome.ok (Payload.int id),
      { s with
        nextObj := s.nextObj + 1
        handle := fun j => if j = server then some h else s.handle j
        nextSrvID := id
        socks5Servers := s.socks5Servers.set id wrapper })

/-- Function `CreateDirectServerTCP`; the returned value is always 0. -/
def CreateDirectServerTCP (lib : Lib) (listenPort : Int) (username password : String)
    (port : Int) (s : State) : Int × State :=
  let p := getPortOrDefault port s.core
  (0, safeOp p "create_direct_server_tcp"
    (createFn lib listenPort username password Handler.DefaultHandle) s)

/-- Function `CreateProxyToSocks5ServerTCP`; the returned value is always
0. -/
def CreateProxyToSocks5ServerTCP (lib : Lib) (listenPort : Int) (username password : String)
    (proxyAddr proxyUser proxyPass : String) (port : Int) (s : State) : Int × State :=
  let p := getPortOrDefault port s.core
  (0, safeOp p "create_proxy_to_socks5_server_tcp"
    (createFn lib listenPort username password
      (Handler.ProxyHandler proxyAddr proxyUser proxyPass)) s)

/-- Function `CreateDirectServerUDP`. -/
def CreateDirectServerUDP (lib : Lib) (listenPort : Int) (username password : String)
    (port : Int) (s : State) : Int × State :=
  CreateDirectServerTCP lib listenPort username password port s

/-- Function `CreateProxyToSocks5ServerUDP`: the proxy arguments are not
used. -/
def CreateProxyToSocks5ServerUDP (lib : Lib) (listenPort : Int) (username password : String)
    (_proxyAddr _proxyUser _proxyPass : String) (port : Int) (s : State) : Int × State :=
  CreateDirectServerTCP lib listenPort username password port s

/-- Function `CreateWithAuthServer`. -/
def CreateWithAuthServer (lib : Lib) (listenPort port : Int) (s : State) : Int × State :=
  CreateDirectServerTCP lib listenPort "user" "pass" port s

/-- Function `CreateWithoutAuthServer`. -/
def CreateWithoutAuthServer (lib : Lib) (listenPort port : Int) (s : State) : Int × State :=
  CreateDirectServerTCP lib listenPort "" "" port s

/-- Function `StartSocks5Server` up to its return: the worker goroutine is
spawned, not yet run. -/
def StartSocks5Server (srvID port : Int) (s : State) : Int × State :=
  let p := getPortOrDefault port s.core
  let id := srvID
  match s.socks5Servers id with
  | none =>
    (0, send p (failure "start_socks5_server" ("server " ++ toString id ++ " not found")) s)
  | some wrapper =>
    let cancel := (withCancel s.core).1
    let added := addTask cancel (withCancel s.core).2
    let taskID := added.1
    (taskID,
      { s with
        core := added.2
        workers := fun k =>
          if k = s.nextWorker then
            some { tid := taskID, w := wrapper, p := p, pc := WorkerPC.spawned }
          else s.workers k
        nextWorker := s.nextWorker + 1 })

/-- Worker goroutine, first statement: the call
`w.Server.ListenAndServe(w.Server.Handle)` is made and blocks. -/
def workerEnter (k : Nat) (s : State) : State :=
  match s.workers k with
  | some wk =>
    if wk.pc = WorkerPC.spawned then
      { s with
        calls := s.calls ++ [ExtCall.ListenAndServe wk.w.Server]
        workers := fun j =>
          if j = k then some { wk with pc := WorkerPC.inLoop } else s.workers j }
    else s
  | none => s

/-- Worker goroutine, statements after `ListenAndServe` ended with `r`.
The first component is the value of a panic in flight. -/
def workerBody (wk : Worker) (r : Outcome Unit) (s : State) : Option String × State :=
  match r with
  | Outcome.err e => (none, send wk.p (failure "start_socks5_server" e) s)
  | Outcome.ok _ => (none, send wk.p (success "start_socks5_server" (Payload.int wk.tid)) s)
  | Outcome.panic v => (some v, s)

/-- Worker goroutine, third deferred function: remove the wrapper, then
`w.Server.Shutdown()`, whose result is dropped. -/
def workerCleanup (wk : Worker) (inFlight : Option String) (s : State) :
    Option String × State :=
  (inFlight,
    { s with
      socks5Servers := s.socks5Servers.delete wk.w.ID
      calls := s.calls ++ [ExtCall.Shutdown wk.w.Server] })

/-- Worker goroutine, second deferred function: a panic in flight is
recovered and reported. -/
def workerRecover (wk : Worker) (inFlight : Option String) (s : State) : State :=
  match inFlight with
  | some v => send wk.p (failure "start_socks5_server" v) s
  | none => s

/-- Worker goroutine from the return of `ListenAndServe` to its end: body,
then the deferred functions in reverse order of their `defer`, the last
being `finishTask(tid)`. -/
def workerExit (k : Nat) (r : Outcome Unit) (s : State) : State :=
  match s.workers k with
  | some wk =>
    if wk.pc = WorkerPC.inLoop then
      let b := workerBody wk r s
      let c := workerCleanup wk b.1 b.2
      let s3 := workerRecover wk c.1 c.2
      let s4 : State := { s3 with core := finishTask wk.tid s3.core }
      { s4 with
        workers := fun j =>
          if j = k then some { wk with pc := WorkerPC.exited } else s4.workers j }
    else s
  | none => s

/-- Function `StopSocks5Server`; `shutdown` is the error
`wrapper.Server.Shutdown()` returns, if any.  On an error the wrapper
stays registered. -/
def StopSocks5Server (srvID port : Int) (shutdown : Option String) (s : State) : State :=
  let p := getPortOrDefault port s.core
  let id := srvID
  match s.socks5Servers id with
  | none =>
    send p (failure "stop_socks5_server" ("server " ++ toString id ++ " not found")) s
  | some wrapper =>
    let s1 : State := { s with calls := s.calls ++ [ExtCall.Shutdown wrapper.Server] }
    match shutdown with
    | some err => send p (failure "stop_socks5_server" ("shutdown error: " ++ err)) s1
    | none =>
      let s2 : State := { s1 with socks5Servers := s1.socks5Servers.delete id }
      send p (success "stop_socks5_server" (Payload.int id)) s2

/-- Steps of the `socks5lib2` process. -/
inductive Action where
  | createDirect (lib : Lib) (listenPort : Int) (username password : String) (port : Int)
  | createProxy (lib : Lib) (listenPort : Int) (username password : String)
      (proxyAddr proxyUser proxyPass : String) (port : Int)
  | start (srvID port : Int)
  | workerEnter (k : Nat)
  | workerExit (k : Nat) (r : Outcome Unit)
  | stop (srvID port : Int) (shutdown : Option String)
  | stopTaskEnter (taskID port : Int)
  | stopTaskCancel (k : Nat)
  | stopTaskWake (k : Nat)
  | registerPort (port : Int)
  | unregisterPort

/-- One step of the process; after a crash nothing runs. -/
def State.step (s : State) (a : Action) : State :=
  if s.core.crashed.isSome then s else
  match a with
  | .createDirect lib listenPort username password port =>
    (CreateDirectServerTCP lib listenPort username password port s).2
  | .createProxy lib listenPort username password proxyAddr proxyUser proxyPass port =>
    (CreateProxyToSocks5ServerTCP lib listenPort username password
      proxyAddr proxyUser proxyPass port s).2
  | .start srvID port => (StartSocks5Server srvID port s).2
  | .workerEnter k => workerEnter k s
  | .workerExit k r => workerExit k r s
  | .stop srvID port shutdown => StopSocks5Server srvID port shutdown s
  | .stopTaskEnter taskID port => { s with core := StopTask.enter taskID port s.core }
  | .stopTaskCancel k => { s with core := StopTask.cancel k s.core }
  | .stopTaskWake k => { s with core := StopTask.wake k s.core }
  | .registerPort port => { s with core := RegisterPort port s.core }
  | .unregisterPort => { s with core := UnregisterPort s.core }

/-- State after a sequence of steps. -/
def State.run (s : State) (acts : List Action) : State :=
  acts.foldl State.step s

/-- Operations whose success response carries a fresh ResourceID. -/
def createOps : List String :=
  ["create_direct_server_tcp", "create_proxy_to_socks5_server_tcp"]

end socks5lib2

/-! ## Library behaviours used in the worked examples -/

/-- A `portforward` library in which every call succeeds. -/
def portforward.Lib.accepting : portforward.Lib where
  Parse := fun str => Outcome.ok { Host := str }
  NewSPDYOverWebsocketDialer := fun _ _ => Outcome.ok 0
  NewOnAddresses := fun _ _ _ _ _ => Outcome.ok ()
  New := fun _ _ _ _ => Outcome.ok ()

/-- A `portforward` library whose `url.Parse` fails. -/
def portforward.Lib.badURL : portforward.Lib where
  Parse := fun _ => Outcome.err "missing protocol scheme"
  NewSPDYOverWebsocketDialer := fun _ _ => Outcome.ok 0
  NewOnAddresses := fun _ _ _ _ _ => Outcome.ok ()
  New := fun _ _ _ _ => Outcome.ok ()

/-- A `portforward` library whose dialer constructor fails. -/
def portforward.Lib.badDialer : portforward.Lib where
  Parse := fun str => Outcome.ok { Host := str }
  NewSPDYOverWebsocketDialer := fun _ _ => Outcome.err "no transport"
  NewOnAddresses := fun _ _ _ _ _ => Outcome.ok ()
  New := fun _ _ _ _ => Outcome.ok ()

/-- A `portforward` library whose forwarder constructor fails. -/
def portforward.Lib.badPorts : portforward.Lib where
  Parse := fun str => Outcome.ok { Host := str }
  NewSPDYOverWebsocketDialer := fun _ _ => Outcome.ok 0
  NewOnAddresses := fun _ _ _ _ _ => Outcome.err "you must specify at least 1 port"
  New := fun _ _ _ _ => Outcome.err "you must specify at least 1 port"

/-- A `socks5lib` library whose server constructor succeeds. -/
def socks5lib.Lib.accepting : socks5lib.Lib where
  NewServer := fun _ => Outcome.ok ()

/-- A `socks5lib` library whose server constructor fails. -/
def socks5lib.Lib.rejecting : socks5lib.Lib where
  NewServer := fun _ => Outcome.err "invalid listen port"

/-- A `socks5lib2` library whose server constructor succeeds. -/
def socks5lib2.Lib.accepting : socks5lib2.Lib where
  NewClassicServer := fun _ _ _ _ _ _ => Outcome.ok ()

/-- A `socks5lib2` library whose server constructor fails. -/
def socks5lib2.Lib.rejecting : socks5lib2.Lib where
  NewClassicServer := fun _ _ _ _ _ _ => Outcome.err "invalid address"

/-- A `portforward` run: create, start, stop while the worker is in its
loop, the loop returns, create again. -/
def portforward.sampleRun : List portforward.Action :=
  [.create portforward.Lib.accepting "https://cluster/api" "8080:80" none 7,
   .start 1 7, .workerEnter 0, .stop 1 7, .workerExit 0 (Outcome.ok ()),
   .create portforward.Lib.badURL "::" "8080:80" none 7,
   .create portforward.Lib.accepting "https://cluster/api" "9090:90" (some "127.0.0.1") 7]

/-- A `socks5lib` run: create, start, the loop fails, a rejected create,
create again. -/
def socks5lib.sampleRun : List socks5lib.Action :=
  [.create socks5lib.Lib.accepting 1080 "user" "pass" 7,
   .start 1 7, .workerEnter 0, .workerExit 0 (Outcome.err "listen failed"),
   .create socks5lib.Lib.rejecting 0 "" "" 7,
   .create socks5lib.Lib.accepting 1081 "" "" 7]

/-- A `socks5lib2` run: a direct and a proxy create, the first server is
stopped, a rejected create, create again. -/
def socks5lib2.sampleRun : List socks5lib2.Action :=
  [.createDirect socks5lib2.Lib.accepting 1080 "user" "pass" 7,
   .createProxy socks5lib2.Lib.accepting 1081 "" "" "10.0.0.1:1080" "u" "p" 7,
   .stop 1 7 none,
   .createDirect socks5lib2.Lib.rejecting 0 "" "" 7,
   .createDirect socks5lib2.Lib.accepting 1082 "" "" 7]


/-- A `socks5lib2` run with two servers, both started and both workers in
their loop. -/
def socks5lib2.pairRun : List socks5lib2.Action :=
  [.createDirect socks5lib2.Lib.accepting 1080 "user" "pass" 7,
   .createProxy socks5lib2.Lib.accepting 1081 "" "" "10.0.0.1:1080" "u" "p" 7,
   .start 1 7, .start 2 7, .workerEnter 0, .workerEnter 1]
/-! ## The state of a worker goroutine just before its `finishTask`

The three `workerExit` functions run, in this order, the statements after
the service loop, the deferred cleanup, the deferred `recover`, and the
deferred `finishTask(tid)`.  `unwound` names the state reached before the
last of these. -/

/-- State of `portforward` after the body, the cleanup and the `recover`
of a worker whose loop ended with `r`. -/
def portforward.unwound (wk : portforward.Worker) (r : Outcome Unit)
    (s : portforward.State) : portforward.State :=
  portforward.workerRecover wk
    (portforward.workerCleanup wk (portforward.workerBody wk r s).1
      (portforward.workerBody wk r s).2).1
    (portforward.workerCleanup wk (portforward.workerBody wk r s).1
      (portforward.workerBody wk r s).2).2

/-- State of `socks5lib` after the body, the cleanup and the `recover` of
a worker whose loop ended with `r`. -/
def socks5lib.unwound (wk : socks5lib.Worker) (r : Outcome Unit)
    (s : socks5lib.State) : socks5lib.State :=
  socks5lib.workerRecover wk
    (socks5lib.workerCleanup wk (socks5lib.workerBody wk r s).1
      (socks5lib.workerBody wk r s).2).1
    (socks5lib.workerCleanup wk (socks5lib.workerBody wk r s).1
      (socks5lib.workerBody wk r s).2).2

/-- State of `socks5lib2` after the body, the cleanup and the `recover` of
a worker whose loop ended with `r`. -/
def socks5lib2.unwound (wk : socks5lib2.Worker) (r : Outcome Unit)
    (s : socks5lib2.State) : socks5lib2.State :=
  socks5lib2.workerRecover wk
    (socks5lib2.workerCleanup wk (socks5lib2.workerBody wk r s).1
      (socks5lib2.workerBody wk r s).2).1
    (socks5lib2.workerCleanup wk (socks5lib2.workerBody wk r s).1
      (socks5lib2.workerBody wk r s).2).2


/-! ## `float64` arithmetic

A finite `float64` is represented by the rational number it denotes.  An
operation computes the exact result and rounds it to the nearest
`float64`, ties to even (IEEE 754, the only rounding mode of Go).  The
sign of a zero is not kept: no result here depends on it.  Infinities and
NaN are not represented: every magnitude computed by the code below is
less than `2^64`. -/

/-- Nearest integer of a rational, ties to the even one. -/
def roundHalfEven (q : ℚ) : Int :=
  let f := ⌊q⌋
  if q - f < 1 / 2 then f
  else if 1 / 2 < q - f then f + 1
  else if f % 2 = 0 then f else f + 1

/-- The `float64` nearest to a rational: with `2^e ≤ |q| < 2^(e+1)` the
multiple of `2^(e-52)` nearest to `q` (of `2^(-1074)` in the subnormal
range). -/
def roundF64 (q : ℚ) : ℚ :=
  if q = 0 then 0 else
  let e := max (Int.log 2 |q|) (-1022)
  roundHalfEven (q / 2 ^ (e - 52)) * 2 ^ (e - 52)

/-- Conversion `float64(n)` of an integer. -/
def F64.ofInt (n : Int) : ℚ := roundF64 n

/-- Operator `a + b` on `float64`. -/
def F64.add (a b : ℚ) : ℚ := roundF64 (a + b)

/-- Operator `a * b` on `float64`. -/
def F64.mul (a b : ℚ) : ℚ := roundF64 (a * b)

/-- Operator `a / b` on `float64`, for `b ≠ 0`. -/
def F64.div (a b : ℚ) : ℚ := roundF64 (a / b)

/-- Function `math.Abs`. -/
def F64.Abs (a : ℚ) : ℚ := |a|

/-- Function `math.Max`. -/
def F64.Max (a b : ℚ) : ℚ := max a b

/-- Function `math.Round`: nearest integer, halves away from zero. -/
def F64.Round (a : ℚ) : ℚ :=
  if 0 ≤ a then (⌊a + 1 / 2⌋ : Int) else -(⌊-a + 1 / 2⌋ : Int)

/-- Conversion `int(f)`: the fraction is discarded (truncation towards
zero).  The values converted here lie within the range of `int`. -/
def F64.toInt (a : ℚ) : Int :=
  if 0 ≤ a then ⌊a⌋ else -⌊-a⌋

/-! ## `sentinel`: the cancellable runners

`sentinel` has the task registry of `Core` and no resource registry.  A
runner (`MoveSmoothStart`, `DragSmoothStart`, `StartMonitor`) registers a
task and spawns a goroutine.  The goroutine is embedded as a function that
yields what the goroutine does, in program order (`Event`), given what the
outside answers (`World`): whether the cancellation channel is ready at
each `select`, what `robotgo` and the system library return, and whether a
call into `robotgo` panics.  `sendToPort` and `time.Sleep` are taken not
to panic.  Go `int` is taken to be 64 bits wide; the arguments `x`, `y`
are C `int`s and are used by the goroutine only. -/

namespace sentinel

/-- What a worker goroutine does that is visible outside it: a call into
`robotgo`, a `time.Sleep`, or a response sent to a port. -/
inductive Event where
  | Toggle (arg : String)
  | GetMousePos
  | Move (x y : Int)
  | Location
  | Scroll (x y : Int)
  | TypeStr (s : String)
  | Sleep (ms : Nat)
  | send (port : Int) (r : simpleResp)
deriving DecidableEq, Repr

/-- Record `net.IOCountersStat`: the two `uint64` fields that are read. -/
structure IOCountersStat where
  BytesSent : Nat
  BytesRecv : Nat
deriving DecidableEq, Repr

/-- Record `net.ConnectionStat`: the `uint32` field `Type` that is read
(`Type_` here, `Type` being reserved). -/
structure ConnectionStat where
  Type_ : Nat
deriving DecidableEq, Repr

/-- What the system library returns to one call of `computeStats`: the
slice of `cpu.Percent` (bit patterns), the `UsedPercent` of
`mem.VirtualMemory` (`none` when the returned pointer is nil), the slice
of `net.IOCounters` and the slice of `net.Connections`.  The returned
errors are discarded by the code. -/
structure Sample where
  cpuP : List Nat
  vMem : Option Nat
  currNet : List IOCountersStat
  conns : List ConnectionStat
deriving DecidableEq, Repr

/-- What the outside answers to one worker goroutine.  `done i`: whether
`<-ctx.Done()` is ready at the `select` of iteration `i` (from 1).
`mousePos`: the result of `robotgo.GetMousePos()`.  `location log`: the
result of `robotgo.Location()` called after the events `log`.
`fault log`: the value of the panic raised by the call into `robotgo` that
follows the events `log`, if that call panics.  `sample i`: what the system
library returns in iteration `i`. -/
structure World where
  done : Nat → Bool
  mousePos : Int × Int
  location : List Event → Int × Int
  fault : List Event → Option String
  sample : Nat → Sample

/-- A worker goroutine under execution: the events so far, and the value
of the panic that is unwinding its stack, if any. -/
structure Frame where
  log : List Event
  panic : Option String
deriving DecidableEq, Repr

/-- A goroutine that has done nothing yet. -/
def Frame.start : Frame := { log := [], panic := none }

/-- A call into `robotgo`: skipped when a panic is unwinding; it may
panic itself. -/
def Frame.call (w : World) (ev : Event) (f : Frame) : Frame :=
  if f.panic.isSome then f else
  match w.fault f.log with
  | some v => { f with panic := some v }
  | none => { f with log := f.log ++ [ev] }

/-- Call `time.Sleep`. -/
def Frame.sleep (ms : Nat) (f : Frame) : Frame :=
  if f.panic.isSome then f else { f with log := f.log ++ [Event.Sleep ms] }

/-- Call `sendToPort` from the goroutine. -/
def Frame.send (port : Int) (r : simpleResp) (f : Frame) : Frame :=
  if f.panic.isSome then f else { f with log := f.log ++ [Event.send port r] }

/-- The deferred `recover` of a runner: a panic is reported as a failure
of operation `op`, and the goroutine goes on to its `finishTask`. -/
def Frame.recover (port : Int) (op : String) (f : Frame) : Frame :=
  match f.panic with
  | some v => { log := f.log ++ [Event.send port (failure op v)], panic := none }
  | none => f

/-- Response sent when cancellation is observed. -/
def canceled (op : String) (tid : Int) : simpleResp :=
  { Op := op, Success := false, Error := "canceled", Data := Payload.int tid }

/-- Number of steps of `MoveSmoothStart` and `DragSmoothStart` from
`(startX, startY)` to `(tx, ty)`. -/
def stepCount (startX startY tx ty : Int) : Int :=
  let dist := F64.Max (F64.Abs (F64.ofInt (wrapInt64 (tx - startX))))
    (F64.Abs (F64.ofInt (wrapInt64 (ty - startY))))
  let steps := F64.toInt (F64.div dist 10)
  let steps := if steps < 10 then 10 else steps
  if steps > 120 then 120 else steps

/-- Step count in the words of the specification: the Chebyshev distance
divided by 10, rounded down, clamped into `[10, 120]`. -/
def stepCountSpec (startX startY tx ty : Int) : Int :=
  max 10 (min 120 (max |tx - startX| |ty - startY| / 10))

/-- Increment per step on one axis: `float64(t-start) / float64(steps)`. -/
def stepDelta (start t steps : Int) : ℚ :=
  F64.div (F64.ofInt (wrapInt64 (t - start))) (F64.ofInt steps)

/-- Coordinate commanded at step `i`:
`int(math.Round(float64(start) + d*float64(i)))`. -/
def stepPos (start : Int) (d : ℚ) (i : Nat) : Int :=
  F64.toInt (F64.Round (F64.add (F64.ofInt start) (F64.mul d (F64.ofInt i))))

/-- The loop `for i := 1; i <= steps; i++` of `MoveSmoothStart`, with `n`
iterations left, about to run iteration `i`.  The flag is `false` when the
loop ended by `return` (cancellation) or by a panic. -/
def MoveSmoothStart.loop (w : World) (p tid startX startY : Int) (dx dy : ℚ) :
    Nat → Nat → Frame → Bool × Frame
  | 0, _, f => (f.panic.isNone, f)
  | n + 1, i, f =>
    if f.panic.isSome then (false, f)
    else if w.done i = true then (false, f.send p (canceled "move_smooth" tid))
    else
      MoveSmoothStart.loop w p tid startX startY dx dy n (i + 1)
        ((f.call w (Event.Move (stepPos startX dx i) (stepPos startY dy i))).sleep 8)

/-- Body of the goroutine of `MoveSmoothStart`. -/
def MoveSmoothStart.body (w : World) (x y p tid : Int) : Frame :=
  let f0 := Frame.start.call w Event.GetMousePos
  let startX := w.mousePos.1
  let startY := w.mousePos.2
  let tx := x
  let ty := y
  let steps := stepCount startX startY tx ty
  let dx := stepDelta startX tx steps
  let dy := stepDelta startY ty steps
  let r := MoveSmoothStart.loop w p tid startX startY dx dy steps.toNat 1 f0
  if r.1 = false then r.2
  else
    let f1 := r.2.call w (Event.Move tx ty)
    let f2 := f1.call w Event.Location
    f2.send p (success "move_smooth"
      (Payload.point (w.location f1.log).1 (w.location f1.log).2))

/-- Goroutine of `MoveSmoothStart` up to its deferred `finishTask(tid)`. -/
def MoveSmoothStart.worker (w : World) (x y p tid : Int) : Frame :=
  (MoveSmoothStart.body w x y p tid).recover p "move_smooth"

/-- The loop of `DragSmoothStart`: as in `MoveSmoothStart`, with the
button released before the cancellation is reported. -/
def DragSmoothStart.loop (w : World) (p tid startX startY : Int) (dx dy : ℚ) :
    Nat → Nat → Frame → Bool × Frame
  | 0, _, f => (f.panic.isNone, f)
  | n + 1, i, f =>
    if f.panic.isSome then (false, f)
    else if w.done i = true then
      (false, (f.call w (Event.Toggle "up")).send p (canceled "drag_smooth" tid))
    else
      DragSmoothStart.loop w p tid startX startY dx dy n (i + 1)
        ((f.call w (Event.Move (stepPos startX dx i) (stepPos startY dy i))).sleep 8)

/-- Body of the goroutine of `DragSmoothStart`. -/
def DragSmoothStart.body (w : World) (x y p tid : Int) : Frame :=
  let f0 := (Frame.start.call w (Event.Toggle "down")).call w Event.GetMousePos
  let startX := w.mousePos.1
  let startY := w.mousePos.2
  let tx := x
  let ty := y
  let steps := stepCount startX startY tx ty
  let dx := stepDelta startX tx steps
  let dy := stepDelta startY ty steps
  let r := DragSmoothStart.loop w p tid startX startY dx dy steps.toNat 1 f0
  if r.1 = false then r.2
  else
    let f1 := r.2.call w (Event.Move tx ty)
    let f2 := f1.call w (Event.Toggle "up")
    let f3 := f2.call w Event.Location
    f3.send p (success "drag_smooth"
      (Payload.point (w.location f2.log).1 (w.location f2.log).2))

/-- Goroutine of `DragSmoothStart` up to its deferred `finishTask(tid)`. -/
def DragSmoothStart.worker (w : World) (x y p tid : Int) : Frame :=
  (DragSmoothStart.body w x y p tid).recover p "drag_smooth"

/-- Value of the runtime panic raised by a field access through a nil
pointer. -/
def nilDereference : String :=
  "runtime error: invalid memory address or nil pointer dereference"

/-- Operator `a - b` on `uint64`. -/
def subUint64 (a b : Nat) : Nat := (a + (2 ^ 64 - b % 2 ^ 64)) % 2 ^ 64

/-- Function `computeStats`; `smp` is what the system library returns
during the call.  `Except.error v` is a panic with value `v`: the access
`vMem.UsedPercent` through a nil `vMem`. -/
def computeStats (smp : Sample) (prevNet : List IOCountersStat) :
    Except String (SystemStats × List IOCountersStat) :=
  let cpuPercent : Nat := match smp.cpuP with
    | c :: _ => c
    | [] => 0
  match smp.vMem with
  | none => Except.error nilDereference
  | some memPercent =>
    let currNet := smp.currNet
    let speeds : Nat × Nat := match currNet, prevNet with
      | c :: _, q :: _ => (subUint64 c.BytesRecv q.BytesRecv, subUint64 c.BytesSent q.BytesSent)
      | _, _ => (0, 0)
    let tcp := (smp.conns.filter (fun c => c.Type_ = 1)).length
    let udp := (smp.conns.filter (fun c => c.Type_ = 2)).length
    Except.ok
      ({ CPUPercent := cpuPercent, MemPercent := memPercent,
         NetSpeedRx := speeds.1, NetSpeedTx := speeds.2,
         TcpConns := tcp, UdpConns := udp }, currNet)

/-- The loop `for { select { .. } }` of `StartMonitor`, about to run
iteration `i` with baseline `prevNet`.  The loop has no bound of its own:
`n` bounds the iterations that are followed, and with `n = 0` the
goroutine is left where it stands, inside the loop. -/
def StartMonitor.loop (w : World) (p tid : Int) :
    Nat → Nat → List IOCountersStat → Frame → Frame
  | 0, _, _, f => f
  | n + 1, i, prevNet, f =>
    if f.panic.isSome then f
    else if w.done i = true then f.send p (success "monitor_stopped" (Payload.int tid))
    else
      match computeStats (w.sample i) prevNet with
      | Except.error v => { f with panic := some v }
      | Except.ok r =>
        StartMonitor.loop w p tid n (i + 1) r.2
          ((f.send p (success "monitor_stats" (Payload.stats r.1))).sleep 1000)

/-- Goroutine of `StartMonitor` up to its deferred `finishTask(tid)`,
followed for at most `n` iterations; `prevNet` starts as nil. -/
def StartMonitor.worker (w : World) (n : Nat) (p tid : Int) : Frame :=
  (StartMonitor.loop w p tid n 1 [] Frame.start).recover p "monitor_start"

/-- The responses among the events of a goroutine reach the port in
order. -/
def deliver (log : List Event) (s : Core) : Core :=
  log.foldl (fun c ev =>
    match ev with
    | Event.send port r => sendToPort port r c
    | _ => c) s

/-- Entry point shared by the runners: `getPortOrDefault`,
`context.WithCancel`, `addTask`.  Returns the port and the TaskID that the
goroutine is given. -/
def spawnTask (port : Int) (s : Core) : (Int × Int) × Core :=
  let p := getPortOrDefault port s
  let c := withCancel s
  let r := addTask c.1 c.2
  ((p, r.1), r.2)

/-- Function `MoveSmoothStart`: returns the TaskID. -/
def MoveSmoothStart (port : Int) (s : Core) : Int × Core :=
  ((spawnTask port s).1.2, (spawnTask port s).2)

/-- Function `DragSmoothStart`: returns the TaskID. -/
def DragSmoothStart (port : Int) (s : Core) : Int × Core :=
  ((spawnTask port s).1.2, (spawnTask port s).2)

/-- Function `StartMonitor`: sends the TaskID and returns it. -/
def StartMonitor (port : Int) (s : Core) : Int × Core :=
  ((spawnTask port s).1.2,
   sendToPort (spawnTask port s).1.1
     (success "start_monitor" (Payload.int (spawnTask port s).1.2)) (spawnTask port s).2)

/-- A whole goroutine of a runner, run to its end: its responses are
delivered, then the deferred `finishTask(tid)` runs. -/
def goroutine (f : Frame) (tid : Int) (s : Core) : Core :=
  finishTask tid (deliver f.log s)

/-- The moves commanded by a goroutine, in order. -/
def moves (log : List Event) : List (Int × Int) :=
  log.filterMap (fun ev =>
    match ev with
    | Event.Move x y => some (x, y)
    | _ => none)

/-- The responses sent by a goroutine, in order. -/
def sends (log : List Event) : List (Int × simpleResp) :=
  log.filterMap (fun ev =>
    match ev with
    | Event.send port r => some (port, r)
    | _ => none)

/-- Pointer model in which `robotgo.Location()` returns the position last
commanded by `robotgo.Move`, and `start` while none was commanded. -/
def lastCommanded (start : Int × Int) (log : List Event) : Int × Int :=
  ((moves log).getLast?).getD start

/-- The arguments of the `robotgo.Toggle` calls of a goroutine, in
order. -/
def toggles (log : List Event) : List String :=
  log.filterMap (fun ev =>
    match ev with
    | Event.Toggle arg => some arg
    | _ => none)

/-- What the repository fixes of `robotgo.Toggle`, a library function that
is not part of it.  The exported function `Toggle` calls
`robotgo.Toggle(button)` when it is given no direction and
`robotgo.Toggle(button, direction)` otherwise: the first argument names the
button and the direction is a second argument.  `button name` is the button
that a name stands for in the library, and `defaultDown` tells whether a
call without a direction presses (`true`) or releases (`false`). -/
structure ToggleLib where
  button : String → Nat
  defaultDown : Bool

/-- The buttons held after the calls `robotgo.Toggle(arg)` of a log,
starting from the buttons `held`: each of these calls has one argument,
hence no direction, and acts on the button that the argument names. -/
def heldAfter (lib : ToggleLib) (held : Nat → Bool) (log : List Event) : Nat → Bool :=
  (toggles log).foldl
    (fun h arg => fun b => if b = lib.button arg then lib.defaultDown else h b) held

/-- The events of the `n` iterations `i, i + 1, ..` of the loop when no
cancellation is observed and no call panics. -/
def stepEvents (startX startY : Int) (dx dy : ℚ) : Nat → Nat → List Event
  | _, 0 => []
  | i, n + 1 =>
    Event.Move (stepPos startX dx i) (stepPos startY dy i) :: Event.Sleep 8
      :: stepEvents startX startY dx dy (i + 1) n

/-- What a frame looks like when the goroutine reaches its `recover`: a
panic and no response yet, or no panic and one response. -/
def Settled (f : Frame) : Prop :=
  (f.panic ≠ none ∧ sends f.log = []) ∨ (f.panic = none ∧ ∃ m, sends f.log = [m])

/-- A world in which nothing is cancelled, no call panics, the pointer
starts at `start` and follows the moves commanded. -/
def World.calm (start : Int × Int) : World where
  done := fun _ => false
  mousePos := start
  location := lastCommanded start
  fault := fun _ => none
  sample := fun _ => { cpuP := [], vMem := some 0, currNet := [], conns := [] }

/-- A world as `World.calm` in which cancellation is observed from
iteration `k` on. -/
def World.canceledFrom (start : Int × Int) (k : Nat) : World where
  done := fun i => decide (k ≤ i)
  mousePos := start
  location := lastCommanded start
  fault := fun _ => none
  sample := fun _ => { cpuP := [], vMem := some 0, currNet := [], conns := [] }

end sentinel

/-! ## `sentinel`: scrolling, typing, `safeOp`, `splitAndTrim` -/

namespace sentinel

/-- The loop `for i := 0; i < steps; i++` of `ScrollSmoothStart`, with `n`
iterations left, about to run the iteration counted `i` (from 1).  The flag
is `false` when the loop ended by `return` (cancellation) or by a panic. -/
def ScrollSmoothStart.loop (w : World) (p tid dx dy : Int) : Nat → Nat → Frame → Bool × Frame
  | 0, _, f => (f.panic.isNone, f)
  | n + 1, i, f =>
    if f.panic.isSome then (false, f)
    else if w.done i = true then (false, f.send p (canceled "scroll_smooth" tid))
    else
      ScrollSmoothStart.loop w p tid dx dy n (i + 1)
        ((f.call w (Event.Scroll dx dy)).sleep 10)

/-- Body of the goroutine of `ScrollSmoothStart`.  The operator `/` on
`int` truncates towards zero. -/
def ScrollSmoothStart.body (w : World) (x y p tid : Int) : Frame :=
  let steps : Int := 20
  let dx := Int.tdiv x steps
  let dy := Int.tdiv y steps
  let r := ScrollSmoothStart.loop w p tid dx dy steps.toNat 1 Frame.start
  if r.1 = false then r.2
  else r.2.send p (success "scroll_smooth" (Payload.point x y))

/-- Goroutine of `ScrollSmoothStart` up to its deferred `finishTask(tid)`. -/
def ScrollSmoothStart.worker (w : World) (x y p tid : Int) : Frame :=
  (ScrollSmoothStart.body w x y p tid).recover p "scroll_smooth"

/-- The loop `for _, r := range s` of `TypeStrStart` over the characters
left, about to run the iteration counted `i` (from 1).  `keySleep i` is the
value of `robotgo.KeySleep` read in iteration `i`; a negative duration
sleeps for nothing. -/
def TypeStrStart.loop (w : World) (keySleep : Nat → Int) (p tid : Int) :
    List Char → Nat → Frame → Bool × Frame
  | [], _, f => (f.panic.isNone, f)
  | r :: rest, i, f =>
    if f.panic.isSome then (false, f)
    else if w.done i = true then (false, f.send p (canceled "type_str_async" tid))
    else
      TypeStrStart.loop w keySleep p tid rest (i + 1)
        ((f.call w (Event.TypeStr (String.singleton r))).sleep (keySleep i).toNat)

/-- Body of the goroutine of `TypeStrStart`; the text is a sequence of
Unicode characters (valid UTF-8). -/
def TypeStrStart.body (w : World) (keySleep : Nat → Int) (s : String) (p tid : Int) : Frame :=
  let r := TypeStrStart.loop w keySleep p tid s.toList 1 Frame.start
  if r.1 = false then r.2
  else r.2.send p (success "type_str_async" (Payload.str s))

/-- Goroutine of `TypeStrStart` up to its deferred `finishTask(tid)`. -/
def TypeStrStart.worker (w : World) (keySleep : Nat → Int) (s : String) (p tid : Int) :
    Frame :=
  (TypeStrStart.body w keySleep s p tid).recover p "type_str_async"

/-- Function `ScrollSmoothStart`: returns the TaskID. -/
def ScrollSmoothStart (port : Int) (s : Core) : Int × Core :=
  ((spawnTask port s).1.2, (spawnTask port s).2)

/-- Function `TypeStrStart`: returns the TaskID. -/
def TypeStrStart (port : Int) (s : Core) : Int × Core :=
  ((spawnTask port s).1.2, (spawnTask port s).2)

/-- The scroll commands of a goroutine, in order. -/
def scrolls (log : List Event) : List (Int × Int) :=
  log.filterMap (fun ev =>
    match ev with
    | Event.Scroll x y => some (x, y)
    | _ => none)

/-- The arguments of the `robotgo.TypeStr` calls of a goroutine, in
order. -/
def typed (log : List Event) : List String :=
  log.filterMap (fun ev =>
    match ev with
    | Event.TypeStr s => some s
    | _ => none)

/-- The events of `n` iterations of the loop of `ScrollSmoothStart` when no
cancellation is observed and no call panics. -/
def scrollEvents (dx dy : Int) : Nat → List Event
  | 0 => []
  | n + 1 => Event.Scroll dx dy :: Event.Sleep 10 :: scrollEvents dx dy n

/-- The events of the iterations of the loop of `TypeStrStart` over the
characters `cs`, the first one counted `i`, when no cancellation is
observed and no call panics. -/
def typeEvents (keySleep : Nat → Int) : List Char → Nat → List Event
  | [], _ => []
  | r :: rest, i =>
    Event.TypeStr (String.singleton r) :: Event.Sleep (keySleep i).toNat
      :: typeEvents keySleep rest (i + 1)

/-- The events of `n` iterations of the loop of `StartMonitor`, the first
one counted `i` with baseline `prevNet`, when no cancellation is observed
and `computeStats` returns. -/
def monitorEvents (w : World) (p : Int) : Nat → Nat → List IOCountersStat → List Event
  | 0, _, _ => []
  | n + 1, i, prevNet =>
    match computeStats (w.sample i) prevNet with
    | Except.error _ => []
    | Except.ok r =>
      Event.send p (success "monitor_stats" (Payload.stats r.1)) :: Event.Sleep 1000
        :: monitorEvents w p n (i + 1) r.2

/-- Function `safeOp` of `sentinel`: the result of `fn`, its error or its
recovered panic is reported to `port`. -/
def safeOp (port : Int) (op : String) (fn : Core → Outcome Payload × Core) (s : Core) : Core :=
  match (fn s).1 with
  | Outcome.ok res => sendToPort port (success op res) (fn s).2
  | Outcome.err e => sendToPort port (failure op e) (fn s).2
  | Outcome.panic v => sendToPort port (failure op ("panic: " ++ v)) (fn s).2

/-- Test `c == ' ' || c == '\t'` of `trimSpaces`. -/
def isBlank (c : Char) : Bool := c = ' ' || c = '\t'

/-- First loop of `trimSpaces`, on the slice `s[start:end]`: `start`
advances over the leading spaces and tabs. -/
def trimSpaces.front : List Char → List Char
  | [] => []
  | c :: cs => if isBlank c = true then trimSpaces.front cs else c :: cs

/-- Second loop of `trimSpaces`, on the slice `s[start:end]`: `end`
retreats over the trailing spaces and tabs. -/
def trimSpaces.back (l : List Char) : List Char :=
  (trimSpaces.front l.reverse).reverse

/-- Function `trimSpaces`.  The loops index bytes; a space or a tab is one
byte that occurs in no other character of a UTF-8 text, so they stop where
the loops over characters stop. -/
def trimSpaces (s : String) : String :=
  String.mk (trimSpaces.back (trimSpaces.front s.toList))

/-- The loop `for _, ch := range s` of `splitAndTrim` over the characters
left, with the locals `out` and `cur`. -/
def splitAndTrim.loop : List Char → List String → String → List String × String
  | [], out, cur => (out, cur)
  | ch :: rest, out, cur =>
    if ch = ',' then
      if cur ≠ "" then splitAndTrim.loop rest (out ++ [trimSpaces cur]) ""
      else splitAndTrim.loop rest out cur
    else splitAndTrim.loop rest out (cur.push ch)

/-- Function `splitAndTrim`. -/
def splitAndTrim (s : String) : List String :=
  let r := splitAndTrim.loop s.toList [] ""
  if r.2 ≠ "" then r.1 ++ [trimSpaces r.2] else r.1

/-- The result of `splitAndTrim` in the words of the specification: split
at the commas, drop the empty pieces, trim each remaining piece. -/
def splitAndTrimSpec (s : String) : List String :=
  ((splitOnComma s.toList).filter (fun piece => piece ≠ [])).map
    (fun piece => trimSpaces (String.mk piece))

/-- Nearest integer of a rational, halves away from zero. -/
def roundHalfAway (v : ℚ) : Int :=
  if 0 ≤ v then ⌊v + 1 / 2⌋ else -⌊-v + 1 / 2⌋

/-- Linear interpolation between `start` and `t` at step `i` of `steps`,
in the words of the specification. -/
def interpolate (start t steps : Int) (i : Nat) : ℚ :=
  start + ((t - start : Int) : ℚ) * i / steps

/-- A world as `World.calm` whose system library returns the same sample
`smp` in every iteration and in which cancellation is observed from
iteration `k` on. -/
def World.sampling (smp : Sample) (k : Nat) : World where
  done := fun i => decide (k ≤ i)
  mousePos := (0, 0)
  location := lastCommanded (0, 0)
  fault := fun _ => none
  sample := fun _ => smp

end sentinel

/-! ## `StopForwardPorts` and `StopSocks5Server`, statement by statement

The functions `portforward.StopForwardPorts` and
`socks5lib.StopSocks5Server` above follow a Stop call that runs from its
first statement to its last with no step of another thread in between.
The source releases the registry mutex after the lookup, closes the stop
channel without the mutex, and takes the mutex again for the `delete`.
Here the call is followed through these three parts, with the frame of the
call (`id`, `p`, `wrapper`) as a piece of state, so that the steps of
workers and of other calls can fall between them. -/

/-- Where a Stop call that found its wrapper stands: before
`close(wrapper.StopChan)`, before the second critical section
(`delete`), or returned. -/
inductive StopResPC where
  | atClose
  | atDelete
  | returned
deriving DecidableEq, Repr

namespace portforward

/-- Frame of an in-flight `StopForwardPorts` call that found its wrapper:
its locals `id`, `p`, `wrapper` and its position. -/
structure StopFrame where
  id : Int
  p : Int
  wrapper : PortForwarderWrapper
  pc : StopResPC
deriving DecidableEq, Repr

/-- The `portforward` process together with the `StopForwardPorts` calls
in flight. -/
structure Proc where
  st : State
  /-- Frames of the `StopForwardPorts` calls that found a wrapper. -/
  stops : Nat → Option StopFrame
  /-- Number of frames created so far. -/
  nextStop : Nat

/-- Process at start. -/
def Proc.init : Proc where
  st := State.init
  stops := fun _ => none
  nextStop := 0

/-- Function `StopForwardPorts` from its entry to the end of
`if !ok { .. }`: the lookup under `portFWsMu`; an absent wrapper is
reported and the call returns, a found one leaves a frame standing before
`close(wrapper.StopChan)`. -/
def StopForwardPorts.lookup (pfID port : Int) (s : Proc) : Proc :=
  let p := getPortOrDefault port s.st.core
  let id := pfID
  match s.st.portForwarders id with
  | none =>
    { s with
      st := send p (failure "stop_forward_ports"
        ("port forwarder " ++ toString id ++ " not found")) s.st }
  | some wrapper =>
    { s with
      stops := fun k =>
        if k = s.nextStop then
          some { id := id, p := p, wrapper := wrapper, pc := StopResPC.atClose }
        else s.stops k
      nextStop := s.nextStop + 1 }

/-- Function `StopForwardPorts`, statements `close(wrapper.StopChan)` and
`wrapper.PF.Close()` of frame `k`, executed without the mutex.  The panic
of `close` on an already closed channel is not recovered: it ends the
process. -/
def StopForwardPorts.close (k : Nat) (s : Proc) : Proc :=
  match s.stops k with
  | some f =>
    if f.pc = StopResPC.atClose then
      let c := closeChan f.wrapper.StopChan s.st.core
      if c.1 = true then
        { s with
          st := { s.st with core := c.2, calls := s.st.calls ++ [ExtCall.Close f.wrapper.PF] }
          stops := fun j =>
            if j = k then some { f with pc := StopResPC.atDelete } else s.stops j }
      else { s with st := { s.st with core := { c.2 with crashed := some closeOfClosed } } }
    else s
  | none => s

/-- Function `StopForwardPorts`, second critical section
(`delete(portForwarders, id)`) and the final `sendToPort` of frame `k`. -/
def StopForwardPorts.remove (k : Nat) (s : Proc) : Proc :=
  match s.stops k with
  | some f =>
    if f.pc = StopResPC.atDelete then
      { s with
        st := send f.p (success "stop_forward_ports" (Payload.int f.id))
          { s.st with portForwarders := s.st.portForwarders.delete f.id }
        stops := fun j =>
          if j = k then some { f with pc := StopResPC.returned } else s.stops j }
    else s
  | none => s

/-- Steps of the `portforward` process with `StopForwardPorts` followed
statement by statement: a step of `Action` (among them `Action.stop`, a
Stop call that nothing interleaves), or one of the three parts of a
`StopForwardPorts` call. -/
inductive Step where
  | act (a : Action)
  | stopLookup (pfID port : Int)
  | stopClose (k : Nat)
  | stopRemove (k : Nat)

/-- One step of the process; after a crash nothing runs. -/
def Proc.step (s : Proc) (a : Step) : Proc :=
  if s.st.core.crashed.isSome then s else
  match a with
  | .act a => { s with st := s.st.step a }
  | .stopLookup pfID port => StopForwardPorts.lookup pfID port s
  | .stopClose k => StopForwardPorts.close k s
  | .stopRemove k => StopForwardPorts.remove k s

/-- Process after a sequence of steps. -/
def Proc.run (s : Proc) (acts : List Step) : Proc :=
  acts.foldl Proc.step s

/-- A run with two forwarders, both started, in which a
`StopForwardPorts` call on the first goes through its three parts while
the worker of the second enters its loop in between. -/
def stopPairRun : List Step :=
  [.act (.create Lib.accepting "https://cluster/api" "8080:80" none 7),
   .act (.create Lib.accepting "https://cluster/api" "9090:90" none 7),
   .act (.start 1 7), .act (.start 2 7), .act (.workerEnter 0),
   .stopLookup 1 7, .act (.workerEnter 1), .stopClose 0, .stopRemove 0]

end portforward

namespace socks5lib

/-- Frame of an in-flight `StopSocks5Server` call that found its wrapper:
its locals `id`, `p`, `wrapper` and its position. -/
structure StopFrame where
  id : Int
  p : Int
  wrapper : Socks5ServerWrapper
  pc : StopResPC
deriving DecidableEq, Repr

/-- The `socks5lib` process together with the `StopSocks5Server` calls in
flight. -/
structure Proc where
  st : State
  /-- Frames of the `StopSocks5Server` calls that found a wrapper. -/
  stops : Nat → Option StopFrame
  /-- Number of frames created so far. -/
  nextStop : Nat

/-- Process at start. -/
def Proc.init : Proc where
  st := State.init
  stops := fun _ => none
  nextStop := 0

/-- Function `StopSocks5Server` from its entry to the end of
`if !ok { .. }`: the lookup under `socks5SrvMu`. -/
def StopSocks5Server.lookup (srvID port : Int) (s : Proc) : Proc :=
  let p := getPortOrDefault port s.st.core
  let id := srvID
  match s.st.socks5Servers id with
  | none =>
    { s with
      st := send p (failure "stop_socks5_server"
        ("server " ++ toString id ++ " not found")) s.st }
  | some wrapper =>
    { s with
      stops := fun k =>
        if k = s.nextStop then
          some { id := id, p := p, wrapper := wrapper, pc := StopResPC.atClose }
        else s.stops k
      nextStop := s.nextStop + 1 }

/-- Function `StopSocks5Server`, statement `close(wrapper.StopChan)` of
frame `k`, executed without the mutex.  The panic of `close` on an already
closed channel is not recovered: it ends the process. -/
def StopSocks5Server.close (k : Nat) (s : Proc) : Proc :=
  match s.stops k with
  | some f =>
    if f.pc = StopResPC.atClose then
      let c := closeChan f.wrapper.StopChan s.st.core
      if c.1 = true then
        { s with
          st := { s.st with core := c.2 }
          stops := fun j =>
            if j = k then some { f with pc := StopResPC.atDelete } else s.stops j }
      else { s with st := { s.st with core := { c.2 with crashed := some closeOfClosed } } }
    else s
  | none => s

/-- Function `StopSocks5Server`, second critical section
(`delete(socks5Servers, id)`) and the final `sendToPort` of frame `k`. -/
def StopSocks5Server.remove (k : Nat) (s : Proc) : Proc :=
  match s.stops k with
  | some f =>
    if f.pc = StopResPC.atDelete then
      { s with
        st := send f.p (success "stop_socks5_server" (Payload.int f.id))
          { s.st with socks5Servers := s.st.socks5Servers.delete f.id }
        stops := fun j =>
          if j = k then some { f with pc := StopResPC.returned } else s.stops j }
    else s
  | none => s

/-- Steps of the `socks5lib` process with `StopSocks5Server` followed
statement by statement. -/
inductive Step where
  | act (a : Action)
  | stopLookup (srvID port : Int)
  | stopClose (k : Nat)
  | stopRemove (k : Nat)

/-- One step of the process; after a crash nothing runs. -/
def Proc.step (s : Proc) (a : Step) : Proc :=
  if s.st.core.crashed.isSome then s else
  match a with
  | .act a => { s with st := s.st.step a }
  | .stopLookup srvID port => StopSocks5Server.lookup srvID port s
  | .stopClose k => StopSocks5Server.close k s
  | .stopRemove k => StopSocks5Server.remove k s

/-- Process after a sequence of steps. -/
def Proc.run (s : Proc) (acts : List Step) : Proc :=
  acts.foldl Proc.step s

/-- A run with two servers, both started, in which a `StopSocks5Server`
call on the first goes through its three parts while the worker of the
second enters its loop in between. -/
def stopPairRun : List Step :=
  [.act (.create Lib.accepting 1080 "user" "pass" 7),
   .act (.create Lib.accepting 1081 "" "" 7),
   .act (.start 1 7), .act (.start 2 7), .act (.workerEnter 0),
   .stopLookup 1 7, .act (.workerEnter 1), .stopClose 0, .stopRemove 0]

end socks5lib

/-! ## The lock `tasksMu`, statement by statement

The model of `Core` takes each critical section as one step.  Here
`StopTask` and `finishTask` are followed statement by statement, with the
mutex as a piece of state (`holder`), to justify that reading: a thread
that stands at `tasksMu.Lock()` can take its step only while nobody holds
the mutex. -/

namespace tasksMu

/-- Where a `StopTask` call stands: before `tasksMu.Lock()`, before the
lookup and `delete`, before `tasksMu.Unlock()`, before `if !ok`, before
`entry.cancel()`, before `<-entry.done`, before the final `sendToPort`, or
returned. -/
inductive StopAt where
  | atLock
  | atLookup
  | atUnlock
  | atBranch
  | atCancel
  | atWait
  | atReport
  | returned
deriving DecidableEq, Repr

/-- Where a `finishTask` call stands: before `tasksMu.Lock()`, before the
`if` statement, before `tasksMu.Unlock()`, or returned. -/
inductive FinishAt where
  | atLock
  | atBody
  | atUnlock
  | returned
deriving DecidableEq, Repr

/-- A call in flight: `StopTask` with its locals `id`, `p`, `entry` (`ok`
is whether `entry` is there), or `finishTask` with its argument. -/
inductive Thread where
  | stop (id p : Int) (entry : Option taskRec) (pc : StopAt)
  | finish (id : Int) (pc : FinishAt)
deriving DecidableEq, Repr

/-- Whether the thread stands between its `Lock()` and its `Unlock()`. -/
def Thread.inCritical : Thread → Bool
  | Thread.stop _ _ _ pc => pc = StopAt.atLookup || pc = StopAt.atUnlock
  | Thread.finish _ pc => pc = FinishAt.atBody || pc = FinishAt.atUnlock

/-- Whether the thread stands at `entry.cancel()` or at `<-entry.done`. -/
def Thread.cancelsOrWaits : Thread → Bool
  | Thread.stop _ _ _ pc => pc = StopAt.atCancel || pc = StopAt.atWait
  | Thread.finish _ _ => false

/-- The process: the registry, the thread holding `tasksMu` if any, and
the calls in flight. -/
structure State where
  core : Core
  holder : Option Nat
  threads : Nat → Option Thread
  nextThread : Nat

/-- State at process start. -/
def State.init : State where
  core := Core.init
  holder := none
  threads := fun _ => none
  nextThread := 0

/-- Thread `k` becomes `t`. -/
def State.setThread (s : State) (k : Nat) (t : Thread) : State :=
  { s with threads := fun j => if j = k then some t else s.threads j }

/-- A new call enters as thread `nextThread`. -/
def State.spawn (s : State) (t : Thread) : State :=
  { s with
    threads := fun j => if j = s.nextThread then some t else s.threads j
    nextThread := s.nextThread + 1 }

/-- Next statement of a `StopTask` call that is thread `k`; a statement
that cannot proceed (`Lock()` on a held mutex, `<-entry.done` on an open
channel) leaves the state as it is. -/
def runStop (k : Nat) (id p : Int) (entry : Option taskRec) (pc : StopAt) (s : State) :
    State :=
  match pc with
  | StopAt.atLock =>
    if s.holder = none then
      { s.setThread k (Thread.stop id p entry StopAt.atLookup) with holder := some k }
    else s
  | StopAt.atLookup =>
    { s.setThread k (Thread.stop id p (StopTask.locked id s.core).1 StopAt.atUnlock) with
      core := (StopTask.locked id s.core).2 }
  | StopAt.atUnlock =>
    { s.setThread k (Thread.stop id p entry StopAt.atBranch) with holder := none }
  | StopAt.atBranch =>
    match entry with
    | none =>
      { s.setThread k (Thread.stop id p entry StopAt.returned) with
        core := sendToPort p (stopNotFound id) s.core }
    | some _ => s.setThread k (Thread.stop id p entry StopAt.atCancel)
  | StopAt.atCancel =>
    match entry with
    | some e =>
      { s.setThread k (Thread.stop id p entry StopAt.atWait) with
        core := callCancel e.cancel s.core }
    | none => s
  | StopAt.atWait =>
    match entry with
    | some e =>
      if chanClosed e.done s.core = true then
        s.setThread k (Thread.stop id p entry StopAt.atReport)
      else s
    | none => s
  | StopAt.atReport =>
    { s.setThread k (Thread.stop id p entry StopAt.returned) with
      core := sendToPort p (stopSuccess id) s.core }
  | StopAt.returned => s

/-- Next statement of a `finishTask` call that is thread `k`. -/
def runFinish (k : Nat) (id : Int) (pc : FinishAt) (s : State) : State :=
  match pc with
  | FinishAt.atLock =>
    if s.holder = none then
      { s.setThread k (Thread.finish id FinishAt.atBody) with holder := some k }
    else s
  | FinishAt.atBody =>
    { s.setThread k (Thread.finish id FinishAt.atUnlock) with core := finishTask id s.core }
  | FinishAt.atUnlock =>
    { s.setThread k (Thread.finish id FinishAt.returned) with holder := none }
  | FinishAt.returned => s

/-- Thread `k` executes its next statement. -/
def runThread (k : Nat) (s : State) : State :=
  match s.threads k with
  | some (Thread.stop id p entry pc) => runStop k id p entry pc s
  | some (Thread.finish id pc) => runFinish k id pc s
  | none => s

/-- Steps of the process: a runner registers a task, `StopTask` is
called, a worker reaches its deferred `finishTask`, or a thread executes
its next statement. -/
inductive Action where
  | register
  | callStop (taskID port : Int)
  | callFinish (id : Int)
  | run (k : Nat)
deriving DecidableEq, Repr

/-- One step of the process; after a crash nothing runs. -/
def State.step (s : State) (a : Action) : State :=
  if s.core.crashed.isSome then s else
  match a with
  | Action.register => { s with core := (register s.core).2 }
  | Action.callStop taskID port =>
    s.spawn (Thread.stop taskID (getPortOrDefault port s.core) none StopAt.atLock)
  | Action.callFinish id => s.spawn (Thread.finish id FinishAt.atLock)
  | Action.run k => runThread k s

/-- State after a sequence of steps. -/
def State.run (s : State) (acts : List Action) : State :=
  acts.foldl State.step s

/-- What every reachable state satisfies: the holder of `tasksMu` is a
thread inside its critical section, and a thread inside its critical
section is the holder. -/
structure State.Inv (s : State) : Prop where
  held : ∀ k, s.holder = some k → ∃ t, s.threads k = some t ∧ t.inCritical = true
  owner : ∀ k t, s.threads k = some t → t.inCritical = true → s.holder = some k
  fresh : ∀ k, s.nextThread ≤ k → s.threads k = none

/-- A run in which `StopTask(1)` takes the record, a worker's `finishTask(1)`
goes through its critical section, and the `StopTask` call reaches its
wait. -/
def sampleRun : List Action :=
  [.register, .callStop 1 7, .callFinish 1, .run 0, .run 1, .run 0, .run 0, .run 1, .run 1,
   .run 1, .run 0, .run 0, .run 0]

end tasksMu

/-- A `portforward` run with two `StartForwardPorts` on the same live
ResourceID: both workers enter their loop, then both loops return. -/
def portforward.twoStarts : List portforward.Action :=
  [.create portforward.Lib.accepting "https://cluster/api" "8080:80" none 7,
   .start 1 7, .start 1 7, .workerEnter 0, .workerEnter 1,
   .workerExit 0 (Outcome.ok ()), .workerExit 1 (Outcome.ok ())]

/-! ## Invariant of the task registry -/

/-- What every reachable state of the task registry satisfies.  Handles in
the map are allocated, open, not yet cancelled and pairwise distinct; the
record of a `StopTask` frame is no longer in the map and its `done`
channel is open. -/
structure Core.Inv (s : Core) : Prop where
  crashed : s.crashed = none
  closes_le : ∀ c, s.closes c ≤ 1
  closes_fresh : ∀ c, s.nextChan ≤ c → s.closes c = 0
  cancels_le : ∀ c, s.cancels c ≤ 1
  cancels_fresh : ∀ c, s.nextCtx ≤ c → s.cancels c = 0
  deletes_le : ∀ r, s.deletes r ≤ 1
  deletes_fresh : ∀ r : taskRec, s.nextChan ≤ r.done → s.deletes r = 0
  task_ok : ∀ id e, s.tasks id = some e →
    e.done < s.nextChan ∧ e.cancel < s.nextCtx ∧ s.closes e.done = 0
      ∧ s.cancels e.cancel = 0 ∧ s.deletes e = 0
  task_inj : ∀ id id2 e e2, s.tasks id = some e → s.tasks id2 = some e2 →
    (e.done = e2.done ∨ e.cancel = e2.cancel) → id = id2
  call_ok : ∀ k f, s.stopCalls k = some f →
    k < s.nextCall ∧ f.entry.done < s.nextChan ∧ f.entry.cancel < s.nextCtx
      ∧ s.closes f.entry.done = 0
      ∧ (f.pc = StopPC.atCancel → s.cancels f.entry.cancel = 0)
      ∧ f.pc ≠ StopPC.returned
  call_task : ∀ k f id e, s.stopCalls k = some f → s.tasks id = some e →
    e.done ≠ f.entry.done ∧ e.cancel ≠ f.entry.cancel
  call_inj : ∀ k k2 f f2, s.stopCalls k = some f → s.stopCalls k2 = some f2 →
    f.entry.cancel = f2.entry.cancel → k = k2

/-- Counter bound used to rule out `int64` overflow: after at most `n`
steps `nextTask` lies in `[0, n]` and the keys of `tasks` lie in
`[1, nextTask]`. -/
structure Core.Bnd (s : Core) (n : Int) : Prop where
  lo : 0 ≤ s.nextTask
  hi : s.nextTask ≤ n
  keys : ∀ id e, s.tasks id = some e → 1 ≤ id ∧ id ≤ s.nextTask

/-- Relation between the task-registry state before and after a step that
registers no task and reports no fresh ResourceID of the operations
`ops`: the counter is unchanged, the map can only lose keys, and the
reported IDs are the same. -/
structure Core.Shrink (ops : List String) (s t : Core) : Prop where
  nextTask : t.nextTask = s.nextTask
  tasks : ∀ j e, t.tasks j = some e → s.tasks j = some e
  ids : reportedIDs ops t.sent = reportedIDs ops s.sent

/-- Counter bound of a resource module after at most `n` steps, over its
task registry `c`, the key set `present` of its resource registry and
its resource counter `next`: both counters lie in `[0, n]`, the keys of
both maps lie between 1 and their counter, and the ResourceIDs reported by
the operations `ops` are strictly increasing and at most `next`. -/
structure ResBnd (ops : List String) (c : Core) (present : Int → Prop) (next : Int)
    (n : Int) : Prop where
  core : c.Bnd n
  lo : 0 ≤ next
  hi : next ≤ n
  keys : ∀ id, present id → 1 ≤ id ∧ id ≤ next
  sorted : (reportedIDs ops c.sent).Pairwise (fun a b => a < b)
  ids_le : ∀ i ∈ reportedIDs ops c.sent, 1 ≤ i ∧ i ≤ next

/-- Counter bound of the `portforward` process. -/
def portforward.State.Bnd (s : portforward.State) (n : Int) : Prop :=
  ResBnd portforward.createOps s.core (fun id => (s.portForwarders id).isSome = true)
    s.nextPFID n

/-- Counter bound of the `socks5lib` process. -/
def socks5lib.State.Bnd (s : socks5lib.State) (n : Int) : Prop :=
  ResBnd socks5lib.createOps s.core (fun id => (s.socks5Servers id).isSome = true)
    s.nextSrvID n

/-- Counter bound of the `socks5lib2` process. -/
def socks5lib2.State.Bnd (s : socks5lib2.State) (n : Int) : Prop :=
  ResBnd socks5lib2.createOps s.core (fun id => (s.socks5Servers id).isSome = true)
    s.nextSrvID n

/-- A step of `portforward` that registers no task and creates no
resource: see `Core.Shrink`; the resource counter is unchanged and the
resource registry can only lose keys. -/
def portforward.Quiet (s t : portforward.State) : Prop :=
  Core.Shrink portforward.createOps s.core t.core ∧ t.nextPFID = s.nextPFID
    ∧ ∀ id w, t.portForwarders id = some w → s.portForwarders id = some w

/-- A step of `socks5lib` that registers no task and creates no resource. -/
def socks5lib.Quiet (s t : socks5lib.State) : Prop :=
  Core.Shrink socks5lib.createOps s.core t.core ∧ t.nextSrvID = s.nextSrvID
    ∧ ∀ id w, t.socks5Servers id = some w → s.socks5Servers id = some w

/-- A step of `socks5lib2` that registers no task and creates no
resource. -/
def socks5lib2.Quiet (s t : socks5lib2.State) : Prop :=
  Core.Shrink socks5lib2.createOps s.core t.core ∧ t.nextSrvID = s.nextSrvID
    ∧ ∀ id w, t.socks5Servers id = some w → s.socks5Servers id = some w

/-- Relation between the task-registry state before and after a step that
closes no channel, ends no process and adds no task: `crashed` and the
close counts are unchanged, channels may have been allocated, the map can
only lose keys. -/
structure Core.Keep (c t : Core) : Prop where
  crashed : t.crashed = c.crashed
  closes : t.closes = c.closes
  nextChan : c.nextChan ≤ t.nextChan
  tasks : ∀ j e, t.tasks j = some e → c.tasks j = some e

/-- What every reachable state of `portforward` satisfies.  The process
has not crashed; the `done` channel of every registered task is allocated,
open and its own; every registered wrapper sits under its own `ID`, its
`StopChan` is allocated and open, and no two registered wrappers share a
`StopChan` or a forwarder; no `StopChan` of a registered wrapper or of a
worker is the `done` channel of a registered task; and a registered
wrapper that shares its `StopChan` with a worker's wrapper is registered
under that wrapper's `ID`. -/
structure portforward.State.Inv (s : portforward.State) : Prop where
  crashed : s.core.crashed = none
  closes_fresh : ∀ c, s.core.nextChan ≤ c → s.core.closes c = 0
  task_ok : ∀ id e, s.core.tasks id = some e →
    e.done < s.core.nextChan ∧ s.core.closes e.done = 0
  task_inj : ∀ id id2 e e2, s.core.tasks id = some e → s.core.tasks id2 = some e2 →
    e.done = e2.done → id = id2
  reg_ok : ∀ id w, s.portForwarders id = some w →
    w.ID = id ∧ w.StopChan < s.core.nextChan ∧ s.core.closes w.StopChan = 0
      ∧ w.PF < s.nextObj
  reg_inj : ∀ id id2 w w2, s.portForwarders id = some w → s.portForwarders id2 = some w2 →
    (w.StopChan = w2.StopChan ∨ w.PF = w2.PF) → id = id2
  reg_task : ∀ id w tid e, s.portForwarders id = some w → s.core.tasks tid = some e →
    e.done ≠ w.StopChan
  wk_ok : ∀ k wk, s.workers k = some wk →
    wk.w.StopChan < s.core.nextChan ∧ wk.w.PF < s.nextObj
  wk_task : ∀ k wk tid e, s.workers k = some wk → s.core.tasks tid = some e →
    e.done ≠ wk.w.StopChan
  wk_reg : ∀ k wk id w, s.workers k = some wk → s.portForwarders id = some w →
    (w.StopChan = wk.w.StopChan ∨ w.PF = wk.w.PF) → id = wk.w.ID

/-- What every reachable state of `socks5lib` satisfies: as for
`portforward`, without the conditions on workers, whose cleanup closes no
channel. -/
structure socks5lib.State.Inv (s : socks5lib.State) : Prop where
  crashed : s.core.crashed = none
  closes_fresh : ∀ c, s.core.nextChan ≤ c → s.core.closes c = 0
  task_ok : ∀ id e, s.core.tasks id = some e →
    e.done < s.core.nextChan ∧ s.core.closes e.done = 0
  task_inj : ∀ id id2 e e2, s.core.tasks id = some e → s.core.tasks id2 = some e2 →
    e.done = e2.done → id = id2
  reg_ok : ∀ id w, s.socks5Servers id = some w →
    w.ID = id ∧ w.StopChan < s.core.nextChan ∧ s.core.closes w.StopChan = 0
      ∧ w.Server < s.nextObj
  reg_inj : ∀ id id2 w w2, s.socks5Servers id = some w → s.socks5Servers id2 = some w2 →
    (w.StopChan = w2.StopChan ∨ w.Server = w2.Server) → id = id2
  reg_task : ∀ id w tid e, s.socks5Servers id = some w → s.core.tasks tid = some e →
    e.done ≠ w.StopChan

/-- What every reachable state of `socks5lib2` satisfies: the process has
not crashed, the `done` channel of every registered task is allocated,
open and its own, and every registered wrapper sits under its own `ID`
with a server of its own. -/
structure socks5lib2.State.Inv (s : socks5lib2.State) : Prop where
  crashed : s.core.crashed = none
  closes_fresh : ∀ c, s.core.nextChan ≤ c → s.core.closes c = 0
  task_ok : ∀ id e, s.core.tasks id = some e →
    e.done < s.core.nextChan ∧ s.core.closes e.done = 0
  task_inj : ∀ id id2 e e2, s.core.tasks id = some e → s.core.tasks id2 = some e2 →
    e.done = e2.done → id = id2
  reg_ok : ∀ id w, s.socks5Servers id = some w → w.ID = id ∧ w.Server < s.nextObj
  reg_inj : ∀ id id2 w w2, s.socks5Servers id = some w → s.socks5Servers id2 = some w2 →
    w.Server = w2.Server → id = id2


/-! ## Invariant of the processes with Stop followed statement by statement -/

/-- How a step of `portforward` changes what is allocated and registered:
the channel and object counters do not decrease; a task of the new state
is a task of the old one or holds a channel allocated by the step, and
then no wrapper was registered by the step; a registered wrapper of the new
state was registered before or sits under its own `ID` with a stop channel
and a forwarder allocated by the step, and then no task was added and no
other key was registered by the step. -/
structure portforward.Grow (s t : portforward.State) : Prop where
  chan : s.core.nextChan ≤ t.core.nextChan
  obj : s.nextObj ≤ t.nextObj
  tasks : ∀ tid e, t.core.tasks tid = some e →
    s.core.tasks tid = some e
    ∨ (s.core.nextChan ≤ e.done ∧ e.done < t.core.nextChan
        ∧ ∀ id w, t.portForwarders id = some w → s.portForwarders id = some w)
  regs : ∀ id w, t.portForwarders id = some w →
    s.portForwarders id = some w
    ∨ (w.ID = id ∧ s.core.nextChan ≤ w.StopChan ∧ w.StopChan < t.core.nextChan
        ∧ s.nextObj ≤ w.PF ∧ w.PF < t.nextObj
        ∧ (∀ tid e, t.core.tasks tid = some e → s.core.tasks tid = some e)
        ∧ ∀ id2 w2, t.portForwarders id2 = some w2 →
            s.portForwarders id2 = some w2 ∨ id2 = id)

/-- What every state of `portforward` reached with Stop followed statement
by statement satisfies.  The `done` channel of every registered task is
allocated; every registered wrapper sits under its own `ID` with an
allocated stop channel and forwarder, no two registered wrappers share a
stop channel or a forwarder, and no stop channel of a registered wrapper is
the `done` channel of a registered task; the same holds of the wrapper held
by the frame of a `StopForwardPorts` call, which a registered wrapper can
share a channel or a forwarder with only under the `id` of the frame. -/
structure portforward.Proc.Inv (s : portforward.Proc) : Prop where
  task_lt : ∀ tid e, s.st.core.tasks tid = some e → e.done < s.st.core.nextChan
  reg_ok : ∀ id w, s.st.portForwarders id = some w →
    w.ID = id ∧ w.StopChan < s.st.core.nextChan ∧ w.PF < s.st.nextObj
  reg_inj : ∀ id id2 w w2, s.st.portForwarders id = some w →
    s.st.portForwarders id2 = some w2 →
    (w.StopChan = w2.StopChan ∨ w.PF = w2.PF) → id = id2
  reg_task : ∀ id w tid e, s.st.portForwarders id = some w → s.st.core.tasks tid = some e →
    e.done ≠ w.StopChan
  frame_ok : ∀ k f, s.stops k = some f →
    k < s.nextStop ∧ f.wrapper.ID = f.id ∧ f.wrapper.StopChan < s.st.core.nextChan
      ∧ f.wrapper.PF < s.st.nextObj
  frame_task : ∀ k f tid e, s.stops k = some f → s.st.core.tasks tid = some e →
    e.done ≠ f.wrapper.StopChan
  frame_reg : ∀ k f id w, s.stops k = some f → s.st.portForwarders id = some w →
    (w.StopChan = f.wrapper.StopChan ∨ w.PF = f.wrapper.PF) → id = f.id

/-- How a step of `socks5lib` changes what is allocated and registered:
as `portforward.Grow`. -/
structure socks5lib.Grow (s t : socks5lib.State) : Prop where
  chan : s.core.nextChan ≤ t.core.nextChan
  obj : s.nextObj ≤ t.nextObj
  tasks : ∀ tid e, t.core.tasks tid = some e →
    s.core.tasks tid = some e
    ∨ (s.core.nextChan ≤ e.done ∧ e.done < t.core.nextChan
        ∧ ∀ id w, t.socks5Servers id = some w → s.socks5Servers id = some w)
  regs : ∀ id w, t.socks5Servers id = some w →
    s.socks5Servers id = some w
    ∨ (w.ID = id ∧ s.core.nextChan ≤ w.StopChan ∧ w.StopChan < t.core.nextChan
        ∧ s.nextObj ≤ w.Server ∧ w.Server < t.nextObj
        ∧ (∀ tid e, t.core.tasks tid = some e → s.core.tasks tid = some e)
        ∧ ∀ id2 w2, t.socks5Servers id2 = some w2 →
            s.socks5Servers id2 = some w2 ∨ id2 = id)

/-- What every state of `socks5lib` reached with Stop followed statement
by statement satisfies: as `portforward.Proc.Inv`. -/
structure socks5lib.Proc.Inv (s : socks5lib.Proc) : Prop where
  task_lt : ∀ tid e, s.st.core.tasks tid = some e → e.done < s.st.core.nextChan
  reg_ok : ∀ id w, s.st.socks5Servers id = some w →
    w.ID = id ∧ w.StopChan < s.st.core.nextChan ∧ w.Server < s.st.nextObj
  reg_inj : ∀ id id2 w w2, s.st.socks5Servers id = some w →
    s.st.socks5Servers id2 = some w2 →
    (w.StopChan = w2.StopChan ∨ w.Server = w2.Server) → id = id2
  reg_task : ∀ id w tid e, s.st.socks5Servers id = some w → s.st.core.tasks tid = some e →
    e.done ≠ w.StopChan
  frame_ok : ∀ k f, s.stops k = some f →
    k < s.nextStop ∧ f.wrapper.ID = f.id ∧ f.wrapper.StopChan < s.st.core.nextChan
      ∧ f.wrapper.Server < s.st.nextObj
  frame_task : ∀ k f tid e, s.stops k = some f → s.st.core.tasks tid = some e →
    e.done ≠ f.wrapper.StopChan
  frame_reg : ∀ k f id w, s.stops k = some f → s.st.socks5Servers id = some w →
    (w.StopChan = f.wrapper.StopChan ∨ w.Server = f.wrapper.Server) → id = f.id
/-! ## The invariant holds in every reachable state -/

theorem Core.Inv.inv_init : Core.init.Inv := by
  constructor <;> simp [Core.init]

theorem Core.Inv.inv_register {s : Core} (h : s.Inv) : (register s).2.Inv := by
  have ht := h.task_ok
  have hi := h.task_inj
  have hc := h.call_ok
  have hct := h.call_task
  constructor
  · simpa [Socketify.register, addTask, makeChan, withCancel] using h.crashed
  · simpa [Socketify.register, addTask, makeChan, withCancel] using h.closes_le
  · intro c hc
    simp only [Socketify.register, addTask, makeChan, withCancel] at hc ⊢
    exact h.closes_fresh c (by omega)
  · simpa [Socketify.register, addTask, makeChan, withCancel] using h.cancels_le
  · intro c hc
    simp only [Socketify.register, addTask, makeChan, withCancel] at hc ⊢
    exact h.cancels_fresh c (by omega)
  · simpa [Socketify.register, addTask, makeChan, withCancel] using h.deletes_le
  · intro r hr
    simp only [Socketify.register, addTask, makeChan, withCancel] at hr ⊢
    exact h.deletes_fresh r (by omega)
  · intro id e he
    simp only [Socketify.register, addTask, makeChan, withCancel, GoMap.set] at he ⊢
    split_ifs at he with hid
    · cases he
      exact ⟨by simp, by simp, h.closes_fresh _ le_rfl, h.cancels_fresh _ le_rfl,
        h.deletes_fresh _ le_rfl⟩
    · have := ht id e he
      exact ⟨by omega, by omega, this.2.2.1, this.2.2.2.1, this.2.2.2.2⟩
  · intro id id2 e e2 he he2 hd
    simp only [Socketify.register, addTask, makeChan, withCancel, GoMap.set] at he he2
    split_ifs at he he2 with h1 h2 h2
    · rw [h1, h2]
    · cases he
      have := ht id2 e2 he2
      simp only at hd
      omega
    · cases he2
      have := ht id e he
      simp only at hd
      omega
    · exact hi id id2 e e2 he he2 hd
  · intro k f hf
    simp only [Socketify.register, addTask, makeChan, withCancel] at hf ⊢
    have := hc k f hf
    exact ⟨this.1, by omega, by omega, this.2.2.2.1, this.2.2.2.2.1, this.2.2.2.2.2⟩
  · intro k f id e hf he
    simp only [Socketify.register, addTask, makeChan, withCancel, GoMap.set] at hf he
    split_ifs at he with h1
    · cases he
      have := hc k f hf
      simp only
      omega
    · exact hct k f id e hf he
  · simpa [Socketify.register, addTask, makeChan, withCancel] using h.call_inj

theorem finishTask_absent {s : Core} {id : Int} (h : s.tasks id = none) :
    finishTask id s = s := by
  simp [finishTask, h]

theorem finishTask_open {s : Core} {id : Int} {e : taskRec} (h : s.tasks id = some e)
    (ho : s.closes e.done = 0) :
    finishTask id s =
      { s with
        closes := fun j => if j = e.done then s.closes e.done + 1 else s.closes j
        tasks := s.tasks.delete id
        deletes := fun r => if r = e then s.deletes e + 1 else s.deletes r } := by
  simp [finishTask, h, closeChan, ho, deleteTask]

theorem Core.Inv.inv_finishTask {s : Core} (h : s.Inv) (id : Int) : (finishTask id s).Inv := by
  cases hid : s.tasks id with
  | none => rw [finishTask_absent hid]; exact h
  | some e =>
    have ht := h.task_ok
    have hi := h.task_inj
    have hc := h.call_ok
    have hct := h.call_task
    have he := ht id e hid
    rw [finishTask_open hid he.2.2.1]
    constructor
    · exact h.crashed
    · intro c
      simp only
      split_ifs with h1
      · omega
      · exact h.closes_le c
    · intro c hcc
      simp only at hcc ⊢
      split_ifs with h1
      · omega
      · exact h.closes_fresh c hcc
    · exact h.cancels_le
    · exact h.cancels_fresh
    · intro r
      simp only
      split_ifs with h1
      · omega
      · exact h.deletes_le r
    · intro r hr
      simp only at hr ⊢
      split_ifs with h1
      · subst h1; omega
      · exact h.deletes_fresh r hr
    · intro id2 e2 he2
      simp only [GoMap.delete] at he2 ⊢
      split_ifs at he2 with h1
      have h2 := ht id2 e2 he2
      have hne : e2.done ≠ e.done := fun hd => h1 (hi id2 id e2 e he2 hid (Or.inl hd))
      have hne2 : e2 ≠ e := fun hd => hne (by rw [hd])
      simp only [hne, hne2, if_false]
      exact h2
    · intro id1 id2 e1 e2 he1 he2 hd
      simp only [GoMap.delete] at he1 he2
      split_ifs at he1 he2 with h1 h2
      exact hi id1 id2 e1 e2 he1 he2 hd
    · intro k f hf
      simp only at hf ⊢
      have h2 := hc k f hf
      have hne : f.entry.done ≠ e.done := fun hd => (hct k f id e hf hid).1 hd.symm
      simp only [hne, if_false]
      exact h2
    · intro k f id2 e2 hf he2
      simp only [GoMap.delete] at hf he2
      split_ifs at he2 with h1
      exact hct k f id2 e2 hf he2
    · exact h.call_inj

theorem StopTask.enter_absent {s : Core} {id port : Int} (h : s.tasks id = none) :
    StopTask.enter id port s = sendToPort (getPortOrDefault port s) (stopNotFound id) s := by
  simp [StopTask.enter, StopTask.locked, h]

theorem StopTask.enter_found {s : Core} {id port : Int} {e : taskRec}
    (h : s.tasks id = some e) :
    StopTask.enter id port s =
      { s with
        tasks := s.tasks.delete id
        deletes := fun r => if r = e then s.deletes e + 1 else s.deletes r
        stopCalls := fun k =>
          if k = s.nextCall then
            some { id := id, p := getPortOrDefault port s, entry := e, pc := StopPC.atCancel }
          else s.stopCalls k
        nextCall := s.nextCall + 1 } := by
  simp [StopTask.enter, StopTask.locked, h, deleteTask]

theorem Core.Inv.inv_sendToPort {s : Core} (h : s.Inv) (p : Int) (r : simpleResp) :
    (sendToPort p r s).Inv := by
  obtain ⟨h1, h2, h3, h4, h5, h6, h7, h8, h9, h10, h11, h12⟩ := h
  exact ⟨h1, h2, h3, h4, h5, h6, h7, h8, h9, h10, h11, h12⟩

theorem Core.Inv.inv_stopEnter {s : Core} (h : s.Inv) (id port : Int) :
    (StopTask.enter id port s).Inv := by
  cases hid : s.tasks id with
  | none => rw [StopTask.enter_absent hid]; exact h.inv_sendToPort _ _
  | some e =>
    have ht := h.task_ok
    have hi := h.task_inj
    have hc := h.call_ok
    have hct := h.call_task
    have he := ht id e hid
    rw [StopTask.enter_found hid]
    constructor
    · exact h.crashed
    · exact h.closes_le
    · exact h.closes_fresh
    · exact h.cancels_le
    · exact h.cancels_fresh
    · intro r
      simp only
      split_ifs with h1
      · omega
      · exact h.deletes_le r
    · intro r hr
      simp only at hr ⊢
      split_ifs with h1
      · subst h1; omega
      · exact h.deletes_fresh r hr
    · intro id2 e2 he2
      simp only [GoMap.delete] at he2 ⊢
      split_ifs at he2 with h1
      have h2 := ht id2 e2 he2
      have hne : e2.done ≠ e.done := fun hd => h1 (hi id2 id e2 e he2 hid (Or.inl hd))
      have hne2 : e2 ≠ e := fun hd => hne (by rw [hd])
      simp only [hne2, if_false]
      exact h2
    · intro id1 id2 e1 e2 he1 he2 hd
      simp only [GoMap.delete] at he1 he2
      split_ifs at he1 he2 with h1 h2
      exact hi id1 id2 e1 e2 he1 he2 hd
    · intro k f hf
      simp only at hf ⊢
      split_ifs at hf with h1
      · cases hf
        simp only
        exact ⟨by omega, he.1, he.2.1, he.2.2.1, fun _ => he.2.2.2.1, by simp⟩
      · have h2 := hc k f hf
        exact ⟨by omega, h2.2.1, h2.2.2.1, h2.2.2.2.1, h2.2.2.2.2.1, h2.2.2.2.2.2⟩
    · intro k f id2 e2 hf he2
      simp only [GoMap.delete] at hf he2
      split_ifs at he2 with h1
      split_ifs at hf with h2
      · cases hf
        simp only
        exact ⟨fun hd => h1 (hi id2 id e2 e he2 hid (Or.inl hd)),
          fun hd => h1 (hi id2 id e2 e he2 hid (Or.inr hd))⟩
      · exact hct k f id2 e2 hf he2
    · intro k k2 f f2 hf hf2 hd
      simp only at hf hf2
      split_ifs at hf hf2 with h1 h2 h2
      · rw [h1, h2]
      · cases hf
        exact absurd hd.symm (hct k2 f2 id e hf2 hid).2.symm
      · cases hf2
        exact absurd hd (hct k f id e hf hid).2.symm
      · exact h.call_inj k k2 f f2 hf hf2 hd

theorem Core.Inv.inv_stopCancel {s : Core} (h : s.Inv) (k : Nat) : (StopTask.cancel k s).Inv := by
  cases hk : s.stopCalls k with
  | none => simp only [StopTask.cancel, hk]; exact h
  | some f =>
    simp only [StopTask.cancel, hk]
    split_ifs with hpc
    swap
    · exact h
    have ht := h.task_ok
    have hc := h.call_ok
    have hct := h.call_task
    have hf := hc k f hk
    have hf0 := hf.2.2.2.2.1 hpc
    simp only [callCancel]
    constructor
    · exact h.crashed
    · exact h.closes_le
    · exact h.closes_fresh
    · intro c
      simp only
      split_ifs with h1
      · omega
      · exact h.cancels_le c
    · intro c hcc
      simp only at hcc ⊢
      split_ifs with h1
      · omega
      · exact h.cancels_fresh c hcc
    · exact h.deletes_le
    · exact h.deletes_fresh
    · intro id e he
      simp only at he ⊢
      have h2 := ht id e he
      have hne : e.cancel ≠ f.entry.cancel := (hct k f id e hk he).2
      simp only [hne, if_false]
      exact h2
    · exact h.task_inj
    · intro j g hg
      simp only at hg ⊢
      split_ifs at hg with h1
      · cases hg
        simp only
        exact ⟨by omega, hf.2.1, hf.2.2.1, hf.2.2.2.1, by simp, by simp⟩
      · have h2 := hc j g hg
        have hne : g.entry.cancel ≠ f.entry.cancel :=
          fun hd => h1 (h.call_inj j k g f hg hk hd)
        simp only [hne, if_false]
        exact h2
    · intro j g id e hg he
      simp only at hg he
      split_ifs at hg with h1
      · cases hg
        exact hct k f id e hk he
      · exact hct j g id e hg he
    · intro j j2 g g2 hg hg2 hd
      simp only at hg hg2
      split_ifs at hg hg2 with h1 h2 h2
      · rw [h1, h2]
      · cases hg
        exact absurd (h.call_inj k j2 f g2 hk hg2 hd).symm h2
      · cases hg2
        exact absurd (h.call_inj j k g f hg hk hd) h1
      · exact h.call_inj j j2 g g2 hg hg2 hd

/-- Under the invariant the `done` channel of a frame is open, so the wake
step leaves the caller blocked. -/
theorem StopTask.wake_blocked {s : Core} (h : s.Inv) (k : Nat) : StopTask.wake k s = s := by
  cases hk : s.stopCalls k with
  | none => simp only [StopTask.wake, hk]
  | some f =>
    have hf := h.call_ok k f hk
    simp [StopTask.wake, hk, chanClosed, hf.2.2.2.1]

theorem Core.Inv.inv_registerPort {s : Core} (h : s.Inv) (p : Int) : (RegisterPort p s).Inv := by
  obtain ⟨h1, h2, h3, h4, h5, h6, h7, h8, h9, h10, h11, h12⟩ := h
  exact ⟨h1, h2, h3, h4, h5, h6, h7, h8, h9, h10, h11, h12⟩

theorem Core.Inv.inv_unregisterPort {s : Core} (h : s.Inv) : (UnregisterPort s).Inv := by
  obtain ⟨h1, h2, h3, h4, h5, h6, h7, h8, h9, h10, h11, h12⟩ := h
  unfold UnregisterPort
  simp only
  split_ifs
  · exact ⟨h1, h2, h3, h4, h5, h6, h7, h8, h9, h10, h11, h12⟩
  · exact ⟨h1, h2, h3, h4, h5, h6, h7, h8, h9, h10, h11, h12⟩

theorem Core.step_alive {s : Core} (h : s.crashed = none) (a : Action) :
    s.step a =
      match a with
      | .register => (register s).2
      | .finishTask id => finishTask id s
      | .stopEnter taskID port => StopTask.enter taskID port s
      | .stopCancel k => StopTask.cancel k s
      | .stopWake k => StopTask.wake k s
      | .registerPort port => RegisterPort port s
      | .unregisterPort => UnregisterPort s := by
  simp [Core.step, h]

theorem Core.Inv.inv_step {s : Core} (h : s.Inv) (a : Action) : (s.step a).Inv := by
  rw [Core.step_alive h.crashed]
  cases a with
  | register => exact h.inv_register
  | finishTask id => exact h.inv_finishTask id
  | stopEnter taskID port => exact h.inv_stopEnter taskID port
  | stopCancel k => exact h.inv_stopCancel k
  | stopWake k => simp only; rw [StopTask.wake_blocked h]; exact h
  | registerPort port => exact h.inv_registerPort port
  | unregisterPort => exact h.inv_unregisterPort

theorem Core.run_nil (s : Core) : s.run [] = s := rfl

theorem Core.run_cons (s : Core) (a : Action) (acts : List Action) :
    s.run (a :: acts) = (s.step a).run acts := rfl

theorem Core.run_append (s : Core) (xs ys : List Action) :
    s.run (xs ++ ys) = (s.run xs).run ys := by
  simp [Core.run, List.foldl_append]

theorem Core.Inv.inv_run {s : Core} (h : s.Inv) (acts : List Action) : (s.run acts).Inv := by
  induction acts generalizing s with
  | nil => exact h
  | cons a rest ih => exact ih (h.inv_step a)

/-! ## Counters without overflow -/

theorem wrapInt64_id {x : Int} (h1 : -(2 ^ 63) ≤ x) (h2 : x ≤ maxInt64) : wrapInt64 x = x := by
  unfold wrapInt64
  unfold maxInt64 at h2
  have : (x + 2 ^ 63) % 2 ^ 64 = x + 2 ^ 63 := Int.emod_eq_of_lt (by omega) (by omega)
  omega

theorem atomicAddInt64_succ {v : Int} (h1 : 0 ≤ v) (h2 : v < maxInt64) :
    atomicAddInt64 v 1 = v + 1 := by
  unfold atomicAddInt64
  unfold maxInt64 at h2
  exact wrapInt64_id (by omega) (by unfold maxInt64; omega)

theorem Core.Bnd.bnd_init : Core.init.Bnd 0 := by
  constructor <;> simp [Core.init]

theorem Core.Bnd.bnd_mono {s : Core} {n m : Int} (h : s.Bnd n) (hnm : n ≤ m) : s.Bnd m :=
  ⟨h.lo, le_trans h.hi hnm, h.keys⟩

theorem register_fst {s : Core} {n : Int} (h : s.Bnd n) (hn : n < maxInt64) :
    (register s).1 = s.nextTask + 1 := by
  have := atomicAddInt64_succ h.lo (lt_of_le_of_lt h.hi hn)
  simp [register, withCancel, addTask, makeChan, this]

theorem register_nextTask {s : Core} {n : Int} (h : s.Bnd n) (hn : n < maxInt64) :
    (register s).2.nextTask = s.nextTask + 1 := by
  have := atomicAddInt64_succ h.lo (lt_of_le_of_lt h.hi hn)
  simp [register, withCancel, addTask, makeChan, this]

theorem register_tasks {s : Core} {n : Int} (h : s.Bnd n) (hn : n < maxInt64) :
    (register s).2.tasks =
      s.tasks.set (s.nextTask + 1) { cancel := s.nextCtx, done := s.nextChan } := by
  have := atomicAddInt64_succ h.lo (lt_of_le_of_lt h.hi hn)
  simp [register, withCancel, addTask, makeChan, this]

theorem Core.Bnd.bnd_register {s : Core} {n : Int} (h : s.Bnd n) (hn : n < maxInt64) :
    (register s).2.Bnd (n + 1) := by
  have hk := h.keys
  have h1 := h.lo
  have h2 := h.hi
  constructor
  · rw [register_nextTask h hn]; omega
  · rw [register_nextTask h hn]; omega
  · intro id e he
    rw [register_nextTask h hn]
    rw [register_tasks h hn] at he
    simp only [GoMap.set] at he
    split_ifs at he with h3
    · omega
    · have := hk id e he
      omega

theorem finishTask_closed {s : Core} {id : Int} {e : taskRec} (h : s.tasks id = some e)
    (ho : s.closes e.done ≠ 0) :
    finishTask id s =
      { s with
        closes := fun j => if j = e.done then s.closes e.done + 1 else s.closes j
        crashed := some closeOfClosed } := by
  simp [finishTask, h, closeChan, ho]

theorem finishTask_nextTask (id : Int) (s : Core) : (finishTask id s).nextTask = s.nextTask := by
  cases hid : s.tasks id with
  | none => rw [finishTask_absent hid]
  | some e =>
    by_cases ho : s.closes e.done = 0
    · rw [finishTask_open hid ho]
    · rw [finishTask_closed hid ho]

theorem finishTask_tasks_sub (id : Int) (s : Core) (j : Int) (e : taskRec)
    (h : (finishTask id s).tasks j = some e) : s.tasks j = some e := by
  cases hid : s.tasks id with
  | none => rwa [finishTask_absent hid] at h
  | some e0 =>
    by_cases ho : s.closes e0.done = 0
    · rw [finishTask_open hid ho] at h
      simp only [GoMap.delete] at h
      split_ifs at h
      exact h
    · rw [finishTask_closed hid ho] at h
      exact h

theorem Core.Bnd.bnd_finishTask {s : Core} {n : Int} (h : s.Bnd n) (id : Int) :
    (finishTask id s).Bnd n := by
  constructor
  · rw [finishTask_nextTask]; exact h.lo
  · rw [finishTask_nextTask]; exact h.hi
  · intro j e he
    rw [finishTask_nextTask]
    exact h.keys j e (finishTask_tasks_sub id s j e he)

theorem StopTask.enter_nextTask (id port : Int) (s : Core) :
    (StopTask.enter id port s).nextTask = s.nextTask := by
  cases hid : s.tasks id with
  | none => rw [StopTask.enter_absent hid]; rfl
  | some e => rw [StopTask.enter_found hid]

theorem StopTask.enter_tasks (id port : Int) (s : Core) :
    (StopTask.enter id port s).tasks = s.tasks.delete id := by
  cases hid : s.tasks id with
  | none =>
    rw [StopTask.enter_absent hid]
    funext j
    simp only [sendToPort, GoMap.delete]
    split_ifs with h
    · rw [h, hid]
    · rfl
  | some e => rw [StopTask.enter_found hid]

theorem Core.Bnd.bnd_stopEnter {s : Core} {n : Int} (h : s.Bnd n) (id port : Int) :
    (StopTask.enter id port s).Bnd n := by
  constructor
  · rw [StopTask.enter_nextTask]; exact h.lo
  · rw [StopTask.enter_nextTask]; exact h.hi
  · intro j e he
    rw [StopTask.enter_nextTask]
    rw [StopTask.enter_tasks] at he
    simp only [GoMap.delete] at he
    split_ifs at he
    exact h.keys j e he

theorem StopTask.cancel_tasks (k : Nat) (s : Core) :
    (StopTask.cancel k s).tasks = s.tasks ∧ (StopTask.cancel k s).nextTask = s.nextTask := by
  unfold StopTask.cancel callCancel
  cases s.stopCalls k with
  | none => exact ⟨rfl, rfl⟩
  | some f =>
    simp only
    split_ifs <;> exact ⟨rfl, rfl⟩

theorem StopTask.wake_tasks (k : Nat) (s : Core) :
    (StopTask.wake k s).tasks = s.tasks ∧ (StopTask.wake k s).nextTask = s.nextTask := by
  unfold StopTask.wake Socketify.sendToPort
  cases s.stopCalls k with
  | none => exact ⟨rfl, rfl⟩
  | some f =>
    simp only
    split_ifs <;> exact ⟨rfl, rfl⟩

theorem Core.Bnd.bnd_stopCancel {s : Core} {n : Int} (h : s.Bnd n) (k : Nat) :
    (StopTask.cancel k s).Bnd n := by
  obtain ⟨h1, h2⟩ := StopTask.cancel_tasks k s
  constructor
  · rw [h2]; exact h.lo
  · rw [h2]; exact h.hi
  · rw [h1, h2]; exact h.keys

theorem Core.Bnd.bnd_stopWake {s : Core} {n : Int} (h : s.Bnd n) (k : Nat) :
    (StopTask.wake k s).Bnd n := by
  obtain ⟨h1, h2⟩ := StopTask.wake_tasks k s
  constructor
  · rw [h2]; exact h.lo
  · rw [h2]; exact h.hi
  · rw [h1, h2]; exact h.keys

theorem UnregisterPort_tasks (s : Core) :
    (UnregisterPort s).tasks = s.tasks ∧ (UnregisterPort s).nextTask = s.nextTask := by
  unfold UnregisterPort
  simp only
  split_ifs <;> exact ⟨rfl, rfl⟩

theorem Core.Bnd.bnd_step {s : Core} {n : Int} (h : s.Bnd n) (hn : n < maxInt64) (a : Action) :
    (s.step a).Bnd (n + 1) := by
  unfold Core.step
  split_ifs with hc
  · exact h.bnd_mono (by omega)
  cases a with
  | register => exact h.bnd_register hn
  | finishTask id => exact (h.bnd_finishTask id).bnd_mono (by omega)
  | stopEnter taskID port => exact (h.bnd_stopEnter taskID port).bnd_mono (by omega)
  | stopCancel k => exact (h.bnd_stopCancel k).bnd_mono (by omega)
  | stopWake k => exact (h.bnd_stopWake k).bnd_mono (by omega)
  | registerPort port => exact ⟨h.lo, by simp only [RegisterPort]; have := h.hi; omega, h.keys⟩
  | unregisterPort =>
    obtain ⟨h1, h2⟩ := UnregisterPort_tasks s
    exact ⟨by simp only [h2]; exact h.lo, by simp only [h2]; have := h.hi; omega,
      by simp only [h1, h2]; exact h.keys⟩

theorem Core.Bnd.bnd_run {s : Core} {n : Int} (h : s.Bnd n) (acts : List Action)
    (hn : n + acts.length ≤ maxInt64) : (s.run acts).Bnd (n + acts.length) := by
  induction acts generalizing s n with
  | nil => simpa using h
  | cons a rest ih =>
    simp only [List.length_cons, Nat.cast_add, Nat.cast_one] at hn ⊢
    have h1 := h.bnd_step (by omega) a
    have := ih h1 (by omega)
    rw [Core.run_cons]
    have e : n + (↑rest.length + 1) = n + 1 + ↑rest.length := by ring
    rw [e]
    exact this

theorem Core.step_nextTask {s : Core} {n : Int} (h : s.Bnd n) (hn : n < maxInt64) (a : Action) :
    (s.step a).nextTask =
      if a = Action.register ∧ s.crashed.isNone then s.nextTask + 1 else s.nextTask := by
  unfold Core.step
  split_ifs with hc h2 h2
  · simp [Option.isNone_iff_eq_none] at h2
    simp [h2.2] at hc
  · rfl
  · rw [h2.1]
    exact register_nextTask h hn
  · cases a with
    | register =>
      exfalso
      apply h2
      refine ⟨rfl, ?_⟩
      cases hcr : s.crashed with
      | none => rfl
      | some v => simp [hcr] at hc
    | finishTask id => exact finishTask_nextTask id s
    | stopEnter taskID port => exact StopTask.enter_nextTask taskID port s
    | stopCancel k => exact (StopTask.cancel_tasks k s).2
    | stopWake k => exact (StopTask.wake_tasks k s).2
    | registerPort port => rfl
    | unregisterPort => exact (UnregisterPort_tasks s).2

theorem Core.taskIDs_sorted {s : Core} {n : Int} (h : s.Bnd n) (acts : List Action)
    (hn : n + acts.length ≤ maxInt64) :
    (s.taskIDs acts).Pairwise (fun a b => a < b) ∧ ∀ i ∈ s.taskIDs acts, s.nextTask < i := by
  induction acts generalizing s n with
  | nil => simp [Core.taskIDs]
  | cons a rest ih =>
    simp only [List.length_cons, Nat.cast_add, Nat.cast_one] at hn
    have hn1 : n < maxInt64 := by omega
    obtain ⟨ih1, ih2⟩ := ih (h.bnd_step hn1 a) (by omega)
    have hst := Core.step_nextTask h hn1 a
    simp only [Core.taskIDs]
    split_ifs with hc
    · rw [if_pos hc] at hst
      rw [register_fst h hn1]
      simp only [List.singleton_append, List.pairwise_cons, List.mem_cons, forall_eq_or_imp]
      refine ⟨⟨fun i hi => ?_, ih1⟩, by omega, fun i hi => ?_⟩
      · have := ih2 i hi; omega
      · have := ih2 i hi; omega
    · rw [if_neg hc] at hst
      simp only [List.nil_append]
      refine ⟨ih1, fun i hi => ?_⟩
      have := ih2 i hi
      omega

/-- An ID at or below the counter that is absent stays absent: the map
only ever gains the key `nextTask + 1`. -/
theorem Core.absent_run {s : Core} {n : Int} (h : s.Bnd n) (acts : List Action)
    (hn : n + acts.length ≤ maxInt64) (id : Int) (hid : id ≤ s.nextTask)
    (habs : s.tasks id = none) : (s.run acts).tasks id = none := by
  induction acts generalizing s n with
  | nil => exact habs
  | cons a rest ih =>
    simp only [List.length_cons, Nat.cast_add, Nat.cast_one] at hn
    have hn1 : n < maxInt64 := by omega
    have hst := Core.step_nextTask h hn1 a
    rw [Core.run_cons]
    apply ih (h.bnd_step hn1 a) (by omega)
    · rw [hst]; split_ifs <;> omega
    · unfold Core.step
      split_ifs with hc
      · exact habs
      cases a with
      | register =>
        simp only
        rw [register_tasks h hn1]
        simp only [GoMap.set]
        split_ifs with h3
        · omega
        · exact habs
      | finishTask id2 =>
        simp only
        cases hx : (finishTask id2 s).tasks id with
        | none => rfl
        | some e =>
          have := finishTask_tasks_sub id2 s id e hx
          rw [habs] at this
          cases this
      | stopEnter taskID port =>
        simp only
        rw [StopTask.enter_tasks]
        simp only [GoMap.delete]
        split_ifs
        · rfl
        · exact habs
      | stopCancel k => simp only; rw [(StopTask.cancel_tasks k s).1]; exact habs
      | stopWake k => simp only; rw [(StopTask.wake_tasks k s).1]; exact habs
      | registerPort port => exact habs
      | unregisterPort => simp only; rw [(UnregisterPort_tasks s).1]; exact habs

theorem addTask_spec {s : Core} {n : Int} (h : s.Bnd n) (hn : n < maxInt64) (cancel : Nat) :
    (addTask cancel s).1 = s.nextTask + 1
    ∧ (addTask cancel s).2.nextTask = s.nextTask + 1
    ∧ (addTask cancel s).2.tasks =
        s.tasks.set (s.nextTask + 1) { cancel := cancel, done := s.nextChan }
    ∧ (addTask cancel s).2.closes = s.closes
    ∧ (addTask cancel s).2.crashed = s.crashed := by
  have := atomicAddInt64_succ h.lo (lt_of_le_of_lt h.hi hn)
  simp [addTask, makeChan, this]

/-- Under the invariant a step sends no success response: the only
responses of the registry steps are `stopNotFound`, the only success
response would be `stopSuccess` after a completed wait. -/
theorem Core.step_sent_no_success {s : Core} (h : s.Inv)
    (hs : ∀ m ∈ s.sent, ∀ r, m.2 = Msg.resp r → r.Success = false) (a : Action) :
    ∀ m ∈ (s.step a).sent, ∀ r, m.2 = Msg.resp r → r.Success = false := by
  rw [Core.step_alive h.crashed]
  cases a with
  | register => simpa [register, withCancel, addTask, makeChan] using hs
  | finishTask id =>
    simp only
    cases hid : s.tasks id with
    | none => rw [finishTask_absent hid]; exact hs
    | some e => rw [finishTask_open hid (h.task_ok id e hid).2.2.1]; exact hs
  | stopEnter taskID port =>
    simp only
    cases hid : s.tasks taskID with
    | none =>
      rw [StopTask.enter_absent hid]
      intro m hm r hr
      simp only [sendToPort, List.mem_append, List.mem_singleton] at hm
      rcases hm with hm | hm
      · exact hs m hm r hr
      · rw [hm] at hr
        simp only [Msg.resp.injEq] at hr
        rw [← hr]
        rfl
    | some e => rw [StopTask.enter_found hid]; exact hs
  | stopCancel k =>
    simp only
    unfold StopTask.cancel callCancel
    cases s.stopCalls k with
    | none => exact hs
    | some f =>
      simp only
      split_ifs
      · exact hs
      · exact hs
  | stopWake k => simp only; rw [StopTask.wake_blocked h]; exact hs
  | registerPort port =>
    intro m hm r hr
    simp only [RegisterPort, List.mem_append, List.mem_singleton] at hm
    rcases hm with hm | hm
    · exact hs m hm r hr
    · rw [hm] at hr
      cases hr
  | unregisterPort =>
    intro m hm r hr
    simp only [UnregisterPort] at hm
    split_ifs at hm
    · simp only [List.mem_append, List.mem_singleton] at hm
      rcases hm with hm | hm
      · exact hs m hm r hr
      · rw [hm] at hr
        cases hr
    · exact hs m hm r hr

theorem Core.run_sent_no_success (acts : List Action) :
    ∀ m ∈ (Core.init.run acts).sent, ∀ r, m.2 = Msg.resp r → r.Success = false := by
  suffices H : ∀ s : Core, s.Inv →
      (∀ m ∈ s.sent, ∀ r, m.2 = Msg.resp r → r.Success = false) →
      ∀ m ∈ (s.run acts).sent, ∀ r, m.2 = Msg.resp r → r.Success = false by
    exact H Core.init Core.Inv.inv_init (by simp [Core.init])
  induction acts with
  | nil => intro s _ hs; exact hs
  | cons a rest ih =>
    intro s h hs
    rw [Core.run_cons]
    exact ih (s.step a) (h.inv_step a) (Core.step_sent_no_success h hs a)

/-! ## Steps that register no task and report no fresh ResourceID -/

theorem reportedIDs_append (ops : List String) (xs ys : List (Int × Msg)) :
    reportedIDs ops (xs ++ ys) = reportedIDs ops xs ++ reportedIDs ops ys := by
  simp [reportedIDs, List.filterMap_append]

theorem reportedIDs_failure (ops : List String) (xs : List (Int × Msg)) (p : Int)
    (op e : String) :
    reportedIDs ops (xs ++ [(p, Msg.resp (failure op e))]) = reportedIDs ops xs := by
  simp [reportedIDs_append, reportedIDs, reportedID, failure]

theorem reportedIDs_text (ops : List String) (xs : List (Int × Msg)) (p : Int) (t : String) :
    reportedIDs ops (xs ++ [(p, Msg.text t)]) = reportedIDs ops xs := by
  simp [reportedIDs_append, reportedIDs, reportedID]

theorem reportedIDs_other (ops : List String) (xs : List (Int × Msg)) (p : Int)
    (op : String) (d : Payload) (h : op ∉ ops) :
    reportedIDs ops (xs ++ [(p, Msg.resp (success op d))]) = reportedIDs ops xs := by
  cases d <;> simp [reportedIDs_append, reportedIDs, reportedID, success, h]

theorem reportedIDs_created (ops : List String) (xs : List (Int × Msg)) (p : Int)
    (op : String) (i : Int) (h : op ∈ ops) :
    reportedIDs ops (xs ++ [(p, Msg.resp (success op (Payload.int i)))])
      = reportedIDs ops xs ++ [i] := by
  simp [reportedIDs_append, reportedIDs, reportedID, success, h]

theorem Core.Shrink.shrink_refl (ops : List String) (s : Core) : Core.Shrink ops s s :=
  ⟨rfl, fun _ _ h => h, rfl⟩

theorem Core.Shrink.shrink_trans {ops : List String} {s t u : Core} (h1 : Core.Shrink ops s t)
    (h2 : Core.Shrink ops t u) : Core.Shrink ops s u :=
  ⟨h2.nextTask.trans h1.nextTask, fun j e h => h1.tasks j e (h2.tasks j e h),
    h2.ids.trans h1.ids⟩

/-- A state that differs in neither `tasks`, `nextTask` nor `sent`. -/
theorem Core.Shrink.shrink_of_eq {ops : List String} {s t : Core} (h1 : t.nextTask = s.nextTask)
    (h2 : t.tasks = s.tasks) (h3 : t.sent = s.sent) : Core.Shrink ops s t :=
  ⟨h1, fun j e h => by rw [← h2]; exact h, by rw [h3]⟩

theorem Core.Shrink.shrink_send_failure (ops : List String) (s : Core) (p : Int) (op e : String) :
    Core.Shrink ops s (sendToPort p (failure op e) s) :=
  ⟨rfl, fun _ _ h => h, by simp only [sendToPort]; exact reportedIDs_failure ops _ p op e⟩

theorem Core.Shrink.shrink_send_other (ops : List String) (s : Core) (p : Int) (op : String)
    (d : Payload) (h : op ∉ ops) : Core.Shrink ops s (sendToPort p (success op d) s) :=
  ⟨rfl, fun _ _ h => h, by simp only [sendToPort]; exact reportedIDs_other ops _ p op d h⟩

theorem Core.Shrink.shrink_closeChan (ops : List String) (s : Core) (c : Nat) :
    Core.Shrink ops s (closeChan c s).2 :=
  Core.Shrink.shrink_of_eq rfl rfl rfl

theorem Core.Shrink.shrink_makeChan (ops : List String) (s : Core) :
    Core.Shrink ops s (makeChan s).2 :=
  Core.Shrink.shrink_of_eq rfl rfl rfl

theorem finishTask_sent (id : Int) (s : Core) : (finishTask id s).sent = s.sent := by
  cases hid : s.tasks id with
  | none => rw [finishTask_absent hid]
  | some e =>
    by_cases ho : s.closes e.done = 0
    · rw [finishTask_open hid ho]
    · rw [finishTask_closed hid ho]

theorem Core.Shrink.shrink_finishTask (ops : List String) (s : Core) (id : Int) :
    Core.Shrink ops s (finishTask id s) :=
  ⟨finishTask_nextTask id s, finishTask_tasks_sub id s, by rw [finishTask_sent]⟩

theorem Core.Shrink.shrink_stopEnter (ops : List String) (s : Core) (id port : Int) :
    Core.Shrink ops s (StopTask.enter id port s) := by
  refine ⟨StopTask.enter_nextTask id port s, ?_, ?_⟩
  · intro j e h
    rw [StopTask.enter_tasks] at h
    simp only [GoMap.delete] at h
    split_ifs at h
    exact h
  · cases hid : s.tasks id with
    | none =>
      rw [StopTask.enter_absent hid]
      exact (Core.Shrink.shrink_send_failure ops s _ "stop" _).ids
    | some e => rw [StopTask.enter_found hid]

theorem StopTask.cancel_sent (k : Nat) (s : Core) : (StopTask.cancel k s).sent = s.sent := by
  unfold StopTask.cancel callCancel
  cases s.stopCalls k with
  | none => rfl
  | some f =>
    simp only
    split_ifs <;> rfl

theorem Core.Shrink.shrink_stopCancel (ops : List String) (s : Core) (k : Nat) :
    Core.Shrink ops s (StopTask.cancel k s) :=
  Core.Shrink.shrink_of_eq (StopTask.cancel_tasks k s).2 (StopTask.cancel_tasks k s).1
    (StopTask.cancel_sent k s)

theorem Core.Shrink.shrink_stopWake (ops : List String) (h : "stop" ∉ ops) (s : Core) (k : Nat) :
    Core.Shrink ops s (StopTask.wake k s) := by
  refine ⟨(StopTask.wake_tasks k s).2, ?_, ?_⟩
  · intro j e he
    rw [(StopTask.wake_tasks k s).1] at he
    exact he
  · unfold StopTask.wake
    cases s.stopCalls k with
    | none => rfl
    | some f =>
      simp only
      split_ifs
      · exact (Core.Shrink.shrink_send_other ops s f.p "stop" (Payload.int f.id) h).ids
      · rfl

theorem Core.Shrink.shrink_registerPort (ops : List String) (s : Core) (p : Int) :
    Core.Shrink ops s (RegisterPort p s) :=
  ⟨rfl, fun _ _ h => h, by simp only [RegisterPort]; exact reportedIDs_text ops _ p _⟩

theorem Core.Shrink.shrink_unregisterPort (ops : List String) (s : Core) :
    Core.Shrink ops s (UnregisterPort s) := by
  refine ⟨(UnregisterPort_tasks s).2, ?_, ?_⟩
  · intro j e he
    rw [(UnregisterPort_tasks s).1] at he
    exact he
  · unfold UnregisterPort
    simp only
    split_ifs
    · exact reportedIDs_text ops _ _ _
    · rfl

theorem Core.Bnd.bnd_shrink {ops : List String} {s t : Core} {n : Int} (h : s.Bnd n)
    (hs : Core.Shrink ops s t) : t.Bnd n :=
  ⟨by rw [hs.nextTask]; exact h.lo, by rw [hs.nextTask]; exact h.hi,
    fun id e he => by rw [hs.nextTask]; exact h.keys id e (hs.tasks id e he)⟩

/-! ## Counter bound of a resource module: the three kinds of step -/

theorem ResBnd.mono {ops : List String} {c : Core} {P : Int → Prop} {next n m : Int}
    (h : ResBnd ops c P next n) (hnm : n ≤ m) : ResBnd ops c P next m :=
  ⟨h.core.bnd_mono hnm, h.lo, le_trans h.hi hnm, h.keys, h.sorted, h.ids_le⟩

/-- A step that registers no task and creates no resource. -/
theorem ResBnd.quiet {ops : List String} {c t : Core} {P Q : Int → Prop} {next n : Int}
    (h : ResBnd ops c P next n) (hs : Core.Shrink ops c t) (hq : ∀ id, Q id → P id) :
    ResBnd ops t Q next n :=
  ⟨h.core.bnd_shrink hs, h.lo, h.hi, fun id hid => h.keys id (hq id hid),
    by rw [hs.ids]; exact h.sorted, by rw [hs.ids]; exact h.ids_le⟩

/-- A step that registers one task (`Start` on a present resource). -/
theorem ResBnd.started {ops : List String} {c : Core} {P : Int → Prop} {next n : Int}
    (h : ResBnd ops c P next n) (hn : n < maxInt64) :
    ResBnd ops (addTask (withCancel c).1 (withCancel c).2).2 P next (n + 1) := by
  have hb : (register c).2.Bnd (n + 1) := h.core.bnd_register hn
  have hsent : (addTask (withCancel c).1 (withCancel c).2).2.sent = c.sent := rfl
  exact ⟨hb, h.lo, by have := h.hi; omega, h.keys, by rw [hsent]; exact h.sorted,
    by rw [hsent]; exact h.ids_le⟩

/-- A step that creates one resource under the ID `next + 1` and reports
it. -/
theorem ResBnd.created {ops : List String} {c t : Core} {P Q : Int → Prop} {next n : Int}
    (h : ResBnd ops c P next n) (h1 : t.nextTask = c.nextTask) (h2 : t.tasks = c.tasks)
    (p : Int) (op : String) (hop : op ∈ ops)
    (h3 : t.sent = c.sent ++ [(p, Msg.resp (success op (Payload.int (next + 1))))])
    (hq : ∀ id, Q id → P id ∨ id = next + 1) :
    ResBnd ops t Q (next + 1) (n + 1) := by
  have hlo := h.lo
  have hhi := h.hi
  have hids : reportedIDs ops t.sent = reportedIDs ops c.sent ++ [next + 1] := by
    rw [h3]; exact reportedIDs_created ops _ p op _ hop
  refine ⟨⟨?_, ?_, ?_⟩, by omega, by omega, ?_, ?_, ?_⟩
  · rw [h1]; exact h.core.lo
  · rw [h1]; have := h.core.hi; omega
  · intro id e he
    rw [h1]
    rw [h2] at he
    exact h.core.keys id e he
  · intro id hid
    rcases hq id hid with hp | hp
    · have := h.keys id hp; omega
    · omega
  · rw [hids, List.pairwise_append]
    refine ⟨h.sorted, by simp, ?_⟩
    intro a ha b hb
    simp only [List.mem_singleton] at hb
    have := h.ids_le a ha
    omega
  · intro i hi
    rw [hids, List.mem_append, List.mem_singleton] at hi
    rcases hi with hi | hi
    · have := h.ids_le i hi; omega
    · omega

/-! ## Module `portforward`: effect of each call -/

namespace portforward

theorem pf_goAddresses_pos (addressStr : Option String) :
    0 < (CreatePortForwarder.goAddresses addressStr).length := by
  unfold CreatePortForwarder.goAddresses
  simp only
  split_ifs with h
  · simp
  · omega

/-- The constructor call of `CreatePortForwarder.fn`: always
`NewOnAddresses`, since `goAddresses` is never empty. -/
theorem pf_fn_constructor (lib : Lib) (addressStr : Option String) (goPorts : List String)
    (dialer stopChan readyChan : Nat) :
    (if (CreatePortForwarder.goAddresses addressStr).length > 0 then
        lib.NewOnAddresses dialer (CreatePortForwarder.goAddresses addressStr) goPorts
          stopChan readyChan
      else lib.New dialer goPorts stopChan readyChan)
      = lib.NewOnAddresses dialer (CreatePortForwarder.goAddresses addressStr) goPorts
          stopChan readyChan := by
  rw [if_pos (pf_goAddresses_pos addressStr)]

/-- What a `CreatePortForwarder` call does, by cases: either it sends a
failure and leaves counter and registry alone, or it sends the success
carrying the incremented counter and registers one wrapper under it. -/
theorem CreatePortForwarder_cases (lib : Lib) (urlStr portsStr : String)
    (addressStr : Option String) (port : Int) (s : State) :
    (∃ e, (CreatePortForwarder lib urlStr portsStr addressStr port s).2.core.sent
          = s.core.sent ++ [(getPortOrDefault port s.core,
              Msg.resp (failure "create_port_forwarder" e))]
        ∧ (CreatePortForwarder lib urlStr portsStr addressStr port s).2.nextPFID = s.nextPFID
        ∧ (CreatePortForwarder lib urlStr portsStr addressStr port s).2.portForwarders
            = s.portForwarders
        ∧ (CreatePortForwarder lib urlStr portsStr addressStr port s).2.core.tasks
            = s.core.tasks
        ∧ (CreatePortForwarder lib urlStr portsStr addressStr port s).2.core.nextTask
            = s.core.nextTask
        ∧ (CreatePortForwarder lib urlStr portsStr addressStr port s).2.core.crashed
            = s.core.crashed)
    ∨ (∃ w, (CreatePortForwarder lib urlStr portsStr addressStr port s).2.core.sent
          = s.core.sent ++ [(getPortOrDefault port s.core,
              Msg.resp (success "create_port_forwarder"
                (Payload.int (atomicAddInt64 s.nextPFID 1))))]
        ∧ (CreatePortForwarder lib urlStr portsStr addressStr port s).2.nextPFID
            = atomicAddInt64 s.nextPFID 1
        ∧ (CreatePortForwarder lib urlStr portsStr addressStr port s).2.portForwarders
            = s.portForwarders.set (atomicAddInt64 s.nextPFID 1) w
        ∧ (CreatePortForwarder lib urlStr portsStr addressStr port s).2.core.tasks
            = s.core.tasks
        ∧ (CreatePortForwarder lib urlStr portsStr addressStr port s).2.core.nextTask
            = s.core.nextTask
        ∧ (CreatePortForwarder lib urlStr portsStr addressStr port s).2.core.crashed
            = s.core.crashed) := by
  unfold CreatePortForwarder safeOp CreatePortForwarder.fn
  simp only [pf_fn_constructor]
  cases lib.Parse urlStr with
  | err e => left; exact ⟨_, rfl, rfl, rfl, rfl, rfl, rfl⟩
  | panic v => left; exact ⟨_, rfl, rfl, rfl, rfl, rfl, rfl⟩
  | ok u =>
    simp only
    cases lib.NewSPDYOverWebsocketDialer u { Host := u.Host, Insecure := true } with
    | err e => left; exact ⟨_, rfl, rfl, rfl, rfl, rfl, rfl⟩
    | panic v => left; exact ⟨_, rfl, rfl, rfl, rfl, rfl, rfl⟩
    | ok dialer =>
      simp only
      cases lib.NewOnAddresses dialer (CreatePortForwarder.goAddresses addressStr)
          (CreatePortForwarder.goPorts portsStr) (makeChan s.core).1
          (makeChan (makeChan s.core).2).1 with
      | err e => left; exact ⟨_, rfl, rfl, rfl, rfl, rfl, rfl⟩
      | panic v => left; exact ⟨_, rfl, rfl, rfl, rfl, rfl, rfl⟩
      | ok _ => right; exact ⟨_, rfl, rfl, rfl, rfl, rfl, rfl⟩


theorem Quiet.pf_refl (s : State) : Quiet s s :=
  ⟨Core.Shrink.shrink_refl _ _, rfl, fun _ _ h => h⟩

theorem Quiet.pf_trans {s t u : State} (h1 : Quiet s t) (h2 : Quiet t u) : Quiet s u :=
  ⟨h1.1.shrink_trans h2.1, h2.2.1.trans h1.2.1, fun id w h => h1.2.2 id w (h2.2.2 id w h)⟩

/-- A change of the task-registry state alone. -/
theorem Quiet.pf_of_core {s : State} {c : Core} (h : Core.Shrink createOps s.core c) :
    Quiet s { s with core := c } :=
  ⟨h, rfl, fun _ _ h => h⟩

theorem Quiet.pf_send_failure (s : State) (p : Int) (op e : String) :
    Quiet s (send p (failure op e) s) :=
  Quiet.pf_of_core (Core.Shrink.shrink_send_failure _ _ _ _ _)

theorem Quiet.pf_send_other (s : State) (p : Int) (op : String) (d : Payload)
    (h : op ∉ createOps) : Quiet s (send p (success op d) s) :=
  Quiet.pf_of_core (Core.Shrink.shrink_send_other _ _ _ _ _ h)

theorem StartForwardPorts_absent {s : State} {pfID : Int} (port : Int)
    (h : s.portForwarders pfID = none) :
    StartForwardPorts pfID port s
      = (0, send (getPortOrDefault port s.core) (failure "start_forward_ports"
          ("port forwarder " ++ toString pfID ++ " not found")) s) := by
  simp [StartForwardPorts, h]

theorem StartForwardPorts_present {s : State} {pfID : Int} (port : Int)
    {w : PortForwarderWrapper} (h : s.portForwarders pfID = some w) :
    StartForwardPorts pfID port s
      = ((addTask (withCancel s.core).1 (withCancel s.core).2).1,
          { s with
            core := (addTask (withCancel s.core).1 (withCancel s.core).2).2
            workers := fun k =>
              if k = s.nextWorker then
                some { tid := (addTask (withCancel s.core).1 (withCancel s.core).2).1, w := w,
                       p := getPortOrDefault port s.core, pc := WorkerPC.spawned }
              else s.workers k
            nextWorker := s.nextWorker + 1 }) := by
  simp [StartForwardPorts, h]

theorem pf_workerEnter_quiet (k : Nat) (s : State) : Quiet s (workerEnter k s) := by
  unfold workerEnter
  cases s.workers k with
  | none => exact Quiet.pf_refl s
  | some wk =>
    simp only
    split_ifs
    · exact ⟨Core.Shrink.shrink_refl _ _, rfl, fun _ _ h => h⟩
    · exact Quiet.pf_refl s

theorem pf_workerBody_quiet (wk : Worker) (r : Outcome Unit) (s : State) :
    Quiet s (workerBody wk r s).2 := by
  cases r with
  | ok _ => exact Quiet.pf_send_other s _ _ _ (by decide)
  | err e => exact Quiet.pf_send_failure s _ _ _
  | panic v => exact Quiet.pf_refl s

theorem pf_workerCleanup_quiet (wk : Worker) (v : Option String) (s : State) :
    Quiet s (workerCleanup wk v s).2 := by
  unfold workerCleanup
  simp only
  split_ifs
  · refine ⟨Core.Shrink.shrink_closeChan _ _ _, rfl, ?_⟩
    intro id w h
    simp only [GoMap.delete] at h
    split_ifs at h
    exact h
  · refine ⟨Core.Shrink.shrink_closeChan _ _ _, rfl, ?_⟩
    intro id w h
    simp only [GoMap.delete] at h
    split_ifs at h
    exact h

theorem pf_workerRecover_quiet (wk : Worker) (v : Option String) (s : State) :
    Quiet s (workerRecover wk v s) := by
  cases v with
  | none => exact Quiet.pf_refl s
  | some v => exact Quiet.pf_send_failure s _ _ _

theorem pf_workerExit_quiet (k : Nat) (r : Outcome Unit) (s : State) :
    Quiet s (workerExit k r s) := by
  unfold workerExit
  cases s.workers k with
  | none => exact Quiet.pf_refl s
  | some wk =>
    simp only
    split_ifs
    · have h1 := pf_workerBody_quiet wk r s
      have h2 := pf_workerCleanup_quiet wk (workerBody wk r s).1 (workerBody wk r s).2
      have h3 := pf_workerRecover_quiet wk
        (workerCleanup wk (workerBody wk r s).1 (workerBody wk r s).2).1
        (workerCleanup wk (workerBody wk r s).1 (workerBody wk r s).2).2
      have h4 := (h1.pf_trans h2).pf_trans h3
      exact ⟨h4.1.shrink_trans (Core.Shrink.shrink_finishTask _ _ _), h4.2.1, h4.2.2⟩
    · exact Quiet.pf_refl s

theorem StopForwardPorts_absent {s : State} {pfID : Int} (port : Int)
    (h : s.portForwarders pfID = none) :
    StopForwardPorts pfID port s
      = send (getPortOrDefault port s.core) (failure "stop_forward_ports"
          ("port forwarder " ++ toString pfID ++ " not found")) s := by
  simp [StopForwardPorts, h]

theorem StopForwardPorts_open {s : State} {pfID : Int} (port : Int)
    {w : PortForwarderWrapper} (h : s.portForwarders pfID = some w)
    (ho : s.core.closes w.StopChan = 0) :
    StopForwardPorts pfID port s
      = send (getPortOrDefault port s.core) (success "stop_forward_ports" (Payload.int pfID))
          { s with
            core := (closeChan w.StopChan s.core).2
            calls := s.calls ++ [ExtCall.Close w.PF]
            portForwarders := s.portForwarders.delete pfID } := by
  simp [StopForwardPorts, h, closeChan, ho]

theorem StopForwardPorts_closed {s : State} {pfID : Int} (port : Int)
    {w : PortForwarderWrapper} (h : s.portForwarders pfID = some w)
    (ho : s.core.closes w.StopChan ≠ 0) :
    StopForwardPorts pfID port s
      = { s with core := { (closeChan w.StopChan s.core).2 with crashed := some closeOfClosed } }
      := by
  simp [StopForwardPorts, h, closeChan, ho]

theorem StopForwardPorts_quiet (pfID port : Int) (s : State) :
    Quiet s (StopForwardPorts pfID port s) := by
  cases hp : s.portForwarders pfID with
  | none => rw [StopForwardPorts_absent port hp]; exact Quiet.pf_send_failure s _ _ _
  | some w =>
    by_cases ho : s.core.closes w.StopChan = 0
    · rw [StopForwardPorts_open port hp ho]
      refine ⟨(Core.Shrink.shrink_closeChan _ _ _).shrink_trans
        (Core.Shrink.shrink_send_other _ _ _ _ _ (by decide)), rfl, ?_⟩
      intro id w2 h
      simp only [send, GoMap.delete] at h
      split_ifs at h
      exact h
    · rw [StopForwardPorts_closed port hp ho]
      exact ⟨Core.Shrink.shrink_of_eq rfl rfl rfl, rfl, fun _ _ h => h⟩

theorem GetForwardedPorts_absent {s : State} {pfID : Int} (port : Int)
    (r : Outcome (List (Nat × Nat))) (h : s.portForwarders pfID = none) :
    GetForwardedPorts pfID port r s
      = send (getPortOrDefault port s.core) (failure "get_forwarded_ports"
          ("port forwarder " ++ toString pfID ++ " not found")) s := by
  simp [GetForwardedPorts, h]

theorem GetForwardedPorts_present {s : State} {pfID : Int} (port : Int)
    (r : Outcome (List (Nat × Nat))) {w : PortForwarderWrapper}
    (h : s.portForwarders pfID = some w) :
    GetForwardedPorts pfID port r s
      = safeOp (getPortOrDefault port s.core) "get_forwarded_ports"
          (GetForwardedPorts.fn w r) s := by
  simp [GetForwardedPorts, h]

theorem GetForwardedPorts_quiet (pfID port : Int) (r : Outcome (List (Nat × Nat)))
    (s : State) : Quiet s (GetForwardedPorts pfID port r s) := by
  cases hp : s.portForwarders pfID with
  | none => rw [GetForwardedPorts_absent port r hp]; exact Quiet.pf_send_failure s _ _ _
  | some w =>
    rw [GetForwardedPorts_present port r hp]
    unfold safeOp GetForwardedPorts.fn
    cases r with
    | ok ports =>
      exact ⟨Core.Shrink.shrink_send_other _ _ _ _ _ (by decide), rfl, fun _ _ h => h⟩
    | err e => exact ⟨Core.Shrink.shrink_send_failure _ _ _ _ _, rfl, fun _ _ h => h⟩
    | panic v => exact ⟨Core.Shrink.shrink_send_failure _ _ _ _ _, rfl, fun _ _ h => h⟩

theorem State.pf_step_alive {s : State} (h : s.core.crashed = none) (a : Action) :
    s.step a =
      match a with
      | .create lib urlStr portsStr addressStr port =>
        (CreatePortForwarder lib urlStr portsStr addressStr port s).2
      | .start pfID port => (StartForwardPorts pfID port s).2
      | .workerEnter k => workerEnter k s
      | .workerExit k r => workerExit k r s
      | .stop pfID port => StopForwardPorts pfID port s
      | .getPorts pfID port r => GetForwardedPorts pfID port r s
      | .stopTaskEnter taskID port => { s with core := StopTask.enter taskID port s.core }
      | .stopTaskCancel k => { s with core := StopTask.cancel k s.core }
      | .stopTaskWake k => { s with core := StopTask.wake k s.core }
      | .registerPort port => { s with core := RegisterPort port s.core }
      | .unregisterPort => { s with core := UnregisterPort s.core } := by
  simp [State.step, h]

theorem State.pf_step_crashed {s : State} {v : String} (h : s.core.crashed = some v)
    (a : Action) : s.step a = s := by
  simp [State.step, h]

/-- Every step other than a successful Create and a Start on a present
resource is quiet. -/
theorem State.pf_step_quiet (s : State) (a : Action)
    (hc : ∀ lib urlStr portsStr addressStr port,
      a ≠ Action.create lib urlStr portsStr addressStr port)
    (hs : ∀ pfID port, a ≠ Action.start pfID port) : Quiet s (s.step a) := by
  cases hcr : s.core.crashed with
  | some v => rw [State.pf_step_crashed hcr]; exact Quiet.pf_refl s
  | none =>
    rw [State.pf_step_alive hcr]
    cases a with
    | create lib urlStr portsStr addressStr port =>
      exact absurd rfl (hc lib urlStr portsStr addressStr port)
    | start pfID port => exact absurd rfl (hs pfID port)
    | workerEnter k => exact pf_workerEnter_quiet k s
    | workerExit k r => exact pf_workerExit_quiet k r s
    | stop pfID port => exact StopForwardPorts_quiet pfID port s
    | getPorts pfID port r => exact GetForwardedPorts_quiet pfID port r s
    | stopTaskEnter taskID port => exact Quiet.pf_of_core (Core.Shrink.shrink_stopEnter _ _ _ _)
    | stopTaskCancel k => exact Quiet.pf_of_core (Core.Shrink.shrink_stopCancel _ _ _)
    | stopTaskWake k => exact Quiet.pf_of_core (Core.Shrink.shrink_stopWake _ (by decide) _ _)
    | registerPort port => exact Quiet.pf_of_core (Core.Shrink.shrink_registerPort _ _ _)
    | unregisterPort => exact Quiet.pf_of_core (Core.Shrink.shrink_unregisterPort _ _)

theorem State.Bnd.pf_quiet {s t : State} {n : Int} (h : s.Bnd n) (hq : Quiet s t) :
    t.Bnd n := by
  unfold State.Bnd at h ⊢
  rw [hq.2.1]
  refine ResBnd.quiet h hq.1 ?_
  intro id hid
  cases ht : t.portForwarders id with
  | none => simp [ht] at hid
  | some w => simp [hq.2.2 id w ht]

theorem State.Bnd.pf_init : State.init.Bnd 0 := by
  refine ⟨Core.Bnd.bnd_init, le_rfl, le_rfl, ?_, ?_, ?_⟩ <;>
    simp [State.init, Core.init, reportedIDs]

theorem State.Bnd.pf_step {s : State} {n : Int} (h : s.Bnd n) (hn : n < maxInt64)
    (a : Action) : (s.step a).Bnd (n + 1) := by
  cases hcr : s.core.crashed with
  | some v => rw [State.pf_step_crashed hcr]; exact ResBnd.mono h (by omega)
  | none =>
    by_cases hc : ∃ lib urlStr portsStr addressStr port,
        a = Action.create lib urlStr portsStr addressStr port
    · obtain ⟨lib, urlStr, portsStr, addressStr, port, rfl⟩ := hc
      rw [State.pf_step_alive hcr]
      simp only
      have hadd : atomicAddInt64 s.nextPFID 1 = s.nextPFID + 1 :=
        atomicAddInt64_succ h.lo (lt_of_le_of_lt h.hi hn)
      rcases CreatePortForwarder_cases lib urlStr portsStr addressStr port s with
        ⟨e, h1, h2, h3, h4, h5, _⟩ | ⟨w, h1, h2, h3, h4, h5, _⟩
      · refine ResBnd.mono (State.Bnd.pf_quiet h ⟨⟨h5, ?_, ?_⟩, h2, ?_⟩) (by omega)
        · intro j e2 he; rw [h4] at he; exact he
        · rw [h1]; exact reportedIDs_failure _ _ _ _ _
        · intro id w hw; rw [h3] at hw; exact hw
      · unfold State.Bnd
        rw [h2, hadd]
        rw [hadd] at h1 h3
        refine ResBnd.created h h5 h4 _ "create_port_forwarder" (by decide) h1 ?_
        intro id hid
        rw [h3] at hid
        simp only [GoMap.set] at hid
        split_ifs at hid with hx
        · right; exact hx
        · left; exact hid
    by_cases hst : ∃ pfID port, a = Action.start pfID port
    · obtain ⟨pfID, port, rfl⟩ := hst
      rw [State.pf_step_alive hcr]
      simp only
      cases hp : s.portForwarders pfID with
      | none =>
        rw [StartForwardPorts_absent port hp]
        exact ResBnd.mono (State.Bnd.pf_quiet h (Quiet.pf_send_failure s _ _ _)) (by omega)
      | some w =>
        rw [StartForwardPorts_present port hp]
        exact ResBnd.started h hn
    · exact ResBnd.mono (State.Bnd.pf_quiet h
        (State.pf_step_quiet s a
          (fun l u ps ad p e => hc ⟨l, u, ps, ad, p, e⟩)
          (fun i p e => hst ⟨i, p, e⟩))) (by omega)

theorem State.pf_run_cons (s : State) (a : Action) (acts : List Action) :
    s.run (a :: acts) = (s.step a).run acts := rfl

theorem State.pf_run_append (s : State) (xs ys : List Action) :
    s.run (xs ++ ys) = (s.run xs).run ys := by
  simp [State.run, List.foldl_append]

theorem State.Bnd.pf_run {s : State} {n : Int} (h : s.Bnd n) (acts : List Action)
    (hn : n + acts.length ≤ maxInt64) : (s.run acts).Bnd (n + acts.length) := by
  induction acts generalizing s n with
  | nil => simpa [State.run] using h
  | cons a rest ih =>
    simp only [List.length_cons, Nat.cast_add, Nat.cast_one] at hn ⊢
    have h1 := State.Bnd.pf_step h (by omega) a
    have := ih h1 (by omega)
    rw [State.pf_run_cons]
    have e : n + (↑rest.length + 1) = n + 1 + ↑rest.length := by ring
    rw [e]
    exact this


theorem pf_Create_parse_err {lib : Lib} {urlStr : String} (portsStr : String)
    (addressStr : Option String) (port : Int) (s : State) {e : String}
    (h : lib.Parse urlStr = Outcome.err e) :
    CreatePortForwarder lib urlStr portsStr addressStr port s
      = (0, send (getPortOrDefault port s.core)
          (failure "create_port_forwarder" ("invalid URL: " ++ e)) s) := by
  simp [CreatePortForwarder, safeOp, CreatePortForwarder.fn, h]

theorem pf_Create_dialer_err {lib : Lib} {urlStr : String} (portsStr : String)
    (addressStr : Option String) (port : Int) (s : State) {u : URL} {e : String}
    (h : lib.Parse urlStr = Outcome.ok u)
    (h2 : lib.NewSPDYOverWebsocketDialer u { Host := u.Host, Insecure := true }
      = Outcome.err e) :
    CreatePortForwarder lib urlStr portsStr addressStr port s
      = (0, send (getPortOrDefault port s.core)
          (failure "create_port_forwarder" ("failed to create dialer: " ++ e)) s) := by
  simp [CreatePortForwarder, safeOp, CreatePortForwarder.fn, h, h2]

theorem pf_Create_new_err {lib : Lib} {urlStr portsStr : String}
    {addressStr : Option String} (port : Int) (s : State) {u : URL} {dialer : Nat}
    {e : String} (h : lib.Parse urlStr = Outcome.ok u)
    (h2 : lib.NewSPDYOverWebsocketDialer u { Host := u.Host, Insecure := true }
      = Outcome.ok dialer)
    (h3 : lib.NewOnAddresses dialer (CreatePortForwarder.goAddresses addressStr)
      (CreatePortForwarder.goPorts portsStr) s.core.nextChan (s.core.nextChan + 1)
      = Outcome.err e) :
    CreatePortForwarder lib urlStr portsStr addressStr port s
      = (0, send (getPortOrDefault port s.core)
          (failure "create_port_forwarder" ("failed to create port forwarder: " ++ e))
          { s with core := (makeChan (makeChan s.core).2).2 }) := by
  have h3b : lib.NewOnAddresses dialer (CreatePortForwarder.goAddresses addressStr)
      (CreatePortForwarder.goPorts portsStr) (makeChan s.core).1
      (makeChan (makeChan s.core).2).1 = Outcome.err e := h3
  simp [CreatePortForwarder, safeOp, CreatePortForwarder.fn, h, h2, pf_goAddresses_pos, h3b]

theorem pf_Create_ok {lib : Lib} {urlStr portsStr : String}
    {addressStr : Option String} (port : Int) (s : State) {u : URL} {dialer : Nat}
    (h : lib.Parse urlStr = Outcome.ok u)
    (h2 : lib.NewSPDYOverWebsocketDialer u { Host := u.Host, Insecure := true }
      = Outcome.ok dialer)
    (h3 : lib.NewOnAddresses dialer (CreatePortForwarder.goAddresses addressStr)
      (CreatePortForwarder.goPorts portsStr) s.core.nextChan (s.core.nextChan + 1)
      = Outcome.ok ()) :
    CreatePortForwarder lib urlStr portsStr addressStr port s
      = (0, send (getPortOrDefault port s.core)
          (success "create_port_forwarder" (Payload.int (atomicAddInt64 s.nextPFID 1)))
          { s with
            core := (makeChan (makeChan s.core).2).2
            nextObj := s.nextObj + 1
            nextPFID := atomicAddInt64 s.nextPFID 1
            portForwarders := s.portForwarders.set (atomicAddInt64 s.nextPFID 1)
              { PF := s.nextObj, Ready := s.core.nextChan + 1, StopChan := s.core.nextChan,
                ID := atomicAddInt64 s.nextPFID 1 } }) := by
  have h3b : lib.NewOnAddresses dialer (CreatePortForwarder.goAddresses addressStr)
      (CreatePortForwarder.goPorts portsStr) (makeChan s.core).1
      (makeChan (makeChan s.core).2).1 = Outcome.ok () := h3
  simp [CreatePortForwarder, safeOp, CreatePortForwarder.fn, h, h2, pf_goAddresses_pos, h3b]
  rfl

/-- IDs reported before and after a `CreatePortForwarder` call in a state
whose counter cannot overflow: none added and the counter unchanged, or
the counter plus one added and stored. -/
theorem pf_Create_ids {s : State} {n : Int} (h : s.Bnd n) (hn : n < maxInt64) (lib : Lib)
    (urlStr portsStr : String) (addressStr : Option String) (port : Int) :
    ((CreatePortForwarder lib urlStr portsStr addressStr port s).2.nextPFID = s.nextPFID
      ∧ reportedIDs createOps
          (CreatePortForwarder lib urlStr portsStr addressStr port s).2.core.sent
        = reportedIDs createOps s.core.sent)
    ∨ ((CreatePortForwarder lib urlStr portsStr addressStr port s).2.nextPFID
          = s.nextPFID + 1
      ∧ reportedIDs createOps
          (CreatePortForwarder lib urlStr portsStr addressStr port s).2.core.sent
        = reportedIDs createOps s.core.sent ++ [s.nextPFID + 1]) := by
  have hadd : atomicAddInt64 s.nextPFID 1 = s.nextPFID + 1 :=
    atomicAddInt64_succ h.lo (lt_of_le_of_lt h.hi hn)
  rcases CreatePortForwarder_cases lib urlStr portsStr addressStr port s with
    ⟨e, h1, h2, _⟩ | ⟨w, h1, h2, _⟩
  · left
    exact ⟨h2, by rw [h1]; exact reportedIDs_failure _ _ _ _ _⟩
  · right
    rw [hadd] at h1 h2
    exact ⟨h2, by rw [h1]; exact reportedIDs_created _ _ _ _ _ (by decide)⟩

end portforward

/-! ## Module `socks5lib`: effect of each call -/

namespace socks5lib

/-- What a `CreateDirectServerTCP` call does, by cases: either it sends a
failure and leaves counter and registry alone, or it sends the success
carrying the incremented counter and registers one wrapper under it. -/
theorem s5_Create_cases (lib : Lib) (listenPort : Int) (username password : String)
    (port : Int) (s : State) :
    (∃ e, (CreateDirectServerTCP lib listenPort username password port s).2.core.sent
          = s.core.sent ++ [(getPortOrDefault port s.core,
              Msg.resp (failure "create_direct_server_tcp" e))]
        ∧ (CreateDirectServerTCP lib listenPort username password port s).2.nextSrvID
            = s.nextSrvID
        ∧ (CreateDirectServerTCP lib listenPort username password port s).2.socks5Servers
            = s.socks5Servers
        ∧ (CreateDirectServerTCP lib listenPort username password port s).2.core.tasks
            = s.core.tasks
        ∧ (CreateDirectServerTCP lib listenPort username password port s).2.core.nextTask
            = s.core.nextTask
        ∧ (CreateDirectServerTCP lib listenPort username password port s).2.core.crashed
            = s.core.crashed)
    ∨ (∃ w, (CreateDirectServerTCP lib listenPort username password port s).2.core.sent
          = s.core.sent ++ [(getPortOrDefault port s.core,
              Msg.resp (success "create_direct_server_tcp"
                (Payload.int (atomicAddInt64 s.nextSrvID 1))))]
        ∧ (CreateDirectServerTCP lib listenPort username password port s).2.nextSrvID
            = atomicAddInt64 s.nextSrvID 1
        ∧ (CreateDirectServerTCP lib listenPort username password port s).2.socks5Servers
            = s.socks5Servers.set (atomicAddInt64 s.nextSrvID 1) w
        ∧ (CreateDirectServerTCP lib listenPort username password port s).2.core.tasks
            = s.core.tasks
        ∧ (CreateDirectServerTCP lib listenPort username password port s).2.core.nextTask
            = s.core.nextTask
        ∧ (CreateDirectServerTCP lib listenPort username password port s).2.core.crashed
            = s.core.crashed) := by
  unfold CreateDirectServerTCP safeOp CreateDirectServerTCP.fn
  simp only
  cases lib.NewServer
      { ListenPort := listenPort, UserName := username, Password := password,
        LogLevel := "info" } with
  | err e => left; exact ⟨_, rfl, rfl, rfl, rfl, rfl, rfl⟩
  | panic v => left; exact ⟨_, rfl, rfl, rfl, rfl, rfl, rfl⟩
  | ok _ => right; exact ⟨_, rfl, rfl, rfl, rfl, rfl, rfl⟩

theorem Quiet.s5_refl (s : State) : Quiet s s :=
  ⟨Core.Shrink.shrink_refl _ _, rfl, fun _ _ h => h⟩

theorem Quiet.s5_trans {s t u : State} (h1 : Quiet s t) (h2 : Quiet t u) : Quiet s u :=
  ⟨h1.1.shrink_trans h2.1, h2.2.1.trans h1.2.1, fun id w h => h1.2.2 id w (h2.2.2 id w h)⟩

/-- A change of the task-registry state alone. -/
theorem Quiet.s5_of_core {s : State} {c : Core} (h : Core.Shrink createOps s.core c) :
    Quiet s { s with core := c } :=
  ⟨h, rfl, fun _ _ h => h⟩

theorem Quiet.s5_send_failure (s : State) (p : Int) (op e : String) :
    Quiet s (send p (failure op e) s) :=
  Quiet.s5_of_core (Core.Shrink.shrink_send_failure _ _ _ _ _)

theorem Quiet.s5_send_other (s : State) (p : Int) (op : String) (d : Payload)
    (h : op ∉ createOps) : Quiet s (send p (success op d) s) :=
  Quiet.s5_of_core (Core.Shrink.shrink_send_other _ _ _ _ _ h)

theorem s5_Start_absent {s : State} {srvID : Int} (port : Int)
    (h : s.socks5Servers srvID = none) :
    StartSocks5Server srvID port s
      = (0, send (getPortOrDefault port s.core) (failure "start_socks5_server"
          ("server " ++ toString srvID ++ " not found")) s) := by
  simp [StartSocks5Server, h]

theorem s5_Start_present {s : State} {srvID : Int} (port : Int)
    {w : Socks5ServerWrapper} (h : s.socks5Servers srvID = some w) :
    StartSocks5Server srvID port s
      = ((addTask (withCancel s.core).1 (withCancel s.core).2).1,
          { s with
            core := (addTask (withCancel s.core).1 (withCancel s.core).2).2
            workers := fun k =>
              if k = s.nextWorker then
                some { tid := (addTask (withCancel s.core).1 (withCancel s.core).2).1, w := w,
                       p := getPortOrDefault port s.core, pc := WorkerPC.spawned }
              else s.workers k
            nextWorker := s.nextWorker + 1 }) := by
  simp [StartSocks5Server, h]

theorem s5_workerEnter_quiet (k : Nat) (s : State) : Quiet s (workerEnter k s) := by
  unfold workerEnter
  cases s.workers k with
  | none => exact Quiet.s5_refl s
  | some wk =>
    simp only
    split_ifs
    · exact ⟨Core.Shrink.shrink_refl _ _, rfl, fun _ _ h => h⟩
    · exact Quiet.s5_refl s

theorem s5_workerBody_quiet (wk : Worker) (r : Outcome Unit) (s : State) :
    Quiet s (workerBody wk r s).2 := by
  cases r with
  | ok _ => exact Quiet.s5_send_other s _ _ _ (by decide)
  | err e => exact Quiet.s5_send_failure s _ _ _
  | panic v => exact Quiet.s5_refl s

theorem s5_workerCleanup_quiet (wk : Worker) (v : Option String) (s : State) :
    Quiet s (workerCleanup wk v s).2 := by
  unfold workerCleanup
  refine ⟨Core.Shrink.shrink_refl _ _, rfl, ?_⟩
  intro id w h
  simp only [GoMap.delete] at h
  split_ifs at h
  exact h

theorem s5_workerRecover_quiet (wk : Worker) (v : Option String) (s : State) :
    Quiet s (workerRecover wk v s) := by
  cases v with
  | none => exact Quiet.s5_refl s
  | some v => exact Quiet.s5_send_failure s _ _ _

theorem s5_workerExit_quiet (k : Nat) (r : Outcome Unit) (s : State) :
    Quiet s (workerExit k r s) := by
  unfold workerExit
  cases s.workers k with
  | none => exact Quiet.s5_refl s
  | some wk =>
    simp only
    split_ifs
    · have h1 := s5_workerBody_quiet wk r s
      have h2 := s5_workerCleanup_quiet wk (workerBody wk r s).1 (workerBody wk r s).2
      have h3 := s5_workerRecover_quiet wk
        (workerCleanup wk (workerBody wk r s).1 (workerBody wk r s).2).1
        (workerCleanup wk (workerBody wk r s).1 (workerBody wk r s).2).2
      have h4 := (h1.s5_trans h2).s5_trans h3
      exact ⟨h4.1.shrink_trans (Core.Shrink.shrink_finishTask _ _ _), h4.2.1, h4.2.2⟩
    · exact Quiet.s5_refl s

theorem s5_Stop_absent {s : State} {srvID : Int} (port : Int)
    (h : s.socks5Servers srvID = none) :
    StopSocks5Server srvID port s
      = send (getPortOrDefault port s.core) (failure "stop_socks5_server"
          ("server " ++ toString srvID ++ " not found")) s := by
  simp [StopSocks5Server, h]

theorem s5_Stop_open {s : State} {srvID : Int} (port : Int)
    {w : Socks5ServerWrapper} (h : s.socks5Servers srvID = some w)
    (ho : s.core.closes w.StopChan = 0) :
    StopSocks5Server srvID port s
      = send (getPortOrDefault port s.core) (success "stop_socks5_server" (Payload.int srvID))
          { s with
            core := (closeChan w.StopChan s.core).2
            socks5Servers := s.socks5Servers.delete srvID } := by
  simp [StopSocks5Server, h, closeChan, ho]

theorem s5_Stop_closed {s : State} {srvID : Int} (port : Int)
    {w : Socks5ServerWrapper} (h : s.socks5Servers srvID = some w)
    (ho : s.core.closes w.StopChan ≠ 0) :
    StopSocks5Server srvID port s
      = { s with core := { (closeChan w.StopChan s.core).2 with crashed := some closeOfClosed } }
      := by
  simp [StopSocks5Server, h, closeChan, ho]

theorem s5_Stop_quiet (srvID port : Int) (s : State) :
    Quiet s (StopSocks5Server srvID port s) := by
  cases hp : s.socks5Servers srvID with
  | none => rw [s5_Stop_absent port hp]; exact Quiet.s5_send_failure s _ _ _
  | some w =>
    by_cases ho : s.core.closes w.StopChan = 0
    · rw [s5_Stop_open port hp ho]
      refine ⟨(Core.Shrink.shrink_closeChan _ _ _).shrink_trans
        (Core.Shrink.shrink_send_other _ _ _ _ _ (by decide)), rfl, ?_⟩
      intro id w2 h
      simp only [send, GoMap.delete] at h
      split_ifs at h
      exact h
    · rw [s5_Stop_closed port hp ho]
      exact ⟨Core.Shrink.shrink_of_eq rfl rfl rfl, rfl, fun _ _ h => h⟩

theorem State.s5_step_alive {s : State} (h : s.core.crashed = none) (a : Action) :
    s.step a =
      match a with
      | .create lib listenPort username password port =>
        (CreateDirectServerTCP lib listenPort username password port s).2
      | .start srvID port => (StartSocks5Server srvID port s).2
      | .workerEnter k => workerEnter k s
      | .workerExit k r => workerExit k r s
      | .stop srvID port => StopSocks5Server srvID port s
      | .stopTaskEnter taskID port => { s with core := StopTask.enter taskID port s.core }
      | .stopTaskCancel k => { s with core := StopTask.cancel k s.core }
      | .stopTaskWake k => { s with core := StopTask.wake k s.core }
      | .registerPort port => { s with core := RegisterPort port s.core }
      | .unregisterPort => { s with core := UnregisterPort s.core } := by
  simp [State.step, h]

theorem State.s5_step_crashed {s : State} {v : String} (h : s.core.crashed = some v)
    (a : Action) : s.step a = s := by
  simp [State.step, h]

/-- Every step other than a successful Create and a Start on a present
resource is quiet. -/
theorem State.s5_step_quiet (s : State) (a : Action)
    (hc : ∀ lib listenPort username password port,
      a ≠ Action.create lib listenPort username password port)
    (hs : ∀ srvID port, a ≠ Action.start srvID port) : Quiet s (s.step a) := by
  cases hcr : s.core.crashed with
  | some v => rw [State.s5_step_crashed hcr]; exact Quiet.s5_refl s
  | none =>
    rw [State.s5_step_alive hcr]
    cases a with
    | create lib listenPort username password port =>
      exact absurd rfl (hc lib listenPort username password port)
    | start srvID port => exact absurd rfl (hs srvID port)
    | workerEnter k => exact s5_workerEnter_quiet k s
    | workerExit k r => exact s5_workerExit_quiet k r s
    | stop srvID port => exact s5_Stop_quiet srvID port s
    | stopTaskEnter taskID port => exact Quiet.s5_of_core (Core.Shrink.shrink_stopEnter _ _ _ _)
    | stopTaskCancel k => exact Quiet.s5_of_core (Core.Shrink.shrink_stopCancel _ _ _)
    | stopTaskWake k => exact Quiet.s5_of_core (Core.Shrink.shrink_stopWake _ (by decide) _ _)
    | registerPort port => exact Quiet.s5_of_core (Core.Shrink.shrink_registerPort _ _ _)
    | unregisterPort => exact Quiet.s5_of_core (Core.Shrink.shrink_unregisterPort _ _)

theorem State.Bnd.s5_quiet {s t : State} {n : Int} (h : s.Bnd n) (hq : Quiet s t) :
    t.Bnd n := by
  unfold State.Bnd at h ⊢
  rw [hq.2.1]
  refine ResBnd.quiet h hq.1 ?_
  intro id hid
  cases ht : t.socks5Servers id with
  | none => simp [ht] at hid
  | some w => simp [hq.2.2 id w ht]

theorem State.Bnd.s5_init : State.init.Bnd 0 := by
  refine ⟨Core.Bnd.bnd_init, le_rfl, le_rfl, ?_, ?_, ?_⟩ <;>
    simp [State.init, Core.init, reportedIDs]

theorem State.Bnd.s5_step {s : State} {n : Int} (h : s.Bnd n) (hn : n < maxInt64)
    (a : Action) : (s.step a).Bnd (n + 1) := by
  cases hcr : s.core.crashed with
  | some v => rw [State.s5_step_crashed hcr]; exact ResBnd.mono h (by omega)
  | none =>
    by_cases hc : ∃ lib listenPort username password port,
        a = Action.create lib listenPort username password port
    · obtain ⟨lib, listenPort, username, password, port, rfl⟩ := hc
      rw [State.s5_step_alive hcr]
      simp only
      have hadd : atomicAddInt64 s.nextSrvID 1 = s.nextSrvID + 1 :=
        atomicAddInt64_succ h.lo (lt_of_le_of_lt h.hi hn)
      rcases s5_Create_cases lib listenPort username password port s with
        ⟨e, h1, h2, h3, h4, h5, _⟩ | ⟨w, h1, h2, h3, h4, h5, _⟩
      · refine ResBnd.mono (State.Bnd.s5_quiet h ⟨⟨h5, ?_, ?_⟩, h2, ?_⟩) (by omega)
        · intro j e2 he; rw [h4] at he; exact he
        · rw [h1]; exact reportedIDs_failure _ _ _ _ _
        · intro id w hw; rw [h3] at hw; exact hw
      · unfold State.Bnd
        rw [h2, hadd]
        rw [hadd] at h1 h3
        refine ResBnd.created h h5 h4 _ "create_direct_server_tcp" (by decide) h1 ?_
        intro id hid
        rw [h3] at hid
        simp only [GoMap.set] at hid
        split_ifs at hid with hx
        · right; exact hx
        · left; exact hid
    by_cases hst : ∃ srvID port, a = Action.start srvID port
    · obtain ⟨srvID, port, rfl⟩ := hst
      rw [State.s5_step_alive hcr]
      simp only
      cases hp : s.socks5Servers srvID with
      | none =>
        rw [s5_Start_absent port hp]
        exact ResBnd.mono (State.Bnd.s5_quiet h (Quiet.s5_send_failure s _ _ _)) (by omega)
      | some w =>
        rw [s5_Start_present port hp]
        exact ResBnd.started h hn
    · exact ResBnd.mono (State.Bnd.s5_quiet h
        (State.s5_step_quiet s a
          (fun l lp u pw p e => hc ⟨l, lp, u, pw, p, e⟩)
          (fun i p e => hst ⟨i, p, e⟩))) (by omega)

theorem State.s5_run_cons (s : State) (a : Action) (acts : List Action) :
    s.run (a :: acts) = (s.step a).run acts := rfl

theorem State.s5_run_append (s : State) (xs ys : List Action) :
    s.run (xs ++ ys) = (s.run xs).run ys := by
  simp [State.run, List.foldl_append]

theorem State.Bnd.s5_run {s : State} {n : Int} (h : s.Bnd n) (acts : List Action)
    (hn : n + acts.length ≤ maxInt64) : (s.run acts).Bnd (n + acts.length) := by
  induction acts generalizing s n with
  | nil => simpa [State.run] using h
  | cons a rest ih =>
    simp only [List.length_cons, Nat.cast_add, Nat.cast_one] at hn ⊢
    have h1 := State.Bnd.s5_step h (by omega) a
    have := ih h1 (by omega)
    rw [State.s5_run_cons]
    have e : n + (↑rest.length + 1) = n + 1 + ↑rest.length := by ring
    rw [e]
    exact this


theorem s5_Create_err {lib : Lib} {listenPort : Int} {username password : String}
    (port : Int) (s : State) {e : String}
    (h : lib.NewServer
      { ListenPort := listenPort, UserName := username, Password := password,
        LogLevel := "info" } = Outcome.err e) :
    CreateDirectServerTCP lib listenPort username password port s
      = (0, send (getPortOrDefault port s.core) (failure "create_direct_server_tcp" e) s) := by
  simp [CreateDirectServerTCP, safeOp, CreateDirectServerTCP.fn, h]

theorem s5_Create_ok {lib : Lib} {listenPort : Int} {username password : String}
    (port : Int) (s : State)
    (h : lib.NewServer
      { ListenPort := listenPort, UserName := username, Password := password,
        LogLevel := "info" } = Outcome.ok ()) :
    CreateDirectServerTCP lib listenPort username password port s
      = (0, send (getPortOrDefault port s.core)
          (success "create_direct_server_tcp" (Payload.int (atomicAddInt64 s.nextSrvID 1)))
          { s with
            core := (makeChan s.core).2
            nextObj := s.nextObj + 1
            nextSrvID := atomicAddInt64 s.nextSrvID 1
            socks5Servers := s.socks5Servers.set (atomicAddInt64 s.nextSrvID 1)
              { Server := s.nextObj, StopChan := s.core.nextChan,
                ID := atomicAddInt64 s.nextSrvID 1 } }) := by
  simp [CreateDirectServerTCP, safeOp, CreateDirectServerTCP.fn, h]
  rfl

/-- IDs reported before and after a `CreateDirectServerTCP` call in a
state whose counter cannot overflow. -/
theorem s5_Create_ids {s : State} {n : Int} (h : s.Bnd n) (hn : n < maxInt64) (lib : Lib)
    (listenPort : Int) (username password : String) (port : Int) :
    ((CreateDirectServerTCP lib listenPort username password port s).2.nextSrvID = s.nextSrvID
      ∧ reportedIDs createOps
          (CreateDirectServerTCP lib listenPort username password port s).2.core.sent
        = reportedIDs createOps s.core.sent)
    ∨ ((CreateDirectServerTCP lib listenPort username password port s).2.nextSrvID
          = s.nextSrvID + 1
      ∧ reportedIDs createOps
          (CreateDirectServerTCP lib listenPort username password port s).2.core.sent
        = reportedIDs createOps s.core.sent ++ [s.nextSrvID + 1]) := by
  have hadd : atomicAddInt64 s.nextSrvID 1 = s.nextSrvID + 1 :=
    atomicAddInt64_succ h.lo (lt_of_le_of_lt h.hi hn)
  rcases s5_Create_cases lib listenPort username password port s with
    ⟨e, h1, h2, _⟩ | ⟨w, h1, h2, _⟩
  · left
    exact ⟨h2, by rw [h1]; exact reportedIDs_failure _ _ _ _ _⟩
  · right
    rw [hadd] at h1 h2
    exact ⟨h2, by rw [h1]; exact reportedIDs_created _ _ _ _ _ (by decide)⟩

end socks5lib

/-! ## Module `socks5lib2`: effect of each call -/

namespace socks5lib2

/-- What a Create call does, by cases, for the closure `createFn` run
under `safeOp` with operation name `op`: either a failure is sent and
counter and registry are left alone, or the success carrying the
incremented counter is sent and one wrapper is registered under it. -/
theorem s52_Create_cases (lib : Lib) (listenPort : Int) (username password : String)
    (hd : Handler) (p : Int) (op : String) (s : State) :
    (∃ e, (safeOp p op (createFn lib listenPort username password hd) s).core.sent
          = s.core.sent ++ [(p, Msg.resp (failure op e))]
        ∧ (safeOp p op (createFn lib listenPort username password hd) s).nextSrvID
            = s.nextSrvID
        ∧ (safeOp p op (createFn lib listenPort username password hd) s).socks5Servers
            = s.socks5Servers
        ∧ (safeOp p op (createFn lib listenPort username password hd) s).core.tasks
            = s.core.tasks
        ∧ (safeOp p op (createFn lib listenPort username password hd) s).core.nextTask
            = s.core.nextTask
        ∧ (safeOp p op (createFn lib listenPort username password hd) s).core.crashed
            = s.core.crashed)
    ∨ (∃ w, (safeOp p op (createFn lib listenPort username password hd) s).core.sent
          = s.core.sent ++ [(p, Msg.resp (success op
                (Payload.int (atomicAddInt64 s.nextSrvID 1))))]
        ∧ (safeOp p op (createFn lib listenPort username password hd) s).nextSrvID
            = atomicAddInt64 s.nextSrvID 1
        ∧ (safeOp p op (createFn lib listenPort username password hd) s).socks5Servers
            = s.socks5Servers.set (atomicAddInt64 s.nextSrvID 1) w
        ∧ (safeOp p op (createFn lib listenPort username password hd) s).core.tasks
            = s.core.tasks
        ∧ (safeOp p op (createFn lib listenPort username password hd) s).core.nextTask
            = s.core.nextTask
        ∧ (safeOp p op (createFn lib listenPort username password hd) s).core.crashed
            = s.core.crashed) := by
  unfold safeOp createFn
  simp only
  cases lib.NewClassicServer (":" ++ toString listenPort) "" username password 0 0 with
  | err e => left; exact ⟨_, rfl, rfl, rfl, rfl, rfl, rfl⟩
  | panic v => left; exact ⟨_, rfl, rfl, rfl, rfl, rfl, rfl⟩
  | ok _ => right; exact ⟨_, rfl, rfl, rfl, rfl, rfl, rfl⟩

theorem Quiet.s52_refl (s : State) : Quiet s s :=
  ⟨Core.Shrink.shrink_refl _ _, rfl, fun _ _ h => h⟩

theorem Quiet.s52_trans {s t u : State} (h1 : Quiet s t) (h2 : Quiet t u) : Quiet s u :=
  ⟨h1.1.shrink_trans h2.1, h2.2.1.trans h1.2.1, fun id w h => h1.2.2 id w (h2.2.2 id w h)⟩

/-- A change of the task-registry state alone. -/
theorem Quiet.s52_of_core {s : State} {c : Core} (h : Core.Shrink createOps s.core c) :
    Quiet s { s with core := c } :=
  ⟨h, rfl, fun _ _ h => h⟩

theorem Quiet.s52_send_failure (s : State) (p : Int) (op e : String) :
    Quiet s (send p (failure op e) s) :=
  Quiet.s52_of_core (Core.Shrink.shrink_send_failure _ _ _ _ _)

theorem Quiet.s52_send_other (s : State) (p : Int) (op : String) (d : Payload)
    (h : op ∉ createOps) : Quiet s (send p (success op d) s) :=
  Quiet.s52_of_core (Core.Shrink.shrink_send_other _ _ _ _ _ h)

theorem s52_Start_absent {s : State} {srvID : Int} (port : Int)
    (h : s.socks5Servers srvID = none) :
    StartSocks5Server srvID port s
      = (0, send (getPortOrDefault port s.core) (failure "start_socks5_server"
          ("server " ++ toString srvID ++ " not found")) s) := by
  simp [StartSocks5Server, h]

theorem s52_Start_present {s : State} {srvID : Int} (port : Int)
    {w : Socks5ServerWrapper} (h : s.socks5Servers srvID = some w) :
    StartSocks5Server srvID port s
      = ((addTask (withCancel s.core).1 (withCancel s.core).2).1,
          { s with
            core := (addTask (withCancel s.core).1 (withCancel s.core).2).2
            workers := fun k =>
              if k = s.nextWorker then
                some { tid := (addTask (withCancel s.core).1 (withCancel s.core).2).1, w := w,
                       p := getPortOrDefault port s.core, pc := WorkerPC.spawned }
              else s.workers k
            nextWorker := s.nextWorker + 1 }) := by
  simp [StartSocks5Server, h]

theorem s52_workerEnter_quiet (k : Nat) (s : State) : Quiet s (workerEnter k s) := by
  unfold workerEnter
  cases s.workers k with
  | none => exact Quiet.s52_refl s
  | some wk =>
    simp only
    split_ifs
    · exact ⟨Core.Shrink.shrink_refl _ _, rfl, fun _ _ h => h⟩
    · exact Quiet.s52_refl s

theorem s52_workerBody_quiet (wk : Worker) (r : Outcome Unit) (s : State) :
    Quiet s (workerBody wk r s).2 := by
  cases r with
  | ok _ => exact Quiet.s52_send_other s _ _ _ (by decide)
  | err e => exact Quiet.s52_send_failure s _ _ _
  | panic v => exact Quiet.s52_refl s

theorem s52_workerCleanup_quiet (wk : Worker) (v : Option String) (s : State) :
    Quiet s (workerCleanup wk v s).2 := by
  unfold workerCleanup
  refine ⟨Core.Shrink.shrink_refl _ _, rfl, ?_⟩
  intro id w h
  simp only [GoMap.delete] at h
  split_ifs at h
  exact h

theorem s52_workerRecover_quiet (wk : Worker) (v : Option String) (s : State) :
    Quiet s (workerRecover wk v s) := by
  cases v with
  | none => exact Quiet.s52_refl s
  | some v => exact Quiet.s52_send_failure s _ _ _

theorem s52_workerExit_quiet (k : Nat) (r : Outcome Unit) (s : State) :
    Quiet s (workerExit k r s) := by
  unfold workerExit
  cases s.workers k with
  | none => exact Quiet.s52_refl s
  | some wk =>
    simp only
    split_ifs
    · have h1 := s52_workerBody_quiet wk r s
      have h2 := s52_workerCleanup_quiet wk (workerBody wk r s).1 (workerBody wk r s).2
      have h3 := s52_workerRecover_quiet wk
        (workerCleanup wk (workerBody wk r s).1 (workerBody wk r s).2).1
        (workerCleanup wk (workerBody wk r s).1 (workerBody wk r s).2).2
      have h4 := (h1.s52_trans h2).s52_trans h3
      exact ⟨h4.1.shrink_trans (Core.Shrink.shrink_finishTask _ _ _), h4.2.1, h4.2.2⟩
    · exact Quiet.s52_refl s

theorem s52_Stop_absent {s : State} {srvID : Int} (port : Int) (shutdown : Option String)
    (h : s.socks5Servers srvID = none) :
    StopSocks5Server srvID port shutdown s
      = send (getPortOrDefault port s.core) (failure "stop_socks5_server"
          ("server " ++ toString srvID ++ " not found")) s := by
  simp [StopSocks5Server, h]

theorem s52_Stop_ok {s : State} {srvID : Int} (port : Int)
    {w : Socks5ServerWrapper} (h : s.socks5Servers srvID = some w) :
    StopSocks5Server srvID port none s
      = send (getPortOrDefault port s.core) (success "stop_socks5_server" (Payload.int srvID))
          { s with
            calls := s.calls ++ [ExtCall.Shutdown w.Server]
            socks5Servers := s.socks5Servers.delete srvID } := by
  simp [StopSocks5Server, h]

theorem s52_Stop_err {s : State} {srvID : Int} (port : Int) (err : String)
    {w : Socks5ServerWrapper} (h : s.socks5Servers srvID = some w) :
    StopSocks5Server srvID port (some err) s
      = send (getPortOrDefault port s.core)
          (failure "stop_socks5_server" ("shutdown error: " ++ err))
          { s with calls := s.calls ++ [ExtCall.Shutdown w.Server] } := by
  simp [StopSocks5Server, h]

theorem s52_Stop_quiet (srvID port : Int) (shutdown : Option String) (s : State) :
    Quiet s (StopSocks5Server srvID port shutdown s) := by
  cases hp : s.socks5Servers srvID with
  | none => rw [s52_Stop_absent port shutdown hp]; exact Quiet.s52_send_failure s _ _ _
  | some w =>
    cases shutdown with
    | none =>
      rw [s52_Stop_ok port hp]
      refine ⟨Core.Shrink.shrink_send_other _ _ _ _ _ (by decide), rfl, ?_⟩
      intro id w2 h
      simp only [send, GoMap.delete] at h
      split_ifs at h
      exact h
    | some err =>
      rw [s52_Stop_err port err hp]
      exact ⟨Core.Shrink.shrink_send_failure _ _ _ _ _, rfl, fun _ _ h => h⟩

theorem State.s52_step_alive {s : State} (h : s.core.crashed = none) (a : Action) :
    s.step a =
      match a with
      | .createDirect lib listenPort username password port =>
        (CreateDirectServerTCP lib listenPort username password port s).2
      | .createProxy lib listenPort username password proxyAddr proxyUser proxyPass port =>
        (CreateProxyToSocks5ServerTCP lib listenPort username password
          proxyAddr proxyUser proxyPass port s).2
      | .start srvID port => (StartSocks5Server srvID port s).2
      | .workerEnter k => workerEnter k s
      | .workerExit k r => workerExit k r s
      | .stop srvID port shutdown => StopSocks5Server srvID port shutdown s
      | .stopTaskEnter taskID port => { s with core := StopTask.enter taskID port s.core }
      | .stopTaskCancel k => { s with core := StopTask.cancel k s.core }
      | .stopTaskWake k => { s with core := StopTask.wake k s.core }
      | .registerPort port => { s with core := RegisterPort port s.core }
      | .unregisterPort => { s with core := UnregisterPort s.core } := by
  simp [State.step, h]

theorem State.s52_step_crashed {s : State} {v : String} (h : s.core.crashed = some v)
    (a : Action) : s.step a = s := by
  simp [State.step, h]

/-- Every step other than a Create and a Start is quiet. -/
theorem State.s52_step_quiet (s : State) (a : Action)
    (hc : ∀ lib listenPort username password port,
      a ≠ Action.createDirect lib listenPort username password port)
    (hx : ∀ lib listenPort username password proxyAddr proxyUser proxyPass port,
      a ≠ Action.createProxy lib listenPort username password proxyAddr proxyUser proxyPass
        port)
    (hs : ∀ srvID port, a ≠ Action.start srvID port) : Quiet s (s.step a) := by
  cases hcr : s.core.crashed with
  | some v => rw [State.s52_step_crashed hcr]; exact Quiet.s52_refl s
  | none =>
    rw [State.s52_step_alive hcr]
    cases a with
    | createDirect lib listenPort username password port =>
      exact absurd rfl (hc lib listenPort username password port)
    | createProxy lib listenPort username password proxyAddr proxyUser proxyPass port =>
      exact absurd rfl (hx lib listenPort username password proxyAddr proxyUser proxyPass port)
    | start srvID port => exact absurd rfl (hs srvID port)
    | workerEnter k => exact s52_workerEnter_quiet k s
    | workerExit k r => exact s52_workerExit_quiet k r s
    | stop srvID port shutdown => exact s52_Stop_quiet srvID port shutdown s
    | stopTaskEnter taskID port =>
      exact Quiet.s52_of_core (Core.Shrink.shrink_stopEnter _ _ _ _)
    | stopTaskCancel k => exact Quiet.s52_of_core (Core.Shrink.shrink_stopCancel _ _ _)
    | stopTaskWake k => exact Quiet.s52_of_core (Core.Shrink.shrink_stopWake _ (by decide) _ _)
    | registerPort port => exact Quiet.s52_of_core (Core.Shrink.shrink_registerPort _ _ _)
    | unregisterPort => exact Quiet.s52_of_core (Core.Shrink.shrink_unregisterPort _ _)

theorem State.Bnd.s52_quiet {s t : State} {n : Int} (h : s.Bnd n) (hq : Quiet s t) :
    t.Bnd n := by
  unfold State.Bnd at h ⊢
  rw [hq.2.1]
  refine ResBnd.quiet h hq.1 ?_
  intro id hid
  cases ht : t.socks5Servers id with
  | none => simp [ht] at hid
  | some w => simp [hq.2.2 id w ht]

theorem State.Bnd.s52_init : State.init.Bnd 0 := by
  refine ⟨Core.Bnd.bnd_init, le_rfl, le_rfl, ?_, ?_, ?_⟩ <;>
    simp [State.init, Core.init, reportedIDs]

/-- The counter bound after a Create closure run under `safeOp`. -/
theorem State.Bnd.s52_created {s : State} {n : Int} (h : s.Bnd n) (hn : n < maxInt64)
    (lib : Lib) (listenPort : Int) (username password : String) (hd : Handler) (p : Int)
    (op : String) (hop : op ∈ createOps) :
    (safeOp p op (createFn lib listenPort username password hd) s).Bnd (n + 1) := by
  have hadd : atomicAddInt64 s.nextSrvID 1 = s.nextSrvID + 1 :=
    atomicAddInt64_succ h.lo (lt_of_le_of_lt h.hi hn)
  rcases s52_Create_cases lib listenPort username password hd p op s with
    ⟨e, h1, h2, h3, h4, h5, _⟩ | ⟨w, h1, h2, h3, h4, h5, _⟩
  · refine ResBnd.mono (State.Bnd.s52_quiet h ⟨⟨h5, ?_, ?_⟩, h2, ?_⟩) (by omega)
    · intro j e2 he; rw [h4] at he; exact he
    · rw [h1]; exact reportedIDs_failure _ _ _ _ _
    · intro id w hw; rw [h3] at hw; exact hw
  · unfold State.Bnd
    rw [h2, hadd]
    rw [hadd] at h1 h3
    refine ResBnd.created h h5 h4 _ op hop h1 ?_
    intro id hid
    rw [h3] at hid
    simp only [GoMap.set] at hid
    split_ifs at hid with hx
    · right; exact hx
    · left; exact hid

theorem State.Bnd.s52_step {s : State} {n : Int} (h : s.Bnd n) (hn : n < maxInt64)
    (a : Action) : (s.step a).Bnd (n + 1) := by
  cases hcr : s.core.crashed with
  | some v => rw [State.s52_step_crashed hcr]; exact ResBnd.mono h (by omega)
  | none =>
    by_cases hc : ∃ lib listenPort username password port,
        a = Action.createDirect lib listenPort username password port
    · obtain ⟨lib, listenPort, username, password, port, rfl⟩ := hc
      rw [State.s52_step_alive hcr]
      exact State.Bnd.s52_created h hn lib listenPort username password _ _ _ (by decide)
    by_cases hx : ∃ lib listenPort username password proxyAddr proxyUser proxyPass port,
        a = Action.createProxy lib listenPort username password proxyAddr proxyUser proxyPass
          port
    · obtain ⟨lib, listenPort, username, password, proxyAddr, proxyUser, proxyPass, port, rfl⟩
        := hx
      rw [State.s52_step_alive hcr]
      exact State.Bnd.s52_created h hn lib listenPort username password _ _ _ (by decide)
    by_cases hst : ∃ srvID port, a = Action.start srvID port
    · obtain ⟨srvID, port, rfl⟩ := hst
      rw [State.s52_step_alive hcr]
      simp only
      cases hp : s.socks5Servers srvID with
      | none =>
        rw [s52_Start_absent port hp]
        exact ResBnd.mono (State.Bnd.s52_quiet h (Quiet.s52_send_failure s _ _ _)) (by omega)
      | some w =>
        rw [s52_Start_present port hp]
        exact ResBnd.started h hn
    · exact ResBnd.mono (State.Bnd.s52_quiet h
        (State.s52_step_quiet s a
          (fun l lp u pw p e => hc ⟨l, lp, u, pw, p, e⟩)
          (fun l lp u pw a1 a2 a3 p e => hx ⟨l, lp, u, pw, a1, a2, a3, p, e⟩)
          (fun i p e => hst ⟨i, p, e⟩))) (by omega)

theorem State.s52_run_cons (s : State) (a : Action) (acts : List Action) :
    s.run (a :: acts) = (s.step a).run acts := rfl

theorem State.s52_run_append (s : State) (xs ys : List Action) :
    s.run (xs ++ ys) = (s.run xs).run ys := by
  simp [State.run, List.foldl_append]

theorem State.Bnd.s52_run {s : State} {n : Int} (h : s.Bnd n) (acts : List Action)
    (hn : n + acts.length ≤ maxInt64) : (s.run acts).Bnd (n + acts.length) := by
  induction acts generalizing s n with
  | nil => simpa [State.run] using h
  | cons a rest ih =>
    simp only [List.length_cons, Nat.cast_add, Nat.cast_one] at hn ⊢
    have h1 := State.Bnd.s52_step h (by omega) a
    have := ih h1 (by omega)
    rw [State.s52_run_cons]
    have e : n + (↑rest.length + 1) = n + 1 + ↑rest.length := by ring
    rw [e]
    exact this


theorem s52_Create_err {lib : Lib} {listenPort : Int} {username password : String}
    (hd : Handler) (p : Int) (op : String) (s : State) {e : String}
    (h : lib.NewClassicServer (":" ++ toString listenPort) "" username password 0 0
      = Outcome.err e) :
    safeOp p op (createFn lib listenPort username password hd) s
      = send p (failure op e) s := by
  simp [safeOp, createFn, h]

theorem s52_Create_ok {lib : Lib} {listenPort : Int} {username password : String}
    (hd : Handler) (p : Int) (op : String) (s : State)
    (h : lib.NewClassicServer (":" ++ toString listenPort) "" username password 0 0
      = Outcome.ok ()) :
    safeOp p op (createFn lib listenPort username password hd) s
      = send p (success op (Payload.int (atomicAddInt64 s.nextSrvID 1)))
          { s with
            nextObj := s.nextObj + 1
            handle := fun j => if j = s.nextObj then some hd else s.handle j
            nextSrvID := atomicAddInt64 s.nextSrvID 1
            socks5Servers := s.socks5Servers.set (atomicAddInt64 s.nextSrvID 1)
              { Server := s.nextObj, ID := atomicAddInt64 s.nextSrvID 1 } } := by
  simp [safeOp, createFn, h]

/-- IDs reported before and after a Create closure run under `safeOp`, in
a state whose counter cannot overflow. -/
theorem s52_Create_ids {s : State} {n : Int} (h : s.Bnd n) (hn : n < maxInt64) (lib : Lib)
    (listenPort : Int) (username password : String) (hd : Handler) (p : Int) (op : String)
    (hop : op ∈ createOps) :
    ((safeOp p op (createFn lib listenPort username password hd) s).nextSrvID = s.nextSrvID
      ∧ reportedIDs createOps
          (safeOp p op (createFn lib listenPort username password hd) s).core.sent
        = reportedIDs createOps s.core.sent)
    ∨ ((safeOp p op (createFn lib listenPort username password hd) s).nextSrvID
          = s.nextSrvID + 1
      ∧ reportedIDs createOps
          (safeOp p op (createFn lib listenPort username password hd) s).core.sent
        = reportedIDs createOps s.core.sent ++ [s.nextSrvID + 1]) := by
  have hadd : atomicAddInt64 s.nextSrvID 1 = s.nextSrvID + 1 :=
    atomicAddInt64_succ h.lo (lt_of_le_of_lt h.hi hn)
  rcases s52_Create_cases lib listenPort username password hd p op s with
    ⟨e, h1, h2, _⟩ | ⟨w, h1, h2, _⟩
  · left
    exact ⟨h2, by rw [h1]; exact reportedIDs_failure _ _ _ _ _⟩
  · right
    rw [hadd] at h1 h2
    exact ⟨h2, by rw [h1]; exact reportedIDs_created _ _ _ _ _ hop⟩


theorem s52_CreateDirect_eq (lib : Lib) (listenPort : Int) (username password : String)
    (port : Int) (s : State) :
    CreateDirectServerTCP lib listenPort username password port s
      = (0, safeOp (getPortOrDefault port s.core) "create_direct_server_tcp"
          (createFn lib listenPort username password Handler.DefaultHandle) s) := rfl

theorem s52_CreateProxy_eq (lib : Lib) (listenPort : Int) (username password : String)
    (proxyAddr proxyUser proxyPass : String) (port : Int) (s : State) :
    CreateProxyToSocks5ServerTCP lib listenPort username password proxyAddr proxyUser
        proxyPass port s
      = (0, safeOp (getPortOrDefault port s.core) "create_proxy_to_socks5_server_tcp"
          (createFn lib listenPort username password
            (Handler.ProxyHandler proxyAddr proxyUser proxyPass)) s) := rfl

end socks5lib2

/-! ## Steps that close no channel and add no task -/

theorem Core.Keep.keep_refl (c : Core) : Core.Keep c c :=
  ⟨rfl, rfl, le_rfl, fun _ _ h => h⟩

theorem Core.Keep.keep_trans {c t u : Core} (h1 : Core.Keep c t) (h2 : Core.Keep t u) :
    Core.Keep c u :=
  ⟨h2.crashed.trans h1.crashed, h2.closes.trans h1.closes, le_trans h1.nextChan h2.nextChan,
    fun j e h => h1.tasks j e (h2.tasks j e h)⟩

theorem Core.Keep.keep_send (c : Core) (p : Int) (r : simpleResp) :
    Core.Keep c (sendToPort p r c) :=
  ⟨rfl, rfl, le_rfl, fun _ _ h => h⟩

theorem Core.Keep.keep_makeChan (c : Core) : Core.Keep c (makeChan c).2 :=
  ⟨rfl, rfl, Nat.le_succ _, fun _ _ h => h⟩

theorem Core.Keep.keep_stopEnter (c : Core) (id port : Int) :
    Core.Keep c (StopTask.enter id port c) := by
  cases hid : c.tasks id with
  | none => rw [StopTask.enter_absent hid]; exact Core.Keep.keep_send c _ _
  | some e =>
    rw [StopTask.enter_found hid]
    refine ⟨rfl, rfl, le_rfl, ?_⟩
    intro j e2 h
    simp only [GoMap.delete] at h
    split_ifs at h
    exact h

theorem Core.Keep.keep_stopCancel (c : Core) (k : Nat) :
    Core.Keep c (StopTask.cancel k c) := by
  unfold StopTask.cancel callCancel
  cases c.stopCalls k with
  | none => exact Core.Keep.keep_refl c
  | some f =>
    simp only
    split_ifs
    · exact ⟨rfl, rfl, le_rfl, fun _ _ h => h⟩
    · exact Core.Keep.keep_refl c

theorem Core.Keep.keep_stopWake (c : Core) (k : Nat) :
    Core.Keep c (StopTask.wake k c) := by
  unfold StopTask.wake
  cases c.stopCalls k with
  | none => exact Core.Keep.keep_refl c
  | some f =>
    simp only
    split_ifs
    · exact ⟨rfl, rfl, le_rfl, fun _ _ h => h⟩
    · exact Core.Keep.keep_refl c

theorem Core.Keep.keep_registerPort (c : Core) (p : Int) :
    Core.Keep c (RegisterPort p c) :=
  ⟨rfl, rfl, le_rfl, fun _ _ h => h⟩

theorem Core.Keep.keep_unregisterPort (c : Core) : Core.Keep c (UnregisterPort c) := by
  unfold UnregisterPort
  simp only
  split_ifs
  · exact ⟨rfl, rfl, le_rfl, fun _ _ h => h⟩
  · exact ⟨rfl, rfl, le_rfl, fun _ _ h => h⟩

/-! ## Module `portforward`: the invariant -/

namespace portforward

theorem State.Inv.pf_inv_init : State.init.Inv := by
  constructor <;> simp [State.init, Core.init]

/-- The invariant passes to a state whose task registry is kept, whose
resource registry lost keys at most, and whose workers hold wrappers that
workers held before. -/
theorem State.Inv.pf_transfer {s t : State} (h : s.Inv) (hc : Core.Keep s.core t.core)
    (hreg : ∀ id w, t.portForwarders id = some w → s.portForwarders id = some w)
    (hobj : s.nextObj ≤ t.nextObj)
    (hw : ∀ k wk, t.workers k = some wk → ∃ k0 wk0, s.workers k0 = some wk0 ∧ wk0.w = wk.w) :
    t.Inv := by
  constructor
  · rw [hc.crashed]; exact h.crashed
  · intro c hcc
    rw [hc.closes]
    exact h.closes_fresh c (le_trans hc.nextChan hcc)
  · intro id e he
    have := h.task_ok id e (hc.tasks id e he)
    rw [hc.closes]
    exact ⟨lt_of_lt_of_le this.1 hc.nextChan, this.2⟩
  · intro id id2 e e2 he he2 hd
    exact h.task_inj id id2 e e2 (hc.tasks id e he) (hc.tasks id2 e2 he2) hd
  · intro id w hr
    have := h.reg_ok id w (hreg id w hr)
    rw [hc.closes]
    exact ⟨this.1, lt_of_lt_of_le this.2.1 hc.nextChan, this.2.2.1,
      lt_of_lt_of_le this.2.2.2 hobj⟩
  · intro id id2 w w2 hr hr2 hd
    exact h.reg_inj id id2 w w2 (hreg id w hr) (hreg id2 w2 hr2) hd
  · intro id w tid e hr he
    exact h.reg_task id w tid e (hreg id w hr) (hc.tasks tid e he)
  · intro k wk hk
    obtain ⟨k0, wk0, hk0, hw0⟩ := hw k wk hk
    have := h.wk_ok k0 wk0 hk0
    rw [← hw0]
    exact ⟨lt_of_lt_of_le this.1 hc.nextChan, lt_of_lt_of_le this.2 hobj⟩
  · intro k wk tid e hk he
    obtain ⟨k0, wk0, hk0, hw0⟩ := hw k wk hk
    rw [← hw0]
    exact h.wk_task k0 wk0 tid e hk0 (hc.tasks tid e he)
  · intro k wk id w hk hr hd
    obtain ⟨k0, wk0, hk0, hw0⟩ := hw k wk hk
    rw [← hw0] at hd ⊢
    exact h.wk_reg k0 wk0 id w hk0 (hreg id w hr) hd

theorem State.Inv.pf_inv_core {s : State} (h : s.Inv) {c : Core} (hc : Core.Keep s.core c) :
    ({ s with core := c } : State).Inv :=
  h.pf_transfer hc (fun _ _ hr => hr) le_rfl (fun k wk hk => ⟨k, wk, hk, rfl⟩)

theorem State.Inv.pf_inv_send {s : State} (h : s.Inv) (p : Int) (r : simpleResp) :
    (send p r s).Inv :=
  h.pf_inv_core (Core.Keep.keep_send _ _ _)


/-- The invariant after the insert of a successful `CreatePortForwarder`:
the new wrapper holds a fresh `StopChan` and a fresh forwarder. -/
theorem State.Inv.pf_inv_insert {s : State} (h : s.Inv) (id : Int) :
    ({ s with
        core := (makeChan (makeChan s.core).2).2
        nextObj := s.nextObj + 1
        nextPFID := id
        portForwarders := s.portForwarders.set id
          { PF := s.nextObj, Ready := s.core.nextChan + 1, StopChan := s.core.nextChan,
            ID := id } } : State).Inv := by
  have hto := h.task_ok
  have hro := h.reg_ok
  have hwo := h.wk_ok
  constructor
  · exact h.crashed
  · intro c hc
    simp only [makeChan] at hc ⊢
    exact h.closes_fresh c (by omega)
  · intro tid e he
    have := hto tid e he
    simp only [makeChan]
    exact ⟨by omega, this.2⟩
  · exact h.task_inj
  · intro j w hr
    simp only [GoMap.set, makeChan] at hr ⊢
    split_ifs at hr with hj
    · cases hr
      exact ⟨hj.symm, by simp only; omega, h.closes_fresh _ le_rfl, by simp only; omega⟩
    · have := hro j w hr
      exact ⟨this.1, by omega, this.2.2.1, by omega⟩
  · intro j j2 w w2 hr hr2 hd
    simp only [GoMap.set] at hr hr2
    split_ifs at hr hr2 with h1 h2 h2
    · rw [h1, h2]
    · cases hr
      have := hro j2 w2 hr2
      simp only at hd
      omega
    · cases hr2
      have := hro j w hr
      simp only at hd
      omega
    · exact h.reg_inj j j2 w w2 hr hr2 hd
  · intro j w tid e hr he
    simp only [GoMap.set] at hr he
    split_ifs at hr with hj
    · cases hr
      have := hto tid e he
      simp only
      omega
    · exact h.reg_task j w tid e hr he
  · intro k wk hk
    have := hwo k wk hk
    simp only [makeChan]
    exact ⟨by omega, by omega⟩
  · exact h.wk_task
  · intro k wk j w hk hr hd
    simp only [GoMap.set] at hr
    split_ifs at hr with hj
    · cases hr
      have := hwo k wk hk
      simp only at hd
      omega
    · exact h.wk_reg k wk j w hk hr hd

/-- The invariant after `StartForwardPorts` on a registered wrapper: the
new task holds a fresh `done` channel, the new worker the registered
wrapper. -/
theorem State.Inv.pf_inv_start {s : State} (h : s.Inv) {pfID : Int}
    {w : PortForwarderWrapper} (hp : s.portForwarders pfID = some w) (p : Int) :
    ({ s with
        core := (addTask (withCancel s.core).1 (withCancel s.core).2).2
        workers := fun k =>
          if k = s.nextWorker then
            some { tid := (addTask (withCancel s.core).1 (withCancel s.core).2).1, w := w,
                   p := p, pc := WorkerPC.spawned }
          else s.workers k
        nextWorker := s.nextWorker + 1 } : State).Inv := by
  have hto := h.task_ok
  have hro := h.reg_ok
  have hwo := h.wk_ok
  have hw := hro pfID w hp
  constructor
  · exact h.crashed
  · intro c hc
    simp only [addTask, makeChan, withCancel] at hc ⊢
    exact h.closes_fresh c (by omega)
  · intro tid e he
    simp only [addTask, makeChan, withCancel, GoMap.set] at he ⊢
    split_ifs at he with hj
    · cases he
      exact ⟨by simp, h.closes_fresh _ le_rfl⟩
    · have := hto tid e he
      exact ⟨by omega, this.2⟩
  · intro tid tid2 e e2 he he2 hd
    simp only [addTask, makeChan, withCancel, GoMap.set] at he he2
    split_ifs at he he2 with h1 h2 h2
    · rw [h1, h2]
    · cases he
      have := hto tid2 e2 he2
      simp only at hd
      omega
    · cases he2
      have := hto tid e he
      simp only at hd
      omega
    · exact h.task_inj tid tid2 e e2 he he2 hd
  · intro j w2 hr
    have := hro j w2 hr
    simp only [addTask, makeChan, withCancel]
    exact ⟨this.1, by omega, this.2.2.1, this.2.2.2⟩
  · exact h.reg_inj
  · intro j w2 tid e hr he
    simp only [addTask, makeChan, withCancel, GoMap.set] at he
    split_ifs at he with hj
    · cases he
      have := hro j w2 hr
      simp only
      omega
    · exact h.reg_task j w2 tid e hr he
  · intro k wk hk
    simp only [addTask, makeChan, withCancel] at hk ⊢
    split_ifs at hk with hj
    · cases hk
      exact ⟨by simp only; omega, hw.2.2.2⟩
    · have := hwo k wk hk
      exact ⟨by omega, this.2⟩
  · intro k wk tid e hk he
    simp only [addTask, makeChan, withCancel, GoMap.set] at hk he
    split_ifs at hk with hj
    · cases hk
      simp only
      split_ifs at he with h2
      · cases he
        simp only
        omega
      · exact h.reg_task pfID w tid e hp he
    · split_ifs at he with h2
      · cases he
        have := hwo k wk hk
        simp only
        omega
      · exact h.wk_task k wk tid e hk he
  · intro k wk j w2 hk hr hd
    simp only at hk hr
    split_ifs at hk with hj
    · cases hk
      simp only at hd ⊢
      rw [hw.1]
      exact h.reg_inj j pfID w2 w hr hp hd
    · exact h.wk_reg k wk j w2 hk hr hd

/-- The invariant after the deferred cleanup of a worker: its wrapper is
unregistered before its `StopChan` is closed, so every wrapper still
registered keeps an open `StopChan`. -/
theorem State.Inv.pf_inv_cleanup {s : State} (h : s.Inv) {k : Nat} {wk : Worker}
    (hk : s.workers k = some wk) (v : Option String) : (workerCleanup wk v s).2.Inv := by
  have hkeep : ∀ (calls : List ExtCall),
      ({ s with
          core := (closeChan wk.w.StopChan s.core).2
          portForwarders := s.portForwarders.delete wk.w.ID
          calls := calls } : State).Inv := by
    intro calls
    constructor
    · exact h.crashed
    · intro c hc
      simp only [closeChan] at hc ⊢
      have := (h.wk_ok k wk hk).1
      split_ifs with h1
      · omega
      · exact h.closes_fresh c hc
    · intro tid e he
      simp only [closeChan] at he ⊢
      have := h.task_ok tid e he
      have hne := h.wk_task k wk tid e hk he
      simp only [hne, if_false]
      exact this
    · exact h.task_inj
    · intro j w hr
      simp only [closeChan, GoMap.delete] at hr ⊢
      split_ifs at hr with hj
      have := h.reg_ok j w hr
      have hne : w.StopChan ≠ wk.w.StopChan :=
        fun hd => hj (h.wk_reg k wk j w hk hr (Or.inl hd))
      simp only [hne, if_false]
      exact this
    · intro j j2 w w2 hr hr2 hd
      simp only [GoMap.delete] at hr hr2
      split_ifs at hr hr2
      exact h.reg_inj j j2 w w2 hr hr2 hd
    · intro j w tid e hr he
      simp only [GoMap.delete] at hr he
      split_ifs at hr
      exact h.reg_task j w tid e hr he
    · intro k2 wk2 hk2
      exact h.wk_ok k2 wk2 hk2
    · intro k2 wk2 tid e hk2 he
      exact h.wk_task k2 wk2 tid e hk2 he
    · intro k2 wk2 j w hk2 hr hd
      simp only [GoMap.delete] at hr
      split_ifs at hr
      exact h.wk_reg k2 wk2 j w hk2 hr hd
  unfold workerCleanup
  simp only
  split_ifs
  · exact hkeep _
  · exact hkeep _

/-- The invariant after `finishTask`: the `done` channel it closes is open
and belongs to the removed record alone. -/
theorem State.Inv.pf_inv_finishTask {s : State} (h : s.Inv) (tid : Int) :
    ({ s with core := finishTask tid s.core } : State).Inv := by
  cases hid : s.core.tasks tid with
  | none => rw [finishTask_absent hid]; exact h
  | some e =>
    have he := h.task_ok tid e hid
    rw [finishTask_open hid he.2]
    constructor
    · exact h.crashed
    · intro c hc
      simp only at hc ⊢
      split_ifs with h1
      · omega
      · exact h.closes_fresh c hc
    · intro j e2 he2
      simp only [GoMap.delete] at he2 ⊢
      split_ifs at he2 with hj
      have := h.task_ok j e2 he2
      have hne : e2.done ≠ e.done := fun hd => hj (h.task_inj j tid e2 e he2 hid hd)
      simp only [hne, if_false]
      exact this
    · intro j j2 e1 e2 he1 he2 hd
      simp only [GoMap.delete] at he1 he2
      split_ifs at he1 he2
      exact h.task_inj j j2 e1 e2 he1 he2 hd
    · intro j w hr
      simp only at hr ⊢
      have := h.reg_ok j w hr
      have hne : w.StopChan ≠ e.done := fun hd => h.reg_task j w tid e hr hid hd.symm
      simp only [hne, if_false]
      exact this
    · exact h.reg_inj
    · intro j w j2 e2 hr he2
      simp only [GoMap.delete] at hr he2
      split_ifs at he2
      exact h.reg_task j w j2 e2 hr he2
    · exact h.wk_ok
    · intro k wk j e2 hk he2
      simp only [GoMap.delete] at hk he2
      split_ifs at he2
      exact h.wk_task k wk j e2 hk he2
    · exact h.wk_reg

/-- In a state satisfying the invariant `StopForwardPorts` on a registered
wrapper meets an open `StopChan`. -/
theorem State.Inv.pf_stop_eq {s : State} (h : s.Inv) {pfID : Int} (port : Int)
    {w : PortForwarderWrapper} (hp : s.portForwarders pfID = some w) :
    StopForwardPorts pfID port s
      = send (getPortOrDefault port s.core) (success "stop_forward_ports" (Payload.int pfID))
          { s with
            core := (closeChan w.StopChan s.core).2
            calls := s.calls ++ [ExtCall.Close w.PF]
            portForwarders := s.portForwarders.delete pfID } :=
  StopForwardPorts_open port hp (h.reg_ok pfID w hp).2.2.1

/-- The invariant after the close and delete of `StopForwardPorts`. -/
theorem State.Inv.pf_inv_stop {s : State} (h : s.Inv) {pfID : Int}
    {w : PortForwarderWrapper} (hp : s.portForwarders pfID = some w) (calls : List ExtCall) :
    ({ s with
        core := (closeChan w.StopChan s.core).2
        calls := calls
        portForwarders := s.portForwarders.delete pfID } : State).Inv := by
  have hw := h.reg_ok pfID w hp
  constructor
  · exact h.crashed
  · intro c hc
    simp only [closeChan] at hc ⊢
    split_ifs with h1
    · omega
    · exact h.closes_fresh c hc
  · intro tid e he
    simp only [closeChan] at he ⊢
    have := h.task_ok tid e he
    have hne := h.reg_task pfID w tid e hp he
    simp only [hne, if_false]
    exact this
  · exact h.task_inj
  · intro j w2 hr
    simp only [closeChan, GoMap.delete] at hr ⊢
    split_ifs at hr with hj
    have := h.reg_ok j w2 hr
    have hne : w2.StopChan ≠ w.StopChan :=
      fun hd => hj (h.reg_inj j pfID w2 w hr hp (Or.inl hd))
    simp only [hne, if_false]
    exact this
  · intro j j2 w1 w2 hr hr2 hd
    simp only [GoMap.delete] at hr hr2
    split_ifs at hr hr2
    exact h.reg_inj j j2 w1 w2 hr hr2 hd
  · intro j w2 tid e hr he
    simp only [GoMap.delete] at hr he
    split_ifs at hr
    exact h.reg_task j w2 tid e hr he
  · exact h.wk_ok
  · exact h.wk_task
  · intro k2 wk2 j w2 hk2 hr hd
    simp only [GoMap.delete] at hr
    split_ifs at hr
    exact h.wk_reg k2 wk2 j w2 hk2 hr hd


theorem State.Inv.pf_inv_create {s : State} (h : s.Inv) (lib : Lib)
    (urlStr portsStr : String) (addressStr : Option String) (port : Int) :
    (CreatePortForwarder lib urlStr portsStr addressStr port s).2.Inv := by
  have hmk : ({ s with core := (makeChan (makeChan s.core).2).2 } : State).Inv :=
    h.pf_inv_core ((Core.Keep.keep_makeChan _).keep_trans (Core.Keep.keep_makeChan _))
  unfold CreatePortForwarder safeOp CreatePortForwarder.fn
  simp only [pf_fn_constructor]
  cases lib.Parse urlStr with
  | err e => exact h.pf_inv_send _ _
  | panic v => exact h.pf_inv_send _ _
  | ok u =>
    simp only
    cases lib.NewSPDYOverWebsocketDialer u { Host := u.Host, Insecure := true } with
    | err e => exact h.pf_inv_send _ _
    | panic v => exact h.pf_inv_send _ _
    | ok dialer =>
      simp only
      cases lib.NewOnAddresses dialer (CreatePortForwarder.goAddresses addressStr)
          (CreatePortForwarder.goPorts portsStr) (makeChan s.core).1
          (makeChan (makeChan s.core).2).1 with
      | err e => exact hmk.pf_inv_send _ _
      | panic v => exact hmk.pf_inv_send _ _
      | ok _ => exact (h.pf_inv_insert (atomicAddInt64 s.nextPFID 1)).pf_inv_send _ _

theorem State.Inv.pf_inv_workerEnter {s : State} (h : s.Inv) (k : Nat) :
    (workerEnter k s).Inv := by
  unfold workerEnter
  cases hk : s.workers k with
  | none => exact h
  | some wk =>
    simp only
    split_ifs
    · refine h.pf_transfer (Core.Keep.keep_refl _) (fun _ _ hr => hr) le_rfl ?_
      intro j wj hj
      simp only at hj
      split_ifs at hj with h1
      · cases hj
        exact ⟨k, wk, hk, rfl⟩
      · exact ⟨j, wj, hj, rfl⟩
    · exact h

theorem State.Inv.pf_inv_workerExit {s : State} (h : s.Inv) (k : Nat) (r : Outcome Unit) :
    (workerExit k r s).Inv := by
  unfold workerExit
  cases hk : s.workers k with
  | none => exact h
  | some wk =>
    simp only
    split_ifs
    swap
    · exact h
    have h1 : (workerBody wk r s).2.Inv := by
      cases r with
      | ok _ => exact h.pf_inv_send _ _
      | err e => exact h.pf_inv_send _ _
      | panic v => exact h
    have hk1 : (workerBody wk r s).2.workers k = some wk := by
      cases r <;> exact hk
    have h2 := h1.pf_inv_cleanup hk1 (workerBody wk r s).1
    have h3 : (workerRecover wk (workerCleanup wk (workerBody wk r s).1 (workerBody wk r s).2).1
        (workerCleanup wk (workerBody wk r s).1 (workerBody wk r s).2).2).Inv := by
      cases (workerCleanup wk (workerBody wk r s).1 (workerBody wk r s).2).1 with
      | none => exact h2
      | some v => exact h2.pf_inv_send _ _
    have h4 := h3.pf_inv_finishTask wk.tid
    have hw : ∀ j wj,
        (workerRecover wk (workerCleanup wk (workerBody wk r s).1 (workerBody wk r s).2).1
          (workerCleanup wk (workerBody wk r s).1 (workerBody wk r s).2).2).workers j = some wj →
        s.workers j = some wj := by
      intro j wj hj
      have e1 : (workerRecover wk
          (workerCleanup wk (workerBody wk r s).1 (workerBody wk r s).2).1
          (workerCleanup wk (workerBody wk r s).1 (workerBody wk r s).2).2).workers
            = s.workers := by
        cases r <;> unfold workerRecover workerCleanup workerBody <;> simp only <;>
          split_ifs <;> rfl
      rw [e1] at hj
      exact hj
    refine h4.pf_transfer (Core.Keep.keep_refl _) (fun _ _ hr => hr) le_rfl ?_
    intro j wj hj
    simp only at hj
    split_ifs at hj with hjk
    · cases hj
      exact ⟨k, wk, by
        have := h4.wk_ok
        cases r <;> unfold workerRecover workerCleanup workerBody <;> simp only <;>
          split_ifs <;> exact hk, rfl⟩
    · exact ⟨j, wj, hj, rfl⟩

theorem State.Inv.pf_inv_step {s : State} (h : s.Inv) (a : Action) : (s.step a).Inv := by
  rw [State.pf_step_alive h.crashed]
  cases a with
  | create lib urlStr portsStr addressStr port =>
    exact h.pf_inv_create lib urlStr portsStr addressStr port
  | start pfID port =>
    simp only
    cases hp : s.portForwarders pfID with
    | none => rw [StartForwardPorts_absent port hp]; exact h.pf_inv_send _ _
    | some w => rw [StartForwardPorts_present port hp]; exact h.pf_inv_start hp _
  | workerEnter k => exact h.pf_inv_workerEnter k
  | workerExit k r => exact h.pf_inv_workerExit k r
  | stop pfID port =>
    simp only
    cases hp : s.portForwarders pfID with
    | none => rw [StopForwardPorts_absent port hp]; exact h.pf_inv_send _ _
    | some w => rw [h.pf_stop_eq port hp]; exact (h.pf_inv_stop hp _).pf_inv_send _ _
  | getPorts pfID port r =>
    simp only
    cases hp : s.portForwarders pfID with
    | none => rw [GetForwardedPorts_absent port r hp]; exact h.pf_inv_send _ _
    | some w =>
      rw [GetForwardedPorts_present port r hp]
      have hc : ({ s with calls := s.calls ++ [ExtCall.GetPorts w.PF] } : State).Inv :=
        h.pf_transfer (Core.Keep.keep_refl _) (fun _ _ hr => hr) le_rfl
          (fun k wk hk => ⟨k, wk, hk, rfl⟩)
      unfold safeOp GetForwardedPorts.fn
      cases r with
      | ok ports => exact hc.pf_inv_send _ _
      | err e => exact hc.pf_inv_send _ _
      | panic v => exact hc.pf_inv_send _ _
  | stopTaskEnter taskID port => exact h.pf_inv_core (Core.Keep.keep_stopEnter _ _ _)
  | stopTaskCancel k => exact h.pf_inv_core (Core.Keep.keep_stopCancel _ _)
  | stopTaskWake k => exact h.pf_inv_core (Core.Keep.keep_stopWake _ _)
  | registerPort port => exact h.pf_inv_core (Core.Keep.keep_registerPort _ _)
  | unregisterPort => exact h.pf_inv_core (Core.Keep.keep_unregisterPort _)

theorem State.Inv.pf_inv_run {s : State} (h : s.Inv) (acts : List Action) :
    (s.run acts).Inv := by
  induction acts generalizing s with
  | nil => exact h
  | cons a rest ih => exact ih (h.pf_inv_step a)

end portforward

/-! ## Module `socks5lib`: the invariant -/

namespace socks5lib

theorem State.Inv.s5_inv_init : State.init.Inv := by
  constructor <;> simp [State.init, Core.init]

/-- The invariant passes to a state whose task registry is kept and whose
resource registry lost keys at most. -/
theorem State.Inv.s5_transfer {s t : State} (h : s.Inv) (hc : Core.Keep s.core t.core)
    (hreg : ∀ id w, t.socks5Servers id = some w → s.socks5Servers id = some w)
    (hobj : s.nextObj ≤ t.nextObj) : t.Inv := by
  constructor
  · rw [hc.crashed]; exact h.crashed
  · intro c hcc
    rw [hc.closes]
    exact h.closes_fresh c (le_trans hc.nextChan hcc)
  · intro id e he
    have := h.task_ok id e (hc.tasks id e he)
    rw [hc.closes]
    exact ⟨lt_of_lt_of_le this.1 hc.nextChan, this.2⟩
  · intro id id2 e e2 he he2 hd
    exact h.task_inj id id2 e e2 (hc.tasks id e he) (hc.tasks id2 e2 he2) hd
  · intro id w hr
    have := h.reg_ok id w (hreg id w hr)
    rw [hc.closes]
    exact ⟨this.1, lt_of_lt_of_le this.2.1 hc.nextChan, this.2.2.1,
      lt_of_lt_of_le this.2.2.2 hobj⟩
  · intro id id2 w w2 hr hr2 hd
    exact h.reg_inj id id2 w w2 (hreg id w hr) (hreg id2 w2 hr2) hd
  · intro id w tid e hr he
    exact h.reg_task id w tid e (hreg id w hr) (hc.tasks tid e he)

theorem State.Inv.s5_inv_core {s : State} (h : s.Inv) {c : Core} (hc : Core.Keep s.core c) :
    ({ s with core := c } : State).Inv :=
  h.s5_transfer hc (fun _ _ hr => hr) le_rfl

theorem State.Inv.s5_inv_send {s : State} (h : s.Inv) (p : Int) (r : simpleResp) :
    (send p r s).Inv :=
  h.s5_inv_core (Core.Keep.keep_send _ _ _)

/-- The invariant after the insert of a successful `CreateDirectServerTCP`. -/
theorem State.Inv.s5_inv_insert {s : State} (h : s.Inv) (id : Int) :
    ({ s with
        core := (makeChan s.core).2
        nextObj := s.nextObj + 1
        nextSrvID := id
        socks5Servers := s.socks5Servers.set id
          { Server := s.nextObj, StopChan := s.core.nextChan, ID := id } } : State).Inv := by
  have hto := h.task_ok
  have hro := h.reg_ok
  constructor
  · exact h.crashed
  · intro c hc
    simp only [makeChan] at hc ⊢
    exact h.closes_fresh c (by omega)
  · intro tid e he
    have := hto tid e he
    simp only [makeChan]
    exact ⟨by omega, this.2⟩
  · exact h.task_inj
  · intro j w hr
    simp only [GoMap.set, makeChan] at hr ⊢
    split_ifs at hr with hj
    · cases hr
      exact ⟨hj.symm, by simp only; omega, h.closes_fresh _ le_rfl, by simp only; omega⟩
    · have := hro j w hr
      exact ⟨this.1, by omega, this.2.2.1, by omega⟩
  · intro j j2 w w2 hr hr2 hd
    simp only [GoMap.set] at hr hr2
    split_ifs at hr hr2 with h1 h2 h2
    · rw [h1, h2]
    · cases hr
      have := hro j2 w2 hr2
      simp only at hd
      omega
    · cases hr2
      have := hro j w hr
      simp only at hd
      omega
    · exact h.reg_inj j j2 w w2 hr hr2 hd
  · intro j w tid e hr he
    simp only [GoMap.set] at hr he
    split_ifs at hr with hj
    · cases hr
      have := hto tid e he
      simp only
      omega
    · exact h.reg_task j w tid e hr he

/-- The invariant after `StartSocks5Server` on a registered wrapper. -/
theorem State.Inv.s5_inv_start {s : State} (h : s.Inv) (workers : Nat → Option Worker)
    (nextWorker : Nat) :
    ({ s with
        core := (addTask (withCancel s.core).1 (withCancel s.core).2).2
        workers := workers
        nextWorker := nextWorker } : State).Inv := by
  have hto := h.task_ok
  have hro := h.reg_ok
  constructor
  · exact h.crashed
  · intro c hc
    simp only [addTask, makeChan, withCancel] at hc ⊢
    exact h.closes_fresh c (by omega)
  · intro tid e he
    simp only [addTask, makeChan, withCancel, GoMap.set] at he ⊢
    split_ifs at he with hj
    · cases he
      exact ⟨by simp, h.closes_fresh _ le_rfl⟩
    · have := hto tid e he
      exact ⟨by omega, this.2⟩
  · intro tid tid2 e e2 he he2 hd
    simp only [addTask, makeChan, withCancel, GoMap.set] at he he2
    split_ifs at he he2 with h1 h2 h2
    · rw [h1, h2]
    · cases he
      have := hto tid2 e2 he2
      simp only at hd
      omega
    · cases he2
      have := hto tid e he
      simp only at hd
      omega
    · exact h.task_inj tid tid2 e e2 he he2 hd
  · intro j w2 hr
    have := hro j w2 hr
    simp only [addTask, makeChan, withCancel]
    exact ⟨this.1, by omega, this.2.2.1, this.2.2.2⟩
  · exact h.reg_inj
  · intro j w2 tid e hr he
    simp only [addTask, makeChan, withCancel, GoMap.set] at he
    split_ifs at he with hj
    · cases he
      have := hro j w2 hr
      simp only
      omega
    · exact h.reg_task j w2 tid e hr he

/-- The invariant after `finishTask`. -/
theorem State.Inv.s5_inv_finishTask {s : State} (h : s.Inv) (tid : Int) :
    ({ s with core := finishTask tid s.core } : State).Inv := by
  cases hid : s.core.tasks tid with
  | none => rw [finishTask_absent hid]; exact h
  | some e =>
    have he := h.task_ok tid e hid
    rw [finishTask_open hid he.2]
    constructor
    · exact h.crashed
    · intro c hc
      simp only at hc ⊢
      split_ifs with h1
      · omega
      · exact h.closes_fresh c hc
    · intro j e2 he2
      simp only [GoMap.delete] at he2 ⊢
      split_ifs at he2 with hj
      have := h.task_ok j e2 he2
      have hne : e2.done ≠ e.done := fun hd => hj (h.task_inj j tid e2 e he2 hid hd)
      simp only [hne, if_false]
      exact this
    · intro j j2 e1 e2 he1 he2 hd
      simp only [GoMap.delete] at he1 he2
      split_ifs at he1 he2
      exact h.task_inj j j2 e1 e2 he1 he2 hd
    · intro j w hr
      simp only at hr ⊢
      have := h.reg_ok j w hr
      have hne : w.StopChan ≠ e.done := fun hd => h.reg_task j w tid e hr hid hd.symm
      simp only [hne, if_false]
      exact this
    · exact h.reg_inj
    · intro j w j2 e2 hr he2
      simp only [GoMap.delete] at hr he2
      split_ifs at he2
      exact h.reg_task j w j2 e2 hr he2

/-- In a state satisfying the invariant `StopSocks5Server` on a registered
wrapper meets an open `StopChan`. -/
theorem State.Inv.s5_stop_eq {s : State} (h : s.Inv) {srvID : Int} (port : Int)
    {w : Socks5ServerWrapper} (hp : s.socks5Servers srvID = some w) :
    StopSocks5Server srvID port s
      = send (getPortOrDefault port s.core) (success "stop_socks5_server" (Payload.int srvID))
          { s with
            core := (closeChan w.StopChan s.core).2
            socks5Servers := s.socks5Servers.delete srvID } :=
  s5_Stop_open port hp (h.reg_ok srvID w hp).2.2.1

/-- The invariant after the close and delete of `StopSocks5Server`. -/
theorem State.Inv.s5_inv_stop {s : State} (h : s.Inv) {srvID : Int}
    {w : Socks5ServerWrapper} (hp : s.socks5Servers srvID = some w) :
    ({ s with
        core := (closeChan w.StopChan s.core).2
        socks5Servers := s.socks5Servers.delete srvID } : State).Inv := by
  have hw := h.reg_ok srvID w hp
  constructor
  · exact h.crashed
  · intro c hc
    simp only [closeChan] at hc ⊢
    split_ifs with h1
    · omega
    · exact h.closes_fresh c hc
  · intro tid e he
    simp only [closeChan] at he ⊢
    have := h.task_ok tid e he
    have hne := h.reg_task srvID w tid e hp he
    simp only [hne, if_false]
    exact this
  · exact h.task_inj
  · intro j w2 hr
    simp only [closeChan, GoMap.delete] at hr ⊢
    split_ifs at hr with hj
    have := h.reg_ok j w2 hr
    have hne : w2.StopChan ≠ w.StopChan :=
      fun hd => hj (h.reg_inj j srvID w2 w hr hp (Or.inl hd))
    simp only [hne, if_false]
    exact this
  · intro j j2 w1 w2 hr hr2 hd
    simp only [GoMap.delete] at hr hr2
    split_ifs at hr hr2
    exact h.reg_inj j j2 w1 w2 hr hr2 hd
  · intro j w2 tid e hr he
    simp only [GoMap.delete] at hr he
    split_ifs at hr
    exact h.reg_task j w2 tid e hr he

theorem State.Inv.s5_inv_create {s : State} (h : s.Inv) (lib : Lib) (listenPort : Int)
    (username password : String) (port : Int) :
    (CreateDirectServerTCP lib listenPort username password port s).2.Inv := by
  unfold CreateDirectServerTCP safeOp CreateDirectServerTCP.fn
  simp only
  cases lib.NewServer
      { ListenPort := listenPort, UserName := username, Password := password,
        LogLevel := "info" } with
  | err e => exact h.s5_inv_send _ _
  | panic v => exact h.s5_inv_send _ _
  | ok _ => exact (h.s5_inv_insert (atomicAddInt64 s.nextSrvID 1)).s5_inv_send _ _

theorem State.Inv.s5_inv_workerEnter {s : State} (h : s.Inv) (k : Nat) :
    (workerEnter k s).Inv := by
  unfold workerEnter
  cases hk : s.workers k with
  | none => exact h
  | some wk =>
    simp only
    split_ifs
    · exact h.s5_transfer (Core.Keep.keep_refl _) (fun _ _ hr => hr) le_rfl
    · exact h

theorem State.Inv.s5_inv_workerExit {s : State} (h : s.Inv) (k : Nat) (r : Outcome Unit) :
    (workerExit k r s).Inv := by
  unfold workerExit
  cases hk : s.workers k with
  | none => exact h
  | some wk =>
    simp only
    split_ifs
    swap
    · exact h
    have h1 : (workerBody wk r s).2.Inv := by
      cases r with
      | ok _ => exact h.s5_inv_send _ _
      | err e => exact h.s5_inv_send _ _
      | panic v => exact h
    have h2 : (workerCleanup wk (workerBody wk r s).1 (workerBody wk r s).2).2.Inv := by
      refine h1.s5_transfer (Core.Keep.keep_refl _) ?_ le_rfl
      intro id w hr
      simp only [workerCleanup, GoMap.delete] at hr
      split_ifs at hr
      exact hr
    have h3 : (workerRecover wk (workerCleanup wk (workerBody wk r s).1 (workerBody wk r s).2).1
        (workerCleanup wk (workerBody wk r s).1 (workerBody wk r s).2).2).Inv := by
      cases (workerCleanup wk (workerBody wk r s).1 (workerBody wk r s).2).1 with
      | none => exact h2
      | some v => exact h2.s5_inv_send _ _
    have h4 := h3.s5_inv_finishTask wk.tid
    exact h4.s5_transfer (Core.Keep.keep_refl _) (fun _ _ hr => hr) le_rfl

theorem State.Inv.s5_inv_step {s : State} (h : s.Inv) (a : Action) : (s.step a).Inv := by
  rw [State.s5_step_alive h.crashed]
  cases a with
  | create lib listenPort username password port =>
    exact h.s5_inv_create lib listenPort username password port
  | start srvID port =>
    simp only
    cases hp : s.socks5Servers srvID with
    | none => rw [s5_Start_absent port hp]; exact h.s5_inv_send _ _
    | some w => rw [s5_Start_present port hp]; exact h.s5_inv_start _ _
  | workerEnter k => exact h.s5_inv_workerEnter k
  | workerExit k r => exact h.s5_inv_workerExit k r
  | stop srvID port =>
    simp only
    cases hp : s.socks5Servers srvID with
    | none => rw [s5_Stop_absent port hp]; exact h.s5_inv_send _ _
    | some w => rw [h.s5_stop_eq port hp]; exact (h.s5_inv_stop hp).s5_inv_send _ _
  | stopTaskEnter taskID port => exact h.s5_inv_core (Core.Keep.keep_stopEnter _ _ _)
  | stopTaskCancel k => exact h.s5_inv_core (Core.Keep.keep_stopCancel _ _)
  | stopTaskWake k => exact h.s5_inv_core (Core.Keep.keep_stopWake _ _)
  | registerPort port => exact h.s5_inv_core (Core.Keep.keep_registerPort _ _)
  | unregisterPort => exact h.s5_inv_core (Core.Keep.keep_unregisterPort _)

theorem State.Inv.s5_inv_run {s : State} (h : s.Inv) (acts : List Action) :
    (s.run acts).Inv := by
  induction acts generalizing s with
  | nil => exact h
  | cons a rest ih => exact ih (h.s5_inv_step a)

end socks5lib

/-! ## Module `socks5lib2`: the invariant -/

namespace socks5lib2

theorem State.Inv.s52_inv_init : State.init.Inv := by
  constructor <;> simp [State.init, Core.init]

/-- The invariant passes to a state whose task registry is kept and whose
resource registry lost keys at most. -/
theorem State.Inv.s52_transfer {s t : State} (h : s.Inv) (hc : Core.Keep s.core t.core)
    (hreg : ∀ id w, t.socks5Servers id = some w → s.socks5Servers id = some w)
    (hobj : s.nextObj ≤ t.nextObj) : t.Inv := by
  constructor
  · rw [hc.crashed]; exact h.crashed
  · intro c hcc
    rw [hc.closes]
    exact h.closes_fresh c (le_trans hc.nextChan hcc)
  · intro id e he
    have := h.task_ok id e (hc.tasks id e he)
    rw [hc.closes]
    exact ⟨lt_of_lt_of_le this.1 hc.nextChan, this.2⟩
  · intro id id2 e e2 he he2 hd
    exact h.task_inj id id2 e e2 (hc.tasks id e he) (hc.tasks id2 e2 he2) hd
  · intro id w hr
    have := h.reg_ok id w (hreg id w hr)
    exact ⟨this.1, lt_of_lt_of_le this.2 hobj⟩
  · intro id id2 w w2 hr hr2 hd
    exact h.reg_inj id id2 w w2 (hreg id w hr) (hreg id2 w2 hr2) hd

theorem State.Inv.s52_inv_core {s : State} (h : s.Inv) {c : Core}
    (hc : Core.Keep s.core c) : ({ s with core := c } : State).Inv :=
  h.s52_transfer hc (fun _ _ hr => hr) le_rfl

theorem State.Inv.s52_inv_send {s : State} (h : s.Inv) (p : Int) (r : simpleResp) :
    (send p r s).Inv :=
  h.s52_inv_core (Core.Keep.keep_send _ _ _)

/-- The invariant after the insert of a successful Create. -/
theorem State.Inv.s52_inv_insert {s : State} (h : s.Inv) (id : Int)
    (handle : Nat → Option Handler) :
    ({ s with
        nextObj := s.nextObj + 1
        handle := handle
        nextSrvID := id
        socks5Servers := s.socks5Servers.set id { Server := s.nextObj, ID := id } } :
      State).Inv := by
  have hro := h.reg_ok
  constructor
  · exact h.crashed
  · exact h.closes_fresh
  · exact h.task_ok
  · exact h.task_inj
  · intro j w hr
    simp only [GoMap.set] at hr ⊢
    split_ifs at hr with hj
    · cases hr
      exact ⟨hj.symm, by simp only; omega⟩
    · have := hro j w hr
      exact ⟨this.1, by omega⟩
  · intro j j2 w w2 hr hr2 hd
    simp only [GoMap.set] at hr hr2
    split_ifs at hr hr2 with h1 h2 h2
    · rw [h1, h2]
    · cases hr
      have := hro j2 w2 hr2
      simp only at hd
      omega
    · cases hr2
      have := hro j w hr
      simp only at hd
      omega
    · exact h.reg_inj j j2 w w2 hr hr2 hd

/-- The invariant after `StartSocks5Server` on a registered wrapper. -/
theorem State.Inv.s52_inv_start {s : State} (h : s.Inv) (workers : Nat → Option Worker)
    (nextWorker : Nat) :
    ({ s with
        core := (addTask (withCancel s.core).1 (withCancel s.core).2).2
        workers := workers
        nextWorker := nextWorker } : State).Inv := by
  have hto := h.task_ok
  constructor
  · exact h.crashed
  · intro c hc
    simp only [addTask, makeChan, withCancel] at hc ⊢
    exact h.closes_fresh c (by omega)
  · intro tid e he
    simp only [addTask, makeChan, withCancel, GoMap.set] at he ⊢
    split_ifs at he with hj
    · cases he
      exact ⟨by simp, h.closes_fresh _ le_rfl⟩
    · have := hto tid e he
      exact ⟨by omega, this.2⟩
  · intro tid tid2 e e2 he he2 hd
    simp only [addTask, makeChan, withCancel, GoMap.set] at he he2
    split_ifs at he he2 with h1 h2 h2
    · rw [h1, h2]
    · cases he
      have := hto tid2 e2 he2
      simp only at hd
      omega
    · cases he2
      have := hto tid e he
      simp only at hd
      omega
    · exact h.task_inj tid tid2 e e2 he he2 hd
  · exact h.reg_ok
  · exact h.reg_inj

/-- The invariant after `finishTask`. -/
theorem State.Inv.s52_inv_finishTask {s : State} (h : s.Inv) (tid : Int) :
    ({ s with core := finishTask tid s.core } : State).Inv := by
  cases hid : s.core.tasks tid with
  | none => rw [finishTask_absent hid]; exact h
  | some e =>
    have he := h.task_ok tid e hid
    rw [finishTask_open hid he.2]
    constructor
    · exact h.crashed
    · intro c hc
      simp only at hc ⊢
      split_ifs with h1
      · omega
      · exact h.closes_fresh c hc
    · intro j e2 he2
      simp only [GoMap.delete] at he2 ⊢
      split_ifs at he2 with hj
      have := h.task_ok j e2 he2
      have hne : e2.done ≠ e.done := fun hd => hj (h.task_inj j tid e2 e he2 hid hd)
      simp only [hne, if_false]
      exact this
    · intro j j2 e1 e2 he1 he2 hd
      simp only [GoMap.delete] at he1 he2
      split_ifs at he1 he2
      exact h.task_inj j j2 e1 e2 he1 he2 hd
    · exact h.reg_ok
    · exact h.reg_inj

theorem State.Inv.s52_inv_created {s : State} (h : s.Inv) (lib : Lib) (listenPort : Int)
    (username password : String) (hd : Handler) (p : Int) (op : String) :
    (safeOp p op (createFn lib listenPort username password hd) s).Inv := by
  unfold safeOp createFn
  simp only
  cases lib.NewClassicServer (":" ++ toString listenPort) "" username password 0 0 with
  | err e => exact h.s52_inv_send _ _
  | panic v => exact h.s52_inv_send _ _
  | ok _ => exact (h.s52_inv_insert (atomicAddInt64 s.nextSrvID 1) _).s52_inv_send _ _

theorem State.Inv.s52_inv_workerEnter {s : State} (h : s.Inv) (k : Nat) :
    (workerEnter k s).Inv := by
  unfold workerEnter
  cases hk : s.workers k with
  | none => exact h
  | some wk =>
    simp only
    split_ifs
    · exact h.s52_transfer (Core.Keep.keep_refl _) (fun _ _ hr => hr) le_rfl
    · exact h

theorem State.Inv.s52_inv_workerExit {s : State} (h : s.Inv) (k : Nat) (r : Outcome Unit) :
    (workerExit k r s).Inv := by
  unfold workerExit
  cases hk : s.workers k with
  | none => exact h
  | some wk =>
    simp only
    split_ifs
    swap
    · exact h
    have h1 : (workerBody wk r s).2.Inv := by
      cases r with
      | ok _ => exact h.s52_inv_send _ _
      | err e => exact h.s52_inv_send _ _
      | panic v => exact h
    have h2 : (workerCleanup wk (workerBody wk r s).1 (workerBody wk r s).2).2.Inv := by
      refine h1.s52_transfer (Core.Keep.keep_refl _) ?_ le_rfl
      intro id w hr
      simp only [workerCleanup, GoMap.delete] at hr
      split_ifs at hr
      exact hr
    have h3 : (workerRecover wk (workerCleanup wk (workerBody wk r s).1 (workerBody wk r s).2).1
        (workerCleanup wk (workerBody wk r s).1 (workerBody wk r s).2).2).Inv := by
      cases (workerCleanup wk (workerBody wk r s).1 (workerBody wk r s).2).1 with
      | none => exact h2
      | some v => exact h2.s52_inv_send _ _
    have h4 := h3.s52_inv_finishTask wk.tid
    exact h4.s52_transfer (Core.Keep.keep_refl _) (fun _ _ hr => hr) le_rfl

theorem State.Inv.s52_inv_step {s : State} (h : s.Inv) (a : Action) : (s.step a).Inv := by
  rw [State.s52_step_alive h.crashed]
  cases a with
  | createDirect lib listenPort username password port =>
    exact h.s52_inv_created lib listenPort username password _ _ _
  | createProxy lib listenPort username password proxyAddr proxyUser proxyPass port =>
    exact h.s52_inv_created lib listenPort username password _ _ _
  | start srvID port =>
    simp only
    cases hp : s.socks5Servers srvID with
    | none => rw [s52_Start_absent port hp]; exact h.s52_inv_send _ _
    | some w => rw [s52_Start_present port hp]; exact h.s52_inv_start _ _
  | workerEnter k => exact h.s52_inv_workerEnter k
  | workerExit k r => exact h.s52_inv_workerExit k r
  | stop srvID port shutdown =>
    simp only
    cases hp : s.socks5Servers srvID with
    | none => rw [s52_Stop_absent port shutdown hp]; exact h.s52_inv_send _ _
    | some w =>
      cases shutdown with
      | none =>
        rw [s52_Stop_ok port hp]
        refine State.Inv.s52_inv_send ?_ _ _
        refine h.s52_transfer (Core.Keep.keep_refl _) ?_ le_rfl
        intro id w2 hr
        simp only [GoMap.delete] at hr
        split_ifs at hr
        exact hr
      | some err =>
        rw [s52_Stop_err port err hp]
        refine State.Inv.s52_inv_send ?_ _ _
        exact h.s52_transfer (Core.Keep.keep_refl _) (fun _ _ hr => hr) le_rfl
  | stopTaskEnter taskID port => exact h.s52_inv_core (Core.Keep.keep_stopEnter _ _ _)
  | stopTaskCancel k => exact h.s52_inv_core (Core.Keep.keep_stopCancel _ _)
  | stopTaskWake k => exact h.s52_inv_core (Core.Keep.keep_stopWake _ _)
  | registerPort port => exact h.s52_inv_core (Core.Keep.keep_registerPort _ _)
  | unregisterPort => exact h.s52_inv_core (Core.Keep.keep_unregisterPort _)

theorem State.Inv.s52_inv_run {s : State} (h : s.Inv) (acts : List Action) :
    (s.run acts).Inv := by
  induction acts generalizing s with
  | nil => exact h
  | cons a rest ih => exact ih (h.s52_inv_step a)

end socks5lib2

/-! ## A removed ResourceID stays absent -/

namespace portforward

/-- An absent ID at or below the counter stays absent: the registry only
ever gains the key `nextPFID + 1`. -/
theorem pf_absent_run {s : State} {n : Int} (h : s.Bnd n) (acts : List Action)
    (hn : n + acts.length ≤ maxInt64) (id : Int) (hid : id ≤ s.nextPFID)
    (habs : s.portForwarders id = none) :
    (s.run acts).portForwarders id = none ∧ id ≤ (s.run acts).nextPFID := by
  induction acts generalizing s n with
  | nil => exact ⟨habs, hid⟩
  | cons a rest ih =>
    simp only [List.length_cons, Nat.cast_add, Nat.cast_one] at hn
    have hn1 : n < maxInt64 := by omega
    rw [State.pf_run_cons]
    have key : (s.step a).portForwarders id = none ∧ id ≤ (s.step a).nextPFID := by
      by_cases hc : ∃ lib urlStr portsStr addressStr port,
          a = Action.create lib urlStr portsStr addressStr port
      · obtain ⟨lib, urlStr, portsStr, addressStr, port, rfl⟩ := hc
        cases hcr : s.core.crashed with
        | some v => rw [State.pf_step_crashed hcr]; exact ⟨habs, hid⟩
        | none =>
          rw [State.pf_step_alive hcr]
          simp only
          have hadd : atomicAddInt64 s.nextPFID 1 = s.nextPFID + 1 :=
            atomicAddInt64_succ h.lo (lt_of_le_of_lt h.hi hn1)
          rcases CreatePortForwarder_cases lib urlStr portsStr addressStr port s with
            ⟨e, _, h2, h3, _⟩ | ⟨w, _, h2, h3, _⟩
          · rw [h2, h3]; exact ⟨habs, hid⟩
          · rw [h2, h3, hadd]
            refine ⟨?_, by omega⟩
            simp only [GoMap.set]
            split_ifs with hx
            · omega
            · exact habs
      by_cases hst : ∃ pfID port, a = Action.start pfID port
      · obtain ⟨pfID, port, rfl⟩ := hst
        cases hcr : s.core.crashed with
        | some v => rw [State.pf_step_crashed hcr]; exact ⟨habs, hid⟩
        | none =>
          rw [State.pf_step_alive hcr]
          simp only
          cases hp : s.portForwarders pfID with
          | none => rw [StartForwardPorts_absent port hp]; exact ⟨habs, hid⟩
          | some w => rw [StartForwardPorts_present port hp]; exact ⟨habs, hid⟩
      · have hq := State.pf_step_quiet s a
          (fun l u ps ad p e => hc ⟨l, u, ps, ad, p, e⟩) (fun i p e => hst ⟨i, p, e⟩)
        refine ⟨?_, by rw [hq.2.1]; exact hid⟩
        cases hx : (s.step a).portForwarders id with
        | none => rfl
        | some w => rw [hq.2.2 id w hx] at habs; cases habs
    exact ih (State.Bnd.pf_step h hn1 a) (by omega) key.2 key.1

end portforward

namespace socks5lib

/-- An absent ID at or below the counter stays absent. -/
theorem s5_absent_run {s : State} {n : Int} (h : s.Bnd n) (acts : List Action)
    (hn : n + acts.length ≤ maxInt64) (id : Int) (hid : id ≤ s.nextSrvID)
    (habs : s.socks5Servers id = none) :
    (s.run acts).socks5Servers id = none ∧ id ≤ (s.run acts).nextSrvID := by
  induction acts generalizing s n with
  | nil => exact ⟨habs, hid⟩
  | cons a rest ih =>
    simp only [List.length_cons, Nat.cast_add, Nat.cast_one] at hn
    have hn1 : n < maxInt64 := by omega
    rw [State.s5_run_cons]
    have key : (s.step a).socks5Servers id = none ∧ id ≤ (s.step a).nextSrvID := by
      by_cases hc : ∃ lib listenPort username password port,
          a = Action.create lib listenPort username password port
      · obtain ⟨lib, listenPort, username, password, port, rfl⟩ := hc
        cases hcr : s.core.crashed with
        | some v => rw [State.s5_step_crashed hcr]; exact ⟨habs, hid⟩
        | none =>
          rw [State.s5_step_alive hcr]
          simp only
          have hadd : atomicAddInt64 s.nextSrvID 1 = s.nextSrvID + 1 :=
            atomicAddInt64_succ h.lo (lt_of_le_of_lt h.hi hn1)
          rcases s5_Create_cases lib listenPort username password port s with
            ⟨e, _, h2, h3, _⟩ | ⟨w, _, h2, h3, _⟩
          · rw [h2, h3]; exact ⟨habs, hid⟩
          · rw [h2, h3, hadd]
            refine ⟨?_, by omega⟩
            simp only [GoMap.set]
            split_ifs with hx
            · omega
            · exact habs
      by_cases hst : ∃ srvID port, a = Action.start srvID port
      · obtain ⟨srvID, port, rfl⟩ := hst
        cases hcr : s.core.crashed with
        | some v => rw [State.s5_step_crashed hcr]; exact ⟨habs, hid⟩
        | none =>
          rw [State.s5_step_alive hcr]
          simp only
          cases hp : s.socks5Servers srvID with
          | none => rw [s5_Start_absent port hp]; exact ⟨habs, hid⟩
          | some w => rw [s5_Start_present port hp]; exact ⟨habs, hid⟩
      · have hq := State.s5_step_quiet s a
          (fun l lp u pw p e => hc ⟨l, lp, u, pw, p, e⟩) (fun i p e => hst ⟨i, p, e⟩)
        refine ⟨?_, by rw [hq.2.1]; exact hid⟩
        cases hx : (s.step a).socks5Servers id with
        | none => rfl
        | some w => rw [hq.2.2 id w hx] at habs; cases habs
    exact ih (State.Bnd.s5_step h hn1 a) (by omega) key.2 key.1

end socks5lib

namespace socks5lib2

end socks5lib2

/-! ## The exit of a worker, step by step -/

/-- In a state where the record of `id`, if registered, has an open `done`
channel, `finishTask(id)` leaves `id` unregistered. -/
theorem finishTask_removes {c : Core} {id : Int}
    (h : ∀ e, c.tasks id = some e → c.closes e.done = 0) :
    (finishTask id c).tasks id = none := by
  cases hid : c.tasks id with
  | none => rw [finishTask_absent hid]; exact hid
  | some e =>
    rw [finishTask_open hid (h e hid)]
    simp [GoMap.delete]

namespace portforward

theorem pf_workerExit_eq {s : State} {k : Nat} {wk : Worker} (r : Outcome Unit)
    (hk : s.workers k = some wk) (hpc : wk.pc = WorkerPC.inLoop) :
    workerExit k r s
      = { unwound wk r s with
          core := finishTask wk.tid (unwound wk r s).core
          workers := fun j =>
            if j = k then some { wk with pc := WorkerPC.exited }
            else (unwound wk r s).workers j } := by
  simp [workerExit, hk, hpc, unwound]

/-- The state before `finishTask`, spelled out: what was sent, and the
registry without the worker's key. -/
theorem pf_unwound_spec (wk : Worker) (r : Outcome Unit) (s : State) :
    (unwound wk r s).portForwarders = s.portForwarders.delete wk.w.ID
    ∧ (unwound wk r s).workers = s.workers
    ∧ (unwound wk r s).nextPFID = s.nextPFID
    ∧ (unwound wk r s).core.tasks = s.core.tasks
    ∧ (unwound wk r s).core.crashed = s.core.crashed
    ∧ (unwound wk r s).core.sent
        = s.core.sent
          ++ (match r with
              | Outcome.ok _ =>
                [(wk.p, Msg.resp (success "start_forward_ports" (Payload.int wk.tid)))]
              | Outcome.err e => [(wk.p, Msg.resp (failure "start_forward_ports" e))]
              | Outcome.panic _ => [])
          ++ (if s.core.closes wk.w.StopChan = 0 then
                (match r with
                 | Outcome.panic v => [(wk.p, Msg.resp (failure "start_forward_ports" v))]
                 | _ => [])
              else [(wk.p, Msg.resp (failure "start_forward_ports" closeOfClosed))]) := by
  by_cases ho : s.core.closes wk.w.StopChan = 0
  · cases r <;>
      simp [unwound, workerBody, workerCleanup, workerRecover, send, sendToPort, closeChan, ho]
  · cases r <;>
      simp [unwound, workerBody, workerCleanup, workerRecover, send, sendToPort, closeChan, ho]

theorem State.Inv.pf_inv_unwound {s : State} (h : s.Inv) {k : Nat} {wk : Worker}
    (hk : s.workers k = some wk) (r : Outcome Unit) : (unwound wk r s).Inv := by
  have h1 : (workerBody wk r s).2.Inv := by
    cases r with
    | ok _ => exact h.pf_inv_send _ _
    | err e => exact h.pf_inv_send _ _
    | panic v => exact h
  have hk1 : (workerBody wk r s).2.workers k = some wk := by
    cases r <;> exact hk
  have h2 := h1.pf_inv_cleanup hk1 (workerBody wk r s).1
  unfold unwound
  cases (workerCleanup wk (workerBody wk r s).1 (workerBody wk r s).2).1 with
  | none => exact h2
  | some v => exact h2.pf_inv_send _ _

end portforward

namespace socks5lib

theorem s5_workerExit_eq {s : State} {k : Nat} {wk : Worker} (r : Outcome Unit)
    (hk : s.workers k = some wk) (hpc : wk.pc = WorkerPC.inLoop) :
    workerExit k r s
      = { unwound wk r s with
          core := finishTask wk.tid (unwound wk r s).core
          workers := fun j =>
            if j = k then some { wk with pc := WorkerPC.exited }
            else (unwound wk r s).workers j } := by
  simp [workerExit, hk, hpc, unwound]

theorem s5_unwound_spec (wk : Worker) (r : Outcome Unit) (s : State) :
    (unwound wk r s).socks5Servers = s.socks5Servers.delete wk.w.ID
    ∧ (unwound wk r s).workers = s.workers
    ∧ (unwound wk r s).nextSrvID = s.nextSrvID
    ∧ (unwound wk r s).core.tasks = s.core.tasks
    ∧ (unwound wk r s).core.crashed = s.core.crashed
    ∧ (unwound wk r s).core.closes = s.core.closes
    ∧ (unwound wk r s).core.sent
        = s.core.sent
          ++ [(wk.p, Msg.resp
                (match r with
                 | Outcome.ok _ => success "start_socks5_server" (Payload.int wk.tid)
                 | Outcome.err e => failure "start_socks5_server" e
                 | Outcome.panic v => failure "start_socks5_server" v))] := by
  cases r <;> simp [unwound, workerBody, workerCleanup, workerRecover, send, sendToPort]

theorem State.Inv.s5_inv_unwound {s : State} (h : s.Inv) (wk : Worker) (r : Outcome Unit) :
    (unwound wk r s).Inv := by
  have hs := s5_unwound_spec wk r s
  refine h.s5_transfer ⟨hs.2.2.2.2.1, hs.2.2.2.2.2.1, ?_, ?_⟩ ?_ ?_
  · cases r <;> exact le_rfl
  · intro j e he; rw [hs.2.2.2.1] at he; exact he
  · intro id w hr
    rw [hs.1] at hr
    simp only [GoMap.delete] at hr
    split_ifs at hr
    exact hr
  · cases r <;> exact le_rfl

end socks5lib

namespace socks5lib2

theorem s52_workerExit_eq {s : State} {k : Nat} {wk : Worker} (r : Outcome Unit)
    (hk : s.workers k = some wk) (hpc : wk.pc = WorkerPC.inLoop) :
    workerExit k r s
      = { unwound wk r s with
          core := finishTask wk.tid (unwound wk r s).core
          workers := fun j =>
            if j = k then some { wk with pc := WorkerPC.exited }
            else (unwound wk r s).workers j } := by
  simp [workerExit, hk, hpc, unwound]

theorem s52_unwound_spec (wk : Worker) (r : Outcome Unit) (s : State) :
    (unwound wk r s).socks5Servers = s.socks5Servers.delete wk.w.ID
    ∧ (unwound wk r s).workers = s.workers
    ∧ (unwound wk r s).nextSrvID = s.nextSrvID
    ∧ (unwound wk r s).core.tasks = s.core.tasks
    ∧ (unwound wk r s).core.crashed = s.core.crashed
    ∧ (unwound wk r s).core.closes = s.core.closes
    ∧ (unwound wk r s).core.sent
        = s.core.sent
          ++ [(wk.p, Msg.resp
                (match r with
                 | Outcome.ok _ => success "start_socks5_server" (Payload.int wk.tid)
                 | Outcome.err e => failure "start_socks5_server" e
                 | Outcome.panic v => failure "start_socks5_server" v))] := by
  cases r <;> simp [unwound, workerBody, workerCleanup, workerRecover, send, sendToPort]

theorem State.Inv.s52_inv_unwound {s : State} (h : s.Inv) (wk : Worker) (r : Outcome Unit) :
    (unwound wk r s).Inv := by
  have hs := s52_unwound_spec wk r s
  refine h.s52_transfer ⟨hs.2.2.2.2.1, hs.2.2.2.2.2.1, ?_, ?_⟩ ?_ ?_
  · cases r <;> exact le_rfl
  · intro j e he; rw [hs.2.2.2.1] at he; exact he
  · intro id w hr
    rw [hs.1] at hr
    simp only [GoMap.delete] at hr
    split_ifs at hr
    exact hr
  · cases r <;> exact le_rfl

end socks5lib2

/-! ## A registered handle stays registered until Stop or worker exit -/

namespace portforward

theorem pf_step_keeps {s : State} {n : Int} (h : s.Bnd n) (hn : n < maxInt64) {id : Int}
    {w : PortForwarderWrapper} (hp : s.portForwarders id = some w) (a : Action)
    (h1 : ∀ k r, a ≠ Action.workerExit k r) (h2 : ∀ i p, a ≠ Action.stop i p) :
    (s.step a).portForwarders id = some w := by
  cases hcr : s.core.crashed with
  | some v => rw [State.pf_step_crashed hcr]; exact hp
  | none =>
    rw [State.pf_step_alive hcr]
    cases a with
    | create lib urlStr portsStr addressStr port =>
      simp only
      have hadd : atomicAddInt64 s.nextPFID 1 = s.nextPFID + 1 :=
        atomicAddInt64_succ h.lo (lt_of_le_of_lt h.hi hn)
      have hle := (h.keys id (by simp [hp])).2
      rcases CreatePortForwarder_cases lib urlStr portsStr addressStr port s with
        ⟨e, _, _, h3, _⟩ | ⟨w2, _, _, h3, _⟩
      · rw [h3]; exact hp
      · rw [h3, hadd]
        simp only [GoMap.set]
        split_ifs with hx
        · omega
        · exact hp
    | start pfID port =>
      simp only
      cases hq : s.portForwarders pfID with
      | none => rw [StartForwardPorts_absent port hq]; exact hp
      | some w2 => rw [StartForwardPorts_present port hq]; exact hp
    | workerEnter k =>
      simp only
      unfold workerEnter
      cases s.workers k with
      | none => exact hp
      | some wk =>
        simp only
        split_ifs
        · exact hp
        · exact hp
    | workerExit k r => exact absurd rfl (h1 k r)
    | stop pfID port => exact absurd rfl (h2 pfID port)
    | getPorts pfID port r =>
      simp only
      cases hq : s.portForwarders pfID with
      | none => rw [GetForwardedPorts_absent port r hq]; exact hp
      | some w2 =>
        rw [GetForwardedPorts_present port r hq]
        unfold safeOp GetForwardedPorts.fn
        cases r <;> exact hp
    | stopTaskEnter taskID port => exact hp
    | stopTaskCancel k => exact hp
    | stopTaskWake k => exact hp
    | registerPort port => exact hp
    | unregisterPort => exact hp

end portforward

namespace socks5lib

theorem s5_step_keeps {s : State} {n : Int} (h : s.Bnd n) (hn : n < maxInt64) {id : Int}
    {w : Socks5ServerWrapper} (hp : s.socks5Servers id = some w) (a : Action)
    (h1 : ∀ k r, a ≠ Action.workerExit k r) (h2 : ∀ i p, a ≠ Action.stop i p) :
    (s.step a).socks5Servers id = some w := by
  cases hcr : s.core.crashed with
  | some v => rw [State.s5_step_crashed hcr]; exact hp
  | none =>
    rw [State.s5_step_alive hcr]
    cases a with
    | create lib listenPort username password port =>
      simp only
      have hadd : atomicAddInt64 s.nextSrvID 1 = s.nextSrvID + 1 :=
        atomicAddInt64_succ h.lo (lt_of_le_of_lt h.hi hn)
      have hle := (h.keys id (by simp [hp])).2
      rcases s5_Create_cases lib listenPort username password port s with
        ⟨e, _, _, h3, _⟩ | ⟨w2, _, _, h3, _⟩
      · rw [h3]; exact hp
      · rw [h3, hadd]
        simp only [GoMap.set]
        split_ifs with hx
        · omega
        · exact hp
    | start srvID port =>
      simp only
      cases hq : s.socks5Servers srvID with
      | none => rw [s5_Start_absent port hq]; exact hp
      | some w2 => rw [s5_Start_present port hq]; exact hp
    | workerEnter k =>
      simp only
      unfold workerEnter
      cases s.workers k with
      | none => exact hp
      | some wk =>
        simp only
        split_ifs
        · exact hp
        · exact hp
    | workerExit k r => exact absurd rfl (h1 k r)
    | stop srvID port => exact absurd rfl (h2 srvID port)
    | stopTaskEnter taskID port => exact hp
    | stopTaskCancel k => exact hp
    | stopTaskWake k => exact hp
    | registerPort port => exact hp
    | unregisterPort => exact hp

end socks5lib

namespace socks5lib2

theorem s52_step_keeps {s : State} {n : Int} (h : s.Bnd n) (hn : n < maxInt64) {id : Int}
    {w : Socks5ServerWrapper} (hp : s.socks5Servers id = some w) (a : Action)
    (h1 : ∀ k r, a ≠ Action.workerExit k r) (h2 : ∀ i p sh, a ≠ Action.stop i p sh) :
    (s.step a).socks5Servers id = some w := by
  have hadd : atomicAddInt64 s.nextSrvID 1 = s.nextSrvID + 1 :=
    atomicAddInt64_succ h.lo (lt_of_le_of_lt h.hi hn)
  have hle := (h.keys id (by simp [hp])).2
  have hcreate : ∀ lib listenPort username password hd p op,
      (safeOp p op (createFn lib listenPort username password hd) s).socks5Servers id
        = some w := by
    intro lib listenPort username password hd p op
    rcases s52_Create_cases lib listenPort username password hd p op s with
      ⟨e, _, _, h3, _⟩ | ⟨w2, _, _, h3, _⟩
    · rw [h3]; exact hp
    · rw [h3, hadd]
      simp only [GoMap.set]
      split_ifs with hx
      · omega
      · exact hp
  cases hcr : s.core.crashed with
  | some v => rw [State.s52_step_crashed hcr]; exact hp
  | none =>
    rw [State.s52_step_alive hcr]
    cases a with
    | createDirect lib listenPort username password port => exact hcreate _ _ _ _ _ _ _
    | createProxy lib listenPort username password proxyAddr proxyUser proxyPass port =>
      exact hcreate _ _ _ _ _ _ _
    | start srvID port =>
      simp only
      cases hq : s.socks5Servers srvID with
      | none => rw [s52_Start_absent port hq]; exact hp
      | some w2 => rw [s52_Start_present port hq]; exact hp
    | workerEnter k =>
      simp only
      unfold workerEnter
      cases s.workers k with
      | none => exact hp
      | some wk =>
        simp only
        split_ifs
        · exact hp
        · exact hp
    | workerExit k r => exact absurd rfl (h1 k r)
    | stop srvID port shutdown => exact absurd rfl (h2 srvID port shutdown)
    | stopTaskEnter taskID port => exact hp
    | stopTaskCancel k => exact hp
    | stopTaskWake k => exact hp
    | registerPort port => exact hp
    | unregisterPort => exact hp

end socks5lib2

/-! ## The worker's last step on reachable states -/

theorem finishTask_keeps_crashed {c : Core} {id : Int}
    (h : ∀ e, c.tasks id = some e → c.closes e.done = 0) :
    (finishTask id c).crashed = c.crashed := by
  cases hid : c.tasks id with
  | none => rw [finishTask_absent hid]
  | some e => rw [finishTask_open hid (h e hid)]

namespace portforward

/-- What the exit of a worker in its loop does to a state satisfying the
invariant. -/
theorem pf_exit_spec {s : State} (h : s.Inv) {k : Nat} {wk : Worker} (r : Outcome Unit)
    (hk : s.workers k = some wk) (hpc : wk.pc = WorkerPC.inLoop) :
    (unwound wk r s).portForwarders wk.w.ID = none
    ∧ (workerExit k r s).core = finishTask wk.tid (unwound wk r s).core
    ∧ (workerExit k r s).portForwarders wk.w.ID = none
    ∧ (workerExit k r s).core.tasks wk.tid = none
    ∧ (workerExit k r s).core.crashed = none
    ∧ (workerExit k r s).workers k = some { wk with pc := WorkerPC.exited }
    ∧ (workerExit k r s).core.sent = (unwound wk r s).core.sent := by
  have hu := h.pf_inv_unwound hk r
  have hs := pf_unwound_spec wk r s
  have hopen : ∀ e, (unwound wk r s).core.tasks wk.tid = some e →
      (unwound wk r s).core.closes e.done = 0 := fun e he => (hu.task_ok _ e he).2
  have hreg : (unwound wk r s).portForwarders wk.w.ID = none := by
    rw [hs.1]; simp [GoMap.delete]
  rw [pf_workerExit_eq r hk hpc]
  refine ⟨hreg, rfl, hreg, finishTask_removes hopen, ?_, ?_, ?_⟩
  · show (finishTask wk.tid (unwound wk r s).core).crashed = none
    rw [finishTask_keeps_crashed hopen]; exact hu.crashed
  · simp
  · exact finishTask_sent _ _

end portforward

namespace socks5lib

/-- What the exit of a worker in its loop does to a state satisfying the
invariant. -/
theorem s5_exit_spec {s : State} (h : s.Inv) {k : Nat} {wk : Worker} (r : Outcome Unit)
    (hk : s.workers k = some wk) (hpc : wk.pc = WorkerPC.inLoop) :
    (unwound wk r s).socks5Servers wk.w.ID = none
    ∧ (workerExit k r s).core = finishTask wk.tid (unwound wk r s).core
    ∧ (workerExit k r s).socks5Servers wk.w.ID = none
    ∧ (workerExit k r s).core.tasks wk.tid = none
    ∧ (workerExit k r s).core.crashed = none
    ∧ (workerExit k r s).workers k = some { wk with pc := WorkerPC.exited }
    ∧ (workerExit k r s).core.sent = (unwound wk r s).core.sent := by
  have hu := h.s5_inv_unwound wk r
  have hs := s5_unwound_spec wk r s
  have hopen : ∀ e, (unwound wk r s).core.tasks wk.tid = some e →
      (unwound wk r s).core.closes e.done = 0 := fun e he => (hu.task_ok _ e he).2
  have hreg : (unwound wk r s).socks5Servers wk.w.ID = none := by
    rw [hs.1]; simp [GoMap.delete]
  rw [s5_workerExit_eq r hk hpc]
  refine ⟨hreg, rfl, hreg, finishTask_removes hopen, ?_, ?_, ?_⟩
  · show (finishTask wk.tid (unwound wk r s).core).crashed = none
    rw [finishTask_keeps_crashed hopen]; exact hu.crashed
  · simp
  · exact finishTask_sent _ _

end socks5lib

namespace socks5lib2

/-- What the exit of a worker in its loop does to a state satisfying the
invariant. -/
theorem s52_exit_spec {s : State} (h : s.Inv) {k : Nat} {wk : Worker} (r : Outcome Unit)
    (hk : s.workers k = some wk) (hpc : wk.pc = WorkerPC.inLoop) :
    (unwound wk r s).socks5Servers wk.w.ID = none
    ∧ (workerExit k r s).core = finishTask wk.tid (unwound wk r s).core
    ∧ (workerExit k r s).socks5Servers wk.w.ID = none
    ∧ (workerExit k r s).core.tasks wk.tid = none
    ∧ (workerExit k r s).core.crashed = none
    ∧ (workerExit k r s).workers k = some { wk with pc := WorkerPC.exited }
    ∧ (workerExit k r s).core.sent = (unwound wk r s).core.sent := by
  have hu := h.s52_inv_unwound wk r
  have hs := s52_unwound_spec wk r s
  have hopen : ∀ e, (unwound wk r s).core.tasks wk.tid = some e →
      (unwound wk r s).core.closes e.done = 0 := fun e he => (hu.task_ok _ e he).2
  have hreg : (unwound wk r s).socks5Servers wk.w.ID = none := by
    rw [hs.1]; simp [GoMap.delete]
  rw [s52_workerExit_eq r hk hpc]
  refine ⟨hreg, rfl, hreg, finishTask_removes hopen, ?_, ?_, ?_⟩
  · show (finishTask wk.tid (unwound wk r s).core).crashed = none
    rw [finishTask_keeps_crashed hopen]; exact hu.crashed
  · simp
  · exact finishTask_sent _ _

end socks5lib2

/-! ## A removed ResourceID stays unknown -/

namespace portforward

theorem pf_gone_after {s : State} {n : Int} (h : s.Bnd n) (acts : List Action)
    (hn : n + acts.length ≤ maxInt64) (id : Int) (hid : id ≤ s.nextPFID)
    (habs : s.portForwarders id = none) (port : Int) (r : Outcome (List (Nat × Nat))) :
    (s.run acts).portForwarders id = none
    ∧ StartForwardPorts id port (s.run acts)
        = (0, send (getPortOrDefault port (s.run acts).core) (failure "start_forward_ports"
            ("port forwarder " ++ toString id ++ " not found")) (s.run acts))
    ∧ StopForwardPorts id port (s.run acts)
        = send (getPortOrDefault port (s.run acts).core) (failure "stop_forward_ports"
            ("port forwarder " ++ toString id ++ " not found")) (s.run acts)
    ∧ GetForwardedPorts id port r (s.run acts)
        = send (getPortOrDefault port (s.run acts).core) (failure "get_forwarded_ports"
            ("port forwarder " ++ toString id ++ " not found")) (s.run acts) := by
  have hx := (pf_absent_run h acts hn id hid habs).1
  exact ⟨hx, StartForwardPorts_absent port hx, StopForwardPorts_absent port hx,
    GetForwardedPorts_absent port r hx⟩

end portforward

namespace socks5lib

theorem s5_gone_after {s : State} {n : Int} (h : s.Bnd n) (acts : List Action)
    (hn : n + acts.length ≤ maxInt64) (id : Int) (hid : id ≤ s.nextSrvID)
    (habs : s.socks5Servers id = none) (port : Int) :
    (s.run acts).socks5Servers id = none
    ∧ StartSocks5Server id port (s.run acts)
        = (0, send (getPortOrDefault port (s.run acts).core) (failure "start_socks5_server"
            ("server " ++ toString id ++ " not found")) (s.run acts))
    ∧ StopSocks5Server id port (s.run acts)
        = send (getPortOrDefault port (s.run acts).core) (failure "stop_socks5_server"
            ("server " ++ toString id ++ " not found")) (s.run acts) := by
  have hx := (s5_absent_run h acts hn id hid habs).1
  exact ⟨hx, s5_Start_absent port hx, s5_Stop_absent port hx⟩

end socks5lib

namespace socks5lib2

end socks5lib2

/-! ## Rounding to `float64` -/

theorem roundHalfEven_cases (x : ℚ) : roundHalfEven x = ⌊x⌋ ∨ roundHalfEven x = ⌊x⌋ + 1 := by
  unfold roundHalfEven
  simp only
  split_ifs <;> simp

theorem roundHalfEven_intCast (k : Int) : roundHalfEven (k : ℚ) = k := by
  unfold roundHalfEven
  simp

theorem roundHalfEven_err (x : ℚ) : |(roundHalfEven x : ℚ) - x| ≤ 1 / 2 := by
  have h1 := Int.floor_le x
  have h2 := Int.lt_floor_add_one x
  unfold roundHalfEven
  simp only
  split_ifs with ha hb hc
  · rw [abs_le]; constructor <;> linarith
  · rw [abs_le]; push_cast; constructor <;> linarith
  · have : x - ⌊x⌋ = 1 / 2 := le_antisymm (not_lt.mp hb) (not_lt.mp ha)
    rw [abs_le]; constructor <;> linarith
  · have : x - ⌊x⌋ = 1 / 2 := le_antisymm (not_lt.mp hb) (not_lt.mp ha)
    rw [abs_le]; push_cast; constructor <;> linarith

theorem le_roundHalfEven {k : Int} {x : ℚ} (h : (k : ℚ) ≤ x) : k ≤ roundHalfEven x := by
  have hk : k ≤ ⌊x⌋ := Int.le_floor.mpr h
  rcases roundHalfEven_cases x with hr | hr <;> omega

theorem roundHalfEven_le {k : Int} {x : ℚ} (h : x ≤ (k : ℚ)) : roundHalfEven x ≤ k := by
  rcases eq_or_lt_of_le h with he | hl
  · rw [he, roundHalfEven_intCast]
  · have hk : ⌊x⌋ < k := Int.floor_lt.mpr hl
    rcases roundHalfEven_cases x with hr | hr <;> omega

/-- A nonzero multiple of its own unit in the last place is a `float64`. -/
theorem roundF64_exact {q : ℚ} (k : Int)
    (h : q = k * 2 ^ (max (Int.log 2 |q|) (-1022) - 52)) : roundF64 q = q := by
  by_cases h0 : q = 0
  · simp [roundF64, h0]
  · unfold roundF64
    simp only [h0, if_false]
    have hu : (2 : ℚ) ^ (max (Int.log 2 |q|) (-1022) - 52) ≠ 0 := by positivity
    have hq : q / 2 ^ (max (Int.log 2 |q|) (-1022) - 52) = k := by
      rw [div_eq_iff hu]; exact h
    rw [hq, roundHalfEven_intCast]
    exact h.symm

/-- Rounding error: at most half a unit in the last place. -/
theorem roundF64_err (q : ℚ) :
    |roundF64 q - q| ≤ 2 ^ (max (Int.log 2 |q|) (-1022) - 52) / 2 := by
  by_cases h0 : q = 0
  · simp [roundF64, h0]; positivity
  · unfold roundF64
    simp only [h0, if_false]
    have hu : (0 : ℚ) < 2 ^ (max (Int.log 2 |q|) (-1022) - 52) := by positivity
    have he := roundHalfEven_err (q / 2 ^ (max (Int.log 2 |q|) (-1022) - 52))
    have hx : (roundHalfEven (q / 2 ^ (max (Int.log 2 |q|) (-1022) - 52)) : ℚ)
          * 2 ^ (max (Int.log 2 |q|) (-1022) - 52) - q
        = ((roundHalfEven (q / 2 ^ (max (Int.log 2 |q|) (-1022) - 52)) : ℚ)
            - q / 2 ^ (max (Int.log 2 |q|) (-1022) - 52))
          * 2 ^ (max (Int.log 2 |q|) (-1022) - 52) := by
      field_simp
    rw [hx, abs_mul, abs_of_pos hu]
    calc _ ≤ 1 / 2 * (2 : ℚ) ^ (max (Int.log 2 |q|) (-1022) - 52) :=
          mul_le_mul_of_nonneg_right he hu.le
      _ = _ := by ring

/-- Rounding does not cross a power of two from above. -/
theorem roundF64_ge_zpow {q : ℚ} {k : Int} (hk : -1022 ≤ k) (h : (2 : ℚ) ^ k ≤ q) :
    (2 : ℚ) ^ k ≤ roundF64 q := by
  have hq : 0 < q := lt_of_lt_of_le (by positivity) h
  have hlog : k ≤ Int.log 2 |q| := by
    rw [abs_of_pos hq]
    exact (Int.zpow_le_iff_le_log (by norm_num) hq).mp (by exact_mod_cast h)
  have hmax : max (Int.log 2 |q|) (-1022) = Int.log 2 |q| := max_eq_left (by omega)
  unfold roundF64
  simp only [hq.ne', if_false, hmax]
  have hu : (0 : ℚ) < 2 ^ (Int.log 2 |q| - 52) := by positivity
  have hle : (2 : ℚ) ^ Int.log 2 |q| ≤ q := by
    have := Int.zpow_log_le_self (b := 2) (r := q) (by norm_num) hq
    rw [abs_of_pos hq]; exact_mod_cast this
  have h52 : (((2 : Int) ^ (52 : ℕ) : Int) : ℚ) ≤ q / 2 ^ (Int.log 2 |q| - 52) := by
    rw [le_div_iff₀ hu]
    have hc : (((2 : Int) ^ (52 : ℕ) : Int) : ℚ) = (2 : ℚ) ^ (52 : ℕ) := by norm_num
    have : (2 : ℚ) ^ (52 : ℕ) * 2 ^ (Int.log 2 |q| - 52) = 2 ^ Int.log 2 |q| := by
      rw [← zpow_natCast, ← zpow_add₀ (by norm_num : (2 : ℚ) ≠ 0)]
      congr 1; push_cast; ring
    rw [hc, this]; exact hle
  have hr := le_roundHalfEven h52
  have hr2 : ((2 : ℚ) ^ (52 : ℕ)) ≤ (roundHalfEven (q / 2 ^ (Int.log 2 |q| - 52)) : ℚ) := by
    have hc : (((2 : Int) ^ (52 : ℕ) : Int) : ℚ) = (2 : ℚ) ^ (52 : ℕ) := by norm_num
    rw [← hc]; exact_mod_cast hr
  calc (2 : ℚ) ^ k ≤ 2 ^ Int.log 2 |q| := zpow_le_zpow_right₀ (by norm_num) hlog
    _ = (2 : ℚ) ^ (52 : ℕ) * 2 ^ (Int.log 2 |q| - 52) := by
      rw [← zpow_natCast, ← zpow_add₀ (by norm_num : (2 : ℚ) ≠ 0)]
      congr 1; push_cast; ring
    _ ≤ _ := mul_le_mul_of_nonneg_right hr2 hu.le

/-- Rounding does not cross the negative of a power of two from below. -/
theorem roundF64_le_neg_zpow {q : ℚ} {k : Int} (hk : -1022 ≤ k) (h : q ≤ -(2 : ℚ) ^ k) :
    roundF64 q ≤ -(2 : ℚ) ^ k := by
  have hq : q < 0 := lt_of_le_of_lt h (by simp; positivity)
  have habs : |q| = -q := abs_of_neg hq
  have hnq : (0 : ℚ) < -q := by linarith
  have hlog : k ≤ Int.log 2 |q| := by
    rw [habs]
    exact (Int.zpow_le_iff_le_log (by norm_num) hnq).mp (by push_cast; linarith)
  have hmax : max (Int.log 2 |q|) (-1022) = Int.log 2 |q| := max_eq_left (by omega)
  unfold roundF64
  simp only [hq.ne, if_false, hmax]
  have hu : (0 : ℚ) < 2 ^ (Int.log 2 |q| - 52) := by positivity
  have hle : (2 : ℚ) ^ Int.log 2 |q| ≤ -q := by
    have := Int.zpow_log_le_self (b := 2) (r := -q) (by norm_num) hnq
    rw [habs]; exact_mod_cast this
  have hc : (((2 : Int) ^ (52 : ℕ) : Int) : ℚ) = (2 : ℚ) ^ (52 : ℕ) := by norm_num
  have hpow : (2 : ℚ) ^ (52 : ℕ) * 2 ^ (Int.log 2 |q| - 52) = 2 ^ Int.log 2 |q| := by
    rw [← zpow_natCast, ← zpow_add₀ (by norm_num : (2 : ℚ) ≠ 0)]
    congr 1; push_cast; ring
  have h52 : q / 2 ^ (Int.log 2 |q| - 52) ≤ ((-((2 : Int) ^ (52 : ℕ)) : Int) : ℚ) := by
    rw [div_le_iff₀ hu, Int.cast_neg, hc, neg_mul, hpow]
    linarith
  have hr := roundHalfEven_le h52
  have hr2 : (roundHalfEven (q / 2 ^ (Int.log 2 |q| - 52)) : ℚ) ≤ -((2 : ℚ) ^ (52 : ℕ)) := by
    rw [← hc, ← Int.cast_neg]; exact_mod_cast hr
  calc _ ≤ -((2 : ℚ) ^ (52 : ℕ)) * 2 ^ (Int.log 2 |q| - 52) :=
        mul_le_mul_of_nonneg_right hr2 hu.le
    _ = -(2 : ℚ) ^ Int.log 2 |q| := by rw [neg_mul, hpow]
    _ ≤ -(2 : ℚ) ^ k := by
      have := zpow_le_zpow_right₀ (by norm_num : (1 : ℚ) ≤ 2) hlog
      linarith

/-- An integer of magnitude below `2^53` is a `float64`. -/
theorem roundF64_intCast {n : Int} (h : |n| < 2 ^ 53) : roundF64 (n : ℚ) = n := by
  by_cases h0 : n = 0
  · simp [roundF64, h0]
  · have hpos : (0 : ℚ) < |(n : ℚ)| := abs_pos.mpr (by exact_mod_cast h0)
    have h1 : (1 : ℚ) ≤ |(n : ℚ)| := by
      have : 1 ≤ |n| := Int.one_le_abs h0
      exact_mod_cast this
    have hlo : 0 ≤ Int.log 2 |(n : ℚ)| :=
      (Int.zpow_le_iff_le_log (by norm_num) hpos).mp (by simpa using h1)
    have hhi : Int.log 2 |(n : ℚ)| < 53 := by
      refine (Int.lt_zpow_iff_log_lt (by norm_num) hpos).mp ?_
      have h2 : ((|n| : Int) : ℚ) < ((2 ^ 53 : Int) : ℚ) := by exact_mod_cast h
      rw [Int.cast_abs] at h2
      norm_num at h2 ⊢
      exact h2
    have hmax : max (Int.log 2 |(n : ℚ)|) (-1022) = Int.log 2 |(n : ℚ)| :=
      max_eq_left (by omega)
    refine roundF64_exact (n * 2 ^ (52 - Int.log 2 |(n : ℚ)|).toNat) ?_
    rw [hmax]
    have he : ((52 - Int.log 2 |(n : ℚ)|).toNat : Int) = 52 - Int.log 2 |(n : ℚ)| :=
      Int.toNat_of_nonneg (by omega)
    push_cast
    rw [mul_assoc, ← zpow_natCast, he, ← zpow_add₀ (by norm_num : (2 : ℚ) ≠ 0)]
    simp

/-- The quotient `d / 10.0` converted to `int` is the integer quotient,
for a natural `d` below `2^53`. -/
theorem toInt_div_ten {d : Int} (h0 : 0 ≤ d) (h : d < 2 ^ 53) :
    F64.toInt (F64.div (d : ℚ) 10) = d / 10 := by
  rcases eq_or_lt_of_le h0 with hz | hpos
  · subst hz
    simp [F64.toInt, F64.div, roundF64]
  · have hx : (0 : ℚ) < (d : ℚ) / 10 := by
      have : (0 : ℚ) < d := by exact_mod_cast hpos
      positivity
    have habs : |(d : ℚ) / 10| = (d : ℚ) / 10 := abs_of_pos hx
    have hd1 : (1 : ℚ) ≤ d := by exact_mod_cast hpos
    have hd2 : (d : ℚ) < 2 ^ 53 := by exact_mod_cast h
    have hlo : -4 ≤ Int.log 2 |(d : ℚ) / 10| := by
      rw [habs]
      refine (Int.zpow_le_iff_le_log (by norm_num) hx).mp ?_
      rw [le_div_iff₀ (by norm_num)]
      norm_num
      linarith
    have hhi : Int.log 2 |(d : ℚ) / 10| < 50 := by
      rw [habs]
      refine (Int.lt_zpow_iff_log_lt (by norm_num) hx).mp ?_
      rw [div_lt_iff₀ (by norm_num)]
      norm_num
      norm_num at hd2
      linarith
    have hmax : max (Int.log 2 |(d : ℚ) / 10|) (-1022) = Int.log 2 |(d : ℚ) / 10| :=
      max_eq_left (by omega)
    have hdm : (d : ℚ) = ((d / 10 : Int) : ℚ) * 10 + ((d % 10 : Int) : ℚ) := by
      have := Int.ediv_add_emod d 10
      have h2 : ((10 * (d / 10) + d % 10 : Int) : ℚ) = (d : ℚ) := by rw [this]
      push_cast at h2
      linarith
    have hm0 : 0 ≤ d % 10 := Int.emod_nonneg d (by norm_num)
    have hm9 : d % 10 < 10 := Int.emod_lt_of_pos d (by norm_num)
    have hq0 : 0 ≤ d / 10 := Int.ediv_nonneg h0 (by norm_num)
    by_cases hr : d % 10 = 0
    · have hxq : (d : ℚ) / 10 = ((d / 10 : Int) : ℚ) := by
        rw [hdm, hr]; simp
      have hex : roundF64 ((d : ℚ) / 10) = (d : ℚ) / 10 := by
        refine roundF64_exact ((d / 10) * 2 ^ (52 - Int.log 2 |(d : ℚ) / 10|).toNat) ?_
        rw [hmax]
        have he : ((52 - Int.log 2 |(d : ℚ) / 10|).toNat : Int)
            = 52 - Int.log 2 |(d : ℚ) / 10| := Int.toNat_of_nonneg (by omega)
        push_cast
        rw [mul_assoc, ← zpow_natCast, he, ← zpow_add₀ (by norm_num : (2 : ℚ) ≠ 0)]
        simp [hxq]
      unfold F64.toInt F64.div
      rw [hex, if_pos hx.le, hxq]
      exact Int.floor_intCast _
    · have herr := roundF64_err ((d : ℚ) / 10)
      rw [hmax] at herr
      have hu : (2 : ℚ) ^ (Int.log 2 |(d : ℚ) / 10| - 52) ≤ 2 ^ (-3 : Int) :=
        zpow_le_zpow_right₀ (by norm_num) (by omega)
      have hu3 : (2 : ℚ) ^ (-3 : Int) = 1 / 8 := by norm_num
      rw [hu3] at hu
      have herr2 : |roundF64 ((d : ℚ) / 10) - (d : ℚ) / 10| ≤ 1 / 16 := by linarith
      rw [abs_le] at herr2
      have hm1 : (1 : ℚ) ≤ ((d % 10 : Int) : ℚ) := by
        have : 1 ≤ d % 10 := by omega
        exact_mod_cast this
      have hm9q : ((d % 10 : Int) : ℚ) ≤ 9 := by
        have : d % 10 ≤ 9 := by omega
        exact_mod_cast this
      have hq0q : (0 : ℚ) ≤ ((d / 10 : Int) : ℚ) := by exact_mod_cast hq0
      have hxv : (d : ℚ) / 10 = ((d / 10 : Int) : ℚ) + ((d % 10 : Int) : ℚ) / 10 := by
        linarith
      have hlow : ((d / 10 : Int) : ℚ) ≤ roundF64 ((d : ℚ) / 10) := by linarith
      have hupp : roundF64 ((d : ℚ) / 10) < ((d / 10 : Int) : ℚ) + 1 := by linarith
      unfold F64.toInt F64.div
      rw [if_pos (le_trans hq0q hlow)]
      exact Int.floor_eq_iff.mpr ⟨hlow, hupp⟩

namespace sentinel

/-- The magnitude `math.Abs(float64(t - start))` as computed: exact below
`2^53`, and at least `2^53` otherwise, also when the `int` subtraction
wraps. -/
theorem abs_ofInt_wrap {v : Int} (hlo : -(2 ^ 63 + 2 ^ 31) ≤ v) (hhi : v ≤ 2 ^ 63 + 2 ^ 31) :
    (|v| < 2 ^ 53 → F64.Abs (F64.ofInt (wrapInt64 v)) = ((|v| : Int) : ℚ))
    ∧ (2 ^ 53 ≤ |v| → (2 : ℚ) ^ (53 : Int) ≤ F64.Abs (F64.ofInt (wrapInt64 v))) := by
  constructor
  · intro h
    have hv := abs_lt.mp h
    have hw : wrapInt64 v = v := wrapInt64_id (by omega) (by unfold maxInt64; omega)
    unfold F64.Abs F64.ofInt
    rw [hw, roundF64_intCast h, Int.cast_abs]
  · intro h
    have hcase : 2 ^ 53 ≤ wrapInt64 v ∨ wrapInt64 v ≤ -(2 ^ 53) := by
      unfold wrapInt64
      rcases le_abs.mp h with h1 | h1 <;> omega
    unfold F64.Abs F64.ofInt
    rcases hcase with h1 | h1
    · have h2 : (2 : ℚ) ^ (53 : Int) ≤ ((wrapInt64 v : Int) : ℚ) := by
        have : (((2 : Int) ^ 53 : Int) : ℚ) ≤ ((wrapInt64 v : Int) : ℚ) := by exact_mod_cast h1
        norm_num at this ⊢
        exact this
      exact le_trans (roundF64_ge_zpow (by norm_num) h2) (le_abs_self _)
    · have h2 : ((wrapInt64 v : Int) : ℚ) ≤ -(2 : ℚ) ^ (53 : Int) := by
        have : ((wrapInt64 v : Int) : ℚ) ≤ ((-(2 : Int) ^ 53 : Int) : ℚ) := by exact_mod_cast h1
        norm_num at this ⊢
        exact this
      have h3 := roundF64_le_neg_zpow (by norm_num) h2
      have h4 := neg_le_abs (roundF64 ((wrapInt64 v : Int) : ℚ))
      linarith

/-- The step count of the code is the step count of the specification,
for targets that are C `int`s and start positions that are Go `int`s. -/
theorem stepCount_eq (startX startY tx ty : Int)
    (hx1 : -(2 ^ 63) ≤ startX) (hx2 : startX < 2 ^ 63)
    (hy1 : -(2 ^ 63) ≤ startY) (hy2 : startY < 2 ^ 63)
    (htx1 : -(2 ^ 31) ≤ tx) (htx2 : tx < 2 ^ 31)
    (hty1 : -(2 ^ 31) ≤ ty) (hty2 : ty < 2 ^ 31) :
    stepCount startX startY tx ty = stepCountSpec startX startY tx ty := by
  have ha := abs_ofInt_wrap (v := tx - startX) (by omega) (by omega)
  have hb := abs_ofInt_wrap (v := ty - startY) (by omega) (by omega)
  unfold stepCount stepCountSpec
  simp only
  by_cases hs : |tx - startX| < 2 ^ 53 ∧ |ty - startY| < 2 ^ 53
  · rw [ha.1 hs.1, hb.1 hs.2]
    have hmax : F64.Max ((|tx - startX| : Int) : ℚ) ((|ty - startY| : Int) : ℚ)
        = ((max |tx - startX| |ty - startY| : Int) : ℚ) := by
      unfold F64.Max; push_cast; rfl
    rw [hmax, toInt_div_ten (le_max_of_le_left (abs_nonneg _)) (max_lt hs.1 hs.2)]
    have hq : 0 ≤ max |tx - startX| |ty - startY| / 10 :=
      Int.ediv_nonneg (le_max_of_le_left (abs_nonneg _)) (by norm_num)
    split_ifs <;> omega
  · have hbig : 2 ^ 53 ≤ max |tx - startX| |ty - startY| := by
      rcases not_and_or.mp hs with h | h
      · exact le_trans (not_lt.mp h) (le_max_left _ _)
      · exact le_trans (not_lt.mp h) (le_max_right _ _)
    have hdist : (2 : ℚ) ^ (53 : Int)
        ≤ F64.Max (F64.Abs (F64.ofInt (wrapInt64 (tx - startX))))
            (F64.Abs (F64.ofInt (wrapInt64 (ty - startY)))) := by
      unfold F64.Max
      rcases not_and_or.mp hs with h | h
      · exact le_trans (ha.2 (not_lt.mp h)) (le_max_left _ _)
      · exact le_trans (hb.2 (not_lt.mp h)) (le_max_right _ _)
    have hdiv : (2 : ℚ) ^ (49 : Int)
        ≤ F64.div (F64.Max (F64.Abs (F64.ofInt (wrapInt64 (tx - startX))))
            (F64.Abs (F64.ofInt (wrapInt64 (ty - startY))))) 10 := by
      unfold F64.div
      refine roundF64_ge_zpow (by norm_num) ?_
      rw [le_div_iff₀ (by norm_num)]
      norm_num at hdist ⊢
      linarith
    have hto : 2 ^ 49 ≤ F64.toInt (F64.div (F64.Max (F64.Abs (F64.ofInt (wrapInt64 (tx - startX))))
            (F64.Abs (F64.ofInt (wrapInt64 (ty - startY))))) 10) := by
      unfold F64.toInt
      rw [if_pos (le_trans (by positivity) hdiv)]
      refine Int.le_floor.mpr ?_
      norm_num at hdiv ⊢
      exact hdiv
    have hq : 121 ≤ max |tx - startX| |ty - startY| / 10 := by omega
    split_ifs <;> omega

/-- Bounds of the step count, whatever the positions. -/
theorem stepCount_bounds (startX startY tx ty : Int) :
    10 ≤ stepCount startX startY tx ty ∧ stepCount startX startY tx ty ≤ 120 := by
  unfold stepCount
  simp only
  split_ifs <;> omega

end sentinel
/-! ## Rounding error of the interpolation -/

theorem roundHalfEven_eq_of_near {x : ℚ} {m : Int} (h : |x - m| < 1 / 2) :
    roundHalfEven x = m := by
  have he := roundHalfEven_err x
  rw [abs_lt] at h
  rw [abs_le] at he
  have h1 : ((roundHalfEven x - m : Int) : ℚ) < 1 := by push_cast; linarith
  have h2 : (-1 : ℚ) < ((roundHalfEven x - m : Int) : ℚ) := by push_cast; linarith
  have h3 : roundHalfEven x - m < 1 := by exact_mod_cast h1
  have h4 : -1 < roundHalfEven x - m := by exact_mod_cast h2
  omega

theorem log_two_eq {q : ℚ} {e : Int} (h0 : 0 < q) (h1 : (2 : ℚ) ^ e ≤ q)
    (h2 : q < (2 : ℚ) ^ (e + 1)) : Int.log 2 q = e := by
  have a : e ≤ Int.log 2 q :=
    (Int.zpow_le_iff_le_log (by norm_num) h0).mp (by exact_mod_cast h1)
  have b : Int.log 2 q < e + 1 :=
    (Int.lt_zpow_iff_log_lt (by norm_num) h0).mp (by exact_mod_cast h2)
  omega

/-- The `float64` nearest to `q`, given its binade and the nearest multiple
of the unit in the last place. -/
theorem roundF64_eq_of_near {q : ℚ} (e m : Int) (he : -1022 ≤ e) (h1 : (2 : ℚ) ^ e ≤ |q|)
    (h2 : |q| < (2 : ℚ) ^ (e + 1)) (hm : |q / 2 ^ (e - 52) - m| < 1 / 2) :
    roundF64 q = m * 2 ^ (e - 52) := by
  have hpos : 0 < |q| := lt_of_lt_of_le (by positivity) h1
  have hq : q ≠ 0 := abs_pos.mp hpos
  have hlog := log_two_eq hpos h1 h2
  unfold roundF64
  simp only [hq, if_false, hlog, max_eq_left he]
  rw [roundHalfEven_eq_of_near hm]

/-- Rounding error below a power of two. -/
theorem roundF64_err_of_lt {q : ℚ} {k : Int} (hk : -1021 ≤ k) (h : |q| < (2 : ℚ) ^ k) :
    |roundF64 q - q| ≤ (2 : ℚ) ^ (k - 54) := by
  by_cases h0 : q = 0
  · simp [roundF64, h0]; positivity
  · have hpos : 0 < |q| := abs_pos.mpr h0
    have hlog : Int.log 2 |q| < k :=
      (Int.lt_zpow_iff_log_lt (by norm_num) hpos).mp (by exact_mod_cast h)
    have hmax : max (Int.log 2 |q|) (-1022) ≤ k - 1 := max_le (by omega) (by omega)
    have herr := roundF64_err q
    have hu : (2 : ℚ) ^ (max (Int.log 2 |q|) (-1022) - 52) ≤ 2 ^ (k - 53) :=
      zpow_le_zpow_right₀ (by norm_num) (by omega)
    have hh : (2 : ℚ) ^ (k - 53) / 2 = 2 ^ (k - 54) := by
      rw [show k - 53 = (k - 54) + 1 by ring, zpow_add_one₀ (by norm_num)]
      ring
    calc |roundF64 q - q| ≤ 2 ^ (max (Int.log 2 |q|) (-1022) - 52) / 2 := herr
      _ ≤ 2 ^ (k - 53) / 2 := by linarith
      _ = 2 ^ (k - 54) := hh

namespace sentinel

theorem F64_Round_eq (a : ℚ) : F64.Round a = (roundHalfAway a : ℚ) := by
  unfold F64.Round roundHalfAway
  split_ifs <;> simp

theorem F64_toInt_intCast (z : Int) : F64.toInt (z : ℚ) = z := by
  unfold F64.toInt
  split_ifs with h
  · exact Int.floor_intCast z
  · rw [show (-(z : ℚ)) = ((-z : Int) : ℚ) by push_cast; ring, Int.floor_intCast]
    ring

/-- The coordinate commanded is the rounding (halves away from zero) of
the `float64` sum. -/
theorem stepPos_eq (start : Int) (d : ℚ) (i : Nat) :
    stepPos start d i
      = roundHalfAway (F64.add (F64.ofInt start) (F64.mul d (F64.ofInt i))) := by
  unfold stepPos
  rw [F64_Round_eq, F64_toInt_intCast]

theorem le_roundHalfAway {s : ℚ} {z : Int} (h : (z : ℚ) - 1 / 2 < s) : z ≤ roundHalfAway s := by
  unfold roundHalfAway
  split_ifs
  · exact Int.le_floor.mpr (by linarith)
  · have : ⌊-s + 1 / 2⌋ < -z + 1 := Int.floor_lt.mpr (by push_cast; linarith)
    omega

theorem roundHalfAway_le {s : ℚ} {z : Int} (h : s < (z : ℚ) + 1 / 2) : roundHalfAway s ≤ z := by
  unfold roundHalfAway
  split_ifs
  · have : ⌊s + 1 / 2⌋ < z + 1 := Int.floor_lt.mpr (by push_cast; linarith)
    omega
  · have : -z ≤ ⌊-s + 1 / 2⌋ := Int.le_floor.mpr (by push_cast; linarith)
    omega

/-- The rounding of `v` lies within one half of `v`. -/
theorem roundHalfAway_near (v : ℚ) :
    (roundHalfAway v : ℚ) - 1 / 2 ≤ v ∧ v ≤ (roundHalfAway v : ℚ) + 1 / 2 := by
  unfold roundHalfAway
  split_ifs
  · have h1 := Int.floor_le (v + 1 / 2)
    have h2 := Int.lt_floor_add_one (v + 1 / 2)
    constructor <;> linarith
  · have h1 := Int.floor_le (-v + 1 / 2)
    have h2 := Int.lt_floor_add_one (-v + 1 / 2)
    push_cast
    constructor <;> linarith

/-- The `float64` sum from which the coordinate of step `i` is rounded
differs from the exact interpolation by at most `2^-16`, for coordinates
that are C `int`s. -/
theorem interp_error (start t steps : Int) (i : Nat)
    (hs1 : -(2 ^ 31) ≤ start) (hs2 : start < 2 ^ 31)
    (ht1 : -(2 ^ 31) ≤ t) (ht2 : t < 2 ^ 31)
    (hn1 : 10 ≤ steps) (hn2 : steps ≤ 120) (hi : (i : Int) ≤ steps) :
    |F64.add (F64.ofInt start) (F64.mul (stepDelta start t steps) (F64.ofInt i))
        - interpolate start t steps i| ≤ 1 / 65536 := by
  have hw : wrapInt64 (t - start) = t - start :=
    wrapInt64_id (by omega) (by unfold maxInt64; omega)
  have hd : F64.ofInt (t - start) = ((t - start : Int) : ℚ) :=
    roundF64_intCast (abs_lt.mpr ⟨by omega, by omega⟩)
  have hst : F64.ofInt steps = (steps : ℚ) :=
    roundF64_intCast (abs_lt.mpr ⟨by omega, by omega⟩)
  have hsa : F64.ofInt start = (start : ℚ) :=
    roundF64_intCast (abs_lt.mpr ⟨by omega, by omega⟩)
  have hii : F64.ofInt (i : Int) = ((i : Int) : ℚ) :=
    roundF64_intCast (abs_lt.mpr ⟨by omega, by omega⟩)
  have hstq : (10 : ℚ) ≤ (steps : ℚ) := by exact_mod_cast hn1
  have hstq2 : (steps : ℚ) ≤ 120 := by exact_mod_cast hn2
  have hiq : ((i : Int) : ℚ) ≤ (steps : ℚ) := by exact_mod_cast hi
  have hi0 : (0 : ℚ) ≤ ((i : Int) : ℚ) := by exact_mod_cast Int.natCast_nonneg i
  have hdq : |((t - start : Int) : ℚ)| ≤ 2 ^ 32 := by
    rw [abs_le]
    constructor
    · have : -(2 ^ 32 : Int) ≤ t - start := by omega
      exact_mod_cast this
    · have : t - start ≤ (2 ^ 32 : Int) := by omega
      exact_mod_cast this
  have hsq : |(start : ℚ)| ≤ 2 ^ 31 := by
    rw [abs_le]
    constructor
    · have : -(2 ^ 31 : Int) ≤ start := by omega
      exact_mod_cast this
    · have : start ≤ (2 ^ 31 : Int) := by omega
      exact_mod_cast this
  -- the quotient
  have hq : |((t - start : Int) : ℚ) / steps| ≤ 2 ^ 32 / 10 := by
    rw [abs_div, abs_of_pos (by linarith : (0 : ℚ) < steps)]
    calc |((t - start : Int) : ℚ)| / steps ≤ 2 ^ 32 / steps :=
          div_le_div_of_nonneg_right hdq (by linarith)
      _ ≤ 2 ^ 32 / 10 := div_le_div_of_nonneg_left (by norm_num) (by norm_num) hstq
  have e1 : |stepDelta start t steps - ((t - start : Int) : ℚ) / steps| ≤ 2 ^ (-25 : Int) := by
    unfold stepDelta F64.div
    rw [hw, hd, hst]
    have := roundF64_err_of_lt (q := ((t - start : Int) : ℚ) / steps) (k := 29) (by norm_num)
      (lt_of_le_of_lt hq (by norm_num))
    simpa using this
  have hdx : |stepDelta start t steps| ≤ 2 ^ 32 / 10 + 1 := by
    have := abs_sub_abs_le_abs_sub (stepDelta start t steps) (((t - start : Int) : ℚ) / steps)
    have h25 : (2 : ℚ) ^ (-25 : Int) ≤ 1 := by norm_num
    linarith
  -- the product
  have hprod : |stepDelta start t steps * ((i : Int) : ℚ)| ≤ (2 ^ 32 / 10 + 1) * 120 := by
    rw [abs_mul, abs_of_nonneg hi0]
    exact mul_le_mul hdx (by linarith) hi0 (by positivity)
  have e2 : |F64.mul (stepDelta start t steps) (F64.ofInt i)
      - stepDelta start t steps * ((i : Int) : ℚ)| ≤ 2 ^ (-18 : Int) := by
    unfold F64.mul
    rw [hii]
    have := roundF64_err_of_lt (q := stepDelta start t steps * ((i : Int) : ℚ)) (k := 36)
      (by norm_num) (lt_of_le_of_lt hprod (by norm_num))
    simpa using this
  have e2b : |stepDelta start t steps * ((i : Int) : ℚ)
      - ((t - start : Int) : ℚ) / steps * ((i : Int) : ℚ)| ≤ 120 * 2 ^ (-25 : Int) := by
    rw [← sub_mul, abs_mul, abs_of_nonneg hi0, mul_comm]
    exact mul_le_mul (by linarith) e1 (abs_nonneg _) (by norm_num)
  have hp : |F64.mul (stepDelta start t steps) (F64.ofInt i)| ≤ (2 ^ 32 / 10 + 1) * 120 + 1 := by
    have := abs_sub_abs_le_abs_sub (F64.mul (stepDelta start t steps) (F64.ofInt i))
      (stepDelta start t steps * ((i : Int) : ℚ))
    have h18 : (2 : ℚ) ^ (-18 : Int) ≤ 1 := by norm_num
    linarith
  -- the sum
  have hsum : |(start : ℚ) + F64.mul (stepDelta start t steps) (F64.ofInt i)|
      ≤ 2 ^ 31 + ((2 ^ 32 / 10 + 1) * 120 + 1) :=
    le_trans (abs_add _ _) (add_le_add hsq hp)
  have e3 : |F64.add (F64.ofInt start) (F64.mul (stepDelta start t steps) (F64.ofInt i))
      - ((start : ℚ) + F64.mul (stepDelta start t steps) (F64.ofInt i))| ≤ 2 ^ (-17 : Int) := by
    unfold F64.add
    rw [hsa]
    have := roundF64_err_of_lt
      (q := (start : ℚ) + F64.mul (stepDelta start t steps) (F64.ofInt i)) (k := 37)
      (by norm_num) (lt_of_le_of_lt hsum (by norm_num))
    simpa using this
  have hv : interpolate start t steps i
      = (start : ℚ) + ((t - start : Int) : ℚ) / steps * ((i : Int) : ℚ) := by
    unfold interpolate
    push_cast
    ring
  rw [hv]
  rw [abs_le] at e2 e2b e3 ⊢
  norm_num at e2 e2b e3 ⊢
  constructor <;> linarith

end sentinel
namespace sentinel

/-- Rounding is stable under a small error away from ties: when `2 * n * v`
is an integer for some `n ≤ 120` and `v` is not halfway between two
integers, every `s` within `2 ^ (-16)` of `v` rounds as `v` does. -/
theorem roundHalfAway_stable {v s : ℚ} {n : Int} (N : Int) (hn1 : 0 < n) (hn2 : n ≤ 120)
    (hN : v * (2 * n) = N) (h1 : v - 1 / 65536 ≤ s) (h2 : s ≤ v + 1 / 65536)
    (htie : ∀ z : Int, v ≠ (z : ℚ) + 1 / 2) :
    roundHalfAway s = roundHalfAway v := by
  have hnear := roundHalfAway_near v
  generalize roundHalfAway v = r at hnear ⊢
  have hnq : (0 : ℚ) < (n : ℚ) := by exact_mod_cast hn1
  have hnq2 : (n : ℚ) ≤ 120 := by exact_mod_cast hn2
  have hlt1 : (r : ℚ) - 1 / 2 < v := by
    rcases lt_or_eq_of_le hnear.1 with h | h
    · exact h
    · exact absurd (show v = ((r - 1 : Int) : ℚ) + 1 / 2 by push_cast; linarith) (htie _)
  have hlt2 : v < (r : ℚ) + 1 / 2 := by
    rcases lt_or_eq_of_le hnear.2 with h | h
    · exact h
    · exact absurd h (htie _)
  have ha : (((2 * r - 1) * n : Int) : ℚ) < (N : ℚ) := by
    rw [← hN]
    push_cast
    nlinarith
  have hb : (N : ℚ) < (((2 * r + 1) * n : Int) : ℚ) := by
    rw [← hN]
    push_cast
    nlinarith
  have ha2 : (2 * r - 1) * n + 1 ≤ N := by
    have := Int.cast_lt.mp ha
    omega
  have hb2 : N + 1 ≤ (2 * r + 1) * n := by
    have := Int.cast_lt.mp hb
    omega
  have ha3 : (2 * (r : ℚ) - 1) * n + 1 ≤ v * (2 * n) := by
    rw [hN]
    exact_mod_cast ha2
  have hb3 : v * (2 * n) + 1 ≤ (2 * (r : ℚ) + 1) * n := by
    rw [hN]
    exact_mod_cast hb2
  have hlo : (r : ℚ) - 1 / 2 + 1 / 240 ≤ v := by
    by_contra hc
    push_neg at hc
    nlinarith
  have hhi : v ≤ (r : ℚ) + 1 / 2 - 1 / 240 := by
    by_contra hc
    push_neg at hc
    nlinarith
  exact le_antisymm (roundHalfAway_le (by linarith)) (le_roundHalfAway (by linarith))

/-- The exact interpolation lies between start and target. -/
theorem interpolate_between (start t steps : Int) (i : Nat)
    (hn : 0 < steps) (hi : (i : Int) ≤ steps) :
    ((min start t : Int) : ℚ) ≤ interpolate start t steps i
    ∧ interpolate start t steps i ≤ ((max start t : Int) : ℚ) := by
  have hspos : (0 : ℚ) < (steps : ℚ) := by exact_mod_cast hn
  have hiq : ((i : Nat) : ℚ) ≤ (steps : ℚ) := by exact_mod_cast hi
  have hi0 : (0 : ℚ) ≤ ((i : Nat) : ℚ) := Nat.cast_nonneg i
  have hfrac0 : (0 : ℚ) ≤ (i : ℚ) / steps := div_nonneg hi0 hspos.le
  have hfrac1 : (i : ℚ) / steps ≤ 1 := (div_le_one hspos).mpr hiq
  have hv : interpolate start t steps i
      = (start : ℚ) + ((t : ℚ) - start) * ((i : ℚ) / steps) := by
    unfold interpolate
    push_cast
    ring
  rw [hv]
  generalize (i : ℚ) / steps = f at hfrac0 hfrac1
  rcases le_total start t with h | h
  · rw [min_eq_left h, max_eq_right h]
    have hq : (start : ℚ) ≤ t := by exact_mod_cast h
    constructor <;> nlinarith
  · rw [min_eq_right h, max_eq_left h]
    have hq : (t : ℚ) ≤ start := by exact_mod_cast h
    constructor <;> nlinarith

/-- At the last step the exact interpolation is the target. -/
theorem interpolate_last (start t steps : Int) (i : Nat)
    (hn : 0 < steps) (hi : (i : Int) = steps) :
    interpolate start t steps i = (t : ℚ) := by
  have hspos : (0 : ℚ) < (steps : ℚ) := by exact_mod_cast hn
  have hil : ((i : Nat) : ℚ) = (steps : ℚ) := by exact_mod_cast hi
  unfold interpolate
  rw [hil]
  push_cast
  field_simp

/-- Twice the step count times the exact interpolation is an integer. -/
theorem interpolate_scaled (start t steps : Int) (i : Nat) (hn : 0 < steps) :
    interpolate start t steps i * (2 * steps)
      = ((2 * (start * steps + (t - start) * i) : Int) : ℚ) := by
  have hspos : (0 : ℚ) < (steps : ℚ) := by exact_mod_cast hn
  unfold interpolate
  push_cast
  field_simp
  ring

/-- The coordinate commanded at step `i`, against the exact interpolation
`v`: it is one of the two integers around `v`, it is the rounding of `v`
(halves away from zero) unless `v` lies halfway between two integers, it
lies between start and target, and at the last step it is the target.  For
coordinates that are C `int`s. -/
theorem stepPos_spec (start t steps : Int) (i : Nat)
    (hs1 : -(2 ^ 31) ≤ start) (hs2 : start < 2 ^ 31)
    (ht1 : -(2 ^ 31) ≤ t) (ht2 : t < 2 ^ 31)
    (hn1 : 10 ≤ steps) (hn2 : steps ≤ 120) (hi : (i : Int) ≤ steps) :
    ⌊interpolate start t steps i⌋ ≤ stepPos start (stepDelta start t steps) i
    ∧ stepPos start (stepDelta start t steps) i ≤ ⌈interpolate start t steps i⌉
    ∧ ((∀ z : Int, interpolate start t steps i ≠ (z : ℚ) + 1 / 2) →
        stepPos start (stepDelta start t steps) i
          = roundHalfAway (interpolate start t steps i))
    ∧ min start t ≤ stepPos start (stepDelta start t steps) i
    ∧ stepPos start (stepDelta start t steps) i ≤ max start t
    ∧ ((i : Int) = steps → stepPos start (stepDelta start t steps) i = t) := by
  have herr := interp_error start t steps i hs1 hs2 ht1 ht2 hn1 hn2 hi
  rw [abs_le] at herr
  rw [stepPos_eq]
  have hbt := interpolate_between start t steps i (by omega) hi
  have hsc := interpolate_scaled start t steps i (by omega)
  have hlast := interpolate_last start t steps i (by omega)
  have hfl := Int.floor_le (interpolate start t steps i)
  have hcl := Int.le_ceil (interpolate start t steps i)
  generalize interpolate start t steps i = v at *
  generalize F64.add (F64.ofInt start) (F64.mul (stepDelta start t steps) (F64.ofInt i)) = s at *
  refine ⟨le_roundHalfAway (by linarith), roundHalfAway_le (by linarith), ?_, ?_, ?_, ?_⟩
  · intro htie
    exact roundHalfAway_stable _ (by omega) hn2 hsc (by linarith) (by linarith) htie
  · exact le_roundHalfAway (by linarith)
  · exact roundHalfAway_le (by linarith)
  · intro hl
    have := hlast hl
    subst this
    exact le_antisymm (roundHalfAway_le (by linarith)) (le_roundHalfAway (by linarith))

end sentinel
/-! ## The runners of `sentinel` when no call panics -/

namespace sentinel

theorem frame_call {w : World} (hf : ∀ l, w.fault l = none) (ev : Event) (log : List Event) :
    Frame.call w ev { log := log, panic := none } = { log := log ++ [ev], panic := none } := by
  simp [Frame.call, hf]

theorem frame_sleep (ms : Nat) (log : List Event) :
    Frame.sleep ms { log := log, panic := none }
      = { log := log ++ [Event.Sleep ms], panic := none } := by
  simp [Frame.sleep]

theorem frame_send (port : Int) (r : simpleResp) (log : List Event) :
    Frame.send port r { log := log, panic := none }
      = { log := log ++ [Event.send port r], panic := none } := by
  simp [Frame.send]

theorem moves_stepEvents (sx sy : Int) (dx dy : ℚ) (i n : Nat) :
    moves (stepEvents sx sy dx dy i n)
      = (List.range n).map (fun j => (stepPos sx dx (i + j), stepPos sy dy (i + j))) := by
  induction n generalizing i with
  | zero => rfl
  | succ n ih =>
    have h := ih (i + 1)
    unfold moves at h ⊢
    rw [stepEvents, List.range_succ_eq_map, List.map_cons, List.map_map]
    simp only [List.filterMap_cons, Nat.add_zero]
    rw [h]
    congr 1
    apply List.map_congr_left
    intro j _
    simp [Nat.add_assoc, Nat.add_comm 1 j]

theorem toggles_stepEvents (sx sy : Int) (dx dy : ℚ) (i n : Nat) :
    toggles (stepEvents sx sy dx dy i n) = [] := by
  induction n generalizing i with
  | zero => rfl
  | succ n ih =>
    have h := ih (i + 1)
    unfold toggles at h ⊢
    rw [stepEvents]
    simp only [List.filterMap_cons]
    exact h

theorem sends_stepEvents (sx sy : Int) (dx dy : ℚ) (i n : Nat) :
    sends (stepEvents sx sy dx dy i n) = [] := by
  induction n generalizing i with
  | zero => rfl
  | succ n ih =>
    have h := ih (i + 1)
    unfold sends at h ⊢
    rw [stepEvents]
    simp only [List.filterMap_cons]
    exact h

theorem moves_cons (ev : Event) (l : List Event) :
    moves (ev :: l)
      = (match ev with
         | Event.Move x y => [(x, y)]
         | _ => []) ++ moves l := by
  cases ev <;> simp [moves]

theorem toggles_cons (ev : Event) (l : List Event) :
    toggles (ev :: l)
      = (match ev with
         | Event.Toggle arg => [arg]
         | _ => []) ++ toggles l := by
  cases ev <;> simp [toggles]

theorem sends_cons (ev : Event) (l : List Event) :
    sends (ev :: l)
      = (match ev with
         | Event.send port r => [(port, r)]
         | _ => []) ++ sends l := by
  cases ev <;> simp [sends]

theorem moves_nil : moves [] = [] := rfl

theorem toggles_nil : toggles [] = [] := rfl

theorem sends_nil : sends [] = [] := rfl

theorem moves_append (a b : List Event) : moves (a ++ b) = moves a ++ moves b := by
  simp [moves, List.filterMap_append]

theorem toggles_append (a b : List Event) : toggles (a ++ b) = toggles a ++ toggles b := by
  simp [toggles, List.filterMap_append]

theorem sends_append (a b : List Event) : sends (a ++ b) = sends a ++ sends b := by
  simp [sends, List.filterMap_append]

/-- `m` iterations of the loop of `MoveSmoothStart` in which no
cancellation is observed. -/
theorem move_loop_steps {w : World} (hf : ∀ l, w.fault l = none) (p tid sx sy : Int)
    (dx dy : ℚ) (m n i : Nat) (log : List Event)
    (hd : ∀ j, i ≤ j → j < i + m → w.done j = false) :
    MoveSmoothStart.loop w p tid sx sy dx dy (m + n) i { log := log, panic := none }
      = MoveSmoothStart.loop w p tid sx sy dx dy n (i + m)
          { log := log ++ stepEvents sx sy dx dy i m, panic := none } := by
  induction m generalizing i log with
  | zero => simp [stepEvents]
  | succ m ih =>
    have hi : w.done i = false := hd i le_rfl (by omega)
    have hrest : ∀ j, i + 1 ≤ j → j < i + 1 + m → w.done j = false :=
      fun j h1 h2 => hd j (by omega) (by omega)
    rw [show m + 1 + n = (m + n) + 1 by omega, MoveSmoothStart.loop]
    simp only [Option.isSome_none, Bool.false_eq_true, if_false, hi]
    rw [frame_call hf, frame_sleep, ih (i + 1) _ hrest]
    rw [show i + 1 + m = i + (m + 1) by omega, stepEvents]
    simp [List.append_assoc]

/-- `m` iterations of the loop of `DragSmoothStart` in which no
cancellation is observed. -/
theorem drag_loop_steps {w : World} (hf : ∀ l, w.fault l = none) (p tid sx sy : Int)
    (dx dy : ℚ) (m n i : Nat) (log : List Event)
    (hd : ∀ j, i ≤ j → j < i + m → w.done j = false) :
    DragSmoothStart.loop w p tid sx sy dx dy (m + n) i { log := log, panic := none }
      = DragSmoothStart.loop w p tid sx sy dx dy n (i + m)
          { log := log ++ stepEvents sx sy dx dy i m, panic := none } := by
  induction m generalizing i log with
  | zero => simp [stepEvents]
  | succ m ih =>
    have hi : w.done i = false := hd i le_rfl (by omega)
    have hrest : ∀ j, i + 1 ≤ j → j < i + 1 + m → w.done j = false :=
      fun j h1 h2 => hd j (by omega) (by omega)
    rw [show m + 1 + n = (m + n) + 1 by omega, DragSmoothStart.loop]
    simp only [Option.isSome_none, Bool.false_eq_true, if_false, hi]
    rw [frame_call hf, frame_sleep, ih (i + 1) _ hrest]
    rw [show i + 1 + m = i + (m + 1) by omega, stepEvents]
    simp [List.append_assoc]

/-- The goroutine of `MoveSmoothStart` when no cancellation is observed in
any iteration and no call panics. -/
theorem move_worker_done {w : World} (hf : ∀ l, w.fault l = none) (x y p tid : Int)
    (hd : ∀ j, 1 ≤ j → j ≤ (stepCount w.mousePos.1 w.mousePos.2 x y).toNat →
      w.done j = false) :
    MoveSmoothStart.worker w x y p tid
      = { log := Event.GetMousePos
            :: stepEvents w.mousePos.1 w.mousePos.2
                (stepDelta w.mousePos.1 x (stepCount w.mousePos.1 w.mousePos.2 x y))
                (stepDelta w.mousePos.2 y (stepCount w.mousePos.1 w.mousePos.2 x y))
                1 (stepCount w.mousePos.1 w.mousePos.2 x y).toNat
            ++ [Event.Move x y, Event.Location,
                Event.send p (success "move_smooth"
                  (Payload.point
                    (w.location (Event.GetMousePos
                      :: stepEvents w.mousePos.1 w.mousePos.2
                          (stepDelta w.mousePos.1 x (stepCount w.mousePos.1 w.mousePos.2 x y))
                          (stepDelta w.mousePos.2 y (stepCount w.mousePos.1 w.mousePos.2 x y))
                          1 (stepCount w.mousePos.1 w.mousePos.2 x y).toNat
                      ++ [Event.Move x y])).1
                    (w.location (Event.GetMousePos
                      :: stepEvents w.mousePos.1 w.mousePos.2
                          (stepDelta w.mousePos.1 x (stepCount w.mousePos.1 w.mousePos.2 x y))
                          (stepDelta w.mousePos.2 y (stepCount w.mousePos.1 w.mousePos.2 x y))
                          1 (stepCount w.mousePos.1 w.mousePos.2 x y).toNat
                      ++ [Event.Move x y])).2))],
          panic := none } := by
  have hl := move_loop_steps hf p tid w.mousePos.1 w.mousePos.2
    (stepDelta w.mousePos.1 x (stepCount w.mousePos.1 w.mousePos.2 x y))
    (stepDelta w.mousePos.2 y (stepCount w.mousePos.1 w.mousePos.2 x y))
    (stepCount w.mousePos.1 w.mousePos.2 x y).toNat 0 1 [Event.GetMousePos]
    (fun j h1 h2 => hd j h1 (by omega))
  unfold MoveSmoothStart.worker MoveSmoothStart.body
  simp only [Frame.start, frame_call hf, List.nil_append]
  rw [Nat.add_zero] at hl
  rw [hl]
  simp [MoveSmoothStart.loop, frame_call hf, frame_send, Frame.recover]

/-- The goroutine of `DragSmoothStart` when no cancellation is observed in
any iteration and no call panics. -/
theorem drag_worker_done {w : World} (hf : ∀ l, w.fault l = none) (x y p tid : Int)
    (hd : ∀ j, 1 ≤ j → j ≤ (stepCount w.mousePos.1 w.mousePos.2 x y).toNat →
      w.done j = false) :
    DragSmoothStart.worker w x y p tid
      = { log := Event.Toggle "down" :: Event.GetMousePos
            :: stepEvents w.mousePos.1 w.mousePos.2
                (stepDelta w.mousePos.1 x (stepCount w.mousePos.1 w.mousePos.2 x y))
                (stepDelta w.mousePos.2 y (stepCount w.mousePos.1 w.mousePos.2 x y))
                1 (stepCount w.mousePos.1 w.mousePos.2 x y).toNat
            ++ [Event.Move x y, Event.Toggle "up", Event.Location,
                Event.send p (success "drag_smooth"
                  (Payload.point
                    (w.location (Event.Toggle "down" :: Event.GetMousePos
                      :: stepEvents w.mousePos.1 w.mousePos.2
                          (stepDelta w.mousePos.1 x (stepCount w.mousePos.1 w.mousePos.2 x y))
                          (stepDelta w.mousePos.2 y (stepCount w.mousePos.1 w.mousePos.2 x y))
                          1 (stepCount w.mousePos.1 w.mousePos.2 x y).toNat
                      ++ [Event.Move x y, Event.Toggle "up"])).1
                    (w.location (Event.Toggle "down" :: Event.GetMousePos
                      :: stepEvents w.mousePos.1 w.mousePos.2
                          (stepDelta w.mousePos.1 x (stepCount w.mousePos.1 w.mousePos.2 x y))
                          (stepDelta w.mousePos.2 y (stepCount w.mousePos.1 w.mousePos.2 x y))
                          1 (stepCount w.mousePos.1 w.mousePos.2 x y).toNat
                      ++ [Event.Move x y, Event.Toggle "up"])).2))],
          panic := none } := by
  have hl := drag_loop_steps hf p tid w.mousePos.1 w.mousePos.2
    (stepDelta w.mousePos.1 x (stepCount w.mousePos.1 w.mousePos.2 x y))
    (stepDelta w.mousePos.2 y (stepCount w.mousePos.1 w.mousePos.2 x y))
    (stepCount w.mousePos.1 w.mousePos.2 x y).toNat 0 1
    [Event.Toggle "down", Event.GetMousePos]
    (fun j h1 h2 => hd j h1 (by omega))
  unfold DragSmoothStart.worker DragSmoothStart.body
  simp only [Frame.start, frame_call hf, List.nil_append, List.singleton_append]
  rw [Nat.add_zero] at hl
  rw [hl]
  simp [DragSmoothStart.loop, frame_call hf, frame_send, Frame.recover]

/-- The goroutine of `DragSmoothStart` when cancellation is first observed
in iteration `k`, and no call panics. -/
theorem drag_worker_canceled {w : World} (hf : ∀ l, w.fault l = none) (x y p tid : Int)
    (k : Nat) (hk1 : 1 ≤ k) (hk2 : k ≤ (stepCount w.mousePos.1 w.mousePos.2 x y).toNat)
    (hd : ∀ j, 1 ≤ j → j < k → w.done j = false) (hdk : w.done k = true) :
    DragSmoothStart.worker w x y p tid
      = { log := Event.Toggle "down" :: Event.GetMousePos
            :: stepEvents w.mousePos.1 w.mousePos.2
                (stepDelta w.mousePos.1 x (stepCount w.mousePos.1 w.mousePos.2 x y))
                (stepDelta w.mousePos.2 y (stepCount w.mousePos.1 w.mousePos.2 x y))
                1 (k - 1)
            ++ [Event.Toggle "up", Event.send p (canceled "drag_smooth" tid)],
          panic := none } := by
  have hl := drag_loop_steps hf p tid w.mousePos.1 w.mousePos.2
    (stepDelta w.mousePos.1 x (stepCount w.mousePos.1 w.mousePos.2 x y))
    (stepDelta w.mousePos.2 y (stepCount w.mousePos.1 w.mousePos.2 x y))
    (k - 1) ((stepCount w.mousePos.1 w.mousePos.2 x y).toNat - k + 1) 1
    [Event.Toggle "down", Event.GetMousePos]
    (fun j h1 h2 => hd j h1 (by omega))
  unfold DragSmoothStart.worker DragSmoothStart.body
  simp only [Frame.start, frame_call hf, List.nil_append, List.singleton_append]
  rw [show k - 1 + ((stepCount w.mousePos.1 w.mousePos.2 x y).toNat - k + 1)
      = (stepCount w.mousePos.1 w.mousePos.2 x y).toNat by omega,
    show 1 + (k - 1) = k by omega] at hl
  rw [hl]
  simp [DragSmoothStart.loop, hdk, frame_call hf, frame_send, Frame.recover]

end sentinel

/-! ## The monitor -/

namespace sentinel

theorem subUint64_of_le {a b : Nat} (h : b ≤ a) (ha : a < 2 ^ 64) : subUint64 a b = a - b := by
  unfold subUint64
  have hb : b % 2 ^ 64 = b := Nat.mod_eq_of_lt (by omega)
  rw [hb]
  omega

theorem subUint64_of_lt {a b : Nat} (h : a < b) (hb : b < 2 ^ 64) :
    subUint64 a b = 2 ^ 64 - (b - a) := by
  unfold subUint64
  have hb2 : b % 2 ^ 64 = b := Nat.mod_eq_of_lt hb
  rw [hb2]
  omega

/-- The loop of `StartMonitor` only adds events. -/
theorem monitor_loop_extends (w : World) (p tid : Int) (n i : Nat)
    (prevNet : List IOCountersStat) (f : Frame) :
    ∃ rest, (StartMonitor.loop w p tid n i prevNet f).log = f.log ++ rest := by
  induction n generalizing i prevNet f with
  | zero => exact ⟨[], by simp [StartMonitor.loop]⟩
  | succ n ih =>
    unfold StartMonitor.loop
    by_cases hp : f.panic.isSome = true
    · exact ⟨[], by simp [hp]⟩
    · simp only [hp, Bool.false_eq_true, if_false]
      have hnone : f.panic = none := by
        cases h : f.panic with
        | none => rfl
        | some v => simp [h] at hp
      by_cases hd : w.done i = true
      · refine ⟨[Event.send p (success "monitor_stopped" (Payload.int tid))], ?_⟩
        simp [hd, Frame.send, hnone]
      · simp only [hd, Bool.false_eq_true, if_false]
        cases hc : computeStats (w.sample i) prevNet with
        | error v => exact ⟨[], by simp⟩
        | ok r =>
          simp only
          obtain ⟨rest, hrest⟩ := ih (i + 1) r.2
            ((f.send p (success "monitor_stats" (Payload.stats r.1))).sleep 1000)
          refine ⟨[Event.send p (success "monitor_stats" (Payload.stats r.1)),
            Event.Sleep 1000] ++ rest, ?_⟩
          rw [hrest]
          simp [Frame.send, Frame.sleep, hnone]

/-- The deferred `recover` only adds events. -/
theorem recover_extends (port : Int) (op : String) (f : Frame) :
    ∃ rest, (f.recover port op).log = f.log ++ rest := by
  unfold Frame.recover
  cases f.panic with
  | none => exact ⟨[], by simp⟩
  | some v => exact ⟨[Event.send port (failure op v)], rfl⟩

end sentinel

/-! ## The runners of `sentinel` in any world: one response -/

namespace sentinel

theorem sends_call (w : World) (ev : Event) (f : Frame)
    (hev : ∀ port r, ev ≠ Event.send port r) :
    sends (Frame.call w ev f).log = sends f.log := by
  unfold Frame.call
  split_ifs
  · rfl
  · cases w.fault f.log with
    | some v => rfl
    | none =>
      simp only [sends_append, sends_cons, sends_nil]
      cases ev <;> simp at hev ⊢

theorem sends_sleep (ms : Nat) (f : Frame) : sends (Frame.sleep ms f).log = sends f.log := by
  unfold Frame.sleep
  split_ifs
  · rfl
  · simp [sends_append, sends_cons, sends_nil]

theorem panic_sleep (ms : Nat) (f : Frame) : (Frame.sleep ms f).panic = f.panic := by
  unfold Frame.sleep
  split_ifs <;> rfl

theorem send_cases (port : Int) (r : simpleResp) (f : Frame) :
    (f.panic = none ∧ (Frame.send port r f).panic = none
        ∧ sends (Frame.send port r f).log = sends f.log ++ [(port, r)])
    ∨ (f.panic ≠ none ∧ Frame.send port r f = f) := by
  unfold Frame.send
  cases hp : f.panic with
  | none => left; simp [sends_append, sends_cons, sends_nil, hp]
  | some v => right; simp

theorem settled_send (port : Int) (r : simpleResp) (f : Frame) (h : sends f.log = []) :
    Settled (Frame.send port r f) := by
  rcases send_cases port r f with ⟨_, h2, h3⟩ | ⟨h1, h2⟩
  · right; exact ⟨h2, ⟨(port, r), by rw [h3, h]; rfl⟩⟩
  · left; rw [h2]; exact ⟨h1, h⟩

theorem settled_recover (port : Int) (op : String) (f : Frame) (h : Settled f) :
    (f.recover port op).panic = none ∧ ∃ m, sends (f.recover port op).log = [m] := by
  unfold Frame.recover
  rcases h with ⟨h1, h2⟩ | ⟨h1, h2⟩
  · cases hp : f.panic with
    | none => exact absurd hp h1
    | some v =>
      refine ⟨rfl, ⟨(port, failure op v), ?_⟩⟩
      simp [sends_append, sends_cons, sends_nil, h2]
  · rw [h1]; exact ⟨h1, h2⟩

/-- The loop of `MoveSmoothStart` in any world: it ends either by falling
through with nothing sent and no panic, or settled. -/
theorem move_loop_settled (w : World) (p tid sx sy : Int) (dx dy : ℚ) (n i : Nat) (f : Frame)
    (h : sends f.log = []) :
    ((MoveSmoothStart.loop w p tid sx sy dx dy n i f).1 = true
        ∧ (MoveSmoothStart.loop w p tid sx sy dx dy n i f).2.panic = none
        ∧ sends (MoveSmoothStart.loop w p tid sx sy dx dy n i f).2.log = [])
    ∨ ((MoveSmoothStart.loop w p tid sx sy dx dy n i f).1 = false
        ∧ Settled (MoveSmoothStart.loop w p tid sx sy dx dy n i f).2) := by
  induction n generalizing i f with
  | zero =>
    unfold MoveSmoothStart.loop
    cases hp : f.panic with
    | none => left; exact ⟨rfl, rfl, h⟩
    | some v => right; exact ⟨rfl, Or.inl ⟨by simp [hp], h⟩⟩
  | succ n ih =>
    unfold MoveSmoothStart.loop
    cases hp : f.panic with
    | some v => right; exact ⟨by simp, Or.inl ⟨by simp [hp], by simpa using h⟩⟩
    | none =>
      simp only [Option.isSome_none, Bool.false_eq_true, if_false]
      by_cases hd : w.done i = true
      · right
        simp only [hd, if_true]
        exact ⟨trivial, settled_send _ _ _ h⟩
      · simp only [hd, if_false]
        apply ih
        rw [sends_sleep, sends_call _ _ _ (by intro port r; simp)]
        exact h

/-- The loop of `DragSmoothStart` in any world. -/
theorem drag_loop_settled (w : World) (p tid sx sy : Int) (dx dy : ℚ) (n i : Nat) (f : Frame)
    (h : sends f.log = []) :
    ((DragSmoothStart.loop w p tid sx sy dx dy n i f).1 = true
        ∧ (DragSmoothStart.loop w p tid sx sy dx dy n i f).2.panic = none
        ∧ sends (DragSmoothStart.loop w p tid sx sy dx dy n i f).2.log = [])
    ∨ ((DragSmoothStart.loop w p tid sx sy dx dy n i f).1 = false
        ∧ Settled (DragSmoothStart.loop w p tid sx sy dx dy n i f).2) := by
  induction n generalizing i f with
  | zero =>
    unfold DragSmoothStart.loop
    cases hp : f.panic with
    | none => left; exact ⟨rfl, rfl, h⟩
    | some v => right; exact ⟨rfl, Or.inl ⟨by simp [hp], h⟩⟩
  | succ n ih =>
    unfold DragSmoothStart.loop
    cases hp : f.panic with
    | some v => right; exact ⟨by simp, Or.inl ⟨by simp [hp], by simpa using h⟩⟩
    | none =>
      simp only [Option.isSome_none, Bool.false_eq_true, if_false]
      by_cases hd : w.done i = true
      · right
        simp only [hd, if_true]
        refine ⟨trivial, settled_send _ _ _ ?_⟩
        rw [sends_call _ _ _ (by intro port r; simp)]
        exact h
      · simp only [hd, if_false]
        apply ih
        rw [sends_sleep, sends_call _ _ _ (by intro port r; simp)]
        exact h

/-- In any world the goroutine of `MoveSmoothStart` reaches its
`finishTask` without panic, having sent one response. -/
theorem move_worker_one_response (w : World) (x y p tid : Int) :
    (MoveSmoothStart.worker w x y p tid).panic = none
    ∧ ∃ m, sends (MoveSmoothStart.worker w x y p tid).log = [m] := by
  unfold MoveSmoothStart.worker
  apply settled_recover
  unfold MoveSmoothStart.body
  simp only
  have h0 : sends (Frame.start.call w Event.GetMousePos).log = [] := by
    rw [sends_call _ _ _ (by intro port r; simp)]; rfl
  rcases move_loop_settled w p tid w.mousePos.1 w.mousePos.2
      (stepDelta w.mousePos.1 x (stepCount w.mousePos.1 w.mousePos.2 x y))
      (stepDelta w.mousePos.2 y (stepCount w.mousePos.1 w.mousePos.2 x y))
      (stepCount w.mousePos.1 w.mousePos.2 x y).toNat 1 _ h0 with ⟨h1, _, h3⟩ | ⟨h1, h2⟩
  · rw [if_neg (by rw [h1]; simp)]
    apply settled_send
    rw [sends_call _ _ _ (by intro port r; simp), sends_call _ _ _ (by intro port r; simp)]
    exact h3
  · rw [if_pos h1]
    exact h2

/-- In any world the goroutine of `DragSmoothStart` reaches its
`finishTask` without panic, having sent one response. -/
theorem drag_worker_one_response (w : World) (x y p tid : Int) :
    (DragSmoothStart.worker w x y p tid).panic = none
    ∧ ∃ m, sends (DragSmoothStart.worker w x y p tid).log = [m] := by
  unfold DragSmoothStart.worker
  apply settled_recover
  unfold DragSmoothStart.body
  simp only
  have h0 : sends ((Frame.start.call w (Event.Toggle "down")).call w Event.GetMousePos).log
      = [] := by
    rw [sends_call _ _ _ (by intro port r; simp), sends_call _ _ _ (by intro port r; simp)]
    rfl
  rcases drag_loop_settled w p tid w.mousePos.1 w.mousePos.2
      (stepDelta w.mousePos.1 x (stepCount w.mousePos.1 w.mousePos.2 x y))
      (stepDelta w.mousePos.2 y (stepCount w.mousePos.1 w.mousePos.2 x y))
      (stepCount w.mousePos.1 w.mousePos.2 x y).toNat 1 _ h0 with ⟨h1, _, h3⟩ | ⟨h1, h2⟩
  · rw [if_neg (by rw [h1]; simp)]
    apply settled_send
    rw [sends_call _ _ _ (by intro port r; simp), sends_call _ _ _ (by intro port r; simp),
      sends_call _ _ _ (by intro port r; simp)]
    exact h3
  · rw [if_pos h1]
    exact h2

theorem deliver_sent (log : List Event) (s : Core) :
    (deliver log s).sent = s.sent ++ (sends log).map (fun m => (m.1, Msg.resp m.2)) := by
  unfold deliver
  induction log generalizing s with
  | nil => simp [sends_nil]
  | cons ev rest ih =>
    rw [List.foldl_cons, ih, sends_cons]
    cases ev <;> simp [sendToPort]

/-- A goroutine that sent the responses `sends f.log` leaves them, in
order, after what was sent before. -/
theorem goroutine_sent (f : Frame) (tid : Int) (s : Core) :
    (goroutine f tid s).sent = s.sent ++ (sends f.log).map (fun m => (m.1, Msg.resp m.2)) := by
  unfold goroutine
  rw [finishTask_sent, deliver_sent]

end sentinel
/-! ## Scrolling, typing and the monitor when no call panics -/

namespace sentinel

theorem scrolls_cons (ev : Event) (l : List Event) :
    scrolls (ev :: l)
      = (match ev with
         | Event.Scroll x y => [(x, y)]
         | _ => []) ++ scrolls l := by
  cases ev <;> simp [scrolls]

theorem typed_cons (ev : Event) (l : List Event) :
    typed (ev :: l)
      = (match ev with
         | Event.TypeStr s => [s]
         | _ => []) ++ typed l := by
  cases ev <;> simp [typed]

theorem scrolls_nil : scrolls [] = [] := rfl

theorem typed_nil : typed [] = [] := rfl

theorem scrolls_append (a b : List Event) : scrolls (a ++ b) = scrolls a ++ scrolls b := by
  simp [scrolls, List.filterMap_append]

theorem typed_append (a b : List Event) : typed (a ++ b) = typed a ++ typed b := by
  simp [typed, List.filterMap_append]

theorem scrolls_scrollEvents (dx dy : Int) (n : Nat) :
    scrolls (scrollEvents dx dy n) = List.replicate n (dx, dy) := by
  induction n with
  | zero => rfl
  | succ n ih =>
    rw [scrollEvents, scrolls_cons, scrolls_cons, ih]
    simp [List.replicate_succ]

theorem sends_scrollEvents (dx dy : Int) (n : Nat) : sends (scrollEvents dx dy n) = [] := by
  induction n with
  | zero => rfl
  | succ n ih =>
    rw [scrollEvents, sends_cons, sends_cons, ih]
    rfl

theorem typed_typeEvents (keySleep : Nat → Int) (cs : List Char) (i : Nat) :
    typed (typeEvents keySleep cs i) = cs.map String.singleton := by
  induction cs generalizing i with
  | nil => rfl
  | cons c rest ih =>
    rw [typeEvents, typed_cons, typed_cons, ih]
    rfl

theorem sends_typeEvents (keySleep : Nat → Int) (cs : List Char) (i : Nat) :
    sends (typeEvents keySleep cs i) = [] := by
  induction cs generalizing i with
  | nil => rfl
  | cons c rest ih =>
    rw [typeEvents, sends_cons, sends_cons, ih]
    rfl

/-- `m` iterations of the loop of `ScrollSmoothStart` in which no
cancellation is observed. -/
theorem scroll_loop_steps {w : World} (hf : ∀ l, w.fault l = none) (p tid dx dy : Int)
    (m n i : Nat) (log : List Event)
    (hd : ∀ j, i ≤ j → j < i + m → w.done j = false) :
    ScrollSmoothStart.loop w p tid dx dy (m + n) i { log := log, panic := none }
      = ScrollSmoothStart.loop w p tid dx dy n (i + m)
          { log := log ++ scrollEvents dx dy m, panic := none } := by
  induction m generalizing i log with
  | zero => simp [scrollEvents]
  | succ m ih =>
    have hi : w.done i = false := hd i le_rfl (by omega)
    have hrest : ∀ j, i + 1 ≤ j → j < i + 1 + m → w.done j = false :=
      fun j h1 h2 => hd j (by omega) (by omega)
    rw [show m + 1 + n = (m + n) + 1 by omega, ScrollSmoothStart.loop]
    simp only [Option.isSome_none, Bool.false_eq_true, if_false, hi]
    rw [frame_call hf, frame_sleep, ih (i + 1) _ hrest]
    rw [show i + 1 + m = i + (m + 1) by omega, scrollEvents]
    simp [List.append_assoc]

/-- The iterations of the loop of `TypeStrStart` over the characters `cs`
in which no cancellation is observed. -/
theorem type_loop_steps {w : World} (hf : ∀ l, w.fault l = none) (keySleep : Nat → Int)
    (p tid : Int) (cs rest : List Char) (i : Nat) (log : List Event)
    (hd : ∀ j, i ≤ j → j < i + cs.length → w.done j = false) :
    TypeStrStart.loop w keySleep p tid (cs ++ rest) i { log := log, panic := none }
      = TypeStrStart.loop w keySleep p tid rest (i + cs.length)
          { log := log ++ typeEvents keySleep cs i, panic := none } := by
  induction cs generalizing i log with
  | nil => simp [typeEvents]
  | cons c cs ih =>
    have hi : w.done i = false := hd i le_rfl (by simp)
    have hrest : ∀ j, i + 1 ≤ j → j < i + 1 + cs.length → w.done j = false :=
      fun j h1 h2 => hd j (by omega) (by simp; omega)
    rw [List.cons_append, TypeStrStart.loop]
    simp only [Option.isSome_none, Bool.false_eq_true, if_false, hi]
    rw [frame_call hf, frame_sleep, ih (i + 1) _ hrest]
    rw [show i + 1 + cs.length = i + (c :: cs).length by simp; omega, typeEvents]
    simp [List.append_assoc]

/-- The goroutine of `ScrollSmoothStart` when no cancellation is observed
in any iteration and no call panics. -/
theorem scroll_worker_done {w : World} (hf : ∀ l, w.fault l = none) (x y p tid : Int)
    (hd : ∀ j, 1 ≤ j → j ≤ 20 → w.done j = false) :
    ScrollSmoothStart.worker w x y p tid
      = { log := scrollEvents (Int.tdiv x 20) (Int.tdiv y 20) 20
            ++ [Event.send p (success "scroll_smooth" (Payload.point x y))],
          panic := none } := by
  have hl := scroll_loop_steps hf p tid (Int.tdiv x 20) (Int.tdiv y 20) 20 0 1 []
    (fun j h1 h2 => hd j h1 (by omega))
  unfold ScrollSmoothStart.worker ScrollSmoothStart.body
  simp only [Frame.start]
  rw [show ((20 : Int).toNat) = 20 + 0 from rfl, hl]
  simp [ScrollSmoothStart.loop, frame_send, Frame.recover]

/-- The goroutine of `TypeStrStart` when no cancellation is observed in any
iteration and no call panics. -/
theorem type_worker_done {w : World} (hf : ∀ l, w.fault l = none) (keySleep : Nat → Int)
    (s : String) (p tid : Int)
    (hd : ∀ j, 1 ≤ j → j ≤ s.toList.length → w.done j = false) :
    TypeStrStart.worker w keySleep s p tid
      = { log := typeEvents keySleep s.toList 1
            ++ [Event.send p (success "type_str_async" (Payload.str s))],
          panic := none } := by
  have hl := type_loop_steps hf keySleep p tid s.toList [] 1 []
    (fun j h1 h2 => hd j h1 (by omega))
  unfold TypeStrStart.worker TypeStrStart.body
  simp only [Frame.start]
  rw [List.append_nil] at hl
  rw [hl]
  simp [TypeStrStart.loop, frame_send, Frame.recover]

/-- The goroutine of `TypeStrStart` when cancellation is first observed in
the iteration of the character that follows `pre`, and no call panics. -/
theorem type_worker_canceled {w : World} (hf : ∀ l, w.fault l = none) (keySleep : Nat → Int)
    (s : String) (p tid : Int) (pre : List Char) (c : Char) (post : List Char)
    (hs : s.toList = pre ++ c :: post)
    (hd : ∀ j, 1 ≤ j → j ≤ pre.length → w.done j = false)
    (hdk : w.done (pre.length + 1) = true) :
    TypeStrStart.worker w keySleep s p tid
      = { log := typeEvents keySleep pre 1
            ++ [Event.send p (canceled "type_str_async" tid)],
          panic := none } := by
  have hl := type_loop_steps hf keySleep p tid pre (c :: post) 1 []
    (fun j h1 h2 => hd j h1 (by omega))
  unfold TypeStrStart.worker TypeStrStart.body
  simp only [Frame.start]
  rw [hs, hl]
  simp [TypeStrStart.loop, show 1 + pre.length = pre.length + 1 by omega, hdk, frame_send,
    Frame.recover]

theorem sends_monitorEvents_ops (w : World) (p : Int) (m i : Nat)
    (prevNet : List IOCountersStat) :
    ∀ r ∈ sends (monitorEvents w p m i prevNet), r.2.Op = "monitor_stats" := by
  induction m generalizing i prevNet with
  | zero => intro r hr; simp [monitorEvents, sends_nil] at hr
  | succ m ih =>
    intro r hr
    rw [monitorEvents] at hr
    cases hc : computeStats (w.sample i) prevNet with
    | error v => rw [hc] at hr; simp [sends_nil] at hr
    | ok st =>
      rw [hc] at hr
      simp only [sends_cons, List.nil_append, List.singleton_append, List.mem_cons] at hr
      rcases hr with hr | hr
      · rw [hr]; rfl
      · exact ih _ _ r hr

end sentinel
/-! ## `trimSpaces` and `splitAndTrim` -/

namespace sentinel

theorem trimSpaces_front_eq (l : List Char) : trimSpaces.front l = l.dropWhile isBlank := by
  induction l with
  | nil => rfl
  | cons c cs ih =>
    rw [trimSpaces.front, List.dropWhile_cons]
    split_ifs <;> simp_all

theorem trimSpaces_back_eq (l : List Char) : trimSpaces.back l = l.rdropWhile isBlank := by
  unfold trimSpaces.back
  rw [trimSpaces_front_eq]
  rfl

theorem trimSpaces_toList (s : String) :
    (trimSpaces s).toList = (s.toList.dropWhile isBlank).rdropWhile isBlank := by
  unfold trimSpaces
  rw [trimSpaces_front_eq, trimSpaces_back_eq]
  rfl

theorem rdropWhile_append_rtakeWhile (p : Char → Bool) (l : List Char) :
    l.rdropWhile p ++ l.rtakeWhile p = l := by
  unfold List.rdropWhile List.rtakeWhile
  rw [← List.reverse_append, List.takeWhile_append_dropWhile, List.reverse_reverse]

/-- What `trimSpaces` removes and what it leaves. -/
theorem trimSpaces_spec (s : String) :
    (∃ a b : List Char, s.toList = a ++ (trimSpaces s).toList ++ b
        ∧ (∀ c ∈ a, isBlank c = true) ∧ (∀ c ∈ b, isBlank c = true))
    ∧ (∀ c, (trimSpaces s).toList.head? = some c → isBlank c = false)
    ∧ (∀ c, (trimSpaces s).toList.getLast? = some c → isBlank c = false) := by
  rw [trimSpaces_toList]
  refine ⟨⟨s.toList.takeWhile isBlank, (s.toList.dropWhile isBlank).rtakeWhile isBlank,
    ?_, ?_, ?_⟩, ?_, ?_⟩
  · rw [List.append_assoc, rdropWhile_append_rtakeWhile, List.takeWhile_append_dropWhile]
  · intro c hc; exact List.mem_takeWhile_imp hc
  · intro c hc; exact List.mem_rtakeWhile_imp hc
  · intro c hc
    obtain ⟨t, ht⟩ := List.rdropWhile_prefix (p := isBlank) (l := s.toList.dropWhile isBlank)
    cases hr : (s.toList.dropWhile isBlank).rdropWhile isBlank with
    | nil => rw [hr] at hc; simp at hc
    | cons x xs =>
      rw [hr] at hc ht
      simp at hc
      subst hc
      have h := List.head?_dropWhile_not isBlank s.toList
      rw [← ht] at h
      simpa using h
  · intro c hc
    have hne : (s.toList.dropWhile isBlank).rdropWhile isBlank ≠ [] := by
      intro h0; rw [h0] at hc; simp at hc
    have h := List.rdropWhile_last_not isBlank (s.toList.dropWhile isBlank) hne
    rw [List.getLast?_eq_getLast _ hne] at hc
    cases hc
    simpa using h

theorem dropWhile_of_head (l : List Char) (h : ∀ c, l.head? = some c → isBlank c = false) :
    l.dropWhile isBlank = l := by
  cases l with
  | nil => rfl
  | cons x xs =>
    have := h x rfl
    rw [List.dropWhile_cons, this]
    rfl

theorem trimSpaces_idempotent (s : String) : trimSpaces (trimSpaces s) = trimSpaces s := by
  have h1 : ∀ t u : String, t.toList = u.toList → t = u := by
    intro t u h
    cases t; cases u
    simp only [String.toList] at h
    rw [h]
  apply h1
  rw [trimSpaces_toList, trimSpaces_toList]
  have hd : List.dropWhile isBlank ((s.toList.dropWhile isBlank).rdropWhile isBlank)
      = (s.toList.dropWhile isBlank).rdropWhile isBlank := by
    have hs := (trimSpaces_spec s).2.1
    rw [trimSpaces_toList] at hs
    exact dropWhile_of_head _ hs
  rw [hd, List.rdropWhile_idempotent]

theorem splitOnComma_ne_nil (l : List Char) : splitOnComma l ≠ [] := by
  cases l with
  | nil => simp [splitOnComma]
  | cons c cs =>
    rw [splitOnComma]
    split_ifs
    · simp
    · cases splitOnComma cs <;> simp

theorem splitOnComma_cons_ne {c : Char} (hc : c ≠ ',') (cs : List Char) :
    splitOnComma (c :: cs)
      = (c :: (splitOnComma cs).headI) :: (splitOnComma cs).tail := by
  rw [splitOnComma, if_neg hc]
  cases h : splitOnComma cs with
  | nil => exact absurd h (splitOnComma_ne_nil cs)
  | cons x xs => rfl

/-- A piece without comma in front of a text joins the first piece of the
text. -/
theorem splitOnComma_append (cur rest : List Char) (hcur : ',' ∉ cur) :
    splitOnComma (cur ++ rest)
      = (cur ++ (splitOnComma rest).headI) :: (splitOnComma rest).tail := by
  induction cur with
  | nil =>
    cases h : splitOnComma rest with
    | nil => exact absurd h (splitOnComma_ne_nil rest)
    | cons x xs => simp [h]
  | cons c cs ih =>
    have hc : c ≠ ',' := fun h => hcur (by simp [h])
    have hcs : ',' ∉ cs := fun h => hcur (by simp [h])
    rw [List.cons_append, splitOnComma_cons_ne hc, ih hcs]
    simp

theorem splitOnComma_no_comma (l : List Char) : ∀ piece ∈ splitOnComma l, ',' ∉ piece := by
  induction l with
  | nil =>
    intro piece hp
    rw [splitOnComma, List.mem_singleton] at hp
    rw [hp]
    exact List.not_mem_nil _
  | cons c cs ih =>
    intro piece hp
    by_cases hc : c = ','
    · rw [splitOnComma, if_pos hc, List.mem_cons] at hp
      rcases hp with hp | hp
      · rw [hp]; exact List.not_mem_nil _
      · exact ih piece hp
    · rw [splitOnComma_cons_ne hc] at hp
      cases h : splitOnComma cs with
      | nil => exact absurd h (splitOnComma_ne_nil cs)
      | cons x xs =>
        rw [h] at hp ih
        rw [List.mem_cons] at hp
        rcases hp with hp | hp
        · rw [hp]
          intro hm
          rw [List.mem_cons] at hm
          rcases hm with hm | hm
          · exact hc hm.symm
          · exact ih x (List.mem_cons_self _ _) hm
        · exact ih piece (List.mem_cons_of_mem _ hp)

theorem splitOnComma_of_no_comma (l : List Char) (h : ',' ∉ l) : splitOnComma l = [l] := by
  have := splitOnComma_append l [] h
  simpa [splitOnComma] using this

theorem string_ne_empty_iff (s : String) : s ≠ "" ↔ s.toList ≠ [] := by
  constructor
  · intro h h0
    apply h
    cases s
    simp only [String.toList] at h0
    rw [h0]
  · intro h h0
    apply h
    rw [h0]
    rfl

/-- The loop of `splitAndTrim` and its last statement, from any point on:
the pieces of what is left, the first one joined to `cur`. -/
theorem splitAndTrim_loop_spec (rest : List Char) (out : List String) (cur : String)
    (hcur : ',' ∉ cur.toList) :
    (if (splitAndTrim.loop rest out cur).2 ≠ "" then
        (splitAndTrim.loop rest out cur).1 ++ [trimSpaces (splitAndTrim.loop rest out cur).2]
      else (splitAndTrim.loop rest out cur).1)
      = out ++ ((splitOnComma (cur.toList ++ rest)).filter (fun piece => piece ≠ [])).map
          (fun piece => trimSpaces (String.mk piece)) := by
  induction rest generalizing out cur with
  | nil =>
    rw [splitAndTrim.loop, List.append_nil, splitOnComma_of_no_comma _ hcur]
    by_cases h : cur = ""
    · subst h
      simp
    · have h2 : cur.data ≠ [] := (string_ne_empty_iff cur).mp h
      simp [h, h2, List.filter_cons]
  | cons ch rest ih =>
    rw [splitAndTrim.loop]
    by_cases hch : ch = ','
    · rw [if_pos hch]
      subst hch
      have hsp : splitOnComma (cur.toList ++ ',' :: rest) = cur.toList :: splitOnComma rest := by
        rw [splitOnComma_append _ _ hcur, splitOnComma, if_pos rfl]
        simp
      rw [hsp]
      by_cases h : cur = ""
      · subst h
        simp only [ne_eq, not_true_eq_false, if_false]
        rw [ih out "" (by simp)]
        simp [List.filter_cons]
      · have h2 : cur.data ≠ [] := (string_ne_empty_iff cur).mp h
        rw [if_pos h, ih (out ++ [trimSpaces cur]) "" (by simp)]
        simp [h2, List.filter_cons]
    · rw [if_neg hch]
      have hpush : (cur.push ch).toList = cur.toList ++ [ch] := by
        cases cur; rfl
      have hnc : ',' ∉ (cur.push ch).toList := by
        rw [hpush, List.mem_append, List.mem_singleton, not_or]
        exact ⟨hcur, fun h => hch h.symm⟩
      rw [ih out (cur.push ch) hnc, hpush]
      simp

theorem splitAndTrim_eq_spec (s : String) : splitAndTrim s = splitAndTrimSpec s := by
  unfold splitAndTrim splitAndTrimSpec
  have h := splitAndTrim_loop_spec s.toList [] "" (by simp)
  simpa using h

end sentinel
/-! ## The moves of an uncancelled run, and one run evaluated -/

namespace sentinel

/-- The moves commanded by `MoveSmoothStart` when no cancellation is
observed and no call panics. -/
theorem move_worker_moves {w : World} (hf : ∀ l, w.fault l = none) (x y p tid : Int)
    (hd : ∀ j, 1 ≤ j → j ≤ (stepCount w.mousePos.1 w.mousePos.2 x y).toNat →
      w.done j = false) :
    moves (MoveSmoothStart.worker w x y p tid).log
      = (List.range (stepCount w.mousePos.1 w.mousePos.2 x y).toNat).map
          (fun j =>
            (stepPos w.mousePos.1
              (stepDelta w.mousePos.1 x (stepCount w.mousePos.1 w.mousePos.2 x y)) (1 + j),
             stepPos w.mousePos.2
              (stepDelta w.mousePos.2 y (stepCount w.mousePos.1 w.mousePos.2 x y)) (1 + j)))
        ++ [(x, y)] := by
  rw [move_worker_done hf x y p tid hd]
  simp [moves_append, moves_cons, moves_nil, moves_stepEvents]

/-- The moves commanded by `DragSmoothStart` when no cancellation is
observed and no call panics. -/
theorem drag_worker_moves {w : World} (hf : ∀ l, w.fault l = none) (x y p tid : Int)
    (hd : ∀ j, 1 ≤ j → j ≤ (stepCount w.mousePos.1 w.mousePos.2 x y).toNat →
      w.done j = false) :
    moves (DragSmoothStart.worker w x y p tid).log
      = (List.range (stepCount w.mousePos.1 w.mousePos.2 x y).toNat).map
          (fun j =>
            (stepPos w.mousePos.1
              (stepDelta w.mousePos.1 x (stepCount w.mousePos.1 w.mousePos.2 x y)) (1 + j),
             stepPos w.mousePos.2
              (stepDelta w.mousePos.2 y (stepCount w.mousePos.1 w.mousePos.2 x y)) (1 + j)))
        ++ [(x, y)] := by
  rw [drag_worker_done hf x y p tid hd]
  simp [moves_append, moves_cons, moves_nil, moves_stepEvents]

/-- The move of iteration `i` in a list of moves of the shape above. -/
theorem moves_step (g : Nat → Int × Int) (n i : Nat) (last : Int × Int)
    (hi1 : 1 ≤ i) (hi2 : i ≤ n) :
    ((List.range n).map (fun j => g (1 + j)) ++ [last])[i - 1]? = some (g i) := by
  rw [List.getElem?_append_left (by simp; omega)]
  rw [List.getElem?_map, List.getElem?_range (by omega)]
  simp only [Option.map_some']
  rw [show 1 + (i - 1) = i by omega]

/-- The division `float64(61) / float64(14)`. -/
theorem stepDelta_61_14 : stepDelta 0 61 14 = 4905706736957147 * (2 : ℚ) ^ (-50 : Int) := by
  unfold stepDelta F64.div
  have h1 : F64.ofInt (wrapInt64 (61 - 0)) = 61 := by
    have : wrapInt64 (61 - 0) = 61 := by decide
    rw [this]
    exact roundF64_intCast (by decide)
  have h2 : F64.ofInt 14 = 14 := roundF64_intCast (by decide)
  rw [h1, h2]
  have := roundF64_eq_of_near (q := (61 : ℚ) / 14) 2 4905706736957147 (by decide)
    (by rw [abs_of_pos (by norm_num)]; norm_num)
    (by rw [abs_of_pos (by norm_num)]; norm_num)
    (by rw [abs_lt]; constructor <;> norm_num)
  rw [this]
  norm_num

/-- Step 7 of 14 from 0 to 61: the product `dx * 7` is rounded to the
`float64` just below 30.5, and `math.Round` of it is 30. -/
theorem stepPos_61_14_7 : stepPos 0 (stepDelta 0 61 14) 7 = 30 := by
  rw [stepPos_eq, stepDelta_61_14]
  have h2 : F64.ofInt ((7 : Nat) : Int) = 7 := roundF64_intCast (by decide)
  have h0 : F64.ofInt 0 = 0 := roundF64_intCast (by decide)
  have hm : F64.mul (4905706736957147 * (2 : ℚ) ^ (-50 : Int)) 7
      = 8584986789675007 * (2 : ℚ) ^ (-48 : Int) := by
    unfold F64.mul
    have := roundF64_eq_of_near (q := 4905706736957147 * (2 : ℚ) ^ (-50 : Int) * 7) 4
      8584986789675007 (by decide)
      (by rw [abs_of_pos (by norm_num)]; norm_num)
      (by rw [abs_of_pos (by norm_num)]; norm_num)
      (by rw [abs_lt]; constructor <;> norm_num)
    rw [this]
    norm_num
  have ha : F64.add 0 (8584986789675007 * (2 : ℚ) ^ (-48 : Int))
      = 8584986789675007 * (2 : ℚ) ^ (-48 : Int) := by
    unfold F64.add
    have := roundF64_eq_of_near (q := 0 + 8584986789675007 * (2 : ℚ) ^ (-48 : Int)) 4
      8584986789675007 (by decide)
      (by rw [abs_of_pos (by norm_num)]; norm_num)
      (by rw [abs_of_pos (by norm_num)]; norm_num)
      (by rw [abs_lt]; constructor <;> norm_num)
    rw [this]
    norm_num
  rw [h2, h0, hm, ha]
  unfold roundHalfAway
  rw [if_pos (by norm_num)]
  rw [Int.floor_eq_iff]
  constructor <;> norm_num

/-- The exact interpolation at step 7 of 14 from 0 to 61 is 30.5, which
rounds to 31. -/
theorem roundHalfAway_interpolate_61_14_7 : roundHalfAway (interpolate 0 61 14 7) = 31 := by
  unfold interpolate roundHalfAway
  rw [if_pos (by norm_num)]
  rw [Int.floor_eq_iff]
  constructor <;> norm_num

/-- From `(0, 0)` to `(61, 140)` the run has 14 steps. -/
theorem stepCount_61_140 : stepCount 0 0 61 140 = 14 :=
  (stepCount_eq 0 0 61 140 (by decide) (by decide) (by decide) (by decide)
    (by decide) (by decide) (by decide) (by decide)).trans (by decide)

end sentinel

namespace sentinel

/-- The exact interpolation at step 1 of 14 from 0 to 61 is `61 / 14`,
which rounds to 4 and is not halfway between two integers. -/
theorem interpolate_61_14_1 :
    roundHalfAway (interpolate 0 61 14 1) = 4
    ∧ ∀ z : Int, interpolate 0 61 14 1 ≠ (z : ℚ) + 1 / 2 := by
  constructor
  · unfold interpolate roundHalfAway
    rw [if_pos (by norm_num)]
    rw [Int.floor_eq_iff]
    constructor <;> norm_num
  · intro z hz
    unfold interpolate at hz
    have h1 : ((54 : Int) : ℚ) = ((14 * z : Int) : ℚ) := by
      push_cast
      norm_num at hz
      linarith
    have h2 : (54 : Int) = 14 * z := by exact_mod_cast h1
    omega

/-- The exact interpolation at step 1 of 14 from 0 to 140 is 10. -/
theorem interpolate_140_14_1 :
    roundHalfAway (interpolate 0 140 14 1) = 10
    ∧ ∀ z : Int, interpolate 0 140 14 1 ≠ (z : ℚ) + 1 / 2 := by
  constructor
  · unfold interpolate roundHalfAway
    rw [if_pos (by norm_num)]
    rw [Int.floor_eq_iff]
    constructor <;> norm_num
  · intro z hz
    unfold interpolate at hz
    have h1 : ((19 : Int) : ℚ) = ((2 * z : Int) : ℚ) := by
      push_cast
      norm_num at hz
      linarith
    have h2 : (19 : Int) = 2 * z := by exact_mod_cast h1
    omega

end sentinel
/-! ## The lock `tasksMu`: mutual exclusion -/

namespace tasksMu

theorem State.Inv.mu_init : State.init.Inv := by
  constructor <;> simp [State.init]

theorem State.Inv.mu_core {s : State} (h : s.Inv) (c : Core) : ({ s with core := c } : State).Inv :=
  ⟨h.held, h.owner, h.fresh⟩

theorem State.Inv.mu_lt {s : State} (h : s.Inv) {k : Nat} {t : Thread}
    (hk : s.threads k = some t) : k < s.nextThread := by
  by_contra hc
  rw [h.fresh k (by omega)] at hk
  exact absurd hk (by simp)

/-- A statement that keeps the thread on the same side of the critical
section. -/
theorem State.Inv.mu_same {s : State} (h : s.Inv) {k : Nat} {t : Thread} (t2 : Thread)
    (hk : s.threads k = some t) (hc : t2.inCritical = t.inCritical) (c : Core) :
    ({ s.setThread k t2 with core := c } : State).Inv := by
  constructor
  · intro j hj
    have hj0 : s.holder = some j := hj
    obtain ⟨tj, htj, hcr⟩ := h.held j hj0
    by_cases hjk : j = k
    · subst hjk
      rw [hk] at htj
      cases htj
      exact ⟨t2, by simp [State.setThread], by rw [hc]; exact hcr⟩
    · exact ⟨tj, by simp [State.setThread, hjk, htj], hcr⟩
  · intro j tj htj hcr
    show s.holder = some j
    by_cases hjk : j = k
    · subst hjk
      simp [State.setThread] at htj
      subst htj
      exact h.owner j t hk (by rw [← hc]; exact hcr)
    · simp [State.setThread, hjk] at htj
      exact h.owner j tj htj hcr
  · intro j hj
    have hj0 : s.nextThread ≤ j := hj
    have := h.mu_lt hk
    simp only [State.setThread]
    rw [if_neg (by omega)]
    exact h.fresh j hj0

/-- Statement `tasksMu.Lock()` on a free mutex. -/
theorem State.Inv.mu_acquire {s : State} (h : s.Inv) {k : Nat} {t : Thread} (t2 : Thread)
    (hk : s.threads k = some t) (hfree : s.holder = none) (hc : t2.inCritical = true) :
    ({ s.setThread k t2 with holder := some k } : State).Inv := by
  constructor
  · intro j hj
    have hj0 : some k = some j := hj
    cases hj0
    exact ⟨t2, by simp [State.setThread], hc⟩
  · intro j tj htj hcr
    show some k = some j
    by_cases hjk : j = k
    · rw [hjk]
    · simp [State.setThread, hjk] at htj
      have := h.owner j tj htj hcr
      rw [hfree] at this
      exact absurd this (by simp)
  · intro j hj
    have hj0 : s.nextThread ≤ j := hj
    have := h.mu_lt hk
    simp only [State.setThread]
    rw [if_neg (by omega)]
    exact h.fresh j hj0

/-- Statement `tasksMu.Unlock()` of a thread inside its critical section. -/
theorem State.Inv.mu_release {s : State} (h : s.Inv) {k : Nat} {t : Thread} (t2 : Thread)
    (hk : s.threads k = some t) (hin : t.inCritical = true) (hc : t2.inCritical = false) :
    ({ s.setThread k t2 with holder := none } : State).Inv := by
  have hold := h.owner k t hk hin
  constructor
  · intro j hj
    have hj0 : (none : Option Nat) = some j := hj
    exact absurd hj0 (by simp)
  · intro j tj htj hcr
    by_cases hjk : j = k
    · subst hjk
      simp [State.setThread] at htj
      subst htj
      rw [hc] at hcr
      exact absurd hcr (by simp)
    · simp [State.setThread, hjk] at htj
      have := h.owner j tj htj hcr
      rw [hold] at this
      cases this
      exact absurd rfl hjk
  · intro j hj
    have hj0 : s.nextThread ≤ j := hj
    have := h.mu_lt hk
    simp only [State.setThread]
    rw [if_neg (by omega)]
    exact h.fresh j hj0

/-- A call enters. -/
theorem State.Inv.mu_spawn {s : State} (h : s.Inv) {t : Thread} (hc : t.inCritical = false) :
    (s.spawn t).Inv := by
  constructor
  · intro j hj
    have hj0 : s.holder = some j := hj
    obtain ⟨tj, htj, hcr⟩ := h.held j hj0
    have := h.mu_lt htj
    exact ⟨tj, by simp [State.spawn, htj]; omega, hcr⟩
  · intro j tj htj hcr
    show s.holder = some j
    by_cases hjk : j = s.nextThread
    · simp [State.spawn, hjk] at htj
      subst htj
      rw [hc] at hcr
      exact absurd hcr (by simp)
    · simp [State.spawn, hjk] at htj
      exact h.owner j tj htj hcr
  · intro j hj
    have hj0 : s.nextThread + 1 ≤ j := hj
    simp only [State.spawn]
    rw [if_neg (by omega)]
    exact h.fresh j (by omega)

theorem State.Inv.mu_runThread {s : State} (h : s.Inv) (k : Nat) : (runThread k s).Inv := by
  unfold runThread
  cases hk : s.threads k with
  | none => exact h
  | some t =>
    cases t with
    | stop id p entry pc =>
      simp only
      cases pc with
      | atLock =>
        simp only [runStop]
        split_ifs with hf
        · exact h.mu_acquire (Thread.stop id p entry StopAt.atLookup) hk hf rfl
        · exact h
      | atLookup =>
        exact h.mu_same (Thread.stop id p (StopTask.locked id s.core).1 StopAt.atUnlock) hk rfl _
      | atUnlock => exact h.mu_release (Thread.stop id p entry StopAt.atBranch) hk rfl rfl
      | atBranch =>
        simp only [runStop]
        cases entry with
        | none => exact h.mu_same (Thread.stop id p none StopAt.returned) hk rfl _
        | some e => exact h.mu_same (Thread.stop id p (some e) StopAt.atCancel) hk rfl s.core
      | atCancel =>
        simp only [runStop]
        cases entry with
        | none => exact h
        | some e => exact h.mu_same (Thread.stop id p (some e) StopAt.atWait) hk rfl _
      | atWait =>
        simp only [runStop]
        cases entry with
        | none => exact h
        | some e =>
          simp only
          split_ifs
          · exact h.mu_same (Thread.stop id p (some e) StopAt.atReport) hk rfl s.core
          · exact h
      | atReport => exact h.mu_same (Thread.stop id p entry StopAt.returned) hk rfl _
      | returned => exact h
    | finish id pc =>
      simp only
      cases pc with
      | atLock =>
        simp only [runFinish]
        split_ifs with hf
        · exact h.mu_acquire (Thread.finish id FinishAt.atBody) hk hf rfl
        · exact h
      | atBody => exact h.mu_same (Thread.finish id FinishAt.atUnlock) hk rfl _
      | atUnlock => exact h.mu_release (Thread.finish id FinishAt.returned) hk rfl rfl
      | returned => exact h

theorem State.Inv.mu_step {s : State} (h : s.Inv) (a : Action) : (s.step a).Inv := by
  unfold State.step
  split_ifs
  · exact h
  · cases a with
    | register => exact h.mu_core _
    | callStop taskID port => exact h.mu_spawn rfl
    | callFinish id => exact h.mu_spawn rfl
    | run k => exact h.mu_runThread k

theorem State.Inv.mu_run {s : State} (h : s.Inv) (acts : List Action) : (s.run acts).Inv := by
  induction acts generalizing s with
  | nil => exact h
  | cons a rest ih => exact ih (h.mu_step a)

/-- The holder of the mutex is never blocked: its next statement runs, and
its second one is the `Unlock()`. -/
theorem mu_holder_releases {s : State} (h : s.Inv) {k : Nat} (hk : s.holder = some k) :
    (runThread k (runThread k s)).holder = none := by
  obtain ⟨t, ht, hc⟩ := h.held k hk
  cases t with
  | stop id p entry pc =>
    cases pc <;> simp [Thread.inCritical] at hc
    · simp [runThread, ht, runStop, State.setThread]
    · have h1 : runThread k s
          = { s.setThread k (Thread.stop id p entry StopAt.atBranch) with holder := none } := by
        simp [runThread, ht, runStop]
      rw [h1]
      simp [runThread, State.setThread, runStop]
      cases entry <;> simp
  | finish id pc =>
    cases pc <;> simp [Thread.inCritical] at hc
    · simp [runThread, ht, runFinish, State.setThread]
    · have h1 : runThread k s
          = { s.setThread k (Thread.finish id FinishAt.returned) with holder := none } := by
        simp [runThread, ht, runFinish]
      rw [h1]
      simp [runThread, State.setThread, runFinish]

end tasksMu
/-! ## Truncating division by 20 -/

namespace sentinel

theorem tdiv_twenty (x : Int) :
    Int.tdiv x 20 = if 0 ≤ x then x / 20 else -((-x) / 20) := by
  split
  · next h => exact Int.tdiv_eq_ediv h (by decide)
  · next h =>
    have h2 : Int.tdiv (-x) 20 = (-x) / 20 := Int.tdiv_eq_ediv (by omega) (by decide)
    rw [← h2, Int.neg_tdiv, neg_neg]

/-- The total of 20 scroll commands of `x / 20` each, against `x`. -/
theorem scroll_total (x : Int) :
    (0 ≤ x → 0 ≤ 20 * Int.tdiv x 20 ∧ 20 * Int.tdiv x 20 ≤ x)
    ∧ (x ≤ 0 → x ≤ 20 * Int.tdiv x 20 ∧ 20 * Int.tdiv x 20 ≤ 0)
    ∧ |20 * Int.tdiv x 20| ≤ |x|
    ∧ |x - 20 * Int.tdiv x 20| < 20
    ∧ (20 * Int.tdiv x 20 = x ↔ 20 ∣ x)
    ∧ (|x| < 20 → Int.tdiv x 20 = 0) := by
  rw [tdiv_twenty]
  refine ⟨?_, ?_, ?_, ?_, ?_, ?_⟩
  · intro h; rw [if_pos h]; omega
  · intro h; split <;> omega
  · split <;> (rw [abs_le]; rcases abs_cases x with h | h <;> constructor <;> omega)
  · split <;> (rw [abs_lt]; omega)
  · split <;> omega
  · intro h
    rw [abs_lt] at h
    split <;> omega

theorem sum_fst_replicate (n : Nat) (a b : Int) :
    ((List.replicate n (a, b)).map Prod.fst).sum = n * a := by
  simp [List.map_replicate, List.sum_replicate]

theorem sum_snd_replicate (n : Nat) (a b : Int) :
    ((List.replicate n (a, b)).map Prod.snd).sum = n * b := by
  simp [List.map_replicate, List.sum_replicate]

end sentinel
/-! ## What `TypeStrStart` has typed, in every run -/

namespace sentinel

theorem typed_call (w : World) (ev : Event) (f : Frame) :
    typed (Frame.call w ev f).log = typed f.log
    ∨ ((Frame.call w ev f).panic = none
        ∧ typed (Frame.call w ev f).log = typed (f.log ++ [ev])) := by
  unfold Frame.call
  split
  · exact Or.inl rfl
  · cases h : w.fault f.log with
    | some v => exact Or.inl rfl
    | none =>
      right
      refine ⟨?_, rfl⟩
      simp only
      cases hp : f.panic with
      | none => rfl
      | some v => simp [hp] at *

theorem typed_sleep (ms : Nat) (f : Frame) : typed (Frame.sleep ms f).log = typed f.log := by
  unfold Frame.sleep
  split
  · rfl
  · simp [typed_append, typed_cons, typed_nil]

theorem typed_send (port : Int) (r : simpleResp) (f : Frame) :
    typed (Frame.send port r f).log = typed f.log := by
  unfold Frame.send
  split
  · rfl
  · simp [typed_append, typed_cons, typed_nil]

theorem typed_recover (port : Int) (op : String) (f : Frame) :
    typed (Frame.recover port op f).log = typed f.log := by
  unfold Frame.recover
  cases f.panic with
  | none => rfl
  | some v => simp [typed_append, typed_cons, typed_nil]

theorem type_loop_panicking (w : World) (keySleep : Nat → Int) (p tid : Int)
    (cs : List Char) (i : Nat) (f : Frame) (h : f.panic.isSome = true) :
    TypeStrStart.loop w keySleep p tid cs i f = (false, f) := by
  cases cs with
  | nil =>
    rw [TypeStrStart.loop]
    cases hp : f.panic with
    | none => simp [hp] at h
    | some v => rfl
  | cons c rest =>
    rw [TypeStrStart.loop, if_pos h]

/-- In every run, with panics or cancellation or neither, the loop of
`TypeStrStart` has typed some first characters of the text left, in
order. -/
theorem type_loop_prefix (w : World) (keySleep : Nat → Int) (p tid : Int)
    (cs : List Char) (i : Nat) (f : Frame) :
    ∃ n, typed (TypeStrStart.loop w keySleep p tid cs i f).2.log
      = typed f.log ++ (cs.take n).map String.singleton := by
  induction cs generalizing i f with
  | nil => exact ⟨0, by simp [TypeStrStart.loop]⟩
  | cons c rest ih =>
    rw [TypeStrStart.loop]
    by_cases hp : f.panic.isSome = true
    · rw [if_pos hp]
      exact ⟨0, by simp⟩
    · rw [if_neg hp]
      by_cases hd : w.done i = true
      · rw [if_pos hd]
        exact ⟨0, by simp [typed_send]⟩
      · rw [if_neg hd]
        rcases typed_call w (Event.TypeStr (String.singleton c)) f with h | ⟨hn, h⟩
        · by_cases hq : (Frame.call w (Event.TypeStr (String.singleton c)) f).panic.isSome = true
          · have hq2 : (Frame.sleep (keySleep i).toNat
                (Frame.call w (Event.TypeStr (String.singleton c)) f)).panic.isSome = true := by
              rw [panic_sleep]; exact hq
            rw [type_loop_panicking w keySleep p tid rest (i + 1) _ hq2]
            exact ⟨0, by simp [typed_sleep, h]⟩
          · -- the call neither panicked nor was logged: impossible
            exfalso
            unfold Frame.call at hq
            rw [if_neg hp] at hq
            unfold Frame.call at h
            rw [if_neg hp] at h
            cases hw : w.fault f.log with
            | some v => simp [hw] at hq
            | none =>
              simp only [hw] at h
              rw [typed_append, typed_cons, typed_nil] at h
              simp at h
        · obtain ⟨n, hn2⟩ := ih (i + 1)
            (Frame.sleep (keySleep i).toNat
              (Frame.call w (Event.TypeStr (String.singleton c)) f))
          refine ⟨n + 1, ?_⟩
          rw [hn2, typed_sleep, h, typed_append, typed_cons, typed_nil]
          simp

/-- In every run the goroutine of `TypeStrStart` has typed some first
characters of the text, in order, one call per character. -/
theorem type_worker_prefix (w : World) (keySleep : Nat → Int) (s : String) (p tid : Int) :
    ∃ n, typed (TypeStrStart.worker w keySleep s p tid).log
      = (s.toList.take n).map String.singleton := by
  obtain ⟨n, hn⟩ := type_loop_prefix w keySleep p tid s.toList 1 Frame.start
  refine ⟨n, ?_⟩
  unfold TypeStrStart.worker TypeStrStart.body
  rw [typed_recover]
  simp only
  split
  · rw [hn]; rfl
  · rw [typed_send, hn]; rfl

end sentinel
/-! ## The calls of a drag, in every run without panic -/

/-- Shape of every run of `DragSmoothStart` in which no call panics: the
first event is `Toggle("down")`, the last event is the only response, and
the `Toggle` calls before it are `Toggle("down")` then `Toggle("up")`. -/
theorem drag_worker_shape (w : sentinel.World) (x y p tid : Int)
    (hf : ∀ l, w.fault l = none) :
    ∃ r : simpleResp,
      (sentinel.DragSmoothStart.worker w x y p tid).log.getLast?
          = some (sentinel.Event.send p r)
      ∧ sentinel.sends (sentinel.DragSmoothStart.worker w x y p tid).log = [(p, r)]
      ∧ (sentinel.DragSmoothStart.worker w x y p tid).log.head?
          = some (sentinel.Event.Toggle "down")
      ∧ sentinel.toggles (sentinel.DragSmoothStart.worker w x y p tid).log.dropLast
          = ["down", "up"]
      ∧ (sentinel.DragSmoothStart.worker w x y p tid).panic = none
      ∧ ((∀ j, 1 ≤ j → j ≤ (sentinel.stepCount w.mousePos.1 w.mousePos.2 x y).toNat →
            w.done j = false) →
          r.Op = "drag_smooth" ∧ r.Success = true)
      ∧ ((∃ k, 1 ≤ k ∧ k ≤ (sentinel.stepCount w.mousePos.1 w.mousePos.2 x y).toNat
            ∧ w.done k = true) →
          r = sentinel.canceled "drag_smooth" tid) := by
  by_cases hex : ∃ k, 1 ≤ k ∧ k ≤ (sentinel.stepCount w.mousePos.1 w.mousePos.2 x y).toNat
      ∧ w.done k = true
  · have hs := Nat.find_spec hex
    have hmin : ∀ j, 1 ≤ j → j < Nat.find hex → w.done j = false := by
      intro j h1 h2
      have := Nat.find_min hex h2
      cases hd : w.done j with
      | false => rfl
      | true => exact absurd ⟨h1, by omega, hd⟩ this
    have hw := sentinel.drag_worker_canceled hf x y p tid (Nat.find hex) hs.1 hs.2.1 hmin
      hs.2.2
    refine ⟨sentinel.canceled "drag_smooth" tid, ?_⟩
    rw [hw]
    have hform : (sentinel.Event.Toggle "down" :: sentinel.Event.GetMousePos
          :: sentinel.stepEvents w.mousePos.1 w.mousePos.2
              (sentinel.stepDelta w.mousePos.1 x
                (sentinel.stepCount w.mousePos.1 w.mousePos.2 x y))
              (sentinel.stepDelta w.mousePos.2 y
                (sentinel.stepCount w.mousePos.1 w.mousePos.2 x y))
              1 (Nat.find hex - 1)
          ++ [sentinel.Event.Toggle "up",
              sentinel.Event.send p (sentinel.canceled "drag_smooth" tid)])
        = (sentinel.Event.Toggle "down" :: sentinel.Event.GetMousePos
          :: sentinel.stepEvents w.mousePos.1 w.mousePos.2
              (sentinel.stepDelta w.mousePos.1 x
                (sentinel.stepCount w.mousePos.1 w.mousePos.2 x y))
              (sentinel.stepDelta w.mousePos.2 y
                (sentinel.stepCount w.mousePos.1 w.mousePos.2 x y))
              1 (Nat.find hex - 1)
          ++ [sentinel.Event.Toggle "up"])
          ++ [sentinel.Event.send p (sentinel.canceled "drag_smooth" tid)] := by simp
    simp only
    rw [hform]
    refine ⟨List.getLast?_concat _, ?_, rfl, ?_, trivial, ?_, fun _ => trivial⟩
    · simp [sentinel.sends_append, sentinel.sends_cons, sentinel.sends_nil,
        sentinel.sends_stepEvents]
    · rw [List.dropLast_concat]
      simp [sentinel.toggles_append, sentinel.toggles_cons, sentinel.toggles_nil,
        sentinel.toggles_stepEvents]
    · intro hall
      obtain ⟨k, h1, h2, h3⟩ := hex
      rw [hall k h1 h2] at h3
      exact absurd h3 (by decide)
  · have hall : ∀ j, 1 ≤ j → j ≤ (sentinel.stepCount w.mousePos.1 w.mousePos.2 x y).toNat →
        w.done j = false := by
      intro j h1 h2
      cases hd : w.done j with
      | false => rfl
      | true => exact absurd ⟨j, h1, h2, hd⟩ hex
    have hw := sentinel.drag_worker_done hf x y p tid hall
    have hform : ∀ (a b c d : sentinel.Event) (l : List sentinel.Event),
        (sentinel.Event.Toggle "down" :: sentinel.Event.GetMousePos :: l ++ [a, b, c, d])
          = (sentinel.Event.Toggle "down" :: sentinel.Event.GetMousePos :: l ++ [a, b, c])
            ++ [d] := fun a b c d l => by simp
    rw [hw]
    simp only
    rw [hform]
    refine ⟨_, List.getLast?_concat _, ?_, rfl, ?_, trivial,
      fun _ => ⟨rfl, rfl⟩, fun h => absurd h hex⟩
    · simp [sentinel.sends_append, sentinel.sends_cons, sentinel.sends_nil,
        sentinel.sends_stepEvents]
    · rw [List.dropLast_concat]
      simp [sentinel.toggles_append, sentinel.toggles_cons, sentinel.toggles_nil,
        sentinel.toggles_stepEvents]

/-- The buttons held after the two one-argument calls `Toggle("down")` and
`Toggle("up")`. -/
theorem heldAfter_down_up (lib : sentinel.ToggleLib) (held : Nat → Bool)
    (log : List sentinel.Event) (h : sentinel.toggles log = ["down", "up"]) (b : Nat) :
    sentinel.heldAfter lib held log b
      = if b = lib.button "down" ∨ b = lib.button "up" then lib.defaultDown else held b := by
  unfold sentinel.heldAfter
  rw [h]
  simp only [List.foldl_cons, List.foldl_nil]
  by_cases h1 : b = lib.button "up"
  · simp [h1]
  · by_cases h2 : b = lib.button "down"
    · simp [h1, h2]
    · simp [h1, h2]

/-- A response adds no `Toggle` call. -/
theorem toggles_concat_send (l : List sentinel.Event) (p : Int) (r : simpleResp) :
    sentinel.toggles (l ++ [sentinel.Event.send p r]) = sentinel.toggles l := by
  simp [sentinel.toggles_append, sentinel.toggles_cons, sentinel.toggles_nil]
/-! ## A start beyond the exact range of `float64` -/

/-- The `float64` nearest to `q`, given its binade and the rounding of its
quotient by the unit in the last place. -/
theorem roundF64_of_round {q : ℚ} (e m : Int) (he : -1022 ≤ e) (h1 : (2 : ℚ) ^ e ≤ |q|)
    (h2 : |q| < (2 : ℚ) ^ (e + 1)) (hm : roundHalfEven (q / 2 ^ (e - 52)) = m) :
    roundF64 q = m * 2 ^ (e - 52) := by
  have hpos : 0 < |q| := lt_of_lt_of_le (by positivity) h1
  have hq : q ≠ 0 := abs_pos.mp hpos
  have hlog := log_two_eq hpos h1 h2
  unfold roundF64
  simp only [hq, if_false]
  rw [hlog, max_eq_left he, hm]

namespace sentinel

/-- The conversion `float64(-(2^53 + 1))`: the integer lies halfway between
two `float64` values and is rounded to the even one, `-2^53`. -/
theorem ofInt_far_start : F64.ofInt (-(2 ^ 53 + 1)) = -(2 : ℚ) ^ (53 : Nat) := by
  unfold F64.ofInt
  have hr : roundHalfEven ((((-(2 ^ 53 + 1) : Int) : ℚ)) / 2 ^ ((53 : Int) - 52))
      = -(2 ^ 52) := by
    have hf : ⌊(((-(2 ^ 53 + 1) : Int) : ℚ)) / 2 ^ ((53 : Int) - 52)⌋ = -(2 ^ 52) - 1 := by
      rw [Int.floor_eq_iff]
      constructor <;> norm_num
    unfold roundHalfEven
    simp only [hf]
    rw [if_neg (by norm_num), if_neg (by norm_num), if_neg (by decide)]
    norm_num
  have := roundF64_of_round (q := ((-(2 ^ 53 + 1) : Int) : ℚ)) 53 (-(2 ^ 52)) (by decide)
    (by rw [abs_of_neg (by norm_num)]; norm_num)
    (by rw [abs_of_neg (by norm_num)]; norm_num) hr
  rw [this]
  norm_num

/-- From `-(2^53 + 1)` to 7 in 120 steps: the increment per step. -/
theorem stepDelta_far_start :
    stepDelta (-(2 ^ 53 + 1)) 7 120 = 4803839602528533 * (2 : ℚ) ^ (-6 : Int) := by
  unfold stepDelta F64.div
  have h1 : F64.ofInt (wrapInt64 (7 - -(2 ^ 53 + 1))) = 9007199254741000 := by
    have hw : wrapInt64 (7 - -(2 ^ 53 + 1)) = 9007199254741000 := by decide
    rw [hw]
    unfold F64.ofInt
    have := roundF64_eq_of_near (q := ((9007199254741000 : Int) : ℚ)) 53 4503599627370500
      (by decide)
      (by rw [abs_of_pos (by norm_num)]; norm_num)
      (by rw [abs_of_pos (by norm_num)]; norm_num)
      (by rw [abs_lt]; constructor <;> norm_num)
    rw [this]
    norm_num
  have h2 : F64.ofInt 120 = 120 := roundF64_intCast (by decide)
  rw [h1, h2]
  have := roundF64_eq_of_near (q := (9007199254741000 : ℚ) / 120) 46 4803839602528533
    (by decide)
    (by rw [abs_of_pos (by norm_num)]; norm_num)
    (by rw [abs_of_pos (by norm_num)]; norm_num)
    (by rw [abs_lt]; constructor <;> norm_num)
  rw [this]
  norm_num

/-- Step 120 of 120 from `-(2^53 + 1)` to 7 commands 8: the start is
converted to `-2^53`, one above it, and the sum lands one above the
target. -/
theorem stepPos_far_start : stepPos (-(2 ^ 53 + 1)) (stepDelta (-(2 ^ 53 + 1)) 7 120) 120 = 8 := by
  rw [stepPos_eq, stepDelta_far_start, ofInt_far_start]
  have h2 : F64.ofInt ((120 : Nat) : Int) = 120 := roundF64_intCast (by decide)
  have hm : F64.mul (4803839602528533 * (2 : ℚ) ^ (-6 : Int)) 120 = 9007199254741000 := by
    unfold F64.mul
    have := roundF64_eq_of_near (q := 4803839602528533 * (2 : ℚ) ^ (-6 : Int) * 120) 53
      4503599627370500 (by decide)
      (by rw [abs_of_pos (by norm_num)]; norm_num)
      (by rw [abs_of_pos (by norm_num)]; norm_num)
      (by rw [abs_lt]; constructor <;> norm_num)
    rw [this]
    norm_num
  have ha : F64.add (-(2 : ℚ) ^ (53 : Nat)) 9007199254741000 = 8 := by
    unfold F64.add
    have h8 : (-(2 : ℚ) ^ (53 : Nat)) + 9007199254741000 = ((8 : Int) : ℚ) := by norm_num
    rw [h8]
    exact roundF64_intCast (by decide)
  rw [h2, hm, ha]
  unfold roundHalfAway
  rw [if_pos (by norm_num)]
  rw [Int.floor_eq_iff]
  constructor <;> norm_num

/-- From `(-(2^53 + 1), 0)` to `(7, 0)` the run has 120 steps. -/
theorem stepCount_far_start : stepCount (-(2 ^ 53 + 1)) 0 7 0 = 120 :=
  (stepCount_eq (-(2 ^ 53 + 1)) 0 7 0 (by decide) (by decide) (by decide) (by decide)
    (by decide) (by decide) (by decide) (by decide)).trans (by decide)

end sentinel
/-! ## `portforward` with `StopForwardPorts` statement by statement -/

theorem finishTask_nextChan (id : Int) (s : Core) : (finishTask id s).nextChan = s.nextChan := by
  cases hid : s.tasks id with
  | none => rw [finishTask_absent hid]
  | some e =>
    by_cases ho : s.closes e.done = 0
    · rw [finishTask_open hid ho]
    · rw [finishTask_closed hid ho]

namespace portforward

/-- No step lowers the channel counter or the object counter. -/
theorem pf_step_mono (s : State) (a : Action) :
    s.core.nextChan ≤ (s.step a).core.nextChan ∧ s.nextObj ≤ (s.step a).nextObj := by
  cases hcr : s.core.crashed with
  | some v => rw [State.pf_step_crashed hcr]; exact ⟨le_rfl, le_rfl⟩
  | none =>
    rw [State.pf_step_alive hcr]
    cases a with
    | create lib urlStr portsStr addressStr port =>
      simp only
      unfold CreatePortForwarder safeOp CreatePortForwarder.fn
      simp only [pf_fn_constructor]
      cases lib.Parse urlStr with
      | err e => exact ⟨le_rfl, le_rfl⟩
      | panic v => exact ⟨le_rfl, le_rfl⟩
      | ok u =>
        simp only
        cases lib.NewSPDYOverWebsocketDialer u { Host := u.Host, Insecure := true } with
        | err e => exact ⟨le_rfl, le_rfl⟩
        | panic v => exact ⟨le_rfl, le_rfl⟩
        | ok dialer =>
          simp only
          cases lib.NewOnAddresses dialer (CreatePortForwarder.goAddresses addressStr)
              (CreatePortForwarder.goPorts portsStr) (makeChan s.core).1
              (makeChan (makeChan s.core).2).1 with
          | err e => exact ⟨by simp only [send, sendToPort, makeChan]; omega, le_rfl⟩
          | panic v => exact ⟨by simp only [send, sendToPort, makeChan]; omega, le_rfl⟩
          | ok _ =>
            exact ⟨by simp only [send, sendToPort, makeChan]; omega,
              by simp only [send]; omega⟩
    | start pfID port =>
      simp only
      cases hp : s.portForwarders pfID with
      | none => rw [StartForwardPorts_absent port hp]; exact ⟨le_rfl, le_rfl⟩
      | some w =>
        rw [StartForwardPorts_present port hp]
        exact ⟨by simp [addTask, makeChan, withCancel], le_rfl⟩
    | workerEnter k =>
      simp only
      unfold workerEnter
      cases s.workers k with
      | none => exact ⟨le_rfl, le_rfl⟩
      | some wk =>
        simp only
        split_ifs
        · exact ⟨le_rfl, le_rfl⟩
        · exact ⟨le_rfl, le_rfl⟩
    | workerExit k r =>
      simp only
      unfold workerExit
      cases s.workers k with
      | none => exact ⟨le_rfl, le_rfl⟩
      | some wk =>
        simp only
        split_ifs
        · simp only [finishTask_nextChan]
          unfold workerRecover workerCleanup workerBody
          cases r <;> simp only [send, sendToPort, closeChan] <;> split_ifs <;>
            exact ⟨le_rfl, le_rfl⟩
        · exact ⟨le_rfl, le_rfl⟩
    | stop pfID port =>
      simp only
      cases hp : s.portForwarders pfID with
      | none => rw [StopForwardPorts_absent port hp]; exact ⟨le_rfl, le_rfl⟩
      | some w =>
        by_cases ho : s.core.closes w.StopChan = 0
        · rw [StopForwardPorts_open port hp ho]; exact ⟨le_rfl, le_rfl⟩
        · rw [StopForwardPorts_closed port hp ho]; exact ⟨le_rfl, le_rfl⟩
    | getPorts pfID port r =>
      simp only
      cases hp : s.portForwarders pfID with
      | none => rw [GetForwardedPorts_absent port r hp]; exact ⟨le_rfl, le_rfl⟩
      | some w =>
        rw [GetForwardedPorts_present port r hp]
        unfold safeOp GetForwardedPorts.fn
        cases r <;> exact ⟨le_rfl, le_rfl⟩
    | stopTaskEnter taskID port => exact ⟨(Core.Keep.keep_stopEnter _ _ _).nextChan, le_rfl⟩
    | stopTaskCancel k => exact ⟨(Core.Keep.keep_stopCancel _ _).nextChan, le_rfl⟩
    | stopTaskWake k => exact ⟨(Core.Keep.keep_stopWake _ _).nextChan, le_rfl⟩
    | registerPort port => exact ⟨le_rfl, le_rfl⟩
    | unregisterPort => exact ⟨(Core.Keep.keep_unregisterPort _).nextChan, le_rfl⟩

/-- How each step changes what is allocated and registered. -/
theorem pf_step_grow (s : State) (a : Action) : Grow s (s.step a) := by
  have hm := pf_step_mono s a
  by_cases hc : ∃ lib urlStr portsStr addressStr port,
      a = Action.create lib urlStr portsStr addressStr port
  · obtain ⟨lib, urlStr, portsStr, addressStr, port, rfl⟩ := hc
    cases hcr : s.core.crashed with
    | some v =>
      rw [State.pf_step_crashed hcr]
      exact ⟨le_rfl, le_rfl, fun _ _ h => Or.inl h, fun _ _ h => Or.inl h⟩
    | none =>
      refine ⟨hm.1, hm.2, ?_, ?_⟩
      · intro tid e he
        left
        rw [State.pf_step_alive hcr] at he
        rcases CreatePortForwarder_cases lib urlStr portsStr addressStr port s with
          ⟨_, _, _, _, h4, _⟩ | ⟨_, _, _, _, h4, _⟩
        · rw [← h4]; exact he
        · rw [← h4]; exact he
      · intro id w hw
        clear hm
        rw [State.pf_step_alive hcr] at hw ⊢
        simp only at hw ⊢
        revert hw
        unfold CreatePortForwarder safeOp CreatePortForwarder.fn
        simp only [pf_fn_constructor]
        cases lib.Parse urlStr with
        | err e => exact fun hw => Or.inl hw
        | panic v => exact fun hw => Or.inl hw
        | ok u =>
          simp only
          cases lib.NewSPDYOverWebsocketDialer u { Host := u.Host, Insecure := true } with
          | err e => exact fun hw => Or.inl hw
          | panic v => exact fun hw => Or.inl hw
          | ok dialer =>
            simp only
            cases lib.NewOnAddresses dialer (CreatePortForwarder.goAddresses addressStr)
                (CreatePortForwarder.goPorts portsStr) (makeChan s.core).1
                (makeChan (makeChan s.core).2).1 with
            | err e => exact fun hw => Or.inl hw
            | panic v => exact fun hw => Or.inl hw
            | ok _ =>
              simp only [send, sendToPort, makeChan, GoMap.set]
              intro hw
              split_ifs at hw with hid
              · right
                cases hw
                refine ⟨hid.symm, le_rfl, ?_, le_rfl, Nat.lt_succ_self _, fun _ _ h => h, ?_⟩
                · show s.core.nextChan < s.core.nextChan + 1 + 1
                  omega
                intro id2 w2 h2
                split_ifs at h2 with hid2
                · right; rw [hid2, hid]
                · left; exact h2
              · left; exact hw
  by_cases hst : ∃ pfID port, a = Action.start pfID port
  · obtain ⟨pfID, port, rfl⟩ := hst
    cases hcr : s.core.crashed with
    | some v =>
      rw [State.pf_step_crashed hcr]
      exact ⟨le_rfl, le_rfl, fun _ _ h => Or.inl h, fun _ _ h => Or.inl h⟩
    | none =>
      refine ⟨hm.1, hm.2, ?_, ?_⟩
      · intro tid e he
        rw [State.pf_step_alive hcr] at he ⊢
        simp only at he ⊢
        cases hp : s.portForwarders pfID with
        | none =>
          rw [StartForwardPorts_absent port hp] at he
          exact Or.inl he
        | some w =>
          rw [StartForwardPorts_present port hp] at he ⊢
          simp only [addTask, makeChan, withCancel, GoMap.set] at he ⊢
          split_ifs at he with hid
          · right
            cases he
            exact ⟨le_rfl, Nat.lt_succ_self _, fun _ _ h => h⟩
          · left; exact he
      · intro id w hw
        left
        rw [State.pf_step_alive hcr] at hw
        simp only at hw
        cases hp : s.portForwarders pfID with
        | none => rw [StartForwardPorts_absent port hp] at hw; exact hw
        | some w0 => rw [StartForwardPorts_present port hp] at hw; exact hw
  · have hq := State.pf_step_quiet s a
      (fun l u ps ad p e => hc ⟨l, u, ps, ad, p, e⟩) (fun i p e => hst ⟨i, p, e⟩)
    exact ⟨hm.1, hm.2, fun tid e he => Or.inl (hq.1.tasks tid e he),
      fun id w hw => Or.inl (hq.2.2 id w hw)⟩

theorem Proc.Inv.pf_fine_init : Proc.init.Inv := by
  constructor <;> simp [Proc.init, State.init, Core.init]

/-- The invariant passes through a step of `Action`: the frames are as
they were. -/
theorem Proc.Inv.pf_fine_grow {s : Proc} (h : s.Inv) {t : State} (g : Grow s.st t) :
    ({ s with st := t } : Proc).Inv := by
  constructor
  · intro tid e he
    rcases g.tasks tid e he with ho | ⟨_, hn, _⟩
    · exact lt_of_lt_of_le (h.task_lt tid e ho) g.chan
    · exact hn
  · intro id w hw
    rcases g.regs id w hw with ho | ⟨h1, _, h3, _, h5, _⟩
    · have := h.reg_ok id w ho
      exact ⟨this.1, lt_of_lt_of_le this.2.1 g.chan, lt_of_lt_of_le this.2.2 g.obj⟩
    · exact ⟨h1, h3, h5⟩
  · intro id id2 w w2 hw hw2 hd
    rcases g.regs id w hw with ho | ⟨_, h2, _, h4, _, _, h7⟩
    · rcases g.regs id2 w2 hw2 with ho2 | ⟨_, k2, _, k4, _, _, k7⟩
      · exact h.reg_inj id id2 w w2 ho ho2 hd
      · have := h.reg_ok id w ho
        rcases hd with hd | hd <;> omega
    · rcases h7 id2 w2 hw2 with ho2 | he
      · have := h.reg_ok id2 w2 ho2
        rcases hd with hd | hd <;> omega
      · exact he.symm
  · intro id w tid e hw he
    rcases g.regs id w hw with ho | ⟨_, h2, _, _, _, h6, _⟩
    · rcases g.tasks tid e he with eo | ⟨k1, _, _⟩
      · exact h.reg_task id w tid e ho eo
      · have := h.reg_ok id w ho
        omega
    · have := h.task_lt tid e (h6 tid e he)
      omega
  · intro k f hf
    have := h.frame_ok k f hf
    exact ⟨this.1, this.2.1, lt_of_lt_of_le this.2.2.1 g.chan, lt_of_lt_of_le this.2.2.2 g.obj⟩
  · intro k f tid e hf he
    rcases g.tasks tid e he with eo | ⟨k1, _, _⟩
    · exact h.frame_task k f tid e hf eo
    · have := h.frame_ok k f hf
      omega
  · intro k f id w hf hw hd
    rcases g.regs id w hw with ho | ⟨_, h2, _, h4, _, _, _⟩
    · exact h.frame_reg k f id w hf ho hd
    · have := h.frame_ok k f hf
      rcases hd with hd | hd <;> omega

theorem StopForwardPorts.pf_lookup_absent {s : Proc} {pfID : Int} (port : Int)
    (h : s.st.portForwarders pfID = none) :
    StopForwardPorts.lookup pfID port s
      = { s with
          st := send (getPortOrDefault port s.st.core) (failure "stop_forward_ports"
            ("port forwarder " ++ toString pfID ++ " not found")) s.st } := by
  simp [StopForwardPorts.lookup, h]

theorem StopForwardPorts.pf_lookup_present {s : Proc} {pfID : Int} (port : Int)
    {w : PortForwarderWrapper} (h : s.st.portForwarders pfID = some w) :
    StopForwardPorts.lookup pfID port s
      = { s with
          stops := fun k =>
            if k = s.nextStop then
              some { id := pfID, p := getPortOrDefault port s.st.core, wrapper := w,
                     pc := StopResPC.atClose }
            else s.stops k
          nextStop := s.nextStop + 1 } := by
  simp [StopForwardPorts.lookup, h]

theorem Proc.Inv.pf_fine_lookup {s : Proc} (h : s.Inv) (pfID port : Int) :
    (StopForwardPorts.lookup pfID port s).Inv := by
  cases hp : s.st.portForwarders pfID with
  | none =>
    rw [StopForwardPorts.pf_lookup_absent port hp]
    exact ⟨h.task_lt, h.reg_ok, h.reg_inj, h.reg_task, h.frame_ok, h.frame_task, h.frame_reg⟩
  | some w =>
    rw [StopForwardPorts.pf_lookup_present port hp]
    have hw := h.reg_ok pfID w hp
    refine ⟨h.task_lt, h.reg_ok, h.reg_inj, h.reg_task, ?_, ?_, ?_⟩
    · intro k f hf
      simp only at hf ⊢
      split_ifs at hf with hk
      · cases hf
        exact ⟨by omega, hw.1, hw.2.1, hw.2.2⟩
      · have := h.frame_ok k f hf
        exact ⟨by omega, this.2⟩
    · intro k f tid e hf he
      simp only at hf he
      split_ifs at hf with hk
      · cases hf
        exact h.reg_task pfID w tid e hp he
      · exact h.frame_task k f tid e hf he
    · intro k f id w2 hf hw2 hd
      simp only at hf hw2
      split_ifs at hf with hk
      · cases hf
        exact h.reg_inj id pfID w2 w hw2 hp hd
      · exact h.frame_reg k f id w2 hf hw2 hd

theorem Proc.Inv.pf_fine_close {s : Proc} (h : s.Inv) (k : Nat) :
    (StopForwardPorts.close k s).Inv := by
  unfold StopForwardPorts.close
  cases hk : s.stops k with
  | none => exact h
  | some f =>
    simp only
    split_ifs with hpc hopen
    · refine ⟨h.task_lt, h.reg_ok, h.reg_inj, h.reg_task, ?_, ?_, ?_⟩
      · intro j g hg
        simp only at hg
        split_ifs at hg with hj
        · cases hg
          rw [hj]
          exact h.frame_ok k f hk
        · exact h.frame_ok j g hg
      · intro j g tid e hg he
        simp only at hg
        split_ifs at hg with hj
        · cases hg
          exact h.frame_task k f tid e hk he
        · exact h.frame_task j g tid e hg he
      · intro j g id w hg hw hd
        simp only at hg
        split_ifs at hg with hj
        · cases hg
          exact h.frame_reg k f id w hk hw hd
        · exact h.frame_reg j g id w hg hw hd
    · exact ⟨h.task_lt, h.reg_ok, h.reg_inj, h.reg_task, h.frame_ok, h.frame_task,
        h.frame_reg⟩
    · exact h

theorem Proc.Inv.pf_fine_remove {s : Proc} (h : s.Inv) (k : Nat) :
    (StopForwardPorts.remove k s).Inv := by
  unfold StopForwardPorts.remove
  cases hk : s.stops k with
  | none => exact h
  | some f =>
    simp only
    split_ifs with hpc
    · have hsub : ∀ id w, (send f.p (success "stop_forward_ports" (Payload.int f.id))
          { s.st with portForwarders := s.st.portForwarders.delete f.id }).portForwarders id
            = some w → s.st.portForwarders id = some w := by
        intro id w hw
        simp only [send, GoMap.delete] at hw
        split_ifs at hw
        exact hw
      refine ⟨h.task_lt, fun id w hw => h.reg_ok id w (hsub id w hw),
        fun id id2 w w2 hw hw2 => h.reg_inj id id2 w w2 (hsub id w hw) (hsub id2 w2 hw2),
        fun id w tid e hw he => h.reg_task id w tid e (hsub id w hw) he, ?_, ?_, ?_⟩
      · intro j g hg
        simp only at hg
        split_ifs at hg with hj
        · cases hg
          rw [hj]
          exact h.frame_ok k f hk
        · exact h.frame_ok j g hg
      · intro j g tid e hg he
        simp only at hg
        split_ifs at hg with hj
        · cases hg
          exact h.frame_task k f tid e hk he
        · exact h.frame_task j g tid e hg he
      · intro j g id w hg hw hd
        simp only at hg
        split_ifs at hg with hj
        · cases hg
          exact h.frame_reg k f id w hk (hsub id w hw) hd
        · exact h.frame_reg j g id w hg (hsub id w hw) hd
    · exact h

theorem Proc.Inv.pf_fine_step {s : Proc} (h : s.Inv) (a : Step) : (s.step a).Inv := by
  unfold Proc.step
  split_ifs
  · exact h
  · cases a with
    | act a => exact h.pf_fine_grow (pf_step_grow s.st a)
    | stopLookup pfID port => exact h.pf_fine_lookup pfID port
    | stopClose k => exact h.pf_fine_close k
    | stopRemove k => exact h.pf_fine_remove k

theorem Proc.Inv.pf_fine_run {s : Proc} (h : s.Inv) (acts : List Step) : (s.run acts).Inv := by
  induction acts generalizing s with
  | nil => exact h
  | cons a rest ih => exact ih (h.pf_fine_step a)

end portforward


namespace portforward

end portforward

namespace portforward

/-- After a crash no step changes anything. -/
theorem Proc.pf_fine_step_crashed {s : Proc} (h : s.st.core.crashed ≠ none) (a : Step) :
    s.step a = s := by
  unfold Proc.step
  cases hc : s.st.core.crashed with
  | none => exact absurd hc h
  | some v => simp

theorem Proc.pf_fine_step_alive {s : Proc} (h : s.st.core.crashed = none) (a : Step) :
    s.step a
      = match a with
        | .act a => { s with st := s.st.step a }
        | .stopLookup pfID port => StopForwardPorts.lookup pfID port s
        | .stopClose k => StopForwardPorts.close k s
        | .stopRemove k => StopForwardPorts.remove k s := by
  unfold Proc.step
  rw [h]
  rfl

theorem StopForwardPorts.pf_close_open {s : Proc} {k : Nat} {f : StopFrame}
    (hf : s.stops k = some f) (hpc : f.pc = StopResPC.atClose)
    (ho : s.st.core.closes f.wrapper.StopChan = 0) :
    StopForwardPorts.close k s
      = { s with
          st := { s.st with
            core := (closeChan f.wrapper.StopChan s.st.core).2
            calls := s.st.calls ++ [ExtCall.Close f.wrapper.PF] }
          stops := fun j =>
            if j = k then some { f with pc := StopResPC.atDelete } else s.stops j } := by
  simp [StopForwardPorts.close, hf, hpc, closeChan, ho]

theorem StopForwardPorts.pf_close_closed {s : Proc} {k : Nat} {f : StopFrame}
    (hf : s.stops k = some f) (hpc : f.pc = StopResPC.atClose)
    (ho : s.st.core.closes f.wrapper.StopChan ≠ 0) :
    StopForwardPorts.close k s
      = { s with
          st := { s.st with
            core := { (closeChan f.wrapper.StopChan s.st.core).2 with
              crashed := some closeOfClosed } } } := by
  simp [StopForwardPorts.close, hf, hpc, closeChan, ho]

theorem StopForwardPorts.pf_close_skip {s : Proc} {k : Nat}
    (h : ∀ f, s.stops k = some f → f.pc ≠ StopResPC.atClose) :
    StopForwardPorts.close k s = s := by
  unfold StopForwardPorts.close
  cases hf : s.stops k with
  | none => rfl
  | some f => simp [h f hf]

theorem StopForwardPorts.pf_remove_eq {s : Proc} {k : Nat} {f : StopFrame}
    (hf : s.stops k = some f) (hpc : f.pc = StopResPC.atDelete) :
    StopForwardPorts.remove k s
      = { s with
          st := send f.p (success "stop_forward_ports" (Payload.int f.id))
            { s.st with portForwarders := s.st.portForwarders.delete f.id }
          stops := fun j =>
            if j = k then some { f with pc := StopResPC.returned } else s.stops j } := by
  simp [StopForwardPorts.remove, hf, hpc]

theorem StopForwardPorts.pf_remove_skip {s : Proc} {k : Nat}
    (h : ∀ f, s.stops k = some f → f.pc ≠ StopResPC.atDelete) :
    StopForwardPorts.remove k s = s := by
  unfold StopForwardPorts.remove
  cases hf : s.stops k with
  | none => rfl
  | some f => simp [h f hf]

/-- The wrapper held by the frame of a Stop call on one ID shares no
channel and no forwarder with the wrapper registered under another ID. -/
theorem Proc.Inv.pf_frame_apart {s : Proc} (h : s.Inv) {k : Nat} {f : StopFrame}
    (hf : s.stops k = some f) {b : Int} {wb : PortForwarderWrapper}
    (hb : s.st.portForwarders b = some wb) (hne : f.id ≠ b) :
    f.wrapper.StopChan ≠ wb.StopChan ∧ f.wrapper.PF ≠ wb.PF :=
  ⟨fun e => hne (h.frame_reg k f b wb hf hb (Or.inl e.symm)).symm,
   fun e => hne (h.frame_reg k f b wb hf hb (Or.inr e.symm)).symm⟩

end portforward

namespace portforward

end portforward

/-! ## `socks5lib` with `StopSocks5Server` statement by statement -/

namespace socks5lib

/-- No step lowers the channel counter or the object counter. -/
theorem s5_step_mono (s : State) (a : Action) :
    s.core.nextChan ≤ (s.step a).core.nextChan ∧ s.nextObj ≤ (s.step a).nextObj := by
  cases hcr : s.core.crashed with
  | some v => rw [State.s5_step_crashed hcr]; exact ⟨le_rfl, le_rfl⟩
  | none =>
    rw [State.s5_step_alive hcr]
    cases a with
    | create lib listenPort username password port =>
      simp only
      unfold CreateDirectServerTCP safeOp CreateDirectServerTCP.fn
      simp only
      cases lib.NewServer
          { ListenPort := listenPort, UserName := username, Password := password,
            LogLevel := "info" } with
      | err e => exact ⟨le_rfl, le_rfl⟩
      | panic v => exact ⟨le_rfl, le_rfl⟩
      | ok _ =>
        exact ⟨by simp only [send, sendToPort, makeChan]; omega, by simp only [send]; omega⟩
    | start srvID port =>
      simp only
      cases hp : s.socks5Servers srvID with
      | none => rw [s5_Start_absent port hp]; exact ⟨le_rfl, le_rfl⟩
      | some w =>
        rw [s5_Start_present port hp]
        exact ⟨by simp [addTask, makeChan, withCancel], le_rfl⟩
    | workerEnter k =>
      simp only
      unfold workerEnter
      cases s.workers k with
      | none => exact ⟨le_rfl, le_rfl⟩
      | some wk =>
        simp only
        split_ifs
        · exact ⟨le_rfl, le_rfl⟩
        · exact ⟨le_rfl, le_rfl⟩
    | workerExit k r =>
      simp only
      unfold workerExit
      cases s.workers k with
      | none => exact ⟨le_rfl, le_rfl⟩
      | some wk =>
        simp only
        split_ifs
        · simp only [finishTask_nextChan]
          unfold workerRecover workerCleanup workerBody
          cases r <;> simp only [send, sendToPort] <;> exact ⟨le_rfl, le_rfl⟩
        · exact ⟨le_rfl, le_rfl⟩
    | stop srvID port =>
      simp only
      cases hp : s.socks5Servers srvID with
      | none => rw [s5_Stop_absent port hp]; exact ⟨le_rfl, le_rfl⟩
      | some w =>
        by_cases ho : s.core.closes w.StopChan = 0
        · rw [s5_Stop_open port hp ho]; exact ⟨le_rfl, le_rfl⟩
        · rw [s5_Stop_closed port hp ho]; exact ⟨le_rfl, le_rfl⟩
    | stopTaskEnter taskID port => exact ⟨(Core.Keep.keep_stopEnter _ _ _).nextChan, le_rfl⟩
    | stopTaskCancel k => exact ⟨(Core.Keep.keep_stopCancel _ _).nextChan, le_rfl⟩
    | stopTaskWake k => exact ⟨(Core.Keep.keep_stopWake _ _).nextChan, le_rfl⟩
    | registerPort port => exact ⟨le_rfl, le_rfl⟩
    | unregisterPort => exact ⟨(Core.Keep.keep_unregisterPort _).nextChan, le_rfl⟩

/-- How each step changes what is allocated and registered. -/
theorem s5_step_grow (s : State) (a : Action) : Grow s (s.step a) := by
  have hm := s5_step_mono s a
  by_cases hc : ∃ lib listenPort username password port,
      a = Action.create lib listenPort username password port
  · obtain ⟨lib, listenPort, username, password, port, rfl⟩ := hc
    cases hcr : s.core.crashed with
    | some v =>
      rw [State.s5_step_crashed hcr]
      exact ⟨le_rfl, le_rfl, fun _ _ h => Or.inl h, fun _ _ h => Or.inl h⟩
    | none =>
      refine ⟨hm.1, hm.2, ?_, ?_⟩
      · intro tid e he
        left
        rw [State.s5_step_alive hcr] at he
        rcases s5_Create_cases lib listenPort username password port s with
          ⟨_, _, _, _, h4, _⟩ | ⟨_, _, _, _, h4, _⟩
        · rw [← h4]; exact he
        · rw [← h4]; exact he
      · intro id w hw
        clear hm
        rw [State.s5_step_alive hcr] at hw ⊢
        simp only at hw ⊢
        revert hw
        unfold CreateDirectServerTCP safeOp CreateDirectServerTCP.fn
        simp only
        cases lib.NewServer
            { ListenPort := listenPort, UserName := username, Password := password,
              LogLevel := "info" } with
        | err e => exact fun hw => Or.inl hw
        | panic v => exact fun hw => Or.inl hw
        | ok _ =>
          simp only [send, sendToPort, makeChan, GoMap.set]
          intro hw
          split_ifs at hw with hid
          · right
            cases hw
            refine ⟨hid.symm, le_rfl, Nat.lt_succ_self _, le_rfl, Nat.lt_succ_self _,
              fun _ _ h => h, ?_⟩
            intro id2 w2 h2
            split_ifs at h2 with hid2
            · right; rw [hid2, hid]
            · left; exact h2
          · left; exact hw
  by_cases hst : ∃ srvID port, a = Action.start srvID port
  · obtain ⟨srvID, port, rfl⟩ := hst
    cases hcr : s.core.crashed with
    | some v =>
      rw [State.s5_step_crashed hcr]
      exact ⟨le_rfl, le_rfl, fun _ _ h => Or.inl h, fun _ _ h => Or.inl h⟩
    | none =>
      refine ⟨hm.1, hm.2, ?_, ?_⟩
      · intro tid e he
        rw [State.s5_step_alive hcr] at he ⊢
        simp only at he ⊢
        cases hp : s.socks5Servers srvID with
        | none =>
          rw [s5_Start_absent port hp] at he
          exact Or.inl he
        | some w =>
          rw [s5_Start_present port hp] at he ⊢
          simp only [addTask, makeChan, withCancel, GoMap.set] at he ⊢
          split_ifs at he with hid
          · right
            cases he
            exact ⟨le_rfl, Nat.lt_succ_self _, fun _ _ h => h⟩
          · left; exact he
      · intro id w hw
        left
        rw [State.s5_step_alive hcr] at hw
        simp only at hw
        cases hp : s.socks5Servers srvID with
        | none => rw [s5_Start_absent port hp] at hw; exact hw
        | some w0 => rw [s5_Start_present port hp] at hw; exact hw
  · have hq := State.s5_step_quiet s a
      (fun l lp u pw p e => hc ⟨l, lp, u, pw, p, e⟩) (fun i p e => hst ⟨i, p, e⟩)
    exact ⟨hm.1, hm.2, fun tid e he => Or.inl (hq.1.tasks tid e he),
      fun id w hw => Or.inl (hq.2.2 id w hw)⟩

theorem Proc.Inv.s5_fine_init : Proc.init.Inv := by
  constructor <;> simp [Proc.init, State.init, Core.init]

/-- The invariant passes through a step of `Action`: the frames are as
they were. -/
theorem Proc.Inv.s5_fine_grow {s : Proc} (h : s.Inv) {t : State} (g : Grow s.st t) :
    ({ s with st := t } : Proc).Inv := by
  constructor
  · intro tid e he
    rcases g.tasks tid e he with ho | ⟨_, hn, _⟩
    · exact lt_of_lt_of_le (h.task_lt tid e ho) g.chan
    · exact hn
  · intro id w hw
    rcases g.regs id w hw with ho | ⟨h1, _, h3, _, h5, _⟩
    · have := h.reg_ok id w ho
      exact ⟨this.1, lt_of_lt_of_le this.2.1 g.chan, lt_of_lt_of_le this.2.2 g.obj⟩
    · exact ⟨h1, h3, h5⟩
  · intro id id2 w w2 hw hw2 hd
    rcases g.regs id w hw with ho | ⟨_, h2, _, h4, _, _, h7⟩
    · rcases g.regs id2 w2 hw2 with ho2 | ⟨_, k2, _, k4, _, _, k7⟩
      · exact h.reg_inj id id2 w w2 ho ho2 hd
      · have := h.reg_ok id w ho
        rcases hd with hd | hd <;> omega
    · rcases h7 id2 w2 hw2 with ho2 | he
      · have := h.reg_ok id2 w2 ho2
        rcases hd with hd | hd <;> omega
      · exact he.symm
  · intro id w tid e hw he
    rcases g.regs id w hw with ho | ⟨_, h2, _, _, _, h6, _⟩
    · rcases g.tasks tid e he with eo | ⟨k1, _, _⟩
      · exact h.reg_task id w tid e ho eo
      · have := h.reg_ok id w ho
        omega
    · have := h.task_lt tid e (h6 tid e he)
      omega
  · intro k f hf
    have := h.frame_ok k f hf
    exact ⟨this.1, this.2.1, lt_of_lt_of_le this.2.2.1 g.chan, lt_of_lt_of_le this.2.2.2 g.obj⟩
  · intro k f tid e hf he
    rcases g.tasks tid e he with eo | ⟨k1, _, _⟩
    · exact h.frame_task k f tid e hf eo
    · have := h.frame_ok k f hf
      omega
  · intro k f id w hf hw hd
    rcases g.regs id w hw with ho | ⟨_, h2, _, h4, _, _, _⟩
    · exact h.frame_reg k f id w hf ho hd
    · have := h.frame_ok k f hf
      rcases hd with hd | hd <;> omega

theorem StopSocks5Server.s5_lookup_absent {s : Proc} {srvID : Int} (port : Int)
    (h : s.st.socks5Servers srvID = none) :
    StopSocks5Server.lookup srvID port s
      = { s with
          st := send (getPortOrDefault port s.st.core) (failure "stop_socks5_server"
            ("server " ++ toString srvID ++ " not found")) s.st } := by
  simp [StopSocks5Server.lookup, h]

theorem StopSocks5Server.s5_lookup_present {s : Proc} {srvID : Int} (port : Int)
    {w : Socks5ServerWrapper} (h : s.st.socks5Servers srvID = some w) :
    StopSocks5Server.lookup srvID port s
      = { s with
          stops := fun k =>
            if k = s.nextStop then
              some { id := srvID, p := getPortOrDefault port s.st.core, wrapper := w,
                     pc := StopResPC.atClose }
            else s.stops k
          nextStop := s.nextStop + 1 } := by
  simp [StopSocks5Server.lookup, h]

theorem Proc.Inv.s5_fine_lookup {s : Proc} (h : s.Inv) (srvID port : Int) :
    (StopSocks5Server.lookup srvID port s).Inv := by
  cases hp : s.st.socks5Servers srvID with
  | none =>
    rw [StopSocks5Server.s5_lookup_absent port hp]
    exact ⟨h.task_lt, h.reg_ok, h.reg_inj, h.reg_task, h.frame_ok, h.frame_task, h.frame_reg⟩
  | some w =>
    rw [StopSocks5Server.s5_lookup_present port hp]
    have hw := h.reg_ok srvID w hp
    refine ⟨h.task_lt, h.reg_ok, h.reg_inj, h.reg_task, ?_, ?_, ?_⟩
    · intro k f hf
      simp only at hf ⊢
      split_ifs at hf with hk
      · cases hf
        exact ⟨by omega, hw.1, hw.2.1, hw.2.2⟩
      · have := h.frame_ok k f hf
        exact ⟨by omega, this.2⟩
    · intro k f tid e hf he
      simp only at hf he
      split_ifs at hf with hk
      · cases hf
        exact h.reg_task srvID w tid e hp he
      · exact h.frame_task k f tid e hf he
    · intro k f id w2 hf hw2 hd
      simp only at hf hw2
      split_ifs at hf with hk
      · cases hf
        exact h.reg_inj id srvID w2 w hw2 hp hd
      · exact h.frame_reg k f id w2 hf hw2 hd

theorem Proc.Inv.s5_fine_close {s : Proc} (h : s.Inv) (k : Nat) :
    (StopSocks5Server.close k s).Inv := by
  unfold StopSocks5Server.close
  cases hk : s.stops k with
  | none => exact h
  | some f =>
    simp only
    split_ifs with hpc hopen
    · refine ⟨h.task_lt, h.reg_ok, h.reg_inj, h.reg_task, ?_, ?_, ?_⟩
      · intro j g hg
        simp only at hg
        split_ifs at hg with hj
        · cases hg
          rw [hj]
          exact h.frame_ok k f hk
        · exact h.frame_ok j g hg
      · intro j g tid e hg he
        simp only at hg
        split_ifs at hg with hj
        · cases hg
          exact h.frame_task k f tid e hk he
        · exact h.frame_task j g tid e hg he
      · intro j g id w hg hw hd
        simp only at hg
        split_ifs at hg with hj
        · cases hg
          exact h.frame_reg k f id w hk hw hd
        · exact h.frame_reg j g id w hg hw hd
    · exact ⟨h.task_lt, h.reg_ok, h.reg_inj, h.reg_task, h.frame_ok, h.frame_task,
        h.frame_reg⟩
    · exact h

theorem Proc.Inv.s5_fine_remove {s : Proc} (h : s.Inv) (k : Nat) :
    (StopSocks5Server.remove k s).Inv := by
  unfold StopSocks5Server.remove
  cases hk : s.stops k with
  | none => exact h
  | some f =>
    simp only
    split_ifs with hpc
    · have hsub : ∀ id w, (send f.p (success "stop_socks5_server" (Payload.int f.id))
          { s.st with socks5Servers := s.st.socks5Servers.delete f.id }).socks5Servers id
            = some w → s.st.socks5Servers id = some w := by
        intro id w hw
        simp only [send, GoMap.delete] at hw
        split_ifs at hw
        exact hw
      refine ⟨h.task_lt, fun id w hw => h.reg_ok id w (hsub id w hw),
        fun id id2 w w2 hw hw2 => h.reg_inj id id2 w w2 (hsub id w hw) (hsub id2 w2 hw2),
        fun id w tid e hw he => h.reg_task id w tid e (hsub id w hw) he, ?_, ?_, ?_⟩
      · intro j g hg
        simp only at hg
        split_ifs at hg with hj
        · cases hg
          rw [hj]
          exact h.frame_ok k f hk
        · exact h.frame_ok j g hg
      · intro j g tid e hg he
        simp only at hg
        split_ifs at hg with hj
        · cases hg
          exact h.frame_task k f tid e hk he
        · exact h.frame_task j g tid e hg he
      · intro j g id w hg hw hd
        simp only at hg
        split_ifs at hg with hj
        · cases hg
          exact h.frame_reg k f id w hk (hsub id w hw) hd
        · exact h.frame_reg j g id w hg (hsub id w hw) hd
    · exact h

theorem Proc.Inv.s5_fine_step {s : Proc} (h : s.Inv) (a : Step) : (s.step a).Inv := by
  unfold Proc.step
  split_ifs
  · exact h
  · cases a with
    | act a => exact h.s5_fine_grow (s5_step_grow s.st a)
    | stopLookup srvID port => exact h.s5_fine_lookup srvID port
    | stopClose k => exact h.s5_fine_close k
    | stopRemove k => exact h.s5_fine_remove k

theorem Proc.Inv.s5_fine_run {s : Proc} (h : s.Inv) (acts : List Step) : (s.run acts).Inv := by
  induction acts generalizing s with
  | nil => exact h
  | cons a rest ih => exact ih (h.s5_fine_step a)


end socks5lib

namespace socks5lib

/-- After a crash no step changes anything. -/
theorem Proc.s5_fine_step_crashed {s : Proc} (h : s.st.core.crashed ≠ none) (a : Step) :
    s.step a = s := by
  unfold Proc.step
  cases hc : s.st.core.crashed with
  | none => exact absurd hc h
  | some v => simp

theorem Proc.s5_fine_step_alive {s : Proc} (h : s.st.core.crashed = none) (a : Step) :
    s.step a
      = match a with
        | .act a => { s with st := s.st.step a }
        | .stopLookup srvID port => StopSocks5Server.lookup srvID port s
        | .stopClose k => StopSocks5Server.close k s
        | .stopRemove k => StopSocks5Server.remove k s := by
  unfold Proc.step
  rw [h]
  rfl

theorem StopSocks5Server.s5_close_open {s : Proc} {k : Nat} {f : StopFrame}
    (hf : s.stops k = some f) (hpc : f.pc = StopResPC.atClose)
    (ho : s.st.core.closes f.wrapper.StopChan = 0) :
    StopSocks5Server.close k s
      = { s with
          st := { s.st with
            core := (closeChan f.wrapper.StopChan s.st.core).2 }
          stops := fun j =>
            if j = k then some { f with pc := StopResPC.atDelete } else s.stops j } := by
  simp [StopSocks5Server.close, hf, hpc, closeChan, ho]

theorem StopSocks5Server.s5_close_closed {s : Proc} {k : Nat} {f : StopFrame}
    (hf : s.stops k = some f) (hpc : f.pc = StopResPC.atClose)
    (ho : s.st.core.closes f.wrapper.StopChan ≠ 0) :
    StopSocks5Server.close k s
      = { s with
          st := { s.st with
            core := { (closeChan f.wrapper.StopChan s.st.core).2 with
              crashed := some closeOfClosed } } } := by
  simp [StopSocks5Server.close, hf, hpc, closeChan, ho]

theorem StopSocks5Server.s5_close_skip {s : Proc} {k : Nat}
    (h : ∀ f, s.stops k = some f → f.pc ≠ StopResPC.atClose) :
    StopSocks5Server.close k s = s := by
  unfold StopSocks5Server.close
  cases hf : s.stops k with
  | none => rfl
  | some f => simp [h f hf]

theorem StopSocks5Server.s5_remove_eq {s : Proc} {k : Nat} {f : StopFrame}
    (hf : s.stops k = some f) (hpc : f.pc = StopResPC.atDelete) :
    StopSocks5Server.remove k s
      = { s with
          st := send f.p (success "stop_socks5_server" (Payload.int f.id))
            { s.st with socks5Servers := s.st.socks5Servers.delete f.id }
          stops := fun j =>
            if j = k then some { f with pc := StopResPC.returned } else s.stops j } := by
  simp [StopSocks5Server.remove, hf, hpc]

theorem StopSocks5Server.s5_remove_skip {s : Proc} {k : Nat}
    (h : ∀ f, s.stops k = some f → f.pc ≠ StopResPC.atDelete) :
    StopSocks5Server.remove k s = s := by
  unfold StopSocks5Server.remove
  cases hf : s.stops k with
  | none => rfl
  | some f => simp [h f hf]

/-- The wrapper held by the frame of a Stop call on one ID shares no
channel and no server with the wrapper registered under another ID. -/
theorem Proc.Inv.s5_frame_apart {s : Proc} (h : s.Inv) {k : Nat} {f : StopFrame}
    (hf : s.stops k = some f) {b : Int} {wb : Socks5ServerWrapper}
    (hb : s.st.socks5Servers b = some wb) (hne : f.id ≠ b) :
    f.wrapper.StopChan ≠ wb.StopChan ∧ f.wrapper.Server ≠ wb.Server :=
  ⟨fun e => hne (h.frame_reg k f b wb hf hb (Or.inl e.symm)).symm,
   fun e => hne (h.frame_reg k f b wb hf hb (Or.inr e.symm)).symm⟩

end socks5lib

namespace socks5lib

end socks5lib

/-! ## Claims about the task registry -/

/-- No `StopTask` caller that found its record is ever released: in every
reachable state the `done` channel of each frame is still open and the
frame has not returned. -/
theorem StopTask_never_released (acts : List Action) (k : Nat) (f : StopCall)
    (h : (Core.init.run acts).stopCalls k = some f) :
    (Core.init.run acts).closes f.entry.done = 0 ∧ f.pc ≠ StopPC.returned := by
  have := (Core.Inv.inv_init.inv_run acts).call_ok k f h
  exact ⟨this.2.2.2.1, this.2.2.2.2.2⟩

/-- C1: evaluation of the sequence `addTask`, `StopTask` (lookup and
delete, then `entry.cancel()`), `finishTask(1)`, and the attempt of the
`StopTask` caller to pass `<-entry.done`.  The task gets ID 1 and `done`
channel 0; `StopTask` removes the record; `finishTask(1)` then finds no
record and changes nothing, so channel 0 is never closed; the caller stays
blocked at `<-entry.done` and no response at all is sent. -/
theorem C1_finishTask_after_StopTask_does_not_close_done :
    (register Core.init).1 = 1
    ∧ (register Core.init).2.tasks 1 = some { cancel := 0, done := 0 }
    ∧ (Core.init.run [.register, .stopEnter 1 7]).tasks 1 = none
    ∧ (Core.init.run [.register, .stopEnter 1 7, .stopCancel 0]).stopCalls 0
        = some { id := 1, p := 7, entry := { cancel := 0, done := 0 }, pc := StopPC.atWait }
    ∧ finishTask 1 (Core.init.run [.register, .stopEnter 1 7, .stopCancel 0])
        = Core.init.run [.register, .stopEnter 1 7, .stopCancel 0]
    ∧ (Core.init.run [.register, .stopEnter 1 7, .stopCancel 0, .finishTask 1]).closes 0 = 0
    ∧ chanClosed 0 (Core.init.run [.register, .stopEnter 1 7, .stopCancel 0, .finishTask 1])
        = false
    ∧ (Core.init.run
        [.register, .stopEnter 1 7, .stopCancel 0, .finishTask 1, .stopWake 0]).stopCalls 0
        = some { id := 1, p := 7, entry := { cancel := 0, done := 0 }, pc := StopPC.atWait }
    ∧ (Core.init.run
        [.register, .stopEnter 1 7, .stopCancel 0, .finishTask 1, .stopWake 0]).sent = [] := by
  refine ⟨by decide, by decide, by decide, by decide, rfl, by decide, by decide, by decide,
    by decide⟩

/-- C2: `StopTask` on a TaskID absent from `tasks` sends the failure
`task <id> not found` to the caller's port and does nothing else: no
cancel function is invoked, no frame waits on a `done` channel, no channel
is closed, and `tasks`, `nextTask` and the delete counts are unchanged.
An ID is absent in particular right after `finishTask` completed it and
right after an earlier `StopTask` removed it. -/
theorem C2_StopTask_absent_reports_not_found (s : Core) (id port : Int)
    (h : s.tasks id = none) :
    (StopTask.enter id port s).sent
        = s.sent ++ [(getPortOrDefault port s, Msg.resp
            { Op := "stop", Success := false,
              Error := "task " ++ toString id ++ " not found", Data := Payload.null })]
    ∧ (StopTask.enter id port s).cancels = s.cancels
    ∧ (StopTask.enter id port s).stopCalls = s.stopCalls
    ∧ (StopTask.enter id port s).nextCall = s.nextCall
    ∧ (StopTask.enter id port s).closes = s.closes
    ∧ (StopTask.enter id port s).tasks = s.tasks
    ∧ (StopTask.enter id port s).nextTask = s.nextTask
    ∧ (StopTask.enter id port s).deletes = s.deletes
    ∧ (StopTask.enter id port s).crashed = s.crashed
    ∧ (∀ acts : List Action, ((Core.init.run acts).step (.finishTask id)).tasks id = none)
    ∧ (∀ (acts : List Action) (p : Int),
        ((Core.init.run acts).step (.stopEnter id p)).tasks id = none) := by
  rw [StopTask.enter_absent h]
  refine ⟨rfl, rfl, rfl, rfl, rfl, rfl, rfl, rfl, rfl, ?_, ?_⟩
  · intro acts
    have hinv := Core.Inv.inv_init.inv_run acts
    rw [Core.step_alive hinv.crashed]
    simp only
    cases hid : (Core.init.run acts).tasks id with
    | none => rw [finishTask_absent hid]; exact hid
    | some e =>
      rw [finishTask_open hid (hinv.task_ok id e hid).2.2.1]
      simp [GoMap.delete]
  · intro acts p
    have hinv := Core.Inv.inv_init.inv_run acts
    rw [Core.step_alive hinv.crashed]
    simp only
    rw [StopTask.enter_tasks]
    simp [GoMap.delete]

/-- Witness of C2: in the initial state TaskID 5 is absent and `StopTask(5, 9)`
only sends the failure to port 9. -/
theorem C2_StopTask_absent_reports_not_found_witness :
    Core.init.tasks 5 = none
    ∧ (StopTask.enter 5 9 Core.init).sent
        = [(9, Msg.resp
            { Op := "stop", Success := false, Error := "task 5 not found",
              Data := Payload.null })]
    ∧ (StopTask.enter 5 9 Core.init).nextCall = 0 :=
  ⟨rfl, by
    have h := (C2_StopTask_absent_reports_not_found Core.init 5 9 rfl).1
    rw [h]; decide,
    (C2_StopTask_absent_reports_not_found Core.init 5 9 rfl).2.2.2.1⟩

/-- C3: of two `StopTask` calls on a registered TaskID, the first finds
the record (it leaves one frame holding that record, removes the ID from
`tasks` and touches no other ID) and its `entry.cancel()` raises the
invocation count of that cancel function by one and of no other; the
second call, whether it runs before or after that `entry.cancel()`, only
sends `task <id> not found`: it creates no frame and invokes nothing.
Over every sequence of steps each cancel function is invoked at most
once. -/
theorem C3_StopTask_twice_one_finds_other_not_found (s : Core) (id p1 p2 : Int)
    (e : taskRec) (h : s.tasks id = some e) :
    (StopTask.enter id p1 s).stopCalls s.nextCall
        = some { id := id, p := getPortOrDefault p1 s, entry := e, pc := StopPC.atCancel }
    ∧ (StopTask.enter id p1 s).nextCall = s.nextCall + 1
    ∧ (∀ k, k ≠ s.nextCall → (StopTask.enter id p1 s).stopCalls k = s.stopCalls k)
    ∧ (StopTask.enter id p1 s).tasks id = none
    ∧ (∀ j, j ≠ id → (StopTask.enter id p1 s).tasks j = s.tasks j)
    ∧ (StopTask.enter id p1 s).cancels = s.cancels
    ∧ (StopTask.enter id p1 s).closes = s.closes
    ∧ (StopTask.enter id p1 s).sent = s.sent
    ∧ (StopTask.cancel s.nextCall (StopTask.enter id p1 s)).cancels e.cancel
        = s.cancels e.cancel + 1
    ∧ (∀ c, c ≠ e.cancel →
        (StopTask.cancel s.nextCall (StopTask.enter id p1 s)).cancels c = s.cancels c)
    ∧ (∀ s1, s1 = StopTask.enter id p1 s
          ∨ s1 = StopTask.cancel s.nextCall (StopTask.enter id p1 s) →
        (StopTask.enter id p2 s1).sent
            = s1.sent ++ [(getPortOrDefault p2 s1, Msg.resp (stopNotFound id))]
        ∧ (StopTask.enter id p2 s1).stopCalls = s1.stopCalls
        ∧ (StopTask.enter id p2 s1).nextCall = s1.nextCall
        ∧ (StopTask.enter id p2 s1).cancels = s1.cancels
        ∧ (StopTask.enter id p2 s1).tasks = s1.tasks)
    ∧ (∀ (acts : List Action) (c : Nat), (Core.init.run acts).cancels c ≤ 1) := by
  have hf : (StopTask.enter id p1 s).stopCalls s.nextCall
      = some { id := id, p := getPortOrDefault p1 s, entry := e, pc := StopPC.atCancel } := by
    rw [StopTask.enter_found h]; simp
  have ht : (StopTask.enter id p1 s).tasks id = none := by
    rw [StopTask.enter_tasks]; simp [GoMap.delete]
  have hc : (StopTask.enter id p1 s).cancels = s.cancels := by
    rw [StopTask.enter_found h]
  have hcan : StopTask.cancel s.nextCall (StopTask.enter id p1 s)
      = { callCancel e.cancel (StopTask.enter id p1 s) with
          stopCalls := fun j =>
            if j = s.nextCall then
              some { id := id, p := getPortOrDefault p1 s, entry := e, pc := StopPC.atWait }
            else (StopTask.enter id p1 s).stopCalls j } := by
    simp [StopTask.cancel, hf, callCancel]
  refine ⟨hf, ?_, ?_, ht, ?_, hc, ?_, ?_, ?_, ?_, ?_, ?_⟩
  · rw [StopTask.enter_found h]
  · intro k hk
    rw [StopTask.enter_found h]
    simp [hk]
  · intro j hj
    rw [StopTask.enter_tasks]
    simp [GoMap.delete, hj]
  · rw [StopTask.enter_found h]
  · rw [StopTask.enter_found h]
  · rw [hcan]
    simp [callCancel, hc]
  · intro c hcne
    rw [hcan]
    simp [callCancel, hc, hcne]
  · intro s1 hs1
    have habs : s1.tasks id = none := by
      rcases hs1 with hs1 | hs1
      · rw [hs1]; exact ht
      · rw [hs1, (StopTask.cancel_tasks _ _).1]; exact ht
    rw [StopTask.enter_absent habs]
    exact ⟨rfl, rfl, rfl, rfl, rfl⟩
  · intro acts c
    exact (Core.Inv.inv_init.inv_run acts).cancels_le c

/-- Witness of C3: task 1 registered in the initial state and stopped
twice, from ports 7 and 8. -/
theorem C3_StopTask_twice_one_finds_other_not_found_witness :
    (register Core.init).2.tasks 1 = some { cancel := 0, done := 0 }
    ∧ (StopTask.enter 1 7 (register Core.init).2).stopCalls 0
        = some { id := 1, p := 7, entry := { cancel := 0, done := 0 }, pc := StopPC.atCancel }
    ∧ (StopTask.enter 1 7 (register Core.init).2).tasks 1 = none :=
  ⟨rfl,
    (C3_StopTask_twice_one_finds_other_not_found (register Core.init).2 1 7 8
      { cancel := 0, done := 0 } rfl).1,
    (C3_StopTask_twice_one_finds_other_not_found (register Core.init).2 1 7 8
      { cancel := 0, done := 0 } rfl).2.2.2.1⟩

/-- C4: in every state reached by any sequence of `addTask`, `StopTask`
and `finishTask` steps, `close` has been executed at most once on every
channel, in particular on every `done` channel; the `done` channel of
every record still in `tasks` is open, so the `close` in `finishTask`
never meets a closed channel and no close-of-closed panic has ended the
process; and `delete(tasks, _)` has removed every record at most once. -/
theorem C4_done_closed_and_record_deleted_at_most_once (acts : List Action) :
    (∀ c, (Core.init.run acts).closes c ≤ 1)
    ∧ (∀ id e, (Core.init.run acts).tasks id = some e → (Core.init.run acts).closes e.done = 0)
    ∧ (Core.init.run acts).crashed = none
    ∧ (∀ r, (Core.init.run acts).deletes r ≤ 1) := by
  have h := Core.Inv.inv_init.inv_run acts
  exact ⟨h.closes_le, fun id e he => (h.task_ok id e he).2.2.1, h.crashed, h.deletes_le⟩

/-- C5: short of `int64` overflow (fewer than `2^63 - 1` steps), `addTask`
in any reachable state returns the previous `nextTask` plus one, which is
at least 1 (exactly 1 for the first task), stores it in `nextTask`, and
maps exactly that ID to a fresh record whose `done` channel is open; the
ID was not a key before, no other key changes, and nothing panics.  Every
key of `tasks` lies between 1 and `nextTask`; the TaskIDs returned along
a run are strictly increasing; and an absent ID at or below `nextTask`
stays absent through every continuation, where `StopTask` reports it as
not found. -/
theorem C5_addTask_ids_increase_never_reused (acts acts2 : List Action) (cancel : Nat)
    (h : ((acts ++ acts2).length : Int) < maxInt64) :
    (addTask cancel Core.init).1 = 1
    ∧ (addTask cancel (Core.init.run acts)).1 = (Core.init.run acts).nextTask + 1
    ∧ 1 ≤ (addTask cancel (Core.init.run acts)).1
    ∧ (addTask cancel (Core.init.run acts)).2.nextTask = (Core.init.run acts).nextTask + 1
    ∧ (addTask cancel (Core.init.run acts)).2.tasks ((Core.init.run acts).nextTask + 1)
        = some { cancel := cancel, done := (Core.init.run acts).nextChan }
    ∧ (addTask cancel (Core.init.run acts)).2.closes (Core.init.run acts).nextChan = 0
    ∧ (addTask cancel (Core.init.run acts)).2.crashed = none
    ∧ (Core.init.run acts).tasks ((Core.init.run acts).nextTask + 1) = none
    ∧ (∀ j, j ≠ (Core.init.run acts).nextTask + 1 →
        (addTask cancel (Core.init.run acts)).2.tasks j = (Core.init.run acts).tasks j)
    ∧ (∀ id e, (Core.init.run acts).tasks id = some e →
        1 ≤ id ∧ id ≤ (Core.init.run acts).nextTask)
    ∧ (Core.init.taskIDs acts).Pairwise (fun a b => a < b)
    ∧ (∀ i ∈ Core.init.taskIDs acts, 1 ≤ i)
    ∧ (∀ id p, id ≤ (Core.init.run acts).nextTask → (Core.init.run acts).tasks id = none →
        (Core.init.run (acts ++ acts2)).tasks id = none
        ∧ (StopTask.enter id p (Core.init.run (acts ++ acts2))).sent
            = (Core.init.run (acts ++ acts2)).sent
              ++ [(getPortOrDefault p (Core.init.run (acts ++ acts2)),
                    Msg.resp (stopNotFound id))]) := by
  simp only [List.length_append, Nat.cast_add] at h
  have hlen : (0 : Int) ≤ acts2.length := Int.natCast_nonneg _
  have hb : (Core.init.run acts).Bnd (0 + acts.length) := Core.Bnd.bnd_init.bnd_run acts (by omega)
  have hinv := Core.Inv.inv_init.inv_run acts
  have hspec := addTask_spec hb (by omega) cancel
  have hsorted := Core.taskIDs_sorted Core.Bnd.bnd_init acts (by omega)
  have hfresh : (Core.init.run acts).tasks ((Core.init.run acts).nextTask + 1) = none := by
    cases hx : (Core.init.run acts).tasks ((Core.init.run acts).nextTask + 1) with
    | none => rfl
    | some e => have := hb.keys _ e hx; omega
  refine ⟨rfl, hspec.1, ?_, hspec.2.1, ?_, ?_, ?_, hfresh, ?_, hb.keys, hsorted.1, ?_, ?_⟩
  · rw [hspec.1]; have := hb.lo; omega
  · rw [hspec.2.2.1]; simp [GoMap.set]
  · rw [hspec.2.2.2.1]; exact hinv.closes_fresh _ le_rfl
  · rw [hspec.2.2.2.2]; exact hinv.crashed
  · intro j hj
    rw [hspec.2.2.1]
    simp [GoMap.set, hj]
  · intro i hi
    have := hsorted.2 i hi
    simp only [Core.init] at this
    omega
  · intro id p hid habs
    have hab2 : (Core.init.run (acts ++ acts2)).tasks id = none := by
      rw [Core.run_append]
      exact Core.absent_run hb acts2 (by omega) id hid habs
    exact ⟨hab2, by rw [StopTask.enter_absent hab2]; rfl⟩

/-- Witness of C5: register, stop task 1, register again; then two more
registrations. -/
theorem C5_addTask_ids_increase_never_reused_witness :
    ((([Action.register, Action.stopEnter 1 7, Action.register]
        ++ [Action.register, Action.register]).length : Int) < maxInt64)
    ∧ (addTask 0 (Core.init.run [.register, .stopEnter 1 7, .register])).1 = 3
    ∧ Core.init.taskIDs [.register, .stopEnter 1 7, .register] = [1, 2]
    ∧ (Core.init.run ([.register, .stopEnter 1 7, .register]
        ++ [.register, .register])).tasks 1 = none :=
  ⟨by decide, by decide, by decide,
    ((C5_addTask_ids_increase_never_reused [.register, .stopEnter 1 7, .register]
      [.register, .register] 0 (by decide)).2.2.2.2.2.2.2.2.2.2.2.2 1 0
        (by decide) (by decide)).1⟩

/-- C6: in every trace in which `finishTask(id)` has not executed, no
`StopTask` call for `id` has returned from its wait and no success
response `{op: stop, success: true, data: id}` has been sent to any port.
Applied to the prefixes of a trace: a `stop` success for `id` is never
sent before `finishTask(id)` has executed.  (The wait is in fact never
passed at all, see `StopTask_never_released`.) -/
theorem C6_no_stop_success_before_finishTask (acts : List Action) (id : Int) :
    Action.finishTask id ∉ acts →
    (∀ p, (p, Msg.resp (stopSuccess id)) ∉ (Core.init.run acts).sent)
    ∧ (∀ k f, (Core.init.run acts).stopCalls k = some f → f.id = id →
        f.pc ≠ StopPC.returned) := by
  intro _
  constructor
  · intro p hp
    have := Core.run_sent_no_success acts _ hp (stopSuccess id) rfl
    simp [stopSuccess] at this
  · intro k f hf _
    exact ((Core.Inv.inv_init.inv_run acts).call_ok k f hf).2.2.2.2.2

/-- Witness of C6: task 1 is registered and stopped while its worker has
not finished; the caller is still waiting and nothing was sent to port 7. -/
theorem C6_no_stop_success_before_finishTask_witness :
    Action.finishTask 1 ∉ [Action.register, Action.stopEnter 1 7, Action.stopCancel 0,
        Action.stopWake 0]
    ∧ (7, Msg.resp (stopSuccess 1)) ∉
        (Core.init.run [.register, .stopEnter 1 7, .stopCancel 0, .stopWake 0]).sent
    ∧ (Core.init.run [.register, .stopEnter 1 7, .stopCancel 0, .stopWake 0]).stopCalls 0
        = some { id := 1, p := 7, entry := { cancel := 0, done := 0 }, pc := StopPC.atWait } :=
  ⟨by decide,
    (C6_no_stop_success_before_finishTask
      [.register, .stopEnter 1 7, .stopCancel 0, .stopWake 0] 1 (by decide)).1 7,
    by decide⟩

/-! ## Claims about the resource registries -/

/-- C7: short of `int64` overflow, in each of `portforward`, `socks5lib`
and `socks5lib2` the ResourceIDs reported by the successful Create calls
of a run are strictly increasing, lie between 1 and the current counter,
and a Create call in the reached state either reports nothing and leaves
the counter alone or reports exactly the counter plus one and stores it;
Stop and the exit of a worker leave the counter unchanged in every state.
Hence an ID, once assigned, is never assigned again, whether or not its
entry was removed. -/
theorem C7_resource_ids_strictly_increasing
    (a1 : List portforward.Action) (a2 : List socks5lib.Action)
    (a3 : List socks5lib2.Action)
    (h1 : (a1.length : Int) < maxInt64) (h2 : (a2.length : Int) < maxInt64)
    (h3 : (a3.length : Int) < maxInt64) :
    ((reportedIDs portforward.createOps (portforward.State.init.run a1).core.sent).Pairwise
        (fun a b => a < b)
      ∧ (∀ i ∈ reportedIDs portforward.createOps (portforward.State.init.run a1).core.sent,
          1 ≤ i ∧ i ≤ (portforward.State.init.run a1).nextPFID)
      ∧ (∀ lib urlStr portsStr addressStr port,
          ((portforward.CreatePortForwarder lib urlStr portsStr addressStr port
                (portforward.State.init.run a1)).2.nextPFID
              = (portforward.State.init.run a1).nextPFID
            ∧ reportedIDs portforward.createOps
                (portforward.CreatePortForwarder lib urlStr portsStr addressStr port
                  (portforward.State.init.run a1)).2.core.sent
              = reportedIDs portforward.createOps (portforward.State.init.run a1).core.sent)
          ∨ ((portforward.CreatePortForwarder lib urlStr portsStr addressStr port
                (portforward.State.init.run a1)).2.nextPFID
              = (portforward.State.init.run a1).nextPFID + 1
            ∧ reportedIDs portforward.createOps
                (portforward.CreatePortForwarder lib urlStr portsStr addressStr port
                  (portforward.State.init.run a1)).2.core.sent
              = reportedIDs portforward.createOps (portforward.State.init.run a1).core.sent
                ++ [(portforward.State.init.run a1).nextPFID + 1]))
      ∧ (∀ (s : portforward.State) (id port : Int),
          (portforward.StopForwardPorts id port s).nextPFID = s.nextPFID)
      ∧ (∀ (s : portforward.State) (k : Nat) (r : Outcome Unit),
          (portforward.workerExit k r s).nextPFID = s.nextPFID))
    ∧ ((reportedIDs socks5lib.createOps (socks5lib.State.init.run a2).core.sent).Pairwise
        (fun a b => a < b)
      ∧ (∀ i ∈ reportedIDs socks5lib.createOps (socks5lib.State.init.run a2).core.sent,
          1 ≤ i ∧ i ≤ (socks5lib.State.init.run a2).nextSrvID)
      ∧ (∀ lib listenPort username password port,
          ((socks5lib.CreateDirectServerTCP lib listenPort username password port
                (socks5lib.State.init.run a2)).2.nextSrvID
              = (socks5lib.State.init.run a2).nextSrvID
            ∧ reportedIDs socks5lib.createOps
                (socks5lib.CreateDirectServerTCP lib listenPort username password port
                  (socks5lib.State.init.run a2)).2.core.sent
              = reportedIDs socks5lib.createOps (socks5lib.State.init.run a2).core.sent)
          ∨ ((socks5lib.CreateDirectServerTCP lib listenPort username password port
                (socks5lib.State.init.run a2)).2.nextSrvID
              = (socks5lib.State.init.run a2).nextSrvID + 1
            ∧ reportedIDs socks5lib.createOps
                (socks5lib.CreateDirectServerTCP lib listenPort username password port
                  (socks5lib.State.init.run a2)).2.core.sent
              = reportedIDs socks5lib.createOps (socks5lib.State.init.run a2).core.sent
                ++ [(socks5lib.State.init.run a2).nextSrvID + 1]))
      ∧ (∀ (s : socks5lib.State) (id port : Int),
          (socks5lib.StopSocks5Server id port s).nextSrvID = s.nextSrvID)
      ∧ (∀ (s : socks5lib.State) (k : Nat) (r : Outcome Unit),
          (socks5lib.workerExit k r s).nextSrvID = s.nextSrvID))
    ∧ ((reportedIDs socks5lib2.createOps (socks5lib2.State.init.run a3).core.sent).Pairwise
        (fun a b => a < b)
      ∧ (∀ i ∈ reportedIDs socks5lib2.createOps (socks5lib2.State.init.run a3).core.sent,
          1 ≤ i ∧ i ≤ (socks5lib2.State.init.run a3).nextSrvID)
      ∧ (∀ lib listenPort username password port,
          ((socks5lib2.CreateDirectServerTCP lib listenPort username password port
                (socks5lib2.State.init.run a3)).2.nextSrvID
              = (socks5lib2.State.init.run a3).nextSrvID
            ∧ reportedIDs socks5lib2.createOps
                (socks5lib2.CreateDirectServerTCP lib listenPort username password port
                  (socks5lib2.State.init.run a3)).2.core.sent
              = reportedIDs socks5lib2.createOps (socks5lib2.State.init.run a3).core.sent)
          ∨ ((socks5lib2.CreateDirectServerTCP lib listenPort username password port
                (socks5lib2.State.init.run a3)).2.nextSrvID
              = (socks5lib2.State.init.run a3).nextSrvID + 1
            ∧ reportedIDs socks5lib2.createOps
                (socks5lib2.CreateDirectServerTCP lib listenPort username password port
                  (socks5lib2.State.init.run a3)).2.core.sent
              = reportedIDs socks5lib2.createOps (socks5lib2.State.init.run a3).core.sent
                ++ [(socks5lib2.State.init.run a3).nextSrvID + 1]))
      ∧ (∀ lib listenPort username password proxyAddr proxyUser proxyPass port,
          ((socks5lib2.CreateProxyToSocks5ServerTCP lib listenPort username password
                proxyAddr proxyUser proxyPass port (socks5lib2.State.init.run a3)).2.nextSrvID
              = (socks5lib2.State.init.run a3).nextSrvID
            ∧ reportedIDs socks5lib2.createOps
                (socks5lib2.CreateProxyToSocks5ServerTCP lib listenPort username password
                  proxyAddr proxyUser proxyPass port
                  (socks5lib2.State.init.run a3)).2.core.sent
              = reportedIDs socks5lib2.createOps (socks5lib2.State.init.run a3).core.sent)
          ∨ ((socks5lib2.CreateProxyToSocks5ServerTCP lib listenPort username password
                proxyAddr proxyUser proxyPass port (socks5lib2.State.init.run a3)).2.nextSrvID
              = (socks5lib2.State.init.run a3).nextSrvID + 1
            ∧ reportedIDs socks5lib2.createOps
                (socks5lib2.CreateProxyToSocks5ServerTCP lib listenPort username password
                  proxyAddr proxyUser proxyPass port
                  (socks5lib2.State.init.run a3)).2.core.sent
              = reportedIDs socks5lib2.createOps (socks5lib2.State.init.run a3).core.sent
                ++ [(socks5lib2.State.init.run a3).nextSrvID + 1]))
      ∧ (∀ (s : socks5lib2.State) (id port : Int) (shutdown : Option String),
          (socks5lib2.StopSocks5Server id port shutdown s).nextSrvID = s.nextSrvID)
      ∧ (∀ (s : socks5lib2.State) (k : Nat) (r : Outcome Unit),
          (socks5lib2.workerExit k r s).nextSrvID = s.nextSrvID)) := by
  have b1 := portforward.State.Bnd.pf_init.pf_run a1 (by omega)
  have b2 := socks5lib.State.Bnd.s5_init.s5_run a2 (by omega)
  have b3 := socks5lib2.State.Bnd.s52_init.s52_run a3 (by omega)
  refine ⟨⟨b1.sorted, b1.ids_le, ?_, ?_, ?_⟩, ⟨b2.sorted, b2.ids_le, ?_, ?_, ?_⟩,
    ⟨b3.sorted, b3.ids_le, ?_, ?_, ?_, ?_⟩⟩
  · intro lib urlStr portsStr addressStr port
    exact portforward.pf_Create_ids b1 (by omega) lib urlStr portsStr addressStr port
  · intro s id port
    exact (portforward.StopForwardPorts_quiet id port s).2.1
  · intro s k r
    exact (portforward.pf_workerExit_quiet k r s).2.1
  · intro lib listenPort username password port
    exact socks5lib.s5_Create_ids b2 (by omega) lib listenPort username password port
  · intro s id port
    exact (socks5lib.s5_Stop_quiet id port s).2.1
  · intro s k r
    exact (socks5lib.s5_workerExit_quiet k r s).2.1
  · intro lib listenPort username password port
    exact socks5lib2.s52_Create_ids b3 (by omega) lib listenPort username password _ _ _
      (by decide)
  · intro lib listenPort username password proxyAddr proxyUser proxyPass port
    exact socks5lib2.s52_Create_ids b3 (by omega) lib listenPort username password _ _ _
      (by decide)
  · intro s id port shutdown
    exact (socks5lib2.s52_Stop_quiet id port shutdown s).2.1
  · intro s k r
    exact (socks5lib2.s52_workerExit_quiet k r s).2.1

/-- Witness of C7: three runs with successful and rejected Create calls
around removals; the reported IDs are 1, 2 in `portforward` and
`socks5lib` and 1, 2, 3 in `socks5lib2`. -/
theorem C7_resource_ids_strictly_increasing_witness :
    ((portforward.sampleRun.length : Int) < maxInt64
      ∧ (socks5lib.sampleRun.length : Int) < maxInt64
      ∧ (socks5lib2.sampleRun.length : Int) < maxInt64)
    ∧ reportedIDs portforward.createOps
        (portforward.State.init.run portforward.sampleRun).core.sent = [1, 2]
    ∧ (portforward.State.init.run portforward.sampleRun).portForwarders 1 = none
    ∧ reportedIDs socks5lib.createOps
        (socks5lib.State.init.run socks5lib.sampleRun).core.sent = [1, 2]
    ∧ reportedIDs socks5lib2.createOps
        (socks5lib2.State.init.run socks5lib2.sampleRun).core.sent = [1, 2, 3]
    ∧ (reportedIDs portforward.createOps
        (portforward.State.init.run portforward.sampleRun).core.sent).Pairwise
          (fun a b => a < b) :=
  ⟨⟨by decide, by decide, by decide⟩, by decide, by decide, by decide, by decide,
    (C7_resource_ids_strictly_increasing portforward.sampleRun socks5lib.sampleRun
      socks5lib2.sampleRun (by decide) (by decide) (by decide)).1.1⟩

/-- C8: a Create call whose configuration the library rejects sends one
failure response carrying the error, returns 0, and leaves the resource-ID
counter and the resource registry unchanged.  For `CreatePortForwarder`:
a `url.Parse` error (`invalid URL: ..`), a dialer error
(`failed to create dialer: ..`) and a forwarder-constructor error
(`failed to create port forwarder: ..`); for `CreateDirectServerTCP` of
`socks5lib` and for both Create calls of `socks5lib2`: the error of the
server constructor. -/
theorem C8_rejected_create_allocates_nothing :
    (∀ (lib : portforward.Lib) (urlStr portsStr : String) (addressStr : Option String)
        (port : Int) (s : portforward.State) (e : String),
        lib.Parse urlStr = Outcome.err e →
        (portforward.CreatePortForwarder lib urlStr portsStr addressStr port s).1 = 0
        ∧ (portforward.CreatePortForwarder lib urlStr portsStr addressStr port s).2.core.sent
            = s.core.sent ++ [(getPortOrDefault port s.core,
                Msg.resp (failure "create_port_forwarder" ("invalid URL: " ++ e)))]
        ∧ (portforward.CreatePortForwarder lib urlStr portsStr addressStr port s).2.nextPFID
            = s.nextPFID
        ∧ (portforward.CreatePortForwarder lib urlStr portsStr addressStr port
            s).2.portForwarders = s.portForwarders)
    ∧ (∀ (lib : portforward.Lib) (urlStr portsStr : String) (addressStr : Option String)
        (port : Int) (s : portforward.State) (u : portforward.URL) (e : String),
        lib.Parse urlStr = Outcome.ok u →
        lib.NewSPDYOverWebsocketDialer u { Host := u.Host, Insecure := true }
          = Outcome.err e →
        (portforward.CreatePortForwarder lib urlStr portsStr addressStr port s).1 = 0
        ∧ (portforward.CreatePortForwarder lib urlStr portsStr addressStr port s).2.core.sent
            = s.core.sent ++ [(getPortOrDefault port s.core,
                Msg.resp (failure "create_port_forwarder"
                  ("failed to create dialer: " ++ e)))]
        ∧ (portforward.CreatePortForwarder lib urlStr portsStr addressStr port s).2.nextPFID
            = s.nextPFID
        ∧ (portforward.CreatePortForwarder lib urlStr portsStr addressStr port
            s).2.portForwarders = s.portForwarders)
    ∧ (∀ (lib : portforward.Lib) (urlStr portsStr : String) (addressStr : Option String)
        (port : Int) (s : portforward.State) (u : portforward.URL) (dialer : Nat)
        (e : String),
        lib.Parse urlStr = Outcome.ok u →
        lib.NewSPDYOverWebsocketDialer u { Host := u.Host, Insecure := true }
          = Outcome.ok dialer →
        lib.NewOnAddresses dialer (portforward.CreatePortForwarder.goAddresses addressStr)
          (portforward.CreatePortForwarder.goPorts portsStr) s.core.nextChan
          (s.core.nextChan + 1) = Outcome.err e →
        (portforward.CreatePortForwarder lib urlStr portsStr addressStr port s).1 = 0
        ∧ (portforward.CreatePortForwarder lib urlStr portsStr addressStr port s).2.core.sent
            = s.core.sent ++ [(getPortOrDefault port s.core,
                Msg.resp (failure "create_port_forwarder"
                  ("failed to create port forwarder: " ++ e)))]
        ∧ (portforward.CreatePortForwarder lib urlStr portsStr addressStr port s).2.nextPFID
            = s.nextPFID
        ∧ (portforward.CreatePortForwarder lib urlStr portsStr addressStr port
            s).2.portForwarders = s.portForwarders)
    ∧ (∀ (lib : socks5lib.Lib) (listenPort : Int) (username password : String) (port : Int)
        (s : socks5lib.State) (e : String),
        lib.NewServer
          { ListenPort := listenPort, UserName := username, Password := password,
            LogLevel := "info" } = Outcome.err e →
        (socks5lib.CreateDirectServerTCP lib listenPort username password port s).1 = 0
        ∧ (socks5lib.CreateDirectServerTCP lib listenPort username password port s).2.core.sent
            = s.core.sent ++ [(getPortOrDefault port s.core,
                Msg.resp (failure "create_direct_server_tcp" e))]
        ∧ (socks5lib.CreateDirectServerTCP lib listenPort username password port s).2.nextSrvID
            = s.nextSrvID
        ∧ (socks5lib.CreateDirectServerTCP lib listenPort username password port
            s).2.socks5Servers = s.socks5Servers)
    ∧ (∀ (lib : socks5lib2.Lib) (listenPort : Int) (username password : String)
        (proxyAddr proxyUser proxyPass : String) (port : Int)
        (s : socks5lib2.State) (e : String),
        lib.NewClassicServer (":" ++ toString listenPort) "" username password 0 0
          = Outcome.err e →
        ((socks5lib2.CreateDirectServerTCP lib listenPort username password port s).1 = 0
          ∧ (socks5lib2.CreateDirectServerTCP lib listenPort username password port
              s).2.core.sent
              = s.core.sent ++ [(getPortOrDefault port s.core,
                  Msg.resp (failure "create_direct_server_tcp" e))]
          ∧ (socks5lib2.CreateDirectServerTCP lib listenPort username password port
              s).2.nextSrvID = s.nextSrvID
          ∧ (socks5lib2.CreateDirectServerTCP lib listenPort username password port
              s).2.socks5Servers = s.socks5Servers)
        ∧ ((socks5lib2.CreateProxyToSocks5ServerTCP lib listenPort username password
              proxyAddr proxyUser proxyPass port s).1 = 0
          ∧ (socks5lib2.CreateProxyToSocks5ServerTCP lib listenPort username password
              proxyAddr proxyUser proxyPass port s).2.core.sent
              = s.core.sent ++ [(getPortOrDefault port s.core,
                  Msg.resp (failure "create_proxy_to_socks5_server_tcp" e))]
          ∧ (socks5lib2.CreateProxyToSocks5ServerTCP lib listenPort username password
              proxyAddr proxyUser proxyPass port s).2.nextSrvID = s.nextSrvID
          ∧ (socks5lib2.CreateProxyToSocks5ServerTCP lib listenPort username password
              proxyAddr proxyUser proxyPass port s).2.socks5Servers = s.socks5Servers)) := by
  refine ⟨?_, ?_, ?_, ?_, ?_⟩
  · intro lib urlStr portsStr addressStr port s e h
    rw [portforward.pf_Create_parse_err portsStr addressStr port s h]
    exact ⟨rfl, rfl, rfl, rfl⟩
  · intro lib urlStr portsStr addressStr port s u e h h2
    rw [portforward.pf_Create_dialer_err portsStr addressStr port s h h2]
    exact ⟨rfl, rfl, rfl, rfl⟩
  · intro lib urlStr portsStr addressStr port s u dialer e h h2 h3
    rw [portforward.pf_Create_new_err port s h h2 h3]
    exact ⟨rfl, rfl, rfl, rfl⟩
  · intro lib listenPort username password port s e h
    rw [socks5lib.s5_Create_err port s h]
    exact ⟨rfl, rfl, rfl, rfl⟩
  · intro lib listenPort username password proxyAddr proxyUser proxyPass port s e h
    constructor
    · rw [socks5lib2.s52_CreateDirect_eq, socks5lib2.s52_Create_err _ _ _ s h]
      exact ⟨rfl, rfl, rfl, rfl⟩
    · rw [socks5lib2.s52_CreateProxy_eq, socks5lib2.s52_Create_err _ _ _ s h]
      exact ⟨rfl, rfl, rfl, rfl⟩

/-- Witness of C8: in the initial states, a forwarder with an unparsable
URL and a server the library rejects; each sends one failure to port 7 and
the counters stay 0. -/
theorem C8_rejected_create_allocates_nothing_witness :
    portforward.Lib.badURL.Parse "::" = Outcome.err "missing protocol scheme"
    ∧ (portforward.CreatePortForwarder portforward.Lib.badURL "::" "8080:80" none 7
        portforward.State.init).2.core.sent
        = [(7, Msg.resp (failure "create_port_forwarder"
            "invalid URL: missing protocol scheme"))]
    ∧ (portforward.CreatePortForwarder portforward.Lib.badURL "::" "8080:80" none 7
        portforward.State.init).2.nextPFID = 0
    ∧ (socks5lib.CreateDirectServerTCP socks5lib.Lib.rejecting 0 "" "" 7
        socks5lib.State.init).2.nextSrvID = 0 :=
  ⟨rfl,
    (C8_rejected_create_allocates_nothing.1 portforward.Lib.badURL "::" "8080:80" none 7
      portforward.State.init "missing protocol scheme" rfl).2.1,
    (C8_rejected_create_allocates_nothing.1 portforward.Lib.badURL "::" "8080:80" none 7
      portforward.State.init "missing protocol scheme" rfl).2.2.1,
    (C8_rejected_create_allocates_nothing.2.2.2.1 socks5lib.Lib.rejecting 0 "" "" 7
      socks5lib.State.init "invalid listen port" rfl).2.2.1⟩

/-- C9: short of `int64` overflow, a Create call with a configuration the
library accepts, made in any reachable state, stores the counter plus one
in the counter, inserts exactly one wrapper under that ID (which was not a
key before and keeps all other keys as they were), and sends the success
response carrying that ID.  It does not start the service loop: `tasks`,
`nextTask`, the workers and the calls made into service objects are
unchanged.  Shown for `CreatePortForwarder`, for `CreateDirectServerTCP`
of `socks5lib`, and for `CreateDirectServerTCP` and
`CreateProxyToSocks5ServerTCP` of `socks5lib2`. -/
theorem C9_accepted_create_inserts_one_handle
    (a1 : List portforward.Action) (a2 : List socks5lib.Action)
    (a3 : List socks5lib2.Action)
    (s1 : portforward.State) (s2 : socks5lib.State) (s3 : socks5lib2.State)
    (e1 : s1 = portforward.State.init.run a1) (e2 : s2 = socks5lib.State.init.run a2)
    (e3 : s3 = socks5lib2.State.init.run a3)
    (h1 : (a1.length : Int) < maxInt64) (h2 : (a2.length : Int) < maxInt64)
    (h3 : (a3.length : Int) < maxInt64) :
    (∀ (lib : portforward.Lib) (urlStr portsStr : String) (addressStr : Option String)
        (port : Int) (u : portforward.URL) (dialer : Nat),
        lib.Parse urlStr = Outcome.ok u →
        lib.NewSPDYOverWebsocketDialer u { Host := u.Host, Insecure := true }
          = Outcome.ok dialer →
        lib.NewOnAddresses dialer (portforward.CreatePortForwarder.goAddresses addressStr)
          (portforward.CreatePortForwarder.goPorts portsStr) s1.core.nextChan
          (s1.core.nextChan + 1) = Outcome.ok () →
        (portforward.CreatePortForwarder lib urlStr portsStr addressStr port s1).2.nextPFID
            = s1.nextPFID + 1
        ∧ s1.portForwarders (s1.nextPFID + 1) = none
        ∧ (portforward.CreatePortForwarder lib urlStr portsStr addressStr port
            s1).2.portForwarders (s1.nextPFID + 1)
            = some { PF := s1.nextObj, Ready := s1.core.nextChan + 1,
                     StopChan := s1.core.nextChan, ID := s1.nextPFID + 1 }
        ∧ (∀ j, j ≠ s1.nextPFID + 1 →
            (portforward.CreatePortForwarder lib urlStr portsStr addressStr port
              s1).2.portForwarders j = s1.portForwarders j)
        ∧ (portforward.CreatePortForwarder lib urlStr portsStr addressStr port s1).2.core.sent
            = s1.core.sent ++ [(getPortOrDefault port s1.core,
                Msg.resp (success "create_port_forwarder" (Payload.int (s1.nextPFID + 1))))]
        ∧ (portforward.CreatePortForwarder lib urlStr portsStr addressStr port s1).2.core.tasks
            = s1.core.tasks
        ∧ (portforward.CreatePortForwarder lib urlStr portsStr addressStr port
            s1).2.core.nextTask = s1.core.nextTask
        ∧ (portforward.CreatePortForwarder lib urlStr portsStr addressStr port s1).2.workers
            = s1.workers
        ∧ (portforward.CreatePortForwarder lib urlStr portsStr addressStr port s1).2.nextWorker
            = s1.nextWorker
        ∧ (portforward.CreatePortForwarder lib urlStr portsStr addressStr port s1).2.calls
            = s1.calls)
    ∧ (∀ (lib : socks5lib.Lib) (listenPort : Int) (username password : String) (port : Int),
        lib.NewServer
          { ListenPort := listenPort, UserName := username, Password := password,
            LogLevel := "info" } = Outcome.ok () →
        (socks5lib.CreateDirectServerTCP lib listenPort username password port s2).2.nextSrvID
            = s2.nextSrvID + 1
        ∧ s2.socks5Servers (s2.nextSrvID + 1) = none
        ∧ (socks5lib.CreateDirectServerTCP lib listenPort username password port
            s2).2.socks5Servers (s2.nextSrvID + 1)
            = some { Server := s2.nextObj, StopChan := s2.core.nextChan,
                     ID := s2.nextSrvID + 1 }
        ∧ (∀ j, j ≠ s2.nextSrvID + 1 →
            (socks5lib.CreateDirectServerTCP lib listenPort username password port
              s2).2.socks5Servers j = s2.socks5Servers j)
        ∧ (socks5lib.CreateDirectServerTCP lib listenPort username password port
            s2).2.core.sent
            = s2.core.sent ++ [(getPortOrDefault port s2.core,
                Msg.resp (success "create_direct_server_tcp"
                  (Payload.int (s2.nextSrvID + 1))))]
        ∧ (socks5lib.CreateDirectServerTCP lib listenPort username password port
            s2).2.core.tasks = s2.core.tasks
        ∧ (socks5lib.CreateDirectServerTCP lib listenPort username password port
            s2).2.core.nextTask = s2.core.nextTask
        ∧ (socks5lib.CreateDirectServerTCP lib listenPort username password port s2).2.workers
            = s2.workers
        ∧ (socks5lib.CreateDirectServerTCP lib listenPort username password port
            s2).2.nextWorker = s2.nextWorker
        ∧ (socks5lib.CreateDirectServerTCP lib listenPort username password port s2).2.calls
            = s2.calls)
    ∧ (∀ (lib : socks5lib2.Lib) (listenPort : Int) (username password : String)
        (port : Int),
        lib.NewClassicServer (":" ++ toString listenPort) "" username password 0 0
          = Outcome.ok () →
        (socks5lib2.CreateDirectServerTCP lib listenPort username password port s3).2.nextSrvID
            = s3.nextSrvID + 1
        ∧ s3.socks5Servers (s3.nextSrvID + 1) = none
        ∧ (socks5lib2.CreateDirectServerTCP lib listenPort username password port
            s3).2.socks5Servers (s3.nextSrvID + 1)
            = some { Server := s3.nextObj, ID := s3.nextSrvID + 1 }
        ∧ (∀ j, j ≠ s3.nextSrvID + 1 →
            (socks5lib2.CreateDirectServerTCP lib listenPort username password port
              s3).2.socks5Servers j = s3.socks5Servers j)
        ∧ (socks5lib2.CreateDirectServerTCP lib listenPort username password port
            s3).2.core.sent
            = s3.core.sent ++ [(getPortOrDefault port s3.core,
                Msg.resp (success "create_direct_server_tcp"
                  (Payload.int (s3.nextSrvID + 1))))]
        ∧ (socks5lib2.CreateDirectServerTCP lib listenPort username password port
            s3).2.core.tasks = s3.core.tasks
        ∧ (socks5lib2.CreateDirectServerTCP lib listenPort username password port
            s3).2.core.nextTask = s3.core.nextTask
        ∧ (socks5lib2.CreateDirectServerTCP lib listenPort username password port s3).2.workers
            = s3.workers
        ∧ (socks5lib2.CreateDirectServerTCP lib listenPort username password port
            s3).2.nextWorker = s3.nextWorker
        ∧ (socks5lib2.CreateDirectServerTCP lib listenPort username password port s3).2.calls
            = s3.calls)
    ∧ (∀ (lib : socks5lib2.Lib) (listenPort : Int) (username password : String)
        (proxyAddr proxyUser proxyPass : String) (port : Int),
        lib.NewClassicServer (":" ++ toString listenPort) "" username password 0 0
          = Outcome.ok () →
        (socks5lib2.CreateProxyToSocks5ServerTCP lib listenPort username password
            proxyAddr proxyUser proxyPass port s3).2.nextSrvID = s3.nextSrvID + 1
        ∧ (socks5lib2.CreateProxyToSocks5ServerTCP lib listenPort username password
            proxyAddr proxyUser proxyPass port s3).2.socks5Servers (s3.nextSrvID + 1)
            = some { Server := s3.nextObj, ID := s3.nextSrvID + 1 }
        ∧ (∀ j, j ≠ s3.nextSrvID + 1 →
            (socks5lib2.CreateProxyToSocks5ServerTCP lib listenPort username password
              proxyAddr proxyUser proxyPass port s3).2.socks5Servers j = s3.socks5Servers j)
        ∧ (socks5lib2.CreateProxyToSocks5ServerTCP lib listenPort username password
            proxyAddr proxyUser proxyPass port s3).2.core.sent
            = s3.core.sent ++ [(getPortOrDefault port s3.core,
                Msg.resp (success "create_proxy_to_socks5_server_tcp"
                  (Payload.int (s3.nextSrvID + 1))))]
        ∧ (socks5lib2.CreateProxyToSocks5ServerTCP lib listenPort username password
            proxyAddr proxyUser proxyPass port s3).2.core.tasks = s3.core.tasks
        ∧ (socks5lib2.CreateProxyToSocks5ServerTCP lib listenPort username password
            proxyAddr proxyUser proxyPass port s3).2.core.nextTask = s3.core.nextTask
        ∧ (socks5lib2.CreateProxyToSocks5ServerTCP lib listenPort username password
            proxyAddr proxyUser proxyPass port s3).2.workers = s3.workers
        ∧ (socks5lib2.CreateProxyToSocks5ServerTCP lib listenPort username password
            proxyAddr proxyUser proxyPass port s3).2.nextWorker = s3.nextWorker
        ∧ (socks5lib2.CreateProxyToSocks5ServerTCP lib listenPort username password
            proxyAddr proxyUser proxyPass port s3).2.calls = s3.calls) := by
  have b1 : s1.Bnd (0 + a1.length) := by
    rw [e1]; exact portforward.State.Bnd.pf_init.pf_run a1 (by omega)
  have b2 : s2.Bnd (0 + a2.length) := by
    rw [e2]; exact socks5lib.State.Bnd.s5_init.s5_run a2 (by omega)
  have b3 : s3.Bnd (0 + a3.length) := by
    rw [e3]; exact socks5lib2.State.Bnd.s52_init.s52_run a3 (by omega)
  have d1 : atomicAddInt64 s1.nextPFID 1 = s1.nextPFID + 1 :=
    atomicAddInt64_succ b1.lo (lt_of_le_of_lt b1.hi (by omega))
  have d2 : atomicAddInt64 s2.nextSrvID 1 = s2.nextSrvID + 1 :=
    atomicAddInt64_succ b2.lo (lt_of_le_of_lt b2.hi (by omega))
  have d3 : atomicAddInt64 s3.nextSrvID 1 = s3.nextSrvID + 1 :=
    atomicAddInt64_succ b3.lo (lt_of_le_of_lt b3.hi (by omega))
  have f1 : s1.portForwarders (s1.nextPFID + 1) = none := by
    cases hx : s1.portForwarders (s1.nextPFID + 1) with
    | none => rfl
    | some w => have := b1.keys (s1.nextPFID + 1) (by simp [hx]); omega
  have f2 : s2.socks5Servers (s2.nextSrvID + 1) = none := by
    cases hx : s2.socks5Servers (s2.nextSrvID + 1) with
    | none => rfl
    | some w => have := b2.keys (s2.nextSrvID + 1) (by simp [hx]); omega
  have f3 : s3.socks5Servers (s3.nextSrvID + 1) = none := by
    cases hx : s3.socks5Servers (s3.nextSrvID + 1) with
    | none => rfl
    | some w => have := b3.keys (s3.nextSrvID + 1) (by simp [hx]); omega
  refine ⟨?_, ?_, ?_, ?_⟩
  · intro lib urlStr portsStr addressStr port u dialer h h2 h3
    rw [portforward.pf_Create_ok port s1 h h2 h3, d1]
    refine ⟨rfl, f1, ?_, ?_, rfl, rfl, rfl, rfl, rfl, rfl⟩
    · simp [portforward.send, GoMap.set]
    · intro j hj
      simp [portforward.send, GoMap.set, hj]
  · intro lib listenPort username password port h
    rw [socks5lib.s5_Create_ok port s2 h, d2]
    refine ⟨rfl, f2, ?_, ?_, rfl, rfl, rfl, rfl, rfl, rfl⟩
    · simp [socks5lib.send, GoMap.set]
    · intro j hj
      simp [socks5lib.send, GoMap.set, hj]
  · intro lib listenPort username password port h
    rw [socks5lib2.s52_CreateDirect_eq, socks5lib2.s52_Create_ok _ _ _ s3 h, d3]
    refine ⟨rfl, f3, ?_, ?_, rfl, rfl, rfl, rfl, rfl, rfl⟩
    · simp [socks5lib2.send, GoMap.set]
    · intro j hj
      simp [socks5lib2.send, GoMap.set, hj]
  · intro lib listenPort username password proxyAddr proxyUser proxyPass port h
    rw [socks5lib2.s52_CreateProxy_eq, socks5lib2.s52_Create_ok _ _ _ s3 h, d3]
    refine ⟨rfl, ?_, ?_, rfl, rfl, rfl, rfl, rfl, rfl⟩
    · simp [socks5lib2.send, GoMap.set]
    · intro j hj
      simp [socks5lib2.send, GoMap.set, hj]

/-- Witness of C9: after the sample runs, one more accepted Create in each
module; the new IDs are 3, 3 and 4. -/
theorem C9_accepted_create_inserts_one_handle_witness :
    ((portforward.sampleRun.length : Int) < maxInt64
      ∧ (socks5lib.sampleRun.length : Int) < maxInt64
      ∧ (socks5lib2.sampleRun.length : Int) < maxInt64)
    ∧ (portforward.State.init.run portforward.sampleRun).nextPFID = 2
    ∧ (portforward.CreatePortForwarder portforward.Lib.accepting "https://cluster/api"
        "7070:70" none 7 (portforward.State.init.run portforward.sampleRun)).2.nextPFID
        = (portforward.State.init.run portforward.sampleRun).nextPFID + 1
    ∧ (socks5lib.State.init.run socks5lib.sampleRun).nextSrvID = 2
    ∧ (socks5lib.CreateDirectServerTCP socks5lib.Lib.accepting 1082 "" "" 7
        (socks5lib.State.init.run socks5lib.sampleRun)).2.nextSrvID
        = (socks5lib.State.init.run socks5lib.sampleRun).nextSrvID + 1
    ∧ (socks5lib2.State.init.run socks5lib2.sampleRun).nextSrvID = 3
    ∧ (socks5lib2.CreateDirectServerTCP socks5lib2.Lib.accepting 1083 "" "" 7
        (socks5lib2.State.init.run socks5lib2.sampleRun)).2.nextSrvID
        = (socks5lib2.State.init.run socks5lib2.sampleRun).nextSrvID + 1 :=
  ⟨⟨by decide, by decide, by decide⟩, by decide,
    ((C9_accepted_create_inserts_one_handle portforward.sampleRun socks5lib.sampleRun
      socks5lib2.sampleRun _ _ _ rfl rfl rfl (by decide) (by decide) (by decide)).1
      portforward.Lib.accepting "https://cluster/api" "7070:70" none 7
      { Host := "https://cluster/api" } 0 rfl rfl rfl).1,
    by decide,
    ((C9_accepted_create_inserts_one_handle portforward.sampleRun socks5lib.sampleRun
      socks5lib2.sampleRun _ _ _ rfl rfl rfl (by decide) (by decide) (by decide)).2.1
      socks5lib.Lib.accepting 1082 "" "" 7 rfl).1,
    by decide,
    ((C9_accepted_create_inserts_one_handle portforward.sampleRun socks5lib.sampleRun
      socks5lib2.sampleRun _ _ _ rfl rfl rfl (by decide) (by decide) (by decide)).2.2.1
      socks5lib2.Lib.accepting 1083 "" "" 7 rfl).1⟩

/-- C10: `Start` on a ResourceID absent from the registry returns 0, sends
the `not found` failure and does nothing else: `tasks`, `nextTask`, the
cancel functions, the workers, the resource registry and its counter are
unchanged, so no task is registered and no worker spawned.  Short of
`int64` overflow, in every reachable state 0 is not a key of `tasks`,
every key of `tasks` is at least 1, and `Start` on a present ResourceID
returns `nextTask + 1`, at least 1; the value 0 therefore never names a
registered task.  Shown for `StartForwardPorts` and for
`StartSocks5Server` of `socks5lib` and of `socks5lib2`. -/
theorem C10_start_absent_returns_zero
    (a1 : List portforward.Action) (a2 : List socks5lib.Action)
    (a3 : List socks5lib2.Action) (id port : Int)
    (h1 : (a1.length : Int) < maxInt64) (h2 : (a2.length : Int) < maxInt64)
    (h3 : (a3.length : Int) < maxInt64) :
    ((∀ t : portforward.State, t.portForwarders id = none →
        (portforward.StartForwardPorts id port t).1 = 0
        ∧ (portforward.StartForwardPorts id port t).2.core.sent
            = t.core.sent ++ [(getPortOrDefault port t.core,
                Msg.resp (failure "start_forward_ports"
                  ("port forwarder " ++ toString id ++ " not found")))]
        ∧ (portforward.StartForwardPorts id port t).2.core.tasks = t.core.tasks
        ∧ (portforward.StartForwardPorts id port t).2.core.nextTask = t.core.nextTask
        ∧ (portforward.StartForwardPorts id port t).2.core.nextCtx = t.core.nextCtx
        ∧ (portforward.StartForwardPorts id port t).2.core.nextChan = t.core.nextChan
        ∧ (portforward.StartForwardPorts id port t).2.workers = t.workers
        ∧ (portforward.StartForwardPorts id port t).2.nextWorker = t.nextWorker
        ∧ (portforward.StartForwardPorts id port t).2.calls = t.calls
        ∧ (portforward.StartForwardPorts id port t).2.portForwarders = t.portForwarders
        ∧ (portforward.StartForwardPorts id port t).2.nextPFID = t.nextPFID)
      ∧ (portforward.State.init.run a1).core.tasks 0 = none
      ∧ (∀ k e, (portforward.State.init.run a1).core.tasks k = some e → 1 ≤ k)
      ∧ (∀ w, (portforward.State.init.run a1).portForwarders id = some w →
          (portforward.StartForwardPorts id port (portforward.State.init.run a1)).1
            = (portforward.State.init.run a1).core.nextTask + 1
          ∧ 1 ≤ (portforward.StartForwardPorts id port (portforward.State.init.run a1)).1))
    ∧ ((∀ t : socks5lib.State, t.socks5Servers id = none →
        (socks5lib.StartSocks5Server id port t).1 = 0
        ∧ (socks5lib.StartSocks5Server id port t).2.core.sent
            = t.core.sent ++ [(getPortOrDefault port t.core,
                Msg.resp (failure "start_socks5_server"
                  ("server " ++ toString id ++ " not found")))]
        ∧ (socks5lib.StartSocks5Server id port t).2.core.tasks = t.core.tasks
        ∧ (socks5lib.StartSocks5Server id port t).2.core.nextTask = t.core.nextTask
        ∧ (socks5lib.StartSocks5Server id port t).2.core.nextCtx = t.core.nextCtx
        ∧ (socks5lib.StartSocks5Server id port t).2.core.nextChan = t.core.nextChan
        ∧ (socks5lib.StartSocks5Server id port t).2.workers = t.workers
        ∧ (socks5lib.StartSocks5Server id port t).2.nextWorker = t.nextWorker
        ∧ (socks5lib.StartSocks5Server id port t).2.calls = t.calls
        ∧ (socks5lib.StartSocks5Server id port t).2.socks5Servers = t.socks5Servers
        ∧ (socks5lib.StartSocks5Server id port t).2.nextSrvID = t.nextSrvID)
      ∧ (socks5lib.State.init.run a2).core.tasks 0 = none
      ∧ (∀ k e, (socks5lib.State.init.run a2).core.tasks k = some e → 1 ≤ k)
      ∧ (∀ w, (socks5lib.State.init.run a2).socks5Servers id = some w →
          (socks5lib.StartSocks5Server id port (socks5lib.State.init.run a2)).1
            = (socks5lib.State.init.run a2).core.nextTask + 1
          ∧ 1 ≤ (socks5lib.StartSocks5Server id port (socks5lib.State.init.run a2)).1))
    ∧ ((∀ t : socks5lib2.State, t.socks5Servers id = none →
        (socks5lib2.StartSocks5Server id port t).1 = 0
        ∧ (socks5lib2.StartSocks5Server id port t).2.core.sent
            = t.core.sent ++ [(getPortOrDefault port t.core,
                Msg.resp (failure "start_socks5_server"
                  ("server " ++ toString id ++ " not found")))]
        ∧ (socks5lib2.StartSocks5Server id port t).2.core.tasks = t.core.tasks
        ∧ (socks5lib2.StartSocks5Server id port t).2.core.nextTask = t.core.nextTask
        ∧ (socks5lib2.StartSocks5Server id port t).2.core.nextCtx = t.core.nextCtx
        ∧ (socks5lib2.StartSocks5Server id port t).2.core.nextChan = t.core.nextChan
        ∧ (socks5lib2.StartSocks5Server id port t).2.workers = t.workers
        ∧ (socks5lib2.StartSocks5Server id port t).2.nextWorker = t.nextWorker
        ∧ (socks5lib2.StartSocks5Server id port t).2.calls = t.calls
        ∧ (socks5lib2.StartSocks5Server id port t).2.socks5Servers = t.socks5Servers
        ∧ (socks5lib2.StartSocks5Server id port t).2.nextSrvID = t.nextSrvID)
      ∧ (socks5lib2.State.init.run a3).core.tasks 0 = none
      ∧ (∀ k e, (socks5lib2.State.init.run a3).core.tasks k = some e → 1 ≤ k)
      ∧ (∀ w, (socks5lib2.State.init.run a3).socks5Servers id = some w →
          (socks5lib2.StartSocks5Server id port (socks5lib2.State.init.run a3)).1
            = (socks5lib2.State.init.run a3).core.nextTask + 1
          ∧ 1 ≤ (socks5lib2.StartSocks5Server id port (socks5lib2.State.init.run a3)).1)) := by
  have b1 := portforward.State.Bnd.pf_init.pf_run a1 (by omega)
  have b2 := socks5lib.State.Bnd.s5_init.s5_run a2 (by omega)
  have b3 := socks5lib2.State.Bnd.s52_init.s52_run a3 (by omega)
  have key : ∀ (c : Core) (n : Int), c.Bnd n → c.tasks 0 = none := by
    intro c n hc
    cases hx : c.tasks 0 with
    | none => rfl
    | some e => have := hc.keys 0 e hx; omega
  have ret : ∀ (c : Core) (n : Int), c.Bnd n → n < maxInt64 →
      (addTask (withCancel c).1 (withCancel c).2).1 = c.nextTask + 1
      ∧ 1 ≤ (addTask (withCancel c).1 (withCancel c).2).1 := by
    intro c n hc hn
    have hr : (addTask (withCancel c).1 (withCancel c).2).1 = c.nextTask + 1 :=
      register_fst hc hn
    exact ⟨hr, by rw [hr]; have := hc.lo; omega⟩
  refine ⟨⟨?_, key _ _ b1.core, fun k e he => (b1.core.keys k e he).1, ?_⟩,
    ⟨?_, key _ _ b2.core, fun k e he => (b2.core.keys k e he).1, ?_⟩,
    ⟨?_, key _ _ b3.core, fun k e he => (b3.core.keys k e he).1, ?_⟩⟩
  · intro t ht
    rw [portforward.StartForwardPorts_absent port ht]
    exact ⟨rfl, rfl, rfl, rfl, rfl, rfl, rfl, rfl, rfl, rfl, rfl⟩
  · intro w hw
    rw [portforward.StartForwardPorts_present port hw]
    exact ret _ _ b1.core (by omega)
  · intro t ht
    rw [socks5lib.s5_Start_absent port ht]
    exact ⟨rfl, rfl, rfl, rfl, rfl, rfl, rfl, rfl, rfl, rfl, rfl⟩
  · intro w hw
    rw [socks5lib.s5_Start_present port hw]
    exact ret _ _ b2.core (by omega)
  · intro t ht
    rw [socks5lib2.s52_Start_absent port ht]
    exact ⟨rfl, rfl, rfl, rfl, rfl, rfl, rfl, rfl, rfl, rfl, rfl⟩
  · intro w hw
    rw [socks5lib2.s52_Start_present port hw]
    exact ret _ _ b3.core (by omega)

/-- Witness of C10: after the sample runs ResourceID 1 is gone in each
module (stopped or removed by its worker); `Start` on it returns 0 and the
task counter stays where it was. -/
theorem C10_start_absent_returns_zero_witness :
    ((portforward.sampleRun.length : Int) < maxInt64
      ∧ (socks5lib.sampleRun.length : Int) < maxInt64
      ∧ (socks5lib2.sampleRun.length : Int) < maxInt64)
    ∧ (portforward.State.init.run portforward.sampleRun).portForwarders 1 = none
    ∧ (portforward.StartForwardPorts 1 7
        (portforward.State.init.run portforward.sampleRun)).1 = 0
    ∧ (portforward.StartForwardPorts 1 7
        (portforward.State.init.run portforward.sampleRun)).2.core.nextTask
        = (portforward.State.init.run portforward.sampleRun).core.nextTask
    ∧ (socks5lib.State.init.run socks5lib.sampleRun).socks5Servers 1 = none
    ∧ (socks5lib.StartSocks5Server 1 7 (socks5lib.State.init.run socks5lib.sampleRun)).1 = 0
    ∧ (socks5lib2.State.init.run socks5lib2.sampleRun).socks5Servers 2
        = some { Server := 1, ID := 2 }
    ∧ 1 ≤ (socks5lib2.StartSocks5Server 2 7
        (socks5lib2.State.init.run socks5lib2.sampleRun)).1 :=
  ⟨⟨by decide, by decide, by decide⟩, by decide,
    ((C10_start_absent_returns_zero portforward.sampleRun socks5lib.sampleRun
      socks5lib2.sampleRun 1 7 (by decide) (by decide) (by decide)).1.1 _ (by decide)).1,
    ((C10_start_absent_returns_zero portforward.sampleRun socks5lib.sampleRun
      socks5lib2.sampleRun 1 7 (by decide) (by decide) (by decide)).1.1 _
        (by decide)).2.2.2.1,
    by decide,
    ((C10_start_absent_returns_zero portforward.sampleRun socks5lib.sampleRun
      socks5lib2.sampleRun 1 7 (by decide) (by decide) (by decide)).2.1.1 _ (by decide)).1,
    by decide,
    ((C10_start_absent_returns_zero portforward.sampleRun socks5lib.sampleRun
      socks5lib2.sampleRun 2 7 (by decide) (by decide) (by decide)).2.2.2.2.2
        { Server := 1, ID := 2 } (by decide)).2⟩

/-! ## Claims about Start, Stop and the workers -/

/-- C11: short of `int64` overflow, `Start` on a ResourceID present in the
registry, in any reachable state, registers exactly one new task under
`nextTask + 1` (not a key before, all other keys unchanged), returns that
TaskID, and spawns one worker that has not yet entered the service loop:
no call into a service object is made and nothing is sent.  `Start` leaves
the resource registry and the resource-ID counter unchanged, and so does
every later step other than a Stop or the exit of a worker.  Shown for
`StartForwardPorts` and for `StartSocks5Server` of `socks5lib` and of
`socks5lib2`. -/
theorem C11_start_present_registers_one_task
    (a1 : List portforward.Action) (a2 : List socks5lib.Action)
    (a3 : List socks5lib2.Action)
    (s1 : portforward.State) (s2 : socks5lib.State) (s3 : socks5lib2.State)
    (e1 : s1 = portforward.State.init.run a1) (e2 : s2 = socks5lib.State.init.run a2)
    (e3 : s3 = socks5lib2.State.init.run a3)
    (h1 : (a1.length : Int) < maxInt64) (h2 : (a2.length : Int) < maxInt64)
    (h3 : (a3.length : Int) < maxInt64) (id port : Int) :
    (∀ w, s1.portForwarders id = some w →
        (portforward.StartForwardPorts id port s1).1 = s1.core.nextTask + 1
        ∧ s1.core.tasks (s1.core.nextTask + 1) = none
        ∧ (portforward.StartForwardPorts id port s1).2.core.tasks (s1.core.nextTask + 1)
            = some { cancel := s1.core.nextCtx, done := s1.core.nextChan }
        ∧ (∀ j, j ≠ s1.core.nextTask + 1 →
            (portforward.StartForwardPorts id port s1).2.core.tasks j = s1.core.tasks j)
        ∧ (portforward.StartForwardPorts id port s1).2.core.nextTask = s1.core.nextTask + 1
        ∧ (portforward.StartForwardPorts id port s1).2.workers s1.nextWorker
            = some { tid := s1.core.nextTask + 1, w := w,
                     p := getPortOrDefault port s1.core, pc := WorkerPC.spawned }
        ∧ (∀ k, k ≠ s1.nextWorker →
            (portforward.StartForwardPorts id port s1).2.workers k = s1.workers k)
        ∧ (portforward.StartForwardPorts id port s1).2.nextWorker = s1.nextWorker + 1
        ∧ (portforward.StartForwardPorts id port s1).2.calls = s1.calls
        ∧ (portforward.StartForwardPorts id port s1).2.core.sent = s1.core.sent
        ∧ (portforward.StartForwardPorts id port s1).2.portForwarders = s1.portForwarders
        ∧ (portforward.StartForwardPorts id port s1).2.nextPFID = s1.nextPFID
        ∧ (∀ a : portforward.Action,
            (∀ k r, a ≠ portforward.Action.workerExit k r) →
            (∀ i p, a ≠ portforward.Action.stop i p) →
            (s1.step a).portForwarders id = some w))
    ∧ (∀ w, s2.socks5Servers id = some w →
        (socks5lib.StartSocks5Server id port s2).1 = s2.core.nextTask + 1
        ∧ s2.core.tasks (s2.core.nextTask + 1) = none
        ∧ (socks5lib.StartSocks5Server id port s2).2.core.tasks (s2.core.nextTask + 1)
            = some { cancel := s2.core.nextCtx, done := s2.core.nextChan }
        ∧ (∀ j, j ≠ s2.core.nextTask + 1 →
            (socks5lib.StartSocks5Server id port s2).2.core.tasks j = s2.core.tasks j)
        ∧ (socks5lib.StartSocks5Server id port s2).2.core.nextTask = s2.core.nextTask + 1
        ∧ (socks5lib.StartSocks5Server id port s2).2.workers s2.nextWorker
            = some { tid := s2.core.nextTask + 1, w := w,
                     p := getPortOrDefault port s2.core, pc := WorkerPC.spawned }
        ∧ (∀ k, k ≠ s2.nextWorker →
            (socks5lib.StartSocks5Server id port s2).2.workers k = s2.workers k)
        ∧ (socks5lib.StartSocks5Server id port s2).2.nextWorker = s2.nextWorker + 1
        ∧ (socks5lib.StartSocks5Server id port s2).2.calls = s2.calls
        ∧ (socks5lib.StartSocks5Server id port s2).2.core.sent = s2.core.sent
        ∧ (socks5lib.StartSocks5Server id port s2).2.socks5Servers = s2.socks5Servers
        ∧ (socks5lib.StartSocks5Server id port s2).2.nextSrvID = s2.nextSrvID
        ∧ (∀ a : socks5lib.Action,
            (∀ k r, a ≠ socks5lib.Action.workerExit k r) →
            (∀ i p, a ≠ socks5lib.Action.stop i p) →
            (s2.step a).socks5Servers id = some w))
    ∧ (∀ w, s3.socks5Servers id = some w →
        (socks5lib2.StartSocks5Server id port s3).1 = s3.core.nextTask + 1
        ∧ s3.core.tasks (s3.core.nextTask + 1) = none
        ∧ (socks5lib2.StartSocks5Server id port s3).2.core.tasks (s3.core.nextTask + 1)
            = some { cancel := s3.core.nextCtx, done := s3.core.nextChan }
        ∧ (∀ j, j ≠ s3.core.nextTask + 1 →
            (socks5lib2.StartSocks5Server id port s3).2.core.tasks j = s3.core.tasks j)
        ∧ (socks5lib2.StartSocks5Server id port s3).2.core.nextTask = s3.core.nextTask + 1
        ∧ (socks5lib2.StartSocks5Server id port s3).2.workers s3.nextWorker
            = some { tid := s3.core.nextTask + 1, w := w,
                     p := getPortOrDefault port s3.core, pc := WorkerPC.spawned }
        ∧ (∀ k, k ≠ s3.nextWorker →
            (socks5lib2.StartSocks5Server id port s3).2.workers k = s3.workers k)
        ∧ (socks5lib2.StartSocks5Server id port s3).2.nextWorker = s3.nextWorker + 1
        ∧ (socks5lib2.StartSocks5Server id port s3).2.calls = s3.calls
        ∧ (socks5lib2.StartSocks5Server id port s3).2.core.sent = s3.core.sent
        ∧ (socks5lib2.StartSocks5Server id port s3).2.socks5Servers = s3.socks5Servers
        ∧ (socks5lib2.StartSocks5Server id port s3).2.nextSrvID = s3.nextSrvID
        ∧ (∀ a : socks5lib2.Action,
            (∀ k r, a ≠ socks5lib2.Action.workerExit k r) →
            (∀ i p sh, a ≠ socks5lib2.Action.stop i p sh) →
            (s3.step a).socks5Servers id = some w)) := by
  have b1 : s1.Bnd (0 + a1.length) := by
    rw [e1]; exact portforward.State.Bnd.pf_init.pf_run a1 (by omega)
  have b2 : s2.Bnd (0 + a2.length) := by
    rw [e2]; exact socks5lib.State.Bnd.s5_init.s5_run a2 (by omega)
  have b3 : s3.Bnd (0 + a3.length) := by
    rw [e3]; exact socks5lib2.State.Bnd.s52_init.s52_run a3 (by omega)
  have core : ∀ (c : Core) (n : Int), c.Bnd n → n < maxInt64 →
      (addTask (withCancel c).1 (withCancel c).2).1 = c.nextTask + 1
      ∧ c.tasks (c.nextTask + 1) = none
      ∧ (addTask (withCancel c).1 (withCancel c).2).2.tasks (c.nextTask + 1)
          = some { cancel := c.nextCtx, done := c.nextChan }
      ∧ (∀ j, j ≠ c.nextTask + 1 →
          (addTask (withCancel c).1 (withCancel c).2).2.tasks j = c.tasks j)
      ∧ (addTask (withCancel c).1 (withCancel c).2).2.nextTask = c.nextTask + 1 := by
    intro c n hc hn
    have hfst : (addTask (withCancel c).1 (withCancel c).2).1 = c.nextTask + 1 :=
      register_fst hc hn
    have hnext : (addTask (withCancel c).1 (withCancel c).2).2.nextTask = c.nextTask + 1 :=
      register_nextTask hc hn
    have htasks : (addTask (withCancel c).1 (withCancel c).2).2.tasks
        = c.tasks.set (c.nextTask + 1) { cancel := c.nextCtx, done := c.nextChan } :=
      register_tasks hc hn
    refine ⟨hfst, ?_, ?_, ?_, hnext⟩
    · cases hx : c.tasks (c.nextTask + 1) with
      | none => rfl
      | some e => have := hc.keys _ e hx; omega
    · rw [htasks]; simp [GoMap.set]
    · intro j hj
      rw [htasks]; simp [GoMap.set, hj]
  refine ⟨?_, ?_, ?_⟩
  · intro w hw
    have hc := core s1.core _ b1.core (by omega)
    rw [portforward.StartForwardPorts_present port hw]
    refine ⟨hc.1, hc.2.1, hc.2.2.1, hc.2.2.2.1, hc.2.2.2.2, ?_, ?_, rfl, rfl, rfl, rfl, rfl,
      ?_⟩
    · simp only [if_true]; rw [hc.1]
    · intro k hk
      simp [hk]
    · intro a ha hb
      exact portforward.pf_step_keeps b1 (by omega) hw a ha hb
  · intro w hw
    have hc := core s2.core _ b2.core (by omega)
    rw [socks5lib.s5_Start_present port hw]
    refine ⟨hc.1, hc.2.1, hc.2.2.1, hc.2.2.2.1, hc.2.2.2.2, ?_, ?_, rfl, rfl, rfl, rfl, rfl,
      ?_⟩
    · simp only [if_true]; rw [hc.1]
    · intro k hk
      simp [hk]
    · intro a ha hb
      exact socks5lib.s5_step_keeps b2 (by omega) hw a ha hb
  · intro w hw
    have hc := core s3.core _ b3.core (by omega)
    rw [socks5lib2.s52_Start_present port hw]
    refine ⟨hc.1, hc.2.1, hc.2.2.1, hc.2.2.2.1, hc.2.2.2.2, ?_, ?_, rfl, rfl, rfl, rfl, rfl,
      ?_⟩
    · simp only [if_true]; rw [hc.1]
    · intro k hk
      simp [hk]
    · intro a ha hb
      exact socks5lib2.s52_step_keeps b3 (by omega) hw a ha hb

/-- Witness of C11: after the sample runs ResourceID 2 is registered in
`portforward` and in `socks5lib`, and ResourceID 3 in `socks5lib2`; `Start`
on it returns TaskID 2 (TaskID 1 in `socks5lib2`, where no task was
started before) and the handle is still registered afterwards. -/
theorem C11_start_present_registers_one_task_witness :
    ((portforward.sampleRun.length : Int) < maxInt64
      ∧ (socks5lib.sampleRun.length : Int) < maxInt64
      ∧ (socks5lib2.sampleRun.length : Int) < maxInt64)
    ∧ (portforward.State.init.run portforward.sampleRun).portForwarders 2
        = some { PF := 1, Ready := 4, StopChan := 3, ID := 2 }
    ∧ (portforward.StartForwardPorts 2 7
        (portforward.State.init.run portforward.sampleRun)).1
        = (portforward.State.init.run portforward.sampleRun).core.nextTask + 1
    ∧ (portforward.State.init.run portforward.sampleRun).core.nextTask = 1
    ∧ (portforward.StartForwardPorts 2 7
        (portforward.State.init.run portforward.sampleRun)).2.portForwarders
        = (portforward.State.init.run portforward.sampleRun).portForwarders
    ∧ (socks5lib.State.init.run socks5lib.sampleRun).socks5Servers 2
        = some { Server := 1, StopChan := 2, ID := 2 }
    ∧ (socks5lib.StartSocks5Server 2 7 (socks5lib.State.init.run socks5lib.sampleRun)).1
        = (socks5lib.State.init.run socks5lib.sampleRun).core.nextTask + 1
    ∧ (socks5lib2.State.init.run socks5lib2.sampleRun).socks5Servers 3
        = some { Server := 2, ID := 3 }
    ∧ (socks5lib2.StartSocks5Server 3 7
        (socks5lib2.State.init.run socks5lib2.sampleRun)).1
        = (socks5lib2.State.init.run socks5lib2.sampleRun).core.nextTask + 1 :=
  ⟨⟨by decide, by decide, by decide⟩, by decide,
    ((C11_start_present_registers_one_task portforward.sampleRun socks5lib.sampleRun
      socks5lib2.sampleRun _ _ _ rfl rfl rfl (by decide) (by decide) (by decide) 2 7).1
        { PF := 1, Ready := 4, StopChan := 3, ID := 2 } (by decide)).1,
    by decide,
    ((C11_start_present_registers_one_task portforward.sampleRun socks5lib.sampleRun
      socks5lib2.sampleRun _ _ _ rfl rfl rfl (by decide) (by decide) (by decide) 2 7).1
        { PF := 1, Ready := 4, StopChan := 3, ID := 2 } (by decide)).2.2.2.2.2.2.2.2.2.2.1,
    by decide,
    ((C11_start_present_registers_one_task portforward.sampleRun socks5lib.sampleRun
      socks5lib2.sampleRun _ _ _ rfl rfl rfl (by decide) (by decide) (by decide) 2 7).2.1
        { Server := 1, StopChan := 2, ID := 2 } (by decide)).1,
    by decide,
    ((C11_start_present_registers_one_task portforward.sampleRun socks5lib.sampleRun
      socks5lib2.sampleRun _ _ _ rfl rfl rfl (by decide) (by decide) (by decide) 3 7).2.2
        { Server := 2, ID := 3 } (by decide)).1⟩

/-- C12: in every reachable state, for every worker that is in its service
loop, whichever way the loop ends (it returns nil, it returns an error, or
a panic is raised), the exit of the worker first deletes the handle's entry
from the resource registry and then calls `finishTask` for the worker's
TaskID: afterwards the entry and the task record are gone, the worker has
exited, and no panic has left the worker (the process has not crashed).  A
panic is reported as one failure response after what was sent before; it
carries the panic's value, except in `portforward` when the stop channel
had been closed before, where it carries the value of the panic that the
second `close` raises.  Shown for the workers of `StartForwardPorts` and of
`StartSocks5Server` in `socks5lib` and in `socks5lib2`. -/
theorem C12_worker_exit_removes_handle_then_finishTask
    (a1 : List portforward.Action) (a2 : List socks5lib.Action)
    (a3 : List socks5lib2.Action)
    (s1 : portforward.State) (s2 : socks5lib.State) (s3 : socks5lib2.State)
    (e1 : s1 = portforward.State.init.run a1) (e2 : s2 = socks5lib.State.init.run a2)
    (e3 : s3 = socks5lib2.State.init.run a3) (k : Nat) (r : Outcome Unit) :
    (∀ wk, s1.workers k = some wk → wk.pc = WorkerPC.inLoop →
        (portforward.unwound wk r s1).portForwarders wk.w.ID = none
        ∧ (portforward.workerExit k r s1).core
            = finishTask wk.tid (portforward.unwound wk r s1).core
        ∧ (portforward.workerExit k r s1).portForwarders wk.w.ID = none
        ∧ (portforward.workerExit k r s1).core.tasks wk.tid = none
        ∧ (portforward.workerExit k r s1).core.crashed = none
        ∧ (portforward.workerExit k r s1).workers k = some { wk with pc := WorkerPC.exited }
        ∧ (∀ v, r = Outcome.panic v →
            (portforward.workerExit k r s1).core.sent
              = s1.core.sent ++ [(wk.p, Msg.resp (failure "start_forward_ports"
                  (if s1.core.closes wk.w.StopChan = 0 then v else closeOfClosed)))]))
    ∧ (∀ wk, s2.workers k = some wk → wk.pc = WorkerPC.inLoop →
        (socks5lib.unwound wk r s2).socks5Servers wk.w.ID = none
        ∧ (socks5lib.workerExit k r s2).core
            = finishTask wk.tid (socks5lib.unwound wk r s2).core
        ∧ (socks5lib.workerExit k r s2).socks5Servers wk.w.ID = none
        ∧ (socks5lib.workerExit k r s2).core.tasks wk.tid = none
        ∧ (socks5lib.workerExit k r s2).core.crashed = none
        ∧ (socks5lib.workerExit k r s2).workers k = some { wk with pc := WorkerPC.exited }
        ∧ (∀ v, r = Outcome.panic v →
            (socks5lib.workerExit k r s2).core.sent
              = s2.core.sent ++ [(wk.p, Msg.resp (failure "start_socks5_server" v))]))
    ∧ (∀ wk, s3.workers k = some wk → wk.pc = WorkerPC.inLoop →
        (socks5lib2.unwound wk r s3).socks5Servers wk.w.ID = none
        ∧ (socks5lib2.workerExit k r s3).core
            = finishTask wk.tid (socks5lib2.unwound wk r s3).core
        ∧ (socks5lib2.workerExit k r s3).socks5Servers wk.w.ID = none
        ∧ (socks5lib2.workerExit k r s3).core.tasks wk.tid = none
        ∧ (socks5lib2.workerExit k r s3).core.crashed = none
        ∧ (socks5lib2.workerExit k r s3).workers k = some { wk with pc := WorkerPC.exited }
        ∧ (∀ v, r = Outcome.panic v →
            (socks5lib2.workerExit k r s3).core.sent
              = s3.core.sent ++ [(wk.p, Msg.resp (failure "start_socks5_server" v))])) := by
  have i1 : s1.Inv := by rw [e1]; exact portforward.State.Inv.pf_inv_init.pf_inv_run a1
  have i2 : s2.Inv := by rw [e2]; exact socks5lib.State.Inv.s5_inv_init.s5_inv_run a2
  have i3 : s3.Inv := by rw [e3]; exact socks5lib2.State.Inv.s52_inv_init.s52_inv_run a3
  refine ⟨?_, ?_, ?_⟩
  · intro wk hk hpc
    have hx := portforward.pf_exit_spec i1 r hk hpc
    refine ⟨hx.1, hx.2.1, hx.2.2.1, hx.2.2.2.1, hx.2.2.2.2.1, hx.2.2.2.2.2.1, ?_⟩
    intro v hv
    rw [hx.2.2.2.2.2.2, (portforward.pf_unwound_spec wk r s1).2.2.2.2.2, hv]
    by_cases ho : s1.core.closes wk.w.StopChan = 0
    · simp [ho]
    · simp [ho]
  · intro wk hk hpc
    have hx := socks5lib.s5_exit_spec i2 r hk hpc
    refine ⟨hx.1, hx.2.1, hx.2.2.1, hx.2.2.2.1, hx.2.2.2.2.1, hx.2.2.2.2.2.1, ?_⟩
    intro v hv
    rw [hx.2.2.2.2.2.2, (socks5lib.s5_unwound_spec wk r s2).2.2.2.2.2.2, hv]
  · intro wk hk hpc
    have hx := socks5lib2.s52_exit_spec i3 r hk hpc
    refine ⟨hx.1, hx.2.1, hx.2.2.1, hx.2.2.2.1, hx.2.2.2.2.1, hx.2.2.2.2.2.1, ?_⟩
    intro v hv
    rw [hx.2.2.2.2.2.2, (socks5lib2.s52_unwound_spec wk r s3).2.2.2.2.2.2, hv]

/-- Witness of C12: after create, start and the worker's entry into the
loop in `portforward`, a panic `"boom"` in the worker removes handle 1 and
task 1 and is reported as a failure response; in `socks5lib` the same holds
when the loop returns an error. -/
theorem C12_worker_exit_removes_handle_then_finishTask_witness :
    (portforward.State.init.run (portforward.sampleRun.take 3)).workers 0
        = some { tid := 1, w := { PF := 0, Ready := 1, StopChan := 0, ID := 1 }, p := 7,
                 pc := WorkerPC.inLoop }
    ∧ (portforward.workerExit 0 (Outcome.panic "boom")
        (portforward.State.init.run (portforward.sampleRun.take 3))).portForwarders 1 = none
    ∧ (portforward.workerExit 0 (Outcome.panic "boom")
        (portforward.State.init.run (portforward.sampleRun.take 3))).core.tasks 1 = none
    ∧ (portforward.workerExit 0 (Outcome.panic "boom")
        (portforward.State.init.run (portforward.sampleRun.take 3))).core.sent
        = (portforward.State.init.run (portforward.sampleRun.take 3)).core.sent
          ++ [(7, Msg.resp (failure "start_forward_ports"
              (if (portforward.State.init.run (portforward.sampleRun.take 3)).core.closes 0 = 0
               then "boom" else closeOfClosed)))]
    ∧ (socks5lib.State.init.run (socks5lib.sampleRun.take 3)).workers 0
        = some { tid := 1, w := { Server := 0, StopChan := 0, ID := 1 }, p := 7,
                 pc := WorkerPC.inLoop }
    ∧ (socks5lib.workerExit 0 (Outcome.err "listen failed")
        (socks5lib.State.init.run (socks5lib.sampleRun.take 3))).core.tasks 1 = none :=
  ⟨by decide,
    ((C12_worker_exit_removes_handle_then_finishTask (portforward.sampleRun.take 3)
      (socks5lib.sampleRun.take 3) [] _ _ _ rfl rfl rfl 0 (Outcome.panic "boom")).1
        { tid := 1, w := { PF := 0, Ready := 1, StopChan := 0, ID := 1 }, p := 7,
          pc := WorkerPC.inLoop } (by decide) rfl).2.2.1,
    ((C12_worker_exit_removes_handle_then_finishTask (portforward.sampleRun.take 3)
      (socks5lib.sampleRun.take 3) [] _ _ _ rfl rfl rfl 0 (Outcome.panic "boom")).1
        { tid := 1, w := { PF := 0, Ready := 1, StopChan := 0, ID := 1 }, p := 7,
          pc := WorkerPC.inLoop } (by decide) rfl).2.2.2.1,
    ((C12_worker_exit_removes_handle_then_finishTask (portforward.sampleRun.take 3)
      (socks5lib.sampleRun.take 3) [] _ _ _ rfl rfl rfl 0 (Outcome.panic "boom")).1
        { tid := 1, w := { PF := 0, Ready := 1, StopChan := 0, ID := 1 }, p := 7,
          pc := WorkerPC.inLoop } (by decide) rfl).2.2.2.2.2.2 "boom" rfl,
    by decide,
    ((C12_worker_exit_removes_handle_then_finishTask (portforward.sampleRun.take 3)
      (socks5lib.sampleRun.take 3) [] _ _ _ rfl rfl rfl 0 (Outcome.err "listen failed")).2.1
        { tid := 1, w := { Server := 0, StopChan := 0, ID := 1 }, p := 7,
          pc := WorkerPC.inLoop } (by decide) rfl).2.2.2.1⟩

/-- C14: in every reachable state, with the Stop calls of `portforward`
and of `socks5lib` followed statement by statement, for two distinct
ResourceIDs `a` and `b` with `b` registered, each part of a Stop call on
`a` (the lookup, the `close` of the stop channel of the wrapper the call
holds, the `delete` with the response) leaves the entry of `b` as it was,
leaves the number of closes of the stop channel of `b` as it was (an
unclosed channel stays unclosed), leaves the task registry, the cancel
functions and the workers unchanged, and closes the `done` channel of no
registered task; the wrapper the call holds shares no stop channel and no
service object with the wrapper of `b`, and the only call made goes to the
service object of `a`.  The `close` part leaves the process running exactly
when it was running and the stop channel of `a` was not already closed.
For `StopSocks5Server` of `socks5lib2`, whose wrappers have no channel, the
same frame holds for either outcome of `Shutdown()`. -/
theorem C14_stop_leaves_other_resource_untouched
    (a1 : List portforward.Step) (a2 : List socks5lib.Step)
    (a3 : List socks5lib2.Action)
    (p1 : portforward.Proc) (p2 : socks5lib.Proc) (s3 : socks5lib2.State)
    (e1 : p1 = portforward.Proc.init.run a1) (e2 : p2 = socks5lib.Proc.init.run a2)
    (e3 : s3 = socks5lib2.State.init.run a3) (a b port : Int) (k : Nat) (hab : a ≠ b) :
    (((p1.step (portforward.Step.stopLookup a port)).st.portForwarders = p1.st.portForwarders
        ∧ (p1.step (portforward.Step.stopLookup a port)).st.core.closes = p1.st.core.closes
        ∧ (p1.step (portforward.Step.stopLookup a port)).st.core.tasks = p1.st.core.tasks
        ∧ (p1.step (portforward.Step.stopLookup a port)).st.core.cancels = p1.st.core.cancels
        ∧ (p1.step (portforward.Step.stopLookup a port)).st.workers = p1.st.workers
        ∧ (p1.step (portforward.Step.stopLookup a port)).st.calls = p1.st.calls
        ∧ (p1.step (portforward.Step.stopLookup a port)).st.core.crashed
            = p1.st.core.crashed)
      ∧ (∀ f wb, p1.stops k = some f → f.id = a → p1.st.portForwarders b = some wb →
          f.wrapper.StopChan ≠ wb.StopChan ∧ f.wrapper.PF ≠ wb.PF
          ∧ (p1.step (portforward.Step.stopClose k)).st.portForwarders = p1.st.portForwarders
          ∧ (p1.step (portforward.Step.stopClose k)).st.core.closes wb.StopChan
              = p1.st.core.closes wb.StopChan
          ∧ (p1.step (portforward.Step.stopClose k)).st.core.tasks = p1.st.core.tasks
          ∧ (p1.step (portforward.Step.stopClose k)).st.core.cancels = p1.st.core.cancels
          ∧ (∀ tid e, p1.st.core.tasks tid = some e →
              (p1.step (portforward.Step.stopClose k)).st.core.closes e.done
                = p1.st.core.closes e.done)
          ∧ (p1.step (portforward.Step.stopClose k)).st.workers = p1.st.workers
          ∧ ((p1.step (portforward.Step.stopClose k)).st.calls = p1.st.calls
              ∨ (p1.step (portforward.Step.stopClose k)).st.calls
                  = p1.st.calls ++ [ExtCall.Close f.wrapper.PF])
          ∧ ((p1.step (portforward.Step.stopClose k)).st.core.crashed = none
              ↔ (p1.st.core.crashed = none
                  ∧ (f.pc = StopResPC.atClose → p1.st.core.closes f.wrapper.StopChan = 0)))
          ∧ (p1.step (portforward.Step.stopRemove k)).st.portForwarders b = some wb
          ∧ (p1.step (portforward.Step.stopRemove k)).st.core.closes = p1.st.core.closes
          ∧ (p1.step (portforward.Step.stopRemove k)).st.core.tasks = p1.st.core.tasks
          ∧ (p1.step (portforward.Step.stopRemove k)).st.core.cancels = p1.st.core.cancels
          ∧ (p1.step (portforward.Step.stopRemove k)).st.workers = p1.st.workers
          ∧ (p1.step (portforward.Step.stopRemove k)).st.calls = p1.st.calls
          ∧ (p1.step (portforward.Step.stopRemove k)).st.core.crashed
              = p1.st.core.crashed))
    ∧ (((p2.step (socks5lib.Step.stopLookup a port)).st.socks5Servers = p2.st.socks5Servers
        ∧ (p2.step (socks5lib.Step.stopLookup a port)).st.core.closes = p2.st.core.closes
        ∧ (p2.step (socks5lib.Step.stopLookup a port)).st.core.tasks = p2.st.core.tasks
        ∧ (p2.step (socks5lib.Step.stopLookup a port)).st.core.cancels = p2.st.core.cancels
        ∧ (p2.step (socks5lib.Step.stopLookup a port)).st.workers = p2.st.workers
        ∧ (p2.step (socks5lib.Step.stopLookup a port)).st.calls = p2.st.calls
        ∧ (p2.step (socks5lib.Step.stopLookup a port)).st.core.crashed
            = p2.st.core.crashed)
      ∧ (∀ f wb, p2.stops k = some f → f.id = a → p2.st.socks5Servers b = some wb →
          f.wrapper.StopChan ≠ wb.StopChan ∧ f.wrapper.Server ≠ wb.Server
          ∧ (p2.step (socks5lib.Step.stopClose k)).st.socks5Servers = p2.st.socks5Servers
          ∧ (p2.step (socks5lib.Step.stopClose k)).st.core.closes wb.StopChan
              = p2.st.core.closes wb.StopChan
          ∧ (p2.step (socks5lib.Step.stopClose k)).st.core.tasks = p2.st.core.tasks
          ∧ (p2.step (socks5lib.Step.stopClose k)).st.core.cancels = p2.st.core.cancels
          ∧ (∀ tid e, p2.st.core.tasks tid = some e →
              (p2.step (socks5lib.Step.stopClose k)).st.core.closes e.done
                = p2.st.core.closes e.done)
          ∧ (p2.step (socks5lib.Step.stopClose k)).st.workers = p2.st.workers
          ∧ (p2.step (socks5lib.Step.stopClose k)).st.calls = p2.st.calls
          ∧ ((p2.step (socks5lib.Step.stopClose k)).st.core.crashed = none
              ↔ (p2.st.core.crashed = none
                  ∧ (f.pc = StopResPC.atClose → p2.st.core.closes f.wrapper.StopChan = 0)))
          ∧ (p2.step (socks5lib.Step.stopRemove k)).st.socks5Servers b = some wb
          ∧ (p2.step (socks5lib.Step.stopRemove k)).st.core.closes = p2.st.core.closes
          ∧ (p2.step (socks5lib.Step.stopRemove k)).st.core.tasks = p2.st.core.tasks
          ∧ (p2.step (socks5lib.Step.stopRemove k)).st.core.cancels = p2.st.core.cancels
          ∧ (p2.step (socks5lib.Step.stopRemove k)).st.workers = p2.st.workers
          ∧ (p2.step (socks5lib.Step.stopRemove k)).st.calls = p2.st.calls
          ∧ (p2.step (socks5lib.Step.stopRemove k)).st.core.crashed
              = p2.st.core.crashed))
    ∧ (∀ wa wb (sh : Option String),
        s3.socks5Servers a = some wa → s3.socks5Servers b = some wb →
        (socks5lib2.StopSocks5Server a port sh s3).socks5Servers b = some wb
        ∧ (socks5lib2.StopSocks5Server a port sh s3).core.tasks = s3.core.tasks
        ∧ (socks5lib2.StopSocks5Server a port sh s3).core.cancels = s3.core.cancels
        ∧ (socks5lib2.StopSocks5Server a port sh s3).core.closes = s3.core.closes
        ∧ (socks5lib2.StopSocks5Server a port sh s3).workers = s3.workers
        ∧ (socks5lib2.StopSocks5Server a port sh s3).core.crashed = none
        ∧ wa.Server ≠ wb.Server
        ∧ (socks5lib2.StopSocks5Server a port sh s3).calls
            = s3.calls ++ [ExtCall.Shutdown wa.Server]) := by
  have i1 : p1.Inv := by rw [e1]; exact portforward.Proc.Inv.pf_fine_init.pf_fine_run a1
  have i2 : p2.Inv := by rw [e2]; exact socks5lib.Proc.Inv.s5_fine_init.s5_fine_run a2
  have i3 : s3.Inv := by rw [e3]; exact socks5lib2.State.Inv.s52_inv_init.s52_inv_run a3
  refine ⟨⟨?_, ?_⟩, ⟨?_, ?_⟩, ?_⟩
  · by_cases hc : p1.st.core.crashed = none
    · rw [portforward.Proc.pf_fine_step_alive hc]
      simp only
      cases hp : p1.st.portForwarders a with
      | none =>
        rw [portforward.StopForwardPorts.pf_lookup_absent port hp]
        exact ⟨rfl, rfl, rfl, rfl, rfl, rfl, rfl⟩
      | some w =>
        rw [portforward.StopForwardPorts.pf_lookup_present port hp]
        exact ⟨rfl, rfl, rfl, rfl, rfl, rfl, rfl⟩
    · rw [portforward.Proc.pf_fine_step_crashed hc]
      exact ⟨rfl, rfl, rfl, rfl, rfl, rfl, rfl⟩
  · intro f wb hf hfa hb
    have hne : f.id ≠ b := by rw [hfa]; exact hab
    have hap := i1.pf_frame_apart hf hb hne
    refine ⟨hap.1, hap.2, ?_⟩
    by_cases hc : p1.st.core.crashed = none
    · rw [portforward.Proc.pf_fine_step_alive hc, portforward.Proc.pf_fine_step_alive hc]
      simp only
      have hrem : (portforward.StopForwardPorts.remove k p1).st.portForwarders b = some wb
          ∧ (portforward.StopForwardPorts.remove k p1).st.core.closes = p1.st.core.closes
          ∧ (portforward.StopForwardPorts.remove k p1).st.core.tasks = p1.st.core.tasks
          ∧ (portforward.StopForwardPorts.remove k p1).st.core.cancels = p1.st.core.cancels
          ∧ (portforward.StopForwardPorts.remove k p1).st.workers = p1.st.workers
          ∧ (portforward.StopForwardPorts.remove k p1).st.calls = p1.st.calls
          ∧ (portforward.StopForwardPorts.remove k p1).st.core.crashed
              = p1.st.core.crashed := by
        by_cases hpc : f.pc = StopResPC.atDelete
        · rw [portforward.StopForwardPorts.pf_remove_eq hf hpc]
          refine ⟨?_, rfl, rfl, rfl, rfl, rfl, rfl⟩
          simp [portforward.send, GoMap.delete, Ne.symm hne, hb]
        · rw [portforward.StopForwardPorts.pf_remove_skip
            (fun g hg => by cases hf.symm.trans hg; exact hpc)]
          exact ⟨hb, rfl, rfl, rfl, rfl, rfl, rfl⟩
      by_cases hpc : f.pc = StopResPC.atClose
      · by_cases ho : p1.st.core.closes f.wrapper.StopChan = 0
        · rw [portforward.StopForwardPorts.pf_close_open hf hpc ho]
          refine ⟨rfl, ?_, rfl, rfl, ?_, rfl, Or.inr rfl, ?_, hrem⟩
          · simp [closeChan, Ne.symm hap.1]
          · intro tid e he
            simp [closeChan, i1.frame_task k f tid e hf he]
          · exact ⟨fun _ => ⟨hc, fun _ => ho⟩, fun _ => hc⟩
        · rw [portforward.StopForwardPorts.pf_close_closed hf hpc ho]
          refine ⟨rfl, ?_, rfl, rfl, ?_, rfl, Or.inl rfl, ?_, hrem⟩
          · simp [closeChan, Ne.symm hap.1]
          · intro tid e he
            simp [closeChan, i1.frame_task k f tid e hf he]
          · exact ⟨fun h => Option.noConfusion h, fun h => absurd (h.2 hpc) ho⟩
      · rw [portforward.StopForwardPorts.pf_close_skip
          (fun g hg => by cases hf.symm.trans hg; exact hpc)]
        exact ⟨rfl, rfl, rfl, rfl, fun _ _ _ => rfl, rfl, Or.inl rfl,
          ⟨fun _ => ⟨hc, fun h => absurd h hpc⟩, fun _ => hc⟩, hrem⟩
    · rw [portforward.Proc.pf_fine_step_crashed hc, portforward.Proc.pf_fine_step_crashed hc]
      exact ⟨rfl, rfl, rfl, rfl, fun _ _ _ => rfl, rfl, Or.inl rfl,
        ⟨fun h => absurd h hc, fun h => h.1⟩, hb, rfl, rfl, rfl, rfl, rfl, rfl⟩
  · by_cases hc : p2.st.core.crashed = none
    · rw [socks5lib.Proc.s5_fine_step_alive hc]
      simp only
      cases hp : p2.st.socks5Servers a with
      | none =>
        rw [socks5lib.StopSocks5Server.s5_lookup_absent port hp]
        exact ⟨rfl, rfl, rfl, rfl, rfl, rfl, rfl⟩
      | some w =>
        rw [socks5lib.StopSocks5Server.s5_lookup_present port hp]
        exact ⟨rfl, rfl, rfl, rfl, rfl, rfl, rfl⟩
    · rw [socks5lib.Proc.s5_fine_step_crashed hc]
      exact ⟨rfl, rfl, rfl, rfl, rfl, rfl, rfl⟩
  · intro f wb hf hfa hb
    have hne : f.id ≠ b := by rw [hfa]; exact hab
    have hap := i2.s5_frame_apart hf hb hne
    refine ⟨hap.1, hap.2, ?_⟩
    by_cases hc : p2.st.core.crashed = none
    · rw [socks5lib.Proc.s5_fine_step_alive hc, socks5lib.Proc.s5_fine_step_alive hc]
      simp only
      have hrem : (socks5lib.StopSocks5Server.remove k p2).st.socks5Servers b = some wb
          ∧ (socks5lib.StopSocks5Server.remove k p2).st.core.closes = p2.st.core.closes
          ∧ (socks5lib.StopSocks5Server.remove k p2).st.core.tasks = p2.st.core.tasks
          ∧ (socks5lib.StopSocks5Server.remove k p2).st.core.cancels = p2.st.core.cancels
          ∧ (socks5lib.StopSocks5Server.remove k p2).st.workers = p2.st.workers
          ∧ (socks5lib.StopSocks5Server.remove k p2).st.calls = p2.st.calls
          ∧ (socks5lib.StopSocks5Server.remove k p2).st.core.crashed
              = p2.st.core.crashed := by
        by_cases hpc : f.pc = StopResPC.atDelete
        · rw [socks5lib.StopSocks5Server.s5_remove_eq hf hpc]
          refine ⟨?_, rfl, rfl, rfl, rfl, rfl, rfl⟩
          simp [socks5lib.send, GoMap.delete, Ne.symm hne, hb]
        · rw [socks5lib.StopSocks5Server.s5_remove_skip
            (fun g hg => by cases hf.symm.trans hg; exact hpc)]
          exact ⟨hb, rfl, rfl, rfl, rfl, rfl, rfl⟩
      by_cases hpc : f.pc = StopResPC.atClose
      · by_cases ho : p2.st.core.closes f.wrapper.StopChan = 0
        · rw [socks5lib.StopSocks5Server.s5_close_open hf hpc ho]
          refine ⟨rfl, ?_, rfl, rfl, ?_, rfl, rfl, ?_, hrem⟩
          · simp [closeChan, Ne.symm hap.1]
          · intro tid e he
            simp [closeChan, i2.frame_task k f tid e hf he]
          · exact ⟨fun _ => ⟨hc, fun _ => ho⟩, fun _ => hc⟩
        · rw [socks5lib.StopSocks5Server.s5_close_closed hf hpc ho]
          refine ⟨rfl, ?_, rfl, rfl, ?_, rfl, rfl, ?_, hrem⟩
          · simp [closeChan, Ne.symm hap.1]
          · intro tid e he
            simp [closeChan, i2.frame_task k f tid e hf he]
          · exact ⟨fun h => Option.noConfusion h, fun h => absurd (h.2 hpc) ho⟩
      · rw [socks5lib.StopSocks5Server.s5_close_skip
          (fun g hg => by cases hf.symm.trans hg; exact hpc)]
        exact ⟨rfl, rfl, rfl, rfl, fun _ _ _ => rfl, rfl, rfl,
          ⟨fun _ => ⟨hc, fun h => absurd h hpc⟩, fun _ => hc⟩, hrem⟩
    · rw [socks5lib.Proc.s5_fine_step_crashed hc, socks5lib.Proc.s5_fine_step_crashed hc]
      exact ⟨rfl, rfl, rfl, rfl, fun _ _ _ => rfl, rfl, rfl,
        ⟨fun h => absurd h hc, fun h => h.1⟩, hb, rfl, rfl, rfl, rfl, rfl, rfl⟩
  · intro wa wb sh ha hb
    have hne2 : wa.Server ≠ wb.Server :=
      fun hc => hab (i3.reg_inj a b wa wb ha hb hc)
    cases sh with
    | none =>
      rw [socks5lib2.s52_Stop_ok port ha]
      refine ⟨?_, rfl, rfl, rfl, rfl, i3.crashed, hne2, rfl⟩
      simp [socks5lib2.send, GoMap.delete, Ne.symm hab, hb]
    | some err =>
      rw [socks5lib2.s52_Stop_err port err ha]
      exact ⟨hb, rfl, rfl, rfl, rfl, i3.crashed, hne2, rfl⟩

set_option maxRecDepth 8000 in
/-- Witness of C14: with forwarders 1 and 2 both started and a
`StopForwardPorts` call on forwarder 1 past its lookup, the `close` of the
call leaves the registry, the closes of the stop channel of forwarder 2 and
the task registry as they were, and the `delete` of the call leaves the
entry of forwarder 2; in `socks5lib` the `close` of such a call leaves the
closes of the stop channel of server 2 as they were, and in `socks5lib2`
stopping server 1 leaves the entry of server 2. -/
theorem C14_stop_leaves_other_resource_untouched_witness :
    ((1 : Int) ≠ 2)
    ∧ (portforward.Proc.init.run (portforward.stopPairRun.take 7)).stops 0
        = some { id := 1, p := 7, wrapper := { PF := 0, Ready := 1, StopChan := 0, ID := 1 },
                 pc := StopResPC.atClose }
    ∧ (portforward.Proc.init.run (portforward.stopPairRun.take 7)).st.portForwarders 2
        = some { PF := 1, Ready := 3, StopChan := 2, ID := 2 }
    ∧ (portforward.Proc.init.run (portforward.stopPairRun.take 7)).st.core.tasks 2
        = some { cancel := 1, done := 5 }
    ∧ (portforward.Proc.init.run (portforward.stopPairRun.take 7)).st.core.closes 2 = 0
    ∧ ((portforward.Proc.init.run (portforward.stopPairRun.take 7)).step
        (portforward.Step.stopClose 0)).st.portForwarders
        = (portforward.Proc.init.run (portforward.stopPairRun.take 7)).st.portForwarders
    ∧ ((portforward.Proc.init.run (portforward.stopPairRun.take 7)).step
        (portforward.Step.stopClose 0)).st.core.closes 2
        = (portforward.Proc.init.run (portforward.stopPairRun.take 7)).st.core.closes 2
    ∧ ((portforward.Proc.init.run (portforward.stopPairRun.take 7)).step
        (portforward.Step.stopClose 0)).st.core.tasks
        = (portforward.Proc.init.run (portforward.stopPairRun.take 7)).st.core.tasks
    ∧ (portforward.Proc.init.run (portforward.stopPairRun.take 8)).stops 0
        = some { id := 1, p := 7, wrapper := { PF := 0, Ready := 1, StopChan := 0, ID := 1 },
                 pc := StopResPC.atDelete }
    ∧ ((portforward.Proc.init.run (portforward.stopPairRun.take 8)).step
        (portforward.Step.stopRemove 0)).st.portForwarders 2
        = some { PF := 1, Ready := 3, StopChan := 2, ID := 2 }
    ∧ (socks5lib.Proc.init.run (socks5lib.stopPairRun.take 7)).stops 0
        = some { id := 1, p := 7, wrapper := { Server := 0, StopChan := 0, ID := 1 },
                 pc := StopResPC.atClose }
    ∧ (socks5lib.Proc.init.run (socks5lib.stopPairRun.take 7)).st.socks5Servers 2
        = some { Server := 1, StopChan := 1, ID := 2 }
    ∧ ((socks5lib.Proc.init.run (socks5lib.stopPairRun.take 7)).step
        (socks5lib.Step.stopClose 0)).st.core.closes 1
        = (socks5lib.Proc.init.run (socks5lib.stopPairRun.take 7)).st.core.closes 1
    ∧ (socks5lib2.State.init.run socks5lib2.pairRun).socks5Servers 1
        = some { Server := 0, ID := 1 }
    ∧ (socks5lib2.StopSocks5Server 1 7 none
        (socks5lib2.State.init.run socks5lib2.pairRun)).socks5Servers 2
        = some { Server := 1, ID := 2 } :=
  ⟨by decide, by decide, by decide, by decide, by decide,
    ((C14_stop_leaves_other_resource_untouched (portforward.stopPairRun.take 7) [] []
      _ _ _ rfl rfl rfl 1 2 7 0 (by decide)).1.2
        { id := 1, p := 7, wrapper := { PF := 0, Ready := 1, StopChan := 0, ID := 1 },
          pc := StopResPC.atClose }
        { PF := 1, Ready := 3, StopChan := 2, ID := 2 } (by decide) rfl (by decide)).2.2.1,
    ((C14_stop_leaves_other_resource_untouched (portforward.stopPairRun.take 7) [] []
      _ _ _ rfl rfl rfl 1 2 7 0 (by decide)).1.2
        { id := 1, p := 7, wrapper := { PF := 0, Ready := 1, StopChan := 0, ID := 1 },
          pc := StopResPC.atClose }
        { PF := 1, Ready := 3, StopChan := 2, ID := 2 } (by decide) rfl (by decide)).2.2.2.1,
    ((C14_stop_leaves_other_resource_untouched (portforward.stopPairRun.take 7) [] []
      _ _ _ rfl rfl rfl 1 2 7 0 (by decide)).1.2
        { id := 1, p := 7, wrapper := { PF := 0, Ready := 1, StopChan := 0, ID := 1 },
          pc := StopResPC.atClose }
        { PF := 1, Ready := 3, StopChan := 2, ID := 2 } (by decide) rfl (by decide)).2.2.2.2.1,
    by decide,
    ((C14_stop_leaves_other_resource_untouched (portforward.stopPairRun.take 8) [] []
      _ _ _ rfl rfl rfl 1 2 7 0 (by decide)).1.2
        { id := 1, p := 7, wrapper := { PF := 0, Ready := 1, StopChan := 0, ID := 1 },
          pc := StopResPC.atDelete }
        { PF := 1, Ready := 3, StopChan := 2, ID := 2 } (by decide) rfl
        (by decide)).2.2.2.2.2.2.2.2.2.2.1,
    by decide, by decide,
    ((C14_stop_leaves_other_resource_untouched [] (socks5lib.stopPairRun.take 7) []
      _ _ _ rfl rfl rfl 1 2 7 0 (by decide)).2.1.2
        { id := 1, p := 7, wrapper := { Server := 0, StopChan := 0, ID := 1 },
          pc := StopResPC.atClose }
        { Server := 1, StopChan := 1, ID := 2 } (by decide) rfl (by decide)).2.2.2.1,
    by decide,
    ((C14_stop_leaves_other_resource_untouched [] [] socks5lib2.pairRun
      _ _ _ rfl rfl rfl 1 2 7 0 (by decide)).2.2
        { Server := 0, ID := 1 } { Server := 1, ID := 2 } none (by decide) (by decide)).1⟩
/-! ## Claims about the runners of `sentinel` -/

/-- C15: for every start position (Go `int`s) and every target (C `int`s)
the step count computed by `MoveSmoothStart` and `DragSmoothStart`, in
`float64` arithmetic, is the integer quotient of the Chebyshev distance
`max(|tx-startX|, |ty-startY|)` by 10 clamped into `[10, 120]`.  It lies
between 10 and 120, its conversion `float64(steps)` is exact and not zero
(the divisor of the per-step division), and a distance below 100 gives 10
steps. -/
theorem C15_step_count_is_clamped_quotient (startX startY tx ty : Int)
    (hx1 : -(2 ^ 63) ≤ startX) (hx2 : startX < 2 ^ 63)
    (hy1 : -(2 ^ 63) ≤ startY) (hy2 : startY < 2 ^ 63)
    (htx1 : -(2 ^ 31) ≤ tx) (htx2 : tx < 2 ^ 31)
    (hty1 : -(2 ^ 31) ≤ ty) (hty2 : ty < 2 ^ 31) :
    sentinel.stepCount startX startY tx ty = sentinel.stepCountSpec startX startY tx ty
    ∧ sentinel.stepCount startX startY tx ty
        = max 10 (min 120 (max |tx - startX| |ty - startY| / 10))
    ∧ 10 ≤ sentinel.stepCount startX startY tx ty
    ∧ sentinel.stepCount startX startY tx ty ≤ 120
    ∧ F64.ofInt (sentinel.stepCount startX startY tx ty)
        = ((sentinel.stepCount startX startY tx ty : Int) : ℚ)
    ∧ F64.ofInt (sentinel.stepCount startX startY tx ty) ≠ 0
    ∧ (max |tx - startX| |ty - startY| < 100 → sentinel.stepCount startX startY tx ty = 10) := by
  have heq := sentinel.stepCount_eq startX startY tx ty hx1 hx2 hy1 hy2 htx1 htx2 hty1 hty2
  have hb := sentinel.stepCount_bounds startX startY tx ty
  have hex : F64.ofInt (sentinel.stepCount startX startY tx ty)
      = ((sentinel.stepCount startX startY tx ty : Int) : ℚ) := by
    unfold F64.ofInt
    exact roundF64_intCast (abs_lt.mpr ⟨by omega, by omega⟩)
  refine ⟨heq, heq, hb.1, hb.2, hex, ?_, ?_⟩
  · rw [hex]
    have : (sentinel.stepCount startX startY tx ty) ≠ 0 := by omega
    exact_mod_cast this
  · intro hd
    rw [heq]
    unfold sentinel.stepCountSpec
    have h0 : 0 ≤ max |tx - startX| |ty - startY| := le_max_of_le_left (abs_nonneg _)
    omega

/-- Witness of C15: from `(0, 0)` to `(5, 0)` the distance is 5 and the
step count is 10. -/
theorem C15_step_count_is_clamped_quotient_witness :
    (max |(5 : Int) - 0| |(0 : Int) - 0| < 100) ∧ sentinel.stepCount 0 0 5 0 = 10 :=
  ⟨by decide,
    (C15_step_count_is_clamped_quotient 0 0 5 0 (by decide) (by decide) (by decide)
      (by decide) (by decide) (by decide) (by decide) (by decide)).2.2.2.2.2.2 (by decide)⟩

/-- Counterexample to C16 as stated: from `(0, 0)` to `(1000, 0)` the
distance is 1000 and the step count computed is `1000 / 10 = 100`, not
120; with nothing cancelled, `MoveSmoothStart` commands 100 interpolated
moves and the final one. -/
theorem C16_move_by_1000_takes_100_steps :
    sentinel.stepCount 0 0 1000 0 = 100
    ∧ sentinel.stepCount 0 0 1000 0 ≠ 120
    ∧ (sentinel.moves
        (sentinel.MoveSmoothStart.worker (sentinel.World.calm (0, 0)) 1000 0 7 1).log).length
        = 101 := by
  have h : sentinel.stepCount 0 0 1000 0 = 100 :=
    (sentinel.stepCount_eq 0 0 1000 0 (by decide) (by decide) (by decide) (by decide)
      (by decide) (by decide) (by decide) (by decide)).trans (by decide)
  refine ⟨h, by rw [h]; decide, ?_⟩
  have hw := sentinel.move_worker_done (w := sentinel.World.calm (0, 0)) (fun _ => rfl)
    1000 0 7 1 (fun _ _ _ => rfl)
  have h2 : sentinel.stepCount (sentinel.World.calm (0, 0)).mousePos.1
      (sentinel.World.calm (0, 0)).mousePos.2 1000 0 = 100 := h
  rw [hw]
  simp only [sentinel.moves_append, sentinel.moves_cons, sentinel.moves_nil,
    sentinel.moves_stepEvents, List.length_append, List.length_map, List.length_range,
    List.length_cons, List.length_nil, List.nil_append, h2]
  rfl

/-- C16, amended: for every start position (Go `int`s) and every target (C
`int`s) the step count of `MoveSmoothStart` is 120 exactly when the
Chebyshev distance is at least 1200; from `(0, 0)` to `(1000, 0)` it is
100, and from `(0, 0)` to `(1200, 0)` it is 120. -/
theorem C16_step_count_clamps_to_120_from_distance_1200 (startX startY tx ty : Int)
    (hx1 : -(2 ^ 63) ≤ startX) (hx2 : startX < 2 ^ 63)
    (hy1 : -(2 ^ 63) ≤ startY) (hy2 : startY < 2 ^ 63)
    (htx1 : -(2 ^ 31) ≤ tx) (htx2 : tx < 2 ^ 31)
    (hty1 : -(2 ^ 31) ≤ ty) (hty2 : ty < 2 ^ 31) :
    (sentinel.stepCount startX startY tx ty = 120
      ↔ 1200 ≤ max |tx - startX| |ty - startY|)
    ∧ sentinel.stepCount 0 0 1000 0 = 100
    ∧ sentinel.stepCount 0 0 1200 0 = 120 := by
  have heq := sentinel.stepCount_eq startX startY tx ty hx1 hx2 hy1 hy2 htx1 htx2 hty1 hty2
  refine ⟨?_, ?_, ?_⟩
  · rw [heq]
    unfold sentinel.stepCountSpec
    have h0 : 0 ≤ max |tx - startX| |ty - startY| := le_max_of_le_left (abs_nonneg _)
    omega
  · exact (sentinel.stepCount_eq 0 0 1000 0 (by decide) (by decide) (by decide) (by decide)
      (by decide) (by decide) (by decide) (by decide)).trans (by decide)
  · exact (sentinel.stepCount_eq 0 0 1200 0 (by decide) (by decide) (by decide) (by decide)
      (by decide) (by decide) (by decide) (by decide)).trans (by decide)

/-- Witness of C16 (amended): from `(3, 4)` to `(1213, 0)` the distance is
1210 and the step count is 120. -/
theorem C16_step_count_clamps_to_120_from_distance_1200_witness :
    (1200 ≤ max |(1213 : Int) - 3| |(0 : Int) - 4|) ∧ sentinel.stepCount 3 4 1213 0 = 120 :=
  ⟨by decide,
    (C16_step_count_clamps_to_120_from_distance_1200 3 4 1213 0 (by decide) (by decide)
      (by decide) (by decide) (by decide) (by decide) (by decide) (by decide)).1.mpr
        (by decide)⟩

/-- C17: for every start position and target, in a run of `MoveSmoothStart`
or of `DragSmoothStart` in which no iteration observes cancellation and no
call panics, the moves commanded are the `steps` interpolated positions of
iterations `1, .., steps` followed by the target `(x, y)`: there are
`steps + 1` of them and the last one is the target.  The run ends without
panic, and under the pointer model in which `robotgo.Location()` returns
the position last commanded, the only response sent is the success
response carrying the target.  The moves of the iterations are
interpolated: for a start and a target in the range of a C `int`, the move
of iteration `i` is, on each axis, one of the two integers around the
exact interpolation `start + (t - start) * i / steps`, and its rounding to
the nearest integer whenever that value is not halfway between two
integers. -/
theorem C17_uncancelled_run_ends_on_target (w : sentinel.World) (x y p tid : Int)
    (hf : ∀ l, w.fault l = none)
    (hd : ∀ j, 1 ≤ j → j ≤ (sentinel.stepCount w.mousePos.1 w.mousePos.2 x y).toNat →
      w.done j = false) :
    (sentinel.moves (sentinel.MoveSmoothStart.worker w x y p tid).log
        = (List.range (sentinel.stepCount w.mousePos.1 w.mousePos.2 x y).toNat).map
            (fun j =>
              (sentinel.stepPos w.mousePos.1
                (sentinel.stepDelta w.mousePos.1 x
                  (sentinel.stepCount w.mousePos.1 w.mousePos.2 x y)) (1 + j),
               sentinel.stepPos w.mousePos.2
                (sentinel.stepDelta w.mousePos.2 y
                  (sentinel.stepCount w.mousePos.1 w.mousePos.2 x y)) (1 + j)))
          ++ [(x, y)]
      ∧ ((sentinel.moves (sentinel.MoveSmoothStart.worker w x y p tid).log).length : Int)
          = sentinel.stepCount w.mousePos.1 w.mousePos.2 x y + 1
      ∧ (sentinel.moves (sentinel.MoveSmoothStart.worker w x y p tid).log).getLast?
          = some (x, y)
      ∧ (sentinel.MoveSmoothStart.worker w x y p tid).panic = none
      ∧ (w.location = sentinel.lastCommanded w.mousePos →
          sentinel.sends (sentinel.MoveSmoothStart.worker w x y p tid).log
            = [(p, success "move_smooth" (Payload.point x y))]))
    ∧ (sentinel.moves (sentinel.DragSmoothStart.worker w x y p tid).log
        = (List.range (sentinel.stepCount w.mousePos.1 w.mousePos.2 x y).toNat).map
            (fun j =>
              (sentinel.stepPos w.mousePos.1
                (sentinel.stepDelta w.mousePos.1 x
                  (sentinel.stepCount w.mousePos.1 w.mousePos.2 x y)) (1 + j),
               sentinel.stepPos w.mousePos.2
                (sentinel.stepDelta w.mousePos.2 y
                  (sentinel.stepCount w.mousePos.1 w.mousePos.2 x y)) (1 + j)))
          ++ [(x, y)]
      ∧ ((sentinel.moves (sentinel.DragSmoothStart.worker w x y p tid).log).length : Int)
          = sentinel.stepCount w.mousePos.1 w.mousePos.2 x y + 1
      ∧ (sentinel.moves (sentinel.DragSmoothStart.worker w x y p tid).log).getLast?
          = some (x, y)
      ∧ (sentinel.DragSmoothStart.worker w x y p tid).panic = none
      ∧ (w.location = sentinel.lastCommanded w.mousePos →
          sentinel.sends (sentinel.DragSmoothStart.worker w x y p tid).log
            = [(p, success "drag_smooth" (Payload.point x y))]))
    ∧ (-(2 ^ 31) ≤ w.mousePos.1 → w.mousePos.1 < 2 ^ 31 →
        -(2 ^ 31) ≤ w.mousePos.2 → w.mousePos.2 < 2 ^ 31 →
        -(2 ^ 31) ≤ x → x < 2 ^ 31 → -(2 ^ 31) ≤ y → y < 2 ^ 31 →
        ∀ i : Nat, 1 ≤ i → (i : Int) ≤ sentinel.stepCount w.mousePos.1 w.mousePos.2 x y →
          ∃ px py : Int,
            (sentinel.moves (sentinel.MoveSmoothStart.worker w x y p tid).log)[i - 1]?
                = some (px, py)
            ∧ (sentinel.moves (sentinel.DragSmoothStart.worker w x y p tid).log)[i - 1]?
                = some (px, py)
            ∧ ⌊sentinel.interpolate w.mousePos.1 x
                  (sentinel.stepCount w.mousePos.1 w.mousePos.2 x y) i⌋ ≤ px
            ∧ px ≤ ⌈sentinel.interpolate w.mousePos.1 x
                  (sentinel.stepCount w.mousePos.1 w.mousePos.2 x y) i⌉
            ∧ ((∀ z : Int, sentinel.interpolate w.mousePos.1 x
                    (sentinel.stepCount w.mousePos.1 w.mousePos.2 x y) i ≠ (z : ℚ) + 1 / 2) →
                px = sentinel.roundHalfAway
                  (sentinel.interpolate w.mousePos.1 x
                    (sentinel.stepCount w.mousePos.1 w.mousePos.2 x y) i))
            ∧ ⌊sentinel.interpolate w.mousePos.2 y
                  (sentinel.stepCount w.mousePos.1 w.mousePos.2 x y) i⌋ ≤ py
            ∧ py ≤ ⌈sentinel.interpolate w.mousePos.2 y
                  (sentinel.stepCount w.mousePos.1 w.mousePos.2 x y) i⌉
            ∧ ((∀ z : Int, sentinel.interpolate w.mousePos.2 y
                    (sentinel.stepCount w.mousePos.1 w.mousePos.2 x y) i ≠ (z : ℚ) + 1 / 2) →
                py = sentinel.roundHalfAway
                  (sentinel.interpolate w.mousePos.2 y
                    (sentinel.stepCount w.mousePos.1 w.mousePos.2 x y) i))) := by
  have hb := sentinel.stepCount_bounds w.mousePos.1 w.mousePos.2 x y
  have hn : (((sentinel.stepCount w.mousePos.1 w.mousePos.2 x y).toNat : Nat) : Int)
      = sentinel.stepCount w.mousePos.1 w.mousePos.2 x y := Int.toNat_of_nonneg (by omega)
  refine ⟨?_, ?_, ?_⟩
  · rw [sentinel.move_worker_done hf x y p tid hd]
    have hm : sentinel.moves (sentinel.Event.GetMousePos
          :: sentinel.stepEvents w.mousePos.1 w.mousePos.2
              (sentinel.stepDelta w.mousePos.1 x
                (sentinel.stepCount w.mousePos.1 w.mousePos.2 x y))
              (sentinel.stepDelta w.mousePos.2 y
                (sentinel.stepCount w.mousePos.1 w.mousePos.2 x y))
              1 (sentinel.stepCount w.mousePos.1 w.mousePos.2 x y).toNat
          ++ [sentinel.Event.Move x y])
        = (List.range (sentinel.stepCount w.mousePos.1 w.mousePos.2 x y).toNat).map
            (fun j =>
              (sentinel.stepPos w.mousePos.1
                (sentinel.stepDelta w.mousePos.1 x
                  (sentinel.stepCount w.mousePos.1 w.mousePos.2 x y)) (1 + j),
               sentinel.stepPos w.mousePos.2
                (sentinel.stepDelta w.mousePos.2 y
                  (sentinel.stepCount w.mousePos.1 w.mousePos.2 x y)) (1 + j)))
          ++ [(x, y)] := by
      simp [sentinel.moves_append, sentinel.moves_cons, sentinel.moves_nil,
        sentinel.moves_stepEvents]
    refine ⟨?_, ?_, ?_, rfl, ?_⟩
    · simp [sentinel.moves_append, sentinel.moves_cons, sentinel.moves_nil,
        sentinel.moves_stepEvents]
    · simp [sentinel.moves_append, sentinel.moves_cons, sentinel.moves_nil,
        sentinel.moves_stepEvents, hn]
    · simp [sentinel.moves_append, sentinel.moves_cons, sentinel.moves_nil,
        sentinel.moves_stepEvents]
    · intro hloc
      simp only [hloc, sentinel.lastCommanded, hm]
      simp [sentinel.sends_append, sentinel.sends_cons, sentinel.sends_nil,
        sentinel.sends_stepEvents]
  · rw [sentinel.drag_worker_done hf x y p tid hd]
    have hm : sentinel.moves (sentinel.Event.Toggle "down" :: sentinel.Event.GetMousePos
          :: sentinel.stepEvents w.mousePos.1 w.mousePos.2
              (sentinel.stepDelta w.mousePos.1 x
                (sentinel.stepCount w.mousePos.1 w.mousePos.2 x y))
              (sentinel.stepDelta w.mousePos.2 y
                (sentinel.stepCount w.mousePos.1 w.mousePos.2 x y))
              1 (sentinel.stepCount w.mousePos.1 w.mousePos.2 x y).toNat
          ++ [sentinel.Event.Move x y, sentinel.Event.Toggle "up"])
        = (List.range (sentinel.stepCount w.mousePos.1 w.mousePos.2 x y).toNat).map
            (fun j =>
              (sentinel.stepPos w.mousePos.1
                (sentinel.stepDelta w.mousePos.1 x
                  (sentinel.stepCount w.mousePos.1 w.mousePos.2 x y)) (1 + j),
               sentinel.stepPos w.mousePos.2
                (sentinel.stepDelta w.mousePos.2 y
                  (sentinel.stepCount w.mousePos.1 w.mousePos.2 x y)) (1 + j)))
          ++ [(x, y)] := by
      simp [sentinel.moves_append, sentinel.moves_cons, sentinel.moves_nil,
        sentinel.moves_stepEvents]
    refine ⟨?_, ?_, ?_, rfl, ?_⟩
    · simp [sentinel.moves_append, sentinel.moves_cons, sentinel.moves_nil,
        sentinel.moves_stepEvents]
    · simp [sentinel.moves_append, sentinel.moves_cons, sentinel.moves_nil,
        sentinel.moves_stepEvents, hn]
    · simp [sentinel.moves_append, sentinel.moves_cons, sentinel.moves_nil,
        sentinel.moves_stepEvents]
    · intro hloc
      simp only [hloc, sentinel.lastCommanded, hm]
      simp [sentinel.sends_append, sentinel.sends_cons, sentinel.sends_nil,
        sentinel.sends_stepEvents]
  · intro hsx1 hsx2 hsy1 hsy2 hx1 hx2 hy1 hy2 i hi1 hi2
    have hX := sentinel.stepPos_spec w.mousePos.1 x
      (sentinel.stepCount w.mousePos.1 w.mousePos.2 x y) i hsx1 hsx2 hx1 hx2 hb.1 hb.2 hi2
    have hY := sentinel.stepPos_spec w.mousePos.2 y
      (sentinel.stepCount w.mousePos.1 w.mousePos.2 x y) i hsy1 hsy2 hy1 hy2 hb.1 hb.2 hi2
    have hstep := sentinel.moves_step
      (fun j => (sentinel.stepPos w.mousePos.1
          (sentinel.stepDelta w.mousePos.1 x
            (sentinel.stepCount w.mousePos.1 w.mousePos.2 x y)) j,
        sentinel.stepPos w.mousePos.2
          (sentinel.stepDelta w.mousePos.2 y
            (sentinel.stepCount w.mousePos.1 w.mousePos.2 x y)) j))
      (sentinel.stepCount w.mousePos.1 w.mousePos.2 x y).toNat i (x, y) hi1 (by omega)
    refine ⟨_, _, ?_, ?_, hX.1, hX.2.1, hX.2.2.1, hY.1, hY.2.1, hY.2.2.1⟩
    · rw [sentinel.move_worker_moves hf x y p tid hd]
      exact hstep
    · rw [sentinel.drag_worker_moves hf x y p tid hd]
      exact hstep

/-- Witness of C17: in the world where nothing is cancelled, no call panics
and the pointer starts at `(0, 0)` and follows the moves, the run of
`MoveSmoothStart` to `(1000, 0)` commands `(1000, 0)` last and reports the
position `(1000, 0)`; the run to `(61, 140)` has 14 steps and its first
move is `(4, 10)`, the rounding of `(61 / 14, 140 / 14)`. -/
theorem C17_uncancelled_run_ends_on_target_witness :
    (∀ l, (sentinel.World.calm (0, 0)).fault l = none)
    ∧ (∀ j, (sentinel.World.calm (0, 0)).done j = false)
    ∧ (sentinel.moves
        (sentinel.MoveSmoothStart.worker (sentinel.World.calm (0, 0)) 1000 0 7 1).log).getLast?
        = some (1000, 0)
    ∧ sentinel.sends
        (sentinel.MoveSmoothStart.worker (sentinel.World.calm (0, 0)) 1000 0 7 1).log
        = [(7, success "move_smooth" (Payload.point 1000 0))]
    ∧ (sentinel.moves
        (sentinel.MoveSmoothStart.worker (sentinel.World.calm (0, 0)) 61 140 7 1).log)[0]?
        = some (4, 10) := by
  have h14 : sentinel.stepCount (sentinel.World.calm (0, 0)).mousePos.1
      (sentinel.World.calm (0, 0)).mousePos.2 61 140 = 14 := sentinel.stepCount_61_140
  obtain ⟨px, py, hm, _, _, _, hxr, _, _, hyr⟩ :=
    (C17_uncancelled_run_ends_on_target (sentinel.World.calm (0, 0)) 61 140 7 1
      (fun _ => rfl) (fun _ _ _ => rfl)).2.2 (by decide) (by decide) (by decide) (by decide)
      (by decide) (by decide) (by decide) (by decide) 1 (by decide)
      (by rw [h14]; decide)
  rw [h14] at hxr hyr
  have hpx : px = 4 := (hxr sentinel.interpolate_61_14_1.2).trans sentinel.interpolate_61_14_1.1
  have hpy : py = 10 :=
    (hyr sentinel.interpolate_140_14_1.2).trans sentinel.interpolate_140_14_1.1
  rw [hpx, hpy] at hm
  exact ⟨fun _ => rfl, fun _ => rfl,
    (C17_uncancelled_run_ends_on_target (sentinel.World.calm (0, 0)) 1000 0 7 1
      (fun _ => rfl) (fun _ _ _ => rfl)).1.2.2.1,
    (C17_uncancelled_run_ends_on_target (sentinel.World.calm (0, 0)) 1000 0 7 1
      (fun _ => rfl) (fun _ _ _ => rfl)).1.2.2.2.2 rfl, hm⟩

/-- C18 does not hold of the code.  In every run of `DragSmoothStart` in
which no call panics, whether some iteration observes cancellation or none
does, the first event is `Toggle("down")`, the last event is the only
response sent (the success response when no cancellation was observed, the
`canceled` failure with the TaskID otherwise), and the `Toggle` calls made
before that response are exactly `Toggle("down")` then `Toggle("up")`: the
order of the calls is as claimed.  But each of the two calls has a single
argument.  By the calling convention of `robotgo.Toggle` that the exported
`Toggle` of the repository follows (first the button, then the direction),
they name a button `"down"` and a button `"up"` and give no direction, so
both act in the direction of a call without direction.  When that direction
is a press, the button pressed by the first call is still held when the
result is sent and when the goroutine ends: no call of the drag releases
it.  When that direction is a release, the first call presses nothing and
the drag moves the pointer with no button held. -/
theorem C18_drag_toggle_up_gives_no_direction (w : sentinel.World) (x y p tid : Int)
    (hf : ∀ l, w.fault l = none) :
    ∃ r : simpleResp,
      (sentinel.DragSmoothStart.worker w x y p tid).log.getLast?
          = some (sentinel.Event.send p r)
      ∧ sentinel.sends (sentinel.DragSmoothStart.worker w x y p tid).log = [(p, r)]
      ∧ (sentinel.DragSmoothStart.worker w x y p tid).log.head?
          = some (sentinel.Event.Toggle "down")
      ∧ sentinel.toggles (sentinel.DragSmoothStart.worker w x y p tid).log.dropLast
          = ["down", "up"]
      ∧ (sentinel.DragSmoothStart.worker w x y p tid).panic = none
      ∧ ((∀ j, 1 ≤ j → j ≤ (sentinel.stepCount w.mousePos.1 w.mousePos.2 x y).toNat →
            w.done j = false) →
          r.Op = "drag_smooth" ∧ r.Success = true)
      ∧ ((∃ k, 1 ≤ k ∧ k ≤ (sentinel.stepCount w.mousePos.1 w.mousePos.2 x y).toNat
            ∧ w.done k = true) →
          r = sentinel.canceled "drag_smooth" tid)
      ∧ (∀ (lib : sentinel.ToggleLib) (held : Nat → Bool) (b : Nat),
          sentinel.heldAfter lib held
              (sentinel.DragSmoothStart.worker w x y p tid).log.dropLast b
            = (if b = lib.button "down" ∨ b = lib.button "up" then lib.defaultDown
               else held b)
          ∧ sentinel.heldAfter lib held (sentinel.DragSmoothStart.worker w x y p tid).log b
            = (if b = lib.button "down" ∨ b = lib.button "up" then lib.defaultDown
               else held b))
      ∧ (∀ (lib : sentinel.ToggleLib) (held : Nat → Bool), lib.defaultDown = true →
          sentinel.heldAfter lib held [sentinel.Event.Toggle "down"] (lib.button "down") = true
          ∧ sentinel.heldAfter lib held
              (sentinel.DragSmoothStart.worker w x y p tid).log.dropLast (lib.button "down")
              = true
          ∧ sentinel.heldAfter lib held (sentinel.DragSmoothStart.worker w x y p tid).log
              (lib.button "down") = true)
      ∧ (∀ (lib : sentinel.ToggleLib) (held : Nat → Bool), lib.defaultDown = false →
          sentinel.heldAfter lib held [sentinel.Event.Toggle "down"] (lib.button "down")
            = false) := by
  obtain ⟨r, h1, h2, h3, h4, h5, h6, h7⟩ := drag_worker_shape w x y p tid hf
  have hlog : (sentinel.DragSmoothStart.worker w x y p tid).log.dropLast
      ++ [sentinel.Event.send p r] = (sentinel.DragSmoothStart.worker w x y p tid).log :=
    List.dropLast_append_getLast? _ h1
  have h4b : sentinel.toggles (sentinel.DragSmoothStart.worker w x y p tid).log
      = ["down", "up"] := by
    rw [← hlog, toggles_concat_send, h4]
  have hall : ∀ (lib : sentinel.ToggleLib) (held : Nat → Bool) (b : Nat),
      sentinel.heldAfter lib held
          (sentinel.DragSmoothStart.worker w x y p tid).log.dropLast b
        = (if b = lib.button "down" ∨ b = lib.button "up" then lib.defaultDown
           else held b)
      ∧ sentinel.heldAfter lib held (sentinel.DragSmoothStart.worker w x y p tid).log b
        = (if b = lib.button "down" ∨ b = lib.button "up" then lib.defaultDown
           else held b) :=
    fun lib held b => ⟨heldAfter_down_up lib held _ h4 b, heldAfter_down_up lib held _ h4b b⟩
  refine ⟨r, h1, h2, h3, h4, h5, h6, h7, hall, ?_, ?_⟩
  · intro lib held hd
    refine ⟨?_, ?_, ?_⟩
    · simp [sentinel.heldAfter, sentinel.toggles, hd]
    · rw [(hall lib held (lib.button "down")).1, if_pos (Or.inl rfl), hd]
    · rw [(hall lib held (lib.button "down")).2, if_pos (Or.inl rfl), hd]
  · intro lib held hd
    simp [sentinel.heldAfter, sentinel.toggles, hd]

/-- Witness of C18: when cancellation is observed from iteration 3 on, the
drag from `(0, 0)` towards `(1000, 0)` sends the `canceled` failure as its
only response, after `Toggle("down")` and `Toggle("up")`; with a library in
which every unknown button name stands for button 0 and a call without
direction presses, button 0 is held at the end. -/
theorem C18_drag_toggle_up_gives_no_direction_witness :
    (∀ l, (sentinel.World.canceledFrom (0, 0) 3).fault l = none)
    ∧ sentinel.sends (sentinel.DragSmoothStart.worker
        (sentinel.World.canceledFrom (0, 0) 3) 1000 0 7 1).log
        = [(7, sentinel.canceled "drag_smooth" 1)]
    ∧ sentinel.toggles (sentinel.DragSmoothStart.worker
        (sentinel.World.canceledFrom (0, 0) 3) 1000 0 7 1).log.dropLast
        = ["down", "up"]
    ∧ sentinel.heldAfter { button := fun _ => 0, defaultDown := true } (fun _ => false)
        (sentinel.DragSmoothStart.worker
          (sentinel.World.canceledFrom (0, 0) 3) 1000 0 7 1).log 0 = true :=
  ⟨fun _ => rfl,
    (C18_drag_toggle_up_gives_no_direction
      (sentinel.World.canceledFrom (0, 0) 3) 1000 0 7 1
      (fun _ => rfl)).elim
      (fun r h => by
        have hr := h.2.2.2.2.2.2.1 ⟨3, by decide, by
          have := (sentinel.stepCount_bounds 0 0 1000 0).1
          show 3 ≤ (sentinel.stepCount 0 0 1000 0).toNat
          omega, rfl⟩
        rw [← hr]
        exact h.2.1),
    (C18_drag_toggle_up_gives_no_direction
      (sentinel.World.canceledFrom (0, 0) 3) 1000 0 7 1
      (fun _ => rfl)).elim (fun _ h => h.2.2.2.1),
    (C18_drag_toggle_up_gives_no_direction
      (sentinel.World.canceledFrom (0, 0) 3) 1000 0 7 1
      (fun _ => rfl)).elim
      (fun _ h => (h.2.2.2.2.2.2.2.2.1 { button := fun _ => 0, defaultDown := true }
        (fun _ => false) rfl).2.2)⟩

/-- Counterexample to C19 as stated: with a previous sample that is not
empty (100 bytes received, 50 sent) and a current sample that is empty,
`computeStats` reports both speeds as 0: there is no element 0 of the
current counters to take a difference with, and the next baseline is
empty. -/
theorem C19_empty_current_counters_report_zero :
    sentinel.computeStats { cpuP := [], vMem := some 0, currNet := [], conns := [] }
        [{ BytesSent := 50, BytesRecv := 100 }]
      = Except.ok ({ CPUPercent := 0, MemPercent := 0, NetSpeedRx := 0, NetSpeedTx := 0,
                     TcpConns := 0, UdpConns := 0 }, []) := by
  rfl

/-- C19, amended: whenever `mem.VirtualMemory` returns a record,
`computeStats` returns the current counters as the next baseline, and it
reports both speeds as 0 when the previous sample is empty (so for the
first sample of `StartMonitor`, whose `prevNet` is nil) and also when the
current sample is empty.  When both are non-empty it reports the `uint64`
difference of element 0 of the current and element 0 of the previous
counters, for received and for sent bytes; that is the difference of the
two numbers when the counter did not decrease. -/
theorem C19_speeds_are_zero_without_both_samples (smp : sentinel.Sample)
    (prevNet : List sentinel.IOCountersStat) (m : Nat) (hm : smp.vMem = some m) :
    ∃ st : SystemStats,
      sentinel.computeStats smp prevNet = Except.ok (st, smp.currNet)
      ∧ (prevNet = [] → st.NetSpeedRx = 0 ∧ st.NetSpeedTx = 0)
      ∧ (smp.currNet = [] → st.NetSpeedRx = 0 ∧ st.NetSpeedTx = 0)
      ∧ (∀ c cs q qs, smp.currNet = c :: cs → prevNet = q :: qs →
          st.NetSpeedRx = sentinel.subUint64 c.BytesRecv q.BytesRecv
          ∧ st.NetSpeedTx = sentinel.subUint64 c.BytesSent q.BytesSent
          ∧ (q.BytesRecv ≤ c.BytesRecv → c.BytesRecv < 2 ^ 64 →
              st.NetSpeedRx = c.BytesRecv - q.BytesRecv)
          ∧ (q.BytesSent ≤ c.BytesSent → c.BytesSent < 2 ^ 64 →
              st.NetSpeedTx = c.BytesSent - q.BytesSent))
      ∧ (∀ (w : sentinel.World) (n : Nat) (p tid : Int),
          w.sample 1 = smp → w.done 1 = false →
          ∃ st1 rest,
            (sentinel.StartMonitor.worker w (n + 1) p tid).log
              = sentinel.Event.send p (success "monitor_stats" (Payload.stats st1)) :: rest
            ∧ st1.NetSpeedRx = 0 ∧ st1.NetSpeedTx = 0) := by
  have hcs : ∀ prev : List sentinel.IOCountersStat, ∃ st : SystemStats,
      sentinel.computeStats smp prev = Except.ok (st, smp.currNet)
      ∧ (prev = [] → st.NetSpeedRx = 0 ∧ st.NetSpeedTx = 0)
      ∧ (smp.currNet = [] → st.NetSpeedRx = 0 ∧ st.NetSpeedTx = 0)
      ∧ (∀ c cs q qs, smp.currNet = c :: cs → prev = q :: qs →
          st.NetSpeedRx = sentinel.subUint64 c.BytesRecv q.BytesRecv
          ∧ st.NetSpeedTx = sentinel.subUint64 c.BytesSent q.BytesSent) := by
    intro prev
    refine ⟨_, by simp only [sentinel.computeStats, hm]; rfl, ?_, ?_, ?_⟩
    · intro hp
      subst hp
      cases smp.currNet <;> exact ⟨rfl, rfl⟩
    · intro hc
      rw [hc]
      exact ⟨rfl, rfl⟩
    · intro c cs q qs hc hp
      rw [hc, hp]
      exact ⟨rfl, rfl⟩
  obtain ⟨st, h1, h2, h3, h4⟩ := hcs prevNet
  refine ⟨st, h1, h2, h3, ?_, ?_⟩
  · intro c cs q qs hc hp
    obtain ⟨hr, ht⟩ := h4 c cs q qs hc hp
    refine ⟨hr, ht, ?_, ?_⟩
    · intro hle hlt
      rw [hr, sentinel.subUint64_of_le hle hlt]
    · intro hle hlt
      rw [ht, sentinel.subUint64_of_le hle hlt]
  · intro w n p tid hw hd
    obtain ⟨st1, g1, g2, _, _⟩ := hcs []
    obtain ⟨rest, hrest⟩ := sentinel.monitor_loop_extends w p tid n 2 smp.currNet
      ((sentinel.Frame.start.send p (success "monitor_stats" (Payload.stats st1))).sleep 1000)
    obtain ⟨rest2, hrest2⟩ := sentinel.recover_extends p "monitor_start"
      (sentinel.StartMonitor.loop w p tid n 2 smp.currNet
        ((sentinel.Frame.start.send p (success "monitor_stats" (Payload.stats st1))).sleep
          1000))
    refine ⟨st1, [sentinel.Event.Sleep 1000] ++ rest ++ rest2, ?_, g2 rfl⟩
    unfold sentinel.StartMonitor.worker
    rw [sentinel.StartMonitor.loop]
    simp only [sentinel.Frame.start, Option.isSome_none, Bool.false_eq_true, if_false, hd,
      hw, g1]
    rw [show ({ log := [], panic := none } : sentinel.Frame) = sentinel.Frame.start from rfl,
      hrest2, hrest]
    simp [sentinel.Frame.start, sentinel.Frame.send, sentinel.Frame.sleep]

/-- Witness of C19 (amended): with 1000 bytes received before and 4000
now, 50 sent before and 40 now, the reception speed reported is 3000 and
the baseline returned is the current sample. -/
theorem C19_speeds_are_zero_without_both_samples_witness :
    sentinel.computeStats
        { cpuP := [5], vMem := some 9, currNet := [{ BytesSent := 40, BytesRecv := 4000 }],
          conns := [{ Type_ := 1 }, { Type_ := 2 }, { Type_ := 1 }] }
        [{ BytesSent := 50, BytesRecv := 1000 }]
      = Except.ok ({ CPUPercent := 5, MemPercent := 9, NetSpeedRx := 3000,
                     NetSpeedTx := 2 ^ 64 - 10, TcpConns := 2, UdpConns := 1 },
                   [{ BytesSent := 40, BytesRecv := 4000 }])
    ∧ ∃ st : SystemStats,
        sentinel.computeStats
            { cpuP := [5], vMem := some 9,
              currNet := [{ BytesSent := 40, BytesRecv := 4000 }],
              conns := [{ Type_ := 1 }, { Type_ := 2 }, { Type_ := 1 }] } []
          = Except.ok (st, [{ BytesSent := 40, BytesRecv := 4000 }])
        ∧ st.NetSpeedRx = 0 ∧ st.NetSpeedTx = 0 :=
  ⟨rfl,
    (C19_speeds_are_zero_without_both_samples
      { cpuP := [5], vMem := some 9, currNet := [{ BytesSent := 40, BytesRecv := 4000 }],
        conns := [{ Type_ := 1 }, { Type_ := 2 }, { Type_ := 1 }] } [] 9 rfl).elim
      (fun st h => ⟨st, h.1, h.2.1 rfl⟩)⟩

/-- C20: in every reachable state, the exit of a worker that is in its
service loop sends, before its `finishTask`, exactly one response in
`socks5lib` and in `socks5lib2` (success with the TaskID, the loop's error,
or the panic's value).  In `portforward` it sends exactly one response only
while the stop channel of its wrapper is still open; once
`StopForwardPorts` has closed that channel, the worker's deferred cleanup
closes it a second time, the panic of that `close` is recovered and
reported, and a worker whose loop returned nil or an error has then sent
two responses: its result and the failure `close of closed channel`.  In
`sentinel`, the goroutines of `MoveSmoothStart` and of `DragSmoothStart`
send exactly one response before their `finishTask`, whatever is cancelled
and whichever call panics. -/
theorem C20_worker_reports_once_unless_stopped_first
    (a1 : List portforward.Action) (a2 : List socks5lib.Action)
    (a3 : List socks5lib2.Action)
    (s1 : portforward.State) (s2 : socks5lib.State) (s3 : socks5lib2.State)
    (e1 : s1 = portforward.State.init.run a1) (e2 : s2 = socks5lib.State.init.run a2)
    (e3 : s3 = socks5lib2.State.init.run a3) (k : Nat) (r : Outcome Unit)
    (w : sentinel.World) (x y p tid : Int) (c : Core) :
    (∀ wk, s1.workers k = some wk → wk.pc = WorkerPC.inLoop →
        (portforward.workerExit k r s1).core
            = finishTask wk.tid (portforward.unwound wk r s1).core
        ∧ (portforward.workerExit k r s1).core.sent = (portforward.unwound wk r s1).core.sent
        ∧ (s1.core.closes wk.w.StopChan = 0 →
            (portforward.workerExit k r s1).core.sent
              = s1.core.sent ++ [(wk.p, Msg.resp
                  (match r with
                   | Outcome.ok _ => success "start_forward_ports" (Payload.int wk.tid)
                   | Outcome.err e => failure "start_forward_ports" e
                   | Outcome.panic v => failure "start_forward_ports" v))])
        ∧ (s1.core.closes wk.w.StopChan ≠ 0 →
            (portforward.workerExit k r s1).core.sent
              = s1.core.sent
                ++ (match r with
                    | Outcome.ok _ =>
                      [(wk.p, Msg.resp (success "start_forward_ports" (Payload.int wk.tid)))]
                    | Outcome.err e => [(wk.p, Msg.resp (failure "start_forward_ports" e))]
                    | Outcome.panic _ => [])
                ++ [(wk.p, Msg.resp (failure "start_forward_ports" closeOfClosed))]))
    ∧ (∀ wk, s2.workers k = some wk → wk.pc = WorkerPC.inLoop →
        (socks5lib.workerExit k r s2).core
            = finishTask wk.tid (socks5lib.unwound wk r s2).core
        ∧ (socks5lib.workerExit k r s2).core.sent = (socks5lib.unwound wk r s2).core.sent
        ∧ (socks5lib.workerExit k r s2).core.sent
            = s2.core.sent ++ [(wk.p, Msg.resp
                (match r with
                 | Outcome.ok _ => success "start_socks5_server" (Payload.int wk.tid)
                 | Outcome.err e => failure "start_socks5_server" e
                 | Outcome.panic v => failure "start_socks5_server" v))])
    ∧ (∀ wk, s3.workers k = some wk → wk.pc = WorkerPC.inLoop →
        (socks5lib2.workerExit k r s3).core
            = finishTask wk.tid (socks5lib2.unwound wk r s3).core
        ∧ (socks5lib2.workerExit k r s3).core.sent = (socks5lib2.unwound wk r s3).core.sent
        ∧ (socks5lib2.workerExit k r s3).core.sent
            = s3.core.sent ++ [(wk.p, Msg.resp
                (match r with
                 | Outcome.ok _ => success "start_socks5_server" (Payload.int wk.tid)
                 | Outcome.err e => failure "start_socks5_server" e
                 | Outcome.panic v => failure "start_socks5_server" v))])
    ∧ ((sentinel.MoveSmoothStart.worker w x y p tid).panic = none
        ∧ (∃ m, sentinel.sends (sentinel.MoveSmoothStart.worker w x y p tid).log = [m]
            ∧ (sentinel.goroutine (sentinel.MoveSmoothStart.worker w x y p tid) tid c).sent
                = c.sent ++ [(m.1, Msg.resp m.2)])
        ∧ (sentinel.DragSmoothStart.worker w x y p tid).panic = none
        ∧ (∃ m, sentinel.sends (sentinel.DragSmoothStart.worker w x y p tid).log = [m]
            ∧ (sentinel.goroutine (sentinel.DragSmoothStart.worker w x y p tid) tid c).sent
                = c.sent ++ [(m.1, Msg.resp m.2)])) := by
  have i1 : s1.Inv := by rw [e1]; exact portforward.State.Inv.pf_inv_init.pf_inv_run a1
  have i2 : s2.Inv := by rw [e2]; exact socks5lib.State.Inv.s5_inv_init.s5_inv_run a2
  have i3 : s3.Inv := by rw [e3]; exact socks5lib2.State.Inv.s52_inv_init.s52_inv_run a3
  refine ⟨?_, ?_, ?_, ?_⟩
  · intro wk hk hpc
    have hx := portforward.pf_exit_spec i1 r hk hpc
    have hs := (portforward.pf_unwound_spec wk r s1).2.2.2.2.2
    refine ⟨hx.2.1, hx.2.2.2.2.2.2, ?_, ?_⟩
    · intro ho
      rw [hx.2.2.2.2.2.2, hs]
      cases r <;> simp [ho]
    · intro ho
      rw [hx.2.2.2.2.2.2, hs]
      cases r <;> simp [ho]
  · intro wk hk hpc
    have hx := socks5lib.s5_exit_spec i2 r hk hpc
    refine ⟨hx.2.1, hx.2.2.2.2.2.2, ?_⟩
    rw [hx.2.2.2.2.2.2]
    exact (socks5lib.s5_unwound_spec wk r s2).2.2.2.2.2.2
  · intro wk hk hpc
    have hx := socks5lib2.s52_exit_spec i3 r hk hpc
    refine ⟨hx.2.1, hx.2.2.2.2.2.2, ?_⟩
    rw [hx.2.2.2.2.2.2]
    exact (socks5lib2.s52_unwound_spec wk r s3).2.2.2.2.2.2
  · obtain ⟨hm1, m1, hm2⟩ := sentinel.move_worker_one_response w x y p tid
    obtain ⟨hd1, m2, hd2⟩ := sentinel.drag_worker_one_response w x y p tid
    refine ⟨hm1, ⟨m1, hm2, ?_⟩, hd1, ⟨m2, hd2, ?_⟩⟩
    · rw [sentinel.goroutine_sent, hm2]; rfl
    · rw [sentinel.goroutine_sent, hd2]; rfl

/-- Witness of C20: in `portforward`, after create, start, the worker's
entry into its loop and `StopForwardPorts 1`, the stop channel 0 of the
worker's wrapper is closed; when the loop then returns nil the worker sends
the success response with TaskID 1 and after it the failure response
`close of closed channel`. -/
theorem C20_worker_reports_once_unless_stopped_first_witness :
    (portforward.State.init.run (portforward.sampleRun.take 4)).workers 0
        = some { tid := 1, w := { PF := 0, Ready := 1, StopChan := 0, ID := 1 }, p := 7,
                 pc := WorkerPC.inLoop }
    ∧ (portforward.State.init.run (portforward.sampleRun.take 4)).core.closes 0 ≠ 0
    ∧ (portforward.workerExit 0 (Outcome.ok ())
        (portforward.State.init.run (portforward.sampleRun.take 4))).core.sent
        = (portforward.State.init.run (portforward.sampleRun.take 4)).core.sent
          ++ [(7, Msg.resp (success "start_forward_ports" (Payload.int 1)))]
          ++ [(7, Msg.resp (failure "start_forward_ports" closeOfClosed))] :=
  ⟨by decide, by decide,
    ((C20_worker_reports_once_unless_stopped_first (portforward.sampleRun.take 4) [] []
      _ _ _ rfl rfl rfl 0 (Outcome.ok ()) (sentinel.World.calm (0, 0)) 0 0 0 0 Core.init).1
        { tid := 1, w := { PF := 0, Ready := 1, StopChan := 0, ID := 1 }, p := 7,
          pc := WorkerPC.inLoop } (by decide) rfl).2.2.2 (by decide)⟩

/-! ## Claims about the interpolation, cancellation and the remaining helpers -/

/-- Counterexample to C22 as stated: from `(0, 0)` to `(61, 140)` the run
has 14 steps and the exact interpolation of the x coordinate at step 7 is
`61 * 7 / 14 = 30.5`, which rounds (halves away from zero) to 31.  The code
multiplies the rounded quotient `float64(61) / float64(14)` by 7, which
gives the `float64` just below 30.5, and commands 30: the seventh move of
the run of `MoveSmoothStart` has x coordinate 30. -/
theorem C22_step_7_from_0_to_61_commands_30_not_31 :
    sentinel.stepCount 0 0 61 140 = 14
    ∧ sentinel.stepPos 0 (sentinel.stepDelta 0 61 (sentinel.stepCount 0 0 61 140)) 7 = 30
    ∧ sentinel.roundHalfAway
        (sentinel.interpolate 0 61 (sentinel.stepCount 0 0 61 140) 7) = 31
    ∧ ((sentinel.moves
          (sentinel.MoveSmoothStart.worker (sentinel.World.calm (0, 0)) 61 140 7 1).log)[6]?).map
        Prod.fst = some 30 := by
  have h := sentinel.stepCount_61_140
  have h2 : sentinel.stepCount (sentinel.World.calm (0, 0)).mousePos.1
      (sentinel.World.calm (0, 0)).mousePos.2 61 140 = 14 := h
  refine ⟨h, ?_, ?_, ?_⟩
  · rw [h]
    exact sentinel.stepPos_61_14_7
  · rw [h]
    exact sentinel.roundHalfAway_interpolate_61_14_7
  · rw [sentinel.move_worker_moves (w := sentinel.World.calm (0, 0)) (fun _ => rfl)
      61 140 7 1 (fun _ _ _ => rfl), h2]
    have hs := sentinel.moves_step
      (fun j => (sentinel.stepPos (sentinel.World.calm (0, 0)).mousePos.1
          (sentinel.stepDelta (sentinel.World.calm (0, 0)).mousePos.1 61 14) j,
        sentinel.stepPos (sentinel.World.calm (0, 0)).mousePos.2
          (sentinel.stepDelta (sentinel.World.calm (0, 0)).mousePos.2 140 14) j))
      (14 : Int).toNat 7 (61, 140) (by decide) (by decide)
    rw [show (7 : Nat) - 1 = 6 from rfl] at hs
    rw [hs]
    exact congrArg some sentinel.stepPos_61_14_7

/-- C22, amended: for every start position and target that are C `int`s
and every step index `i` with `1 <= i <= steps`, the move of step `i` in an
uncancelled run of `MoveSmoothStart` or `DragSmoothStart` is
`(stepPos startX dx i, stepPos startY dy i)`, and on each axis this
coordinate is one of the two integers around the exact interpolation
`start + (t - start) * i / steps`; it is the exact interpolation rounded to
the nearest integer whenever that value is not halfway between two integers;
and at `i = steps` it is the target coordinate. -/
theorem C22_step_position_rounds_interpolation_off_ties (w : sentinel.World)
    (x y p tid : Int) (i : Nat)
    (hf : ∀ l, w.fault l = none)
    (hd : ∀ j, 1 ≤ j → j ≤ (sentinel.stepCount w.mousePos.1 w.mousePos.2 x y).toNat →
      w.done j = false)
    (hsx1 : -(2 ^ 31) ≤ w.mousePos.1) (hsx2 : w.mousePos.1 < 2 ^ 31)
    (hsy1 : -(2 ^ 31) ≤ w.mousePos.2) (hsy2 : w.mousePos.2 < 2 ^ 31)
    (hx1 : -(2 ^ 31) ≤ x) (hx2 : x < 2 ^ 31)
    (hy1 : -(2 ^ 31) ≤ y) (hy2 : y < 2 ^ 31)
    (hi1 : 1 ≤ i) (hi2 : (i : Int) ≤ sentinel.stepCount w.mousePos.1 w.mousePos.2 x y) :
    (sentinel.moves (sentinel.MoveSmoothStart.worker w x y p tid).log)[i - 1]?
        = some
          (sentinel.stepPos w.mousePos.1
            (sentinel.stepDelta w.mousePos.1 x
              (sentinel.stepCount w.mousePos.1 w.mousePos.2 x y)) i,
           sentinel.stepPos w.mousePos.2
            (sentinel.stepDelta w.mousePos.2 y
              (sentinel.stepCount w.mousePos.1 w.mousePos.2 x y)) i)
    ∧ (sentinel.moves (sentinel.DragSmoothStart.worker w x y p tid).log)[i - 1]?
        = some
          (sentinel.stepPos w.mousePos.1
            (sentinel.stepDelta w.mousePos.1 x
              (sentinel.stepCount w.mousePos.1 w.mousePos.2 x y)) i,
           sentinel.stepPos w.mousePos.2
            (sentinel.stepDelta w.mousePos.2 y
              (sentinel.stepCount w.mousePos.1 w.mousePos.2 x y)) i)
    ∧ (⌊sentinel.interpolate w.mousePos.1 x
            (sentinel.stepCount w.mousePos.1 w.mousePos.2 x y) i⌋
          ≤ sentinel.stepPos w.mousePos.1
              (sentinel.stepDelta w.mousePos.1 x
                (sentinel.stepCount w.mousePos.1 w.mousePos.2 x y)) i
      ∧ sentinel.stepPos w.mousePos.1
            (sentinel.stepDelta w.mousePos.1 x
              (sentinel.stepCount w.mousePos.1 w.mousePos.2 x y)) i
          ≤ ⌈sentinel.interpolate w.mousePos.1 x
              (sentinel.stepCount w.mousePos.1 w.mousePos.2 x y) i⌉
      ∧ ((∀ z : Int, sentinel.interpolate w.mousePos.1 x
              (sentinel.stepCount w.mousePos.1 w.mousePos.2 x y) i ≠ (z : ℚ) + 1 / 2) →
          sentinel.stepPos w.mousePos.1
              (sentinel.stepDelta w.mousePos.1 x
                (sentinel.stepCount w.mousePos.1 w.mousePos.2 x y)) i
            = sentinel.roundHalfAway
                (sentinel.interpolate w.mousePos.1 x
                  (sentinel.stepCount w.mousePos.1 w.mousePos.2 x y) i))
      ∧ ((i : Int) = sentinel.stepCount w.mousePos.1 w.mousePos.2 x y →
          sentinel.stepPos w.mousePos.1
              (sentinel.stepDelta w.mousePos.1 x
                (sentinel.stepCount w.mousePos.1 w.mousePos.2 x y)) i = x))
    ∧ (⌊sentinel.interpolate w.mousePos.2 y
            (sentinel.stepCount w.mousePos.1 w.mousePos.2 x y) i⌋
          ≤ sentinel.stepPos w.mousePos.2
              (sentinel.stepDelta w.mousePos.2 y
                (sentinel.stepCount w.mousePos.1 w.mousePos.2 x y)) i
      ∧ sentinel.stepPos w.mousePos.2
            (sentinel.stepDelta w.mousePos.2 y
              (sentinel.stepCount w.mousePos.1 w.mousePos.2 x y)) i
          ≤ ⌈sentinel.interpolate w.mousePos.2 y
              (sentinel.stepCount w.mousePos.1 w.mousePos.2 x y) i⌉
      ∧ ((∀ z : Int, sentinel.interpolate w.mousePos.2 y
              (sentinel.stepCount w.mousePos.1 w.mousePos.2 x y) i ≠ (z : ℚ) + 1 / 2) →
          sentinel.stepPos w.mousePos.2
              (sentinel.stepDelta w.mousePos.2 y
                (sentinel.stepCount w.mousePos.1 w.mousePos.2 x y)) i
            = sentinel.roundHalfAway
                (sentinel.interpolate w.mousePos.2 y
                  (sentinel.stepCount w.mousePos.1 w.mousePos.2 x y) i))
      ∧ ((i : Int) = sentinel.stepCount w.mousePos.1 w.mousePos.2 x y →
          sentinel.stepPos w.mousePos.2
              (sentinel.stepDelta w.mousePos.2 y
                (sentinel.stepCount w.mousePos.1 w.mousePos.2 x y)) i = y)) := by
  have hb := sentinel.stepCount_bounds w.mousePos.1 w.mousePos.2 x y
  have hn : i ≤ (sentinel.stepCount w.mousePos.1 w.mousePos.2 x y).toNat := by omega
  have hX := sentinel.stepPos_spec w.mousePos.1 x
    (sentinel.stepCount w.mousePos.1 w.mousePos.2 x y) i hsx1 hsx2 hx1 hx2 hb.1 hb.2 hi2
  have hY := sentinel.stepPos_spec w.mousePos.2 y
    (sentinel.stepCount w.mousePos.1 w.mousePos.2 x y) i hsy1 hsy2 hy1 hy2 hb.1 hb.2 hi2
  refine ⟨?_, ?_, ⟨hX.1, hX.2.1, hX.2.2.1, hX.2.2.2.2.2⟩, ⟨hY.1, hY.2.1, hY.2.2.1, hY.2.2.2.2.2⟩⟩
  · rw [sentinel.move_worker_moves hf x y p tid hd]
    exact sentinel.moves_step
      (fun j => (sentinel.stepPos w.mousePos.1
          (sentinel.stepDelta w.mousePos.1 x
            (sentinel.stepCount w.mousePos.1 w.mousePos.2 x y)) j,
        sentinel.stepPos w.mousePos.2
          (sentinel.stepDelta w.mousePos.2 y
            (sentinel.stepCount w.mousePos.1 w.mousePos.2 x y)) j))
      _ i (x, y) hi1 hn
  · rw [sentinel.drag_worker_moves hf x y p tid hd]
    exact sentinel.moves_step
      (fun j => (sentinel.stepPos w.mousePos.1
          (sentinel.stepDelta w.mousePos.1 x
            (sentinel.stepCount w.mousePos.1 w.mousePos.2 x y)) j,
        sentinel.stepPos w.mousePos.2
          (sentinel.stepDelta w.mousePos.2 y
            (sentinel.stepCount w.mousePos.1 w.mousePos.2 x y)) j))
      _ i (x, y) hi1 hn

/-- Witness of C22 (amended): from `(0, 0)` to `(61, 140)`, at step 7 the
exact interpolation of the y coordinate is 70, not halfway between two
integers, and the coordinate commanded is its rounding. -/
theorem C22_step_position_rounds_interpolation_off_ties_witness :
    (∀ l, (sentinel.World.calm (0, 0)).fault l = none)
    ∧ (∀ j, (sentinel.World.calm (0, 0)).done j = false)
    ∧ ((7 : Nat) : Int) ≤ sentinel.stepCount 0 0 61 140
    ∧ (∀ z : Int, sentinel.interpolate 0 140 (sentinel.stepCount 0 0 61 140) 7
        ≠ (z : ℚ) + 1 / 2)
    ∧ sentinel.stepPos 0 (sentinel.stepDelta 0 140 (sentinel.stepCount 0 0 61 140)) 7
        = sentinel.roundHalfAway
            (sentinel.interpolate 0 140 (sentinel.stepCount 0 0 61 140) 7) := by
  have hc : ((7 : Nat) : Int) ≤ sentinel.stepCount 0 0 61 140 := by
    have := sentinel.stepCount_bounds 0 0 61 140
    omega
  have ht : ∀ z : Int, sentinel.interpolate 0 140 (sentinel.stepCount 0 0 61 140) 7
      ≠ (z : ℚ) + 1 / 2 := by
    intro z hz
    rw [sentinel.stepCount_61_140] at hz
    unfold sentinel.interpolate at hz
    have h1 : ((140 : Int) : ℚ) = ((2 * z + 1 : Int) : ℚ) := by
      push_cast
      norm_num at hz
      linarith
    have h2 : (140 : Int) = 2 * z + 1 := by exact_mod_cast h1
    omega
  exact ⟨fun _ => rfl, fun _ => rfl, hc, ht,
    (C22_step_position_rounds_interpolation_off_ties (sentinel.World.calm (0, 0)) 61 140 7 1 7
      (fun _ => rfl) (fun _ _ _ => rfl) (by decide) (by decide) (by decide) (by decide)
      (by decide) (by decide) (by decide) (by decide) (by decide) hc).2.2.2.2.2.1 ht⟩

/-- Counterexample to C27 as stated: the start is what
`robotgo.GetMousePos()` returns, a Go `int`.  From `(-(2^53 + 1), 0)` to
`(7, 0)` the run has 120 steps; `float64(startX)` is `-2^53`, one above the
start, and step 120 commands the x coordinate 8, beyond the target 7: the
120th move of `MoveSmoothStart` has x coordinate 8, outside the interval
between start and target. -/
theorem C27_step_120_from_far_start_passes_the_target :
    sentinel.stepCount (-(2 ^ 53 + 1)) 0 7 0 = 120
    ∧ sentinel.stepPos (-(2 ^ 53 + 1))
        (sentinel.stepDelta (-(2 ^ 53 + 1)) 7 (sentinel.stepCount (-(2 ^ 53 + 1)) 0 7 0)) 120
        = 8
    ∧ max (-(2 ^ 53 + 1) : Int) 7 < 8
    ∧ ((sentinel.moves
          (sentinel.MoveSmoothStart.worker (sentinel.World.calm (-(2 ^ 53 + 1), 0))
            7 0 7 1).log)[119]?).map Prod.fst = some 8 := by
  have h := sentinel.stepCount_far_start
  have h2 : sentinel.stepCount (sentinel.World.calm (-(2 ^ 53 + 1), 0)).mousePos.1
      (sentinel.World.calm (-(2 ^ 53 + 1), 0)).mousePos.2 7 0 = 120 := h
  refine ⟨h, ?_, by decide, ?_⟩
  · rw [h]
    exact sentinel.stepPos_far_start
  · rw [sentinel.move_worker_moves (w := sentinel.World.calm (-(2 ^ 53 + 1), 0))
      (fun _ => rfl) 7 0 7 1 (fun _ _ _ => rfl), h2]
    have hs := sentinel.moves_step
      (fun j => (sentinel.stepPos (sentinel.World.calm (-(2 ^ 53 + 1), 0)).mousePos.1
          (sentinel.stepDelta (sentinel.World.calm (-(2 ^ 53 + 1), 0)).mousePos.1 7 120) j,
        sentinel.stepPos (sentinel.World.calm (-(2 ^ 53 + 1), 0)).mousePos.2
          (sentinel.stepDelta (sentinel.World.calm (-(2 ^ 53 + 1), 0)).mousePos.2 0 120) j))
      (120 : Int).toNat 120 (7, 0) (by decide) (by decide)
    rw [show (120 : Nat) - 1 = 119 from rfl] at hs
    rw [hs]
    exact congrArg some sentinel.stepPos_far_start

/-- C27, amended: for every start position and target in the range of a C
`int` and every step index `i` with `1 <= i <= steps`, each coordinate of
the position commanded at step `i` by `MoveSmoothStart` /
`DragSmoothStart` lies in the closed interval between the start coordinate
and the target coordinate of its axis; and every move of an uncancelled
run, the final move to the target included, lies in that box. -/
theorem C27_step_position_between_start_and_target (w : sentinel.World)
    (x y p tid : Int)
    (hsx1 : -(2 ^ 31) ≤ w.mousePos.1) (hsx2 : w.mousePos.1 < 2 ^ 31)
    (hsy1 : -(2 ^ 31) ≤ w.mousePos.2) (hsy2 : w.mousePos.2 < 2 ^ 31)
    (hx1 : -(2 ^ 31) ≤ x) (hx2 : x < 2 ^ 31)
    (hy1 : -(2 ^ 31) ≤ y) (hy2 : y < 2 ^ 31) :
    (∀ i : Nat, 1 ≤ i → (i : Int) ≤ sentinel.stepCount w.mousePos.1 w.mousePos.2 x y →
      (min w.mousePos.1 x
          ≤ sentinel.stepPos w.mousePos.1
              (sentinel.stepDelta w.mousePos.1 x
                (sentinel.stepCount w.mousePos.1 w.mousePos.2 x y)) i
        ∧ sentinel.stepPos w.mousePos.1
              (sentinel.stepDelta w.mousePos.1 x
                (sentinel.stepCount w.mousePos.1 w.mousePos.2 x y)) i
            ≤ max w.mousePos.1 x)
      ∧ (min w.mousePos.2 y
          ≤ sentinel.stepPos w.mousePos.2
              (sentinel.stepDelta w.mousePos.2 y
                (sentinel.stepCount w.mousePos.1 w.mousePos.2 x y)) i
        ∧ sentinel.stepPos w.mousePos.2
              (sentinel.stepDelta w.mousePos.2 y
                (sentinel.stepCount w.mousePos.1 w.mousePos.2 x y)) i
            ≤ max w.mousePos.2 y))
    ∧ ((∀ l, w.fault l = none) →
        (∀ j, 1 ≤ j → j ≤ (sentinel.stepCount w.mousePos.1 w.mousePos.2 x y).toNat →
          w.done j = false) →
        ∀ m, (m ∈ sentinel.moves (sentinel.MoveSmoothStart.worker w x y p tid).log
              ∨ m ∈ sentinel.moves (sentinel.DragSmoothStart.worker w x y p tid).log) →
          (min w.mousePos.1 x ≤ m.1 ∧ m.1 ≤ max w.mousePos.1 x)
          ∧ (min w.mousePos.2 y ≤ m.2 ∧ m.2 ≤ max w.mousePos.2 y)) := by
  have hb := sentinel.stepCount_bounds w.mousePos.1 w.mousePos.2 x y
  have hstep : ∀ i : Nat, (i : Int) ≤ sentinel.stepCount w.mousePos.1 w.mousePos.2 x y →
      (min w.mousePos.1 x
          ≤ sentinel.stepPos w.mousePos.1
              (sentinel.stepDelta w.mousePos.1 x
                (sentinel.stepCount w.mousePos.1 w.mousePos.2 x y)) i
        ∧ sentinel.stepPos w.mousePos.1
              (sentinel.stepDelta w.mousePos.1 x
                (sentinel.stepCount w.mousePos.1 w.mousePos.2 x y)) i
            ≤ max w.mousePos.1 x)
      ∧ (min w.mousePos.2 y
          ≤ sentinel.stepPos w.mousePos.2
              (sentinel.stepDelta w.mousePos.2 y
                (sentinel.stepCount w.mousePos.1 w.mousePos.2 x y)) i
        ∧ sentinel.stepPos w.mousePos.2
              (sentinel.stepDelta w.mousePos.2 y
                (sentinel.stepCount w.mousePos.1 w.mousePos.2 x y)) i
            ≤ max w.mousePos.2 y) := by
    intro i hi2
    have hX := sentinel.stepPos_spec w.mousePos.1 x
      (sentinel.stepCount w.mousePos.1 w.mousePos.2 x y) i hsx1 hsx2 hx1 hx2 hb.1 hb.2 hi2
    have hY := sentinel.stepPos_spec w.mousePos.2 y
      (sentinel.stepCount w.mousePos.1 w.mousePos.2 x y) i hsy1 hsy2 hy1 hy2 hb.1 hb.2 hi2
    exact ⟨⟨hX.2.2.2.1, hX.2.2.2.2.1⟩, ⟨hY.2.2.2.1, hY.2.2.2.2.1⟩⟩
  refine ⟨fun i _ hi2 => hstep i hi2, ?_⟩
  intro hf hd m hm
  rw [sentinel.move_worker_moves hf x y p tid hd,
    sentinel.drag_worker_moves hf x y p tid hd, or_self] at hm
  rcases List.mem_append.mp hm with h | h
  · obtain ⟨j, hj, rfl⟩ := List.mem_map.mp h
    have hj2 := List.mem_range.mp hj
    exact hstep (1 + j) (by omega)
  · rw [List.mem_singleton] at h
    subst h
    exact ⟨⟨min_le_right _ _, le_max_right _ _⟩, ⟨min_le_right _ _, le_max_right _ _⟩⟩

/-- Witness of C27: from `(0, 0)` to `(61, 140)`, the x coordinate commanded
at step 7 lies between 0 and 61. -/
theorem C27_step_position_between_start_and_target_witness :
    ((7 : Nat) : Int) ≤ sentinel.stepCount 0 0 61 140
    ∧ min 0 61 ≤ sentinel.stepPos 0
        (sentinel.stepDelta 0 61 (sentinel.stepCount 0 0 61 140)) 7
    ∧ sentinel.stepPos 0 (sentinel.stepDelta 0 61 (sentinel.stepCount 0 0 61 140)) 7
        ≤ max 0 61 := by
  have hc : ((7 : Nat) : Int) ≤ sentinel.stepCount 0 0 61 140 := by
    have := sentinel.stepCount_bounds 0 0 61 140
    omega
  have h := ((C27_step_position_between_start_and_target (sentinel.World.calm (0, 0))
    61 140 7 1 (by decide) (by decide) (by decide) (by decide)
    (by decide) (by decide) (by decide) (by decide)).1 7 (by decide) hc).1
  exact ⟨hc, h.1, h.2⟩

/-- C23: for every text `s` (a sequence of Unicode characters),
`TypeStrStart` types one character per step, in order, with the
cancellation check before each character.  In every run, with panics or
cancellation or neither, what was typed is the first `n` characters of `s`
for some `n`, one `TypeStr` call per character.  When no call panics: if no
cancellation is observed, all characters of `s` are typed and the only
response is the success carrying `s`; if cancellation is first observed at
the check before character `k`, exactly the first `k - 1` characters were
typed and the only response is the `canceled` failure with the TaskID. -/
theorem C23_typing_types_a_prefix_of_the_text (w : sentinel.World) (keySleep : Nat → Int)
    (s : String) (p tid : Int) :
    (∃ n, sentinel.typed (sentinel.TypeStrStart.worker w keySleep s p tid).log
        = (s.toList.take n).map String.singleton)
    ∧ sentinel.typed (sentinel.TypeStrStart.worker w keySleep s p tid).log
        <+: s.toList.map String.singleton
    ∧ ((∀ l, w.fault l = none) →
        (∀ j, 1 ≤ j → j ≤ s.toList.length → w.done j = false) →
        sentinel.typed (sentinel.TypeStrStart.worker w keySleep s p tid).log
            = s.toList.map String.singleton
        ∧ (sentinel.typed (sentinel.TypeStrStart.worker w keySleep s p tid).log).length
            = s.toList.length
        ∧ sentinel.sends (sentinel.TypeStrStart.worker w keySleep s p tid).log
            = [(p, success "type_str_async" (Payload.str s))])
    ∧ ((∀ l, w.fault l = none) →
        ∀ k, 1 ≤ k → k ≤ s.toList.length →
        (∀ j, 1 ≤ j → j < k → w.done j = false) → w.done k = true →
        sentinel.typed (sentinel.TypeStrStart.worker w keySleep s p tid).log
            = (s.toList.take (k - 1)).map String.singleton
        ∧ (sentinel.typed (sentinel.TypeStrStart.worker w keySleep s p tid).log).length
            = k - 1
        ∧ sentinel.sends (sentinel.TypeStrStart.worker w keySleep s p tid).log
            = [(p, sentinel.canceled "type_str_async" tid)]) := by
  refine ⟨sentinel.type_worker_prefix w keySleep s p tid, ?_, ?_, ?_⟩
  · obtain ⟨n, hn⟩ := sentinel.type_worker_prefix w keySleep s p tid
    rw [hn, List.map_take]
    exact List.take_prefix n _
  · intro hf hd
    rw [sentinel.type_worker_done hf keySleep s p tid hd]
    simp only [sentinel.typed_append, sentinel.typed_cons, sentinel.typed_nil,
      sentinel.typed_typeEvents, sentinel.sends_append, sentinel.sends_cons,
      sentinel.sends_nil, sentinel.sends_typeEvents, List.append_nil, List.nil_append,
      List.length_map]
    exact ⟨trivial, trivial, trivial⟩
  · intro hf k hk1 hk2 hd hdk
    have hlen : (s.toList.take (k - 1)).length = k - 1 := by
      rw [List.length_take]
      omega
    have hdrop : s.toList.drop (k - 1) ≠ [] := by
      intro h
      have := List.drop_eq_nil_iff.mp h
      omega
    obtain ⟨c, post, hcp⟩ := List.exists_cons_of_ne_nil hdrop
    have hs : s.toList = s.toList.take (k - 1) ++ c :: post := by
      rw [← hcp, List.take_append_drop]
    rw [sentinel.type_worker_canceled hf keySleep s p tid (s.toList.take (k - 1)) c post hs
      (fun j h1 h2 => hd j h1 (by omega))
      (by rw [hlen, show k - 1 + 1 = k by omega]; exact hdk)]
    simp only [sentinel.typed_append, sentinel.typed_cons, sentinel.typed_nil,
      sentinel.typed_typeEvents, sentinel.sends_append, sentinel.sends_cons,
      sentinel.sends_nil, sentinel.sends_typeEvents, List.append_nil, List.nil_append,
      List.length_map, hlen]
    exact ⟨trivial, trivial, trivial⟩

/-- Witness of C23: with cancellation observed from the check before the
third character on, `TypeStrStart` of `"abcd"` types `"a"` then `"b"` and
sends only the `canceled` failure. -/
theorem C23_typing_types_a_prefix_of_the_text_witness :
    (∀ l, (sentinel.World.canceledFrom (0, 0) 3).fault l = none)
    ∧ (∀ j, 1 ≤ j → j < 3 → (sentinel.World.canceledFrom (0, 0) 3).done j = false)
    ∧ (sentinel.World.canceledFrom (0, 0) 3).done 3 = true
    ∧ sentinel.typed
        (sentinel.TypeStrStart.worker (sentinel.World.canceledFrom (0, 0) 3)
          (fun _ => 0) "abcd" 7 1).log = ["a", "b"]
    ∧ sentinel.sends
        (sentinel.TypeStrStart.worker (sentinel.World.canceledFrom (0, 0) 3)
          (fun _ => 0) "abcd" 7 1).log = [(7, sentinel.canceled "type_str_async" 1)] :=
  ⟨fun _ => rfl, fun j _ h => decide_eq_false (by omega), rfl,
    ((C23_typing_types_a_prefix_of_the_text (sentinel.World.canceledFrom (0, 0) 3)
      (fun _ => 0) "abcd" 7 1).2.2.2 (fun _ => rfl) 3 (by decide) (by decide)
      (fun j _ h => decide_eq_false (by omega)) rfl).1,
    ((C23_typing_types_a_prefix_of_the_text (sentinel.World.canceledFrom (0, 0) 3)
      (fun _ => 0) "abcd" 7 1).2.2.2 (fun _ => rfl) 3 (by decide) (by decide)
      (fun j _ h => decide_eq_false (by omega)) rfl).2.2⟩

/-- C24: with `StopTask` and `finishTask` followed statement by statement
and `tasksMu` as a piece of state, in every state reached by any
interleaving of task registrations, `StopTask` calls, `finishTask` calls
and statements of the calls in flight: a `StopTask` call that stands at
`entry.cancel()` or at `<-entry.done` does not hold `tasksMu`; whoever
holds it stands between its own `Lock()` and `Unlock()` (around the lookup
and `delete` of `StopTask`, or around the lookup, `close` and `delete` of
`finishTask`), and no two calls stand there at once; the holder is never
blocked and releases the mutex with its second next statement; and a
`finishTask` call that stands at `Lock()` while the mutex is free enters
its critical section with its next statement.  So no `StopTask` caller
holds `tasksMu` while it waits for a worker whose `finishTask` needs
`tasksMu`. -/
theorem C24_stop_never_waits_holding_tasksMu (acts : List tasksMu.Action) :
    (∀ k t, (tasksMu.State.init.run acts).threads k = some t →
        t.cancelsOrWaits = true → (tasksMu.State.init.run acts).holder ≠ some k)
    ∧ (∀ k, (tasksMu.State.init.run acts).holder = some k →
        ∃ t, (tasksMu.State.init.run acts).threads k = some t
          ∧ t.inCritical = true ∧ t.cancelsOrWaits = false)
    ∧ (∀ j k tj tk, (tasksMu.State.init.run acts).threads j = some tj →
        (tasksMu.State.init.run acts).threads k = some tk →
        tj.inCritical = true → tk.inCritical = true → j = k)
    ∧ (∀ k, (tasksMu.State.init.run acts).holder = some k →
        (tasksMu.runThread k
          (tasksMu.runThread k (tasksMu.State.init.run acts))).holder = none)
    ∧ (∀ k id, (tasksMu.State.init.run acts).threads k
          = some (tasksMu.Thread.finish id tasksMu.FinishAt.atLock) →
        (tasksMu.State.init.run acts).holder = none →
        (tasksMu.runThread k (tasksMu.State.init.run acts)).threads k
          = some (tasksMu.Thread.finish id tasksMu.FinishAt.atBody)) := by
  have h : (tasksMu.State.init.run acts).Inv := tasksMu.State.Inv.mu_init.mu_run acts
  have hex : ∀ t : tasksMu.Thread, t.inCritical = true → t.cancelsOrWaits = false := by
    intro t ht
    cases t with
    | stop id p entry pc => cases pc <;> simp [tasksMu.Thread.inCritical] at ht <;> rfl
    | finish id pc => rfl
  refine ⟨?_, ?_, ?_, fun k hk => tasksMu.mu_holder_releases h hk, ?_⟩
  · intro k t hk hw hh
    obtain ⟨t2, ht2, hc⟩ := h.held k hh
    rw [hk] at ht2
    cases ht2
    rw [hex t hc] at hw
    exact absurd hw (by decide)
  · intro k hk
    obtain ⟨t, ht, hc⟩ := h.held k hk
    exact ⟨t, ht, hc, hex t hc⟩
  · intro j k tj tk hj hk hcj hck
    have h1 := h.owner j tj hj hcj
    have h2 := h.owner k tk hk hck
    rw [h1] at h2
    exact Option.some.inj h2
  · intro k id hk hfree
    simp [tasksMu.runThread, hk, tasksMu.runFinish, hfree, tasksMu.State.setThread]

set_option maxRecDepth 8000 in
/-- Witness of C24: after `StopTask(1)` took the mutex and a worker's
`finishTask(1)` arrived at its `Lock()`, thread 0 (the `StopTask` call)
holds the mutex and releases it with its second next statement; at the end
of the sample run the `StopTask` call stands at `<-entry.done`, the mutex
is free and the `finishTask` call has returned. -/
theorem C24_stop_never_waits_holding_tasksMu_witness :
    (tasksMu.State.init.run (tasksMu.sampleRun.take 5)).holder = some 0
    ∧ (tasksMu.runThread 0 (tasksMu.runThread 0
        (tasksMu.State.init.run (tasksMu.sampleRun.take 5)))).holder = none
    ∧ (tasksMu.State.init.run tasksMu.sampleRun).threads 0
        = some (tasksMu.Thread.stop 1 7 (some { cancel := 0, done := 0 })
            tasksMu.StopAt.atWait)
    ∧ (tasksMu.State.init.run tasksMu.sampleRun).threads 1
        = some (tasksMu.Thread.finish 1 tasksMu.FinishAt.returned)
    ∧ (tasksMu.State.init.run tasksMu.sampleRun).holder ≠ some 0 :=
  ⟨rfl,
    (C24_stop_never_waits_holding_tasksMu (tasksMu.sampleRun.take 5)).2.2.2.1 0 rfl,
    rfl, rfl,
    (C24_stop_never_waits_holding_tasksMu tasksMu.sampleRun).1 0 _ rfl rfl⟩

set_option maxRecDepth 8000 in
/-- C25 does not hold of the code: in `portforward` the `StopChan` of a
handle is closed by `StopForwardPorts` and again by the deferred cleanup of
the worker.  After create, start, the worker's entry into its loop and
`StopForwardPorts 1`, channel 0 (the `StopChan` of handle 1) has been
closed once; when the loop then returns, the cleanup closes it a second
time, the panic `close of closed channel` is raised in the cleanup,
`PF.Close()` of the cleanup is skipped, and the recovered panic is the last
response sent.  With two `StartForwardPorts` on the same live handle, the
cleanup of the second worker closes the channel that the cleanup of the
first has closed, with the same panic. -/
theorem C25_StopChan_is_closed_twice :
    (portforward.State.init.run (portforward.sampleRun.take 1)).portForwarders 1
        = some { PF := 0, Ready := 1, StopChan := 0, ID := 1 }
    ∧ (portforward.State.init.run (portforward.sampleRun.take 4)).core.closes 0 = 1
    ∧ (portforward.State.init.run (portforward.sampleRun.take 5)).core.closes 0 = 2
    ∧ (portforward.State.init.run (portforward.sampleRun.take 5)).core.sent
        = [(7, Msg.resp (success "create_port_forwarder" (Payload.int 1))),
           (7, Msg.resp (success "stop_forward_ports" (Payload.int 1))),
           (7, Msg.resp (success "start_forward_ports" (Payload.int 1))),
           (7, Msg.resp (failure "start_forward_ports" closeOfClosed))]
    ∧ (portforward.State.init.run (portforward.sampleRun.take 5)).calls
        = [ExtCall.ForwardPorts 0, ExtCall.Close 0]
    ∧ (portforward.State.init.run (portforward.twoStarts.take 6)).core.closes 0 = 1
    ∧ (portforward.State.init.run portforward.twoStarts).core.closes 0 = 2
    ∧ (portforward.State.init.run portforward.twoStarts).core.sent
        = [(7, Msg.resp (success "create_port_forwarder" (Payload.int 1))),
           (7, Msg.resp (success "start_forward_ports" (Payload.int 1))),
           (7, Msg.resp (success "start_forward_ports" (Payload.int 2))),
           (7, Msg.resp (failure "start_forward_ports" closeOfClosed))] := by
  refine ⟨by decide, by decide, by decide, by decide, by decide, by decide, by decide,
    by decide⟩

/-- C26: for every requested amount `(x, y)`, a run of `ScrollSmoothStart`
in which no cancellation is observed and no call panics performs exactly 20
scroll commands, each of `(x / 20, y / 20)` with the division truncating
towards zero, and its only response is the success carrying `(x, y)`.  The
total scrolled on each axis is `20 * (x / 20)`: it has the sign of `x` or
is zero, its magnitude never exceeds `|x|`, it differs from `x` by less
than 20, it equals `x` exactly when `x` is a multiple of 20, and for
`|x| < 20` each command scrolls by 0. -/
theorem C26_scroll_total_is_truncated_to_multiple_of_20 (w : sentinel.World)
    (x y p tid : Int) (hf : ∀ l, w.fault l = none)
    (hd : ∀ j, 1 ≤ j → j ≤ 20 → w.done j = false) :
    sentinel.scrolls (sentinel.ScrollSmoothStart.worker w x y p tid).log
        = List.replicate 20 (Int.tdiv x 20, Int.tdiv y 20)
    ∧ sentinel.sends (sentinel.ScrollSmoothStart.worker w x y p tid).log
        = [(p, success "scroll_smooth" (Payload.point x y))]
    ∧ ((sentinel.scrolls (sentinel.ScrollSmoothStart.worker w x y p tid).log).map
          Prod.fst).sum = 20 * Int.tdiv x 20
    ∧ ((sentinel.scrolls (sentinel.ScrollSmoothStart.worker w x y p tid).log).map
          Prod.snd).sum = 20 * Int.tdiv y 20
    ∧ ((0 ≤ x → 0 ≤ 20 * Int.tdiv x 20 ∧ 20 * Int.tdiv x 20 ≤ x)
      ∧ (x ≤ 0 → x ≤ 20 * Int.tdiv x 20 ∧ 20 * Int.tdiv x 20 ≤ 0)
      ∧ |20 * Int.tdiv x 20| ≤ |x|
      ∧ |x - 20 * Int.tdiv x 20| < 20
      ∧ (20 * Int.tdiv x 20 = x ↔ 20 ∣ x)
      ∧ (|x| < 20 → Int.tdiv x 20 = 0))
    ∧ ((0 ≤ y → 0 ≤ 20 * Int.tdiv y 20 ∧ 20 * Int.tdiv y 20 ≤ y)
      ∧ (y ≤ 0 → y ≤ 20 * Int.tdiv y 20 ∧ 20 * Int.tdiv y 20 ≤ 0)
      ∧ |20 * Int.tdiv y 20| ≤ |y|
      ∧ |y - 20 * Int.tdiv y 20| < 20
      ∧ (20 * Int.tdiv y 20 = y ↔ 20 ∣ y)
      ∧ (|y| < 20 → Int.tdiv y 20 = 0)) := by
  have hs : sentinel.scrolls (sentinel.ScrollSmoothStart.worker w x y p tid).log
      = List.replicate 20 (Int.tdiv x 20, Int.tdiv y 20) := by
    rw [sentinel.scroll_worker_done hf x y p tid hd]
    simp only [sentinel.scrolls_append, sentinel.scrolls_cons, sentinel.scrolls_nil,
      sentinel.scrolls_scrollEvents, List.append_nil]
  refine ⟨hs, ?_, ?_, ?_, sentinel.scroll_total x, sentinel.scroll_total y⟩
  · rw [sentinel.scroll_worker_done hf x y p tid hd]
    simp only [sentinel.sends_append, sentinel.sends_cons, sentinel.sends_nil,
      sentinel.sends_scrollEvents, List.append_nil, List.nil_append]
  · rw [hs, sentinel.sum_fst_replicate]
    rfl
  · rw [hs, sentinel.sum_snd_replicate]
    rfl

/-- Witness of C26: with nothing cancelled, `ScrollSmoothStart` for
`(-47, 19)` scrolls 20 times by `(-2, 0)`: in total `-40` of the `-47`
requested, and nothing on the second axis. -/
theorem C26_scroll_total_is_truncated_to_multiple_of_20_witness :
    (∀ l, (sentinel.World.calm (0, 0)).fault l = none)
    ∧ (∀ j, (sentinel.World.calm (0, 0)).done j = false)
    ∧ sentinel.scrolls
        (sentinel.ScrollSmoothStart.worker (sentinel.World.calm (0, 0)) (-47) 19 7 1).log
        = List.replicate 20 (-2, 0)
    ∧ ((sentinel.scrolls
        (sentinel.ScrollSmoothStart.worker (sentinel.World.calm (0, 0)) (-47) 19 7 1).log).map
          Prod.fst).sum = -40
    ∧ sentinel.sends
        (sentinel.ScrollSmoothStart.worker (sentinel.World.calm (0, 0)) (-47) 19 7 1).log
        = [(7, success "scroll_smooth" (Payload.point (-47) 19))] :=
  ⟨fun _ => rfl, fun _ => rfl,
    (C26_scroll_total_is_truncated_to_multiple_of_20 (sentinel.World.calm (0, 0)) (-47) 19 7 1
      (fun _ => rfl) (fun _ _ _ => rfl)).1,
    (C26_scroll_total_is_truncated_to_multiple_of_20 (sentinel.World.calm (0, 0)) (-47) 19 7 1
      (fun _ => rfl) (fun _ _ _ => rfl)).2.2.1,
    (C26_scroll_total_is_truncated_to_multiple_of_20 (sentinel.World.calm (0, 0)) (-47) 19 7 1
      (fun _ => rfl) (fun _ _ _ => rfl)).2.1⟩

/-- C28: when `mem.VirtualMemory` returns a record and both the current
and the previous sample of the `uint64` counters are non-empty, the speeds
reported by `computeStats` are the `uint64` subtractions of element 0:
`rx_speed = (curr.BytesRecv - prev.BytesRecv) mod 2^64` and likewise
`tx_speed` with `BytesSent`.  That is the true non-negative difference when
the counter did not decrease, and `2^64 - (prev - curr)` when the current
counter is smaller than the previous one. -/
theorem C28_network_deltas_are_uint64_subtractions (smp : sentinel.Sample)
    (prevNet : List sentinel.IOCountersStat) (m : Nat)
    (c : sentinel.IOCountersStat) (cs : List sentinel.IOCountersStat)
    (q : sentinel.IOCountersStat) (qs : List sentinel.IOCountersStat)
    (hm : smp.vMem = some m) (hc : smp.currNet = c :: cs) (hp : prevNet = q :: qs)
    (hcr : c.BytesRecv < 2 ^ 64) (hcs : c.BytesSent < 2 ^ 64)
    (hqr : q.BytesRecv < 2 ^ 64) (hqs : q.BytesSent < 2 ^ 64) :
    ∃ st : SystemStats,
      sentinel.computeStats smp prevNet = Except.ok (st, smp.currNet)
      ∧ (st.NetSpeedRx : Int) = ((c.BytesRecv : Int) - (q.BytesRecv : Int)) % 2 ^ 64
      ∧ (st.NetSpeedTx : Int) = ((c.BytesSent : Int) - (q.BytesSent : Int)) % 2 ^ 64
      ∧ (q.BytesRecv ≤ c.BytesRecv → st.NetSpeedRx = c.BytesRecv - q.BytesRecv)
      ∧ (c.BytesRecv < q.BytesRecv → st.NetSpeedRx = 2 ^ 64 - (q.BytesRecv - c.BytesRecv))
      ∧ (q.BytesSent ≤ c.BytesSent → st.NetSpeedTx = c.BytesSent - q.BytesSent)
      ∧ (c.BytesSent < q.BytesSent → st.NetSpeedTx = 2 ^ 64 - (q.BytesSent - c.BytesSent)) := by
  have hsub : ∀ a b : Nat, a < 2 ^ 64 → b < 2 ^ 64 →
      (sentinel.subUint64 a b : Int) = ((a : Int) - (b : Int)) % 2 ^ 64 := by
    intro a b ha hb
    rcases Nat.lt_or_ge a b with h | h
    · rw [sentinel.subUint64_of_lt h hb]
      omega
    · rw [sentinel.subUint64_of_le h ha]
      omega
  refine ⟨{ CPUPercent := match smp.cpuP with
              | c :: _ => c
              | [] => 0,
            MemPercent := m,
            NetSpeedRx := sentinel.subUint64 c.BytesRecv q.BytesRecv,
            NetSpeedTx := sentinel.subUint64 c.BytesSent q.BytesSent,
            TcpConns := (smp.conns.filter (fun c => c.Type_ = 1)).length,
            UdpConns := (smp.conns.filter (fun c => c.Type_ = 2)).length }, ?_,
    hsub _ _ hcr hqr, hsub _ _ hcs hqs,
    fun h => sentinel.subUint64_of_le h hcr, fun h => sentinel.subUint64_of_lt h hqr,
    fun h => sentinel.subUint64_of_le h hcs, fun h => sentinel.subUint64_of_lt h hqs⟩
  simp only [sentinel.computeStats, hm, hc, hp]

/-- Witness of C28: with 1000 bytes received before and 4000 now, and 50
bytes sent before and 40 now, the speeds reported are 3000 and
`2^64 - 10`. -/
theorem C28_network_deltas_are_uint64_subtractions_witness :
    ∃ st : SystemStats,
      sentinel.computeStats
          { cpuP := [5], vMem := some 9, currNet := [{ BytesSent := 40, BytesRecv := 4000 }],
            conns := [] }
          [{ BytesSent := 50, BytesRecv := 1000 }]
        = Except.ok (st, [{ BytesSent := 40, BytesRecv := 4000 }])
      ∧ st.NetSpeedRx = 4000 - 1000
      ∧ st.NetSpeedTx = 2 ^ 64 - (50 - 40) :=
  (C28_network_deltas_are_uint64_subtractions
    { cpuP := [5], vMem := some 9, currNet := [{ BytesSent := 40, BytesRecv := 4000 }],
      conns := [] }
    [{ BytesSent := 50, BytesRecv := 1000 }] 9
    { BytesSent := 40, BytesRecv := 4000 } [] { BytesSent := 50, BytesRecv := 1000 } []
    rfl rfl rfl (by decide) (by decide) (by decide) (by decide)).elim
    (fun st h => ⟨st, h.1, h.2.2.2.1 (by decide), h.2.2.2.2.2.2 (by decide)⟩)

/-- C29: for every operation function `fn`, started in any state, `safeOp`
(the same text in `sentinel`, `portforward`, `socks5lib` and `socks5lib2`)
leaves the state in which `fn` ended with exactly one more message, sent to
the given port: the response tagged with the given op name that is the
success carrying `fn`'s result when `fn` returns a nil error, the failure
with the error's message when `fn` returns an error, and the failure with
message `"panic: <value>"` when `fn` panics.  In that last case the panic
is recovered: the process is marked crashed after `safeOp` only if it was
after `fn`.  Panic values are taken by their `%v` rendering. -/
theorem C29_safeOp_sends_exactly_one_response (port : Int) (op : String)
    (fn : Core → Outcome Payload × Core) (s : Core)
    (fn1 : portforward.State → Outcome Payload × portforward.State) (s1 : portforward.State)
    (fn2 : socks5lib.State → Outcome Payload × socks5lib.State) (s2 : socks5lib.State)
    (fn3 : socks5lib2.State → Outcome Payload × socks5lib2.State) (s3 : socks5lib2.State) :
    (sentinel.safeOp port op fn s
        = sendToPort port
            (match (fn s).1 with
             | Outcome.ok res => { Op := op, Success := true, Error := "", Data := res }
             | Outcome.err e => { Op := op, Success := false, Error := e, Data := Payload.null }
             | Outcome.panic v =>
               { Op := op, Success := false, Error := "panic: " ++ v, Data := Payload.null })
            (fn s).2
      ∧ (sentinel.safeOp port op fn s).sent
          = (fn s).2.sent ++ [(port, Msg.resp
              (match (fn s).1 with
               | Outcome.ok res => { Op := op, Success := true, Error := "", Data := res }
               | Outcome.err e =>
                 { Op := op, Success := false, Error := e, Data := Payload.null }
               | Outcome.panic v =>
                 { Op := op, Success := false, Error := "panic: " ++ v,
                   Data := Payload.null }))]
      ∧ (sentinel.safeOp port op fn s).sent.length = (fn s).2.sent.length + 1
      ∧ (sentinel.safeOp port op fn s).crashed = (fn s).2.crashed)
    ∧ ((portforward.safeOp port op fn1 s1).core.sent
          = (fn1 s1).2.core.sent ++ [(port, Msg.resp
              (match (fn1 s1).1 with
               | Outcome.ok res => { Op := op, Success := true, Error := "", Data := res }
               | Outcome.err e =>
                 { Op := op, Success := false, Error := e, Data := Payload.null }
               | Outcome.panic v =>
                 { Op := op, Success := false, Error := "panic: " ++ v,
                   Data := Payload.null }))]
      ∧ (portforward.safeOp port op fn1 s1).core.crashed = (fn1 s1).2.core.crashed)
    ∧ ((socks5lib.safeOp port op fn2 s2).core.sent
          = (fn2 s2).2.core.sent ++ [(port, Msg.resp
              (match (fn2 s2).1 with
               | Outcome.ok res => { Op := op, Success := true, Error := "", Data := res }
               | Outcome.err e =>
                 { Op := op, Success := false, Error := e, Data := Payload.null }
               | Outcome.panic v =>
                 { Op := op, Success := false, Error := "panic: " ++ v,
                   Data := Payload.null }))]
      ∧ (socks5lib.safeOp port op fn2 s2).core.crashed = (fn2 s2).2.core.crashed)
    ∧ ((socks5lib2.safeOp port op fn3 s3).core.sent
          = (fn3 s3).2.core.sent ++ [(port, Msg.resp
              (match (fn3 s3).1 with
               | Outcome.ok res => { Op := op, Success := true, Error := "", Data := res }
               | Outcome.err e =>
                 { Op := op, Success := false, Error := e, Data := Payload.null }
               | Outcome.panic v =>
                 { Op := op, Success := false, Error := "panic: " ++ v,
                   Data := Payload.null }))]
      ∧ (socks5lib2.safeOp port op fn3 s3).core.crashed = (fn3 s3).2.core.crashed) := by
  refine ⟨⟨?_, ?_, ?_, ?_⟩, ⟨?_, ?_⟩, ⟨?_, ?_⟩, ⟨?_, ?_⟩⟩
  · unfold sentinel.safeOp
    cases (fn s).1 <;> rfl
  · unfold sentinel.safeOp
    cases (fn s).1 <;> rfl
  · unfold sentinel.safeOp
    cases (fn s).1 <;> simp [sendToPort]
  · unfold sentinel.safeOp
    cases (fn s).1 <;> rfl
  · unfold portforward.safeOp
    cases (fn1 s1).1 <;> rfl
  · unfold portforward.safeOp
    cases (fn1 s1).1 <;> rfl
  · unfold socks5lib.safeOp
    cases (fn2 s2).1 <;> rfl
  · unfold socks5lib.safeOp
    cases (fn2 s2).1 <;> rfl
  · unfold socks5lib2.safeOp
    cases (fn3 s3).1 <;> rfl
  · unfold socks5lib2.safeOp
    cases (fn3 s3).1 <;> rfl

/-- C30: for every text `s` (a sequence of Unicode characters),
`splitAndTrim s` is the list obtained by splitting `s` at the commas,
dropping the pieces that are empty before trimming, and applying
`trimSpaces` to each remaining piece in order.  `trimSpaces t` is `t`
without a leading and a trailing run of spaces and tabs: what it removes in
front and behind are spaces and tabs only, and what it leaves neither
begins nor ends with one; it is idempotent.  So no element of the result
contains a comma, begins with a space or tab, or ends with one (an element
may be empty: a piece of spaces only is kept, trimmed to nothing). -/
theorem C30_splitAndTrim_splits_at_commas_and_trims (s : String) :
    sentinel.splitAndTrim s = sentinel.splitAndTrimSpec s
    ∧ (∀ t : String,
        (∃ a b : List Char, t.toList = a ++ (sentinel.trimSpaces t).toList ++ b
          ∧ (∀ c ∈ a, c = ' ' ∨ c = '\t') ∧ (∀ c ∈ b, c = ' ' ∨ c = '\t'))
        ∧ (∀ c, (sentinel.trimSpaces t).toList.head? = some c → c ≠ ' ' ∧ c ≠ '\t')
        ∧ (∀ c, (sentinel.trimSpaces t).toList.getLast? = some c → c ≠ ' ' ∧ c ≠ '\t')
        ∧ sentinel.trimSpaces (sentinel.trimSpaces t) = sentinel.trimSpaces t)
    ∧ (∀ e ∈ sentinel.splitAndTrim s,
        ',' ∉ e.toList
        ∧ (∀ c, e.toList.head? = some c → c ≠ ' ' ∧ c ≠ '\t')
        ∧ (∀ c, e.toList.getLast? = some c → c ≠ ' ' ∧ c ≠ '\t'))
    ∧ sentinel.splitAndTrim "a, ,b" = ["a", "", "b"] := by
  have hb1 : ∀ c : Char, sentinel.isBlank c = true → c = ' ' ∨ c = '\t' := by
    intro c h
    simpa [sentinel.isBlank] using h
  have hb2 : ∀ c : Char, sentinel.isBlank c = false → c ≠ ' ' ∧ c ≠ '\t' := by
    intro c h
    simpa [sentinel.isBlank] using h
  have htrim : ∀ t : String,
      (∃ a b : List Char, t.toList = a ++ (sentinel.trimSpaces t).toList ++ b
          ∧ (∀ c ∈ a, c = ' ' ∨ c = '\t') ∧ (∀ c ∈ b, c = ' ' ∨ c = '\t'))
        ∧ (∀ c, (sentinel.trimSpaces t).toList.head? = some c → c ≠ ' ' ∧ c ≠ '\t')
        ∧ (∀ c, (sentinel.trimSpaces t).toList.getLast? = some c → c ≠ ' ' ∧ c ≠ '\t')
        ∧ sentinel.trimSpaces (sentinel.trimSpaces t) = sentinel.trimSpaces t := by
    intro t
    obtain ⟨⟨a, b, hab, ha, hb⟩, hh, hl⟩ := sentinel.trimSpaces_spec t
    exact ⟨⟨a, b, hab, fun c hc => hb1 c (ha c hc), fun c hc => hb1 c (hb c hc)⟩,
      fun c hc => hb2 c (hh c hc), fun c hc => hb2 c (hl c hc),
      sentinel.trimSpaces_idempotent t⟩
  refine ⟨sentinel.splitAndTrim_eq_spec s, htrim, ?_, by decide⟩
  intro e he
  rw [sentinel.splitAndTrim_eq_spec] at he
  unfold sentinel.splitAndTrimSpec at he
  obtain ⟨piece, hp, rfl⟩ := List.mem_map.mp he
  have hp2 := (List.mem_filter.mp hp).1
  obtain ⟨⟨a, b, hab, _, _⟩, hh, hl, _⟩ := htrim (String.mk piece)
  refine ⟨?_, hh, hl⟩
  intro hc
  apply sentinel.splitOnComma_no_comma s.toList piece hp2
  have hmem : ',' ∈ a ++ (sentinel.trimSpaces (String.mk piece)).toList ++ b :=
    List.mem_append_left _ (List.mem_append_right _ hc)
  have h2 : ',' ∈ (String.mk piece).toList := by
    rw [hab]
    exact hmem
  exact h2

/-- Witness of C30: the pieces of `" ctrl ,, shift\t,a b"` are `"ctrl"`,
`"shift"` and `"a b"`. -/
theorem C30_splitAndTrim_splits_at_commas_and_trims_witness :
    sentinel.splitAndTrim " ctrl ,, shift\t,a b" = ["ctrl", "shift", "a b"]
    ∧ ',' ∉ ("a b" : String).toList :=
  ⟨(C30_splitAndTrim_splits_at_commas_and_trims " ctrl ,, shift\t,a b").1.trans (by decide),
    ((C30_splitAndTrim_splits_at_commas_and_trims " ctrl ,, shift\t,a b").2.2.1 "a b"
      (by decide)).1⟩

end Socketify
